import Mathlib

/-!
The cvhdl parser and VHDL generator (`src/parse.c`).

A shallow embedding of the C translation unit `src/parse.c` together with the
properties of its specification.

Conventions of the embedding

* a C string is the list of its characters (`CStr`); a pointer into a string
  is the suffix that starts at the pointed character;
* `snprintf (buf, size, ...)` keeps the first `size - 1` characters of the
  formatted text;
* an `int` is an `Int`; where the range of `int` matters a theorem states it;
* a global variable is a field of an explicit state record;
* `exit (EXIT_FAILURE)` is the result `fatal` carrying the diagnostic.
-/

set_option autoImplicit false

namespace Cvhdl

/-! ## C strings and the C library -/

/-- A C string: the characters before the terminating NUL. -/
abbrev CStr := List Char

/-- The C library `strchr (s, c)`: the suffix of `s` starting at the first `c`, if any. -/
def strchr : CStr → Char → Option CStr
  | [], _ => none
  | c :: s, x => if c = x then some (c :: s) else strchr s x

/-- The C library `strrchr (s, c)`: the suffix of `s` starting at the last `c`, if any. -/
def strrchr : CStr → Char → Option CStr
  | [], _ => none
  | c :: s, x =>
    match strrchr s x with
    | some r => some r
    | none => if c = x then some (c :: s) else none

/-- The C library `snprintf (buf, size, ...)` for `size > 0`: the formatted text cut to
`size - 1` characters. -/
def snprintf (size : Nat) (formatted : CStr) : CStr :=
  formatted.take (size - 1)

/-- Decimal digits of a natural number, most significant first; the first
argument bounds the number of digits. -/
def fmt_u_core : Nat → Nat → CStr
  | 0, _ => []
  | fuel + 1, n =>
    if n < 10 then [Nat.digitChar n]
    else fmt_u_core fuel (n / 10) ++ [Nat.digitChar (n % 10)]

/-- The text printed by `%d` for a non-negative value. -/
def fmt_u (n : Nat) : CStr := fmt_u_core (n + 1) n

/-- The text printed by `%d`. -/
def fmt_d (i : Int) : CStr :=
  if i < 0 then '-' :: fmt_u i.natAbs else fmt_u i.toNat

/-- The test `!(c < '0' || c > '9')` of the C source. -/
def is_dec_digit (c : Char) : Bool := !(decide (c < '0') || decide (c > '9'))

/-- Value of a string of decimal digits (the digit loop of `atoi`). -/
def digits_value (acc : Nat) : CStr → Nat
  | [] => acc
  | c :: s => if is_dec_digit c then digits_value (acc * 10 + (c.toNat - 48)) s else acc

/-! ## `build_gen_name` (parse.c 40-70) -/

/-- The local `has_v_suffix` computed by `build_gen_name`. -/
def has_v_suffix (orig : CStr) : Bool :=
  let len := orig.length
  if 2 ≤ len ∧ orig.get? (len - 2) = some '_' ∧ orig.get? (len - 1) = some 'v' then
    true
  else
    match strrchr orig '_' with
    | none => false
    | some p =>
      if p.get? 1 = some 'v' then
        let q := p.drop 2
        let only_digits := if q = [] then false else true
        -- the loop clears `only_digits` at the first non-digit
        if q.all is_dec_digit then only_digits else false
      else false

/-- The text `build_gen_name` formats before it is cut to the buffer. -/
def gen_name_text (orig : CStr) (ordinal : Int) : CStr :=
  if ordinal = 0 then
    if has_v_suffix orig then orig ++ ['0'] else orig ++ ['_', 'v']
  else
    if has_v_suffix orig then orig ++ fmt_d ordinal
    else orig ++ ['_', 'v'] ++ fmt_d ordinal

/-- The function `build_gen_name (orig, ordinal, out, outsz)` with `orig` and `out` not
NULL: the contents of `out` afterwards (`out` is its contents before). -/
def build_gen_name (orig : CStr) (ordinal : Int) (out : CStr) (outsz : Nat) : CStr :=
  if outsz = 0 then out
  else snprintf outsz (gen_name_text orig ordinal)

/-- The naming convention of the specification: the name ends in `_v`, or
its last `_` is followed by `v` and one or more decimal digits up to the
end (digits and `v` are not `_`, so the `_` singled out is the last one). -/
def EndsInVConvention (s : CStr) : Prop :=
  (∃ pre : CStr, s = pre ++ ['_', 'v']) ∨
  (∃ (pre ds : CStr), s = pre ++ ['_', 'v'] ++ ds ∧ ds ≠ [] ∧ ∀ c ∈ ds, is_dec_digit c = true)

/-! ## Tokens and the syntax tree (`token.h`, `astnode.h`) -/

/-- The token kinds named by `parse.c`. -/
inductive TokenType where
  | TOKEN_KEYWORD
  | TOKEN_IDENTIFIER
  | TOKEN_NUMBER
  | TOKEN_OPERATOR
  | TOKEN_SEMICOLON
  | TOKEN_COMMA
  | TOKEN_PARENTHESIS_OPEN
  | TOKEN_PARENTHESIS_CLOSE
  | TOKEN_BRACE_OPEN
  | TOKEN_BRACE_CLOSE
  | TOKEN_BRACKET_OPEN
  | TOKEN_BRACKET_CLOSE
  | TOKEN_EOF
  deriving DecidableEq

/-- Modelled from the spec: `token.h` is not part of the sources; a token is
its kind, its raw text and its source line. -/
structure Token where
  type : TokenType
  value : CStr
  line : Nat
  deriving DecidableEq

/-- The node kinds named by `parse.c`. -/
inductive NodeType where
  | NODE_PROGRAM
  | NODE_FUNCTION_DECL
  | NODE_VAR_DECL
  | NODE_STATEMENT
  | NODE_ASSIGNMENT
  | NODE_EXPRESSION
  | NODE_BINARY_EXPR
  | NODE_BINARY_OP
  | NODE_FUNC_CALL
  | NODE_IF_STATEMENT
  | NODE_ELSE_IF_STATEMENT
  | NODE_ELSE_STATEMENT
  | NODE_WHILE_STATEMENT
  | NODE_FOR_STATEMENT
  | NODE_BREAK_STATEMENT
  | NODE_CONTINUE_STATEMENT
  deriving DecidableEq

/-- Modelled from the spec: `astnode.h` is not part of the sources; a node is
its kind, an optional string value (`none` is NULL), an optional captured
type token (`none` is the zeroed token) and its ordered children. -/
inductive ASTNode where
  | mk (type : NodeType) (value : Option CStr) (token : Option Token)
      (children : List ASTNode)

namespace ASTNode

/-- Field `type`. -/
def type : ASTNode → NodeType
  | mk t _ _ _ => t

/-- Field `value`. -/
def value : ASTNode → Option CStr
  | mk _ v _ _ => v

/-- Field `token`. -/
def token : ASTNode → Option Token
  | mk _ _ k _ => k

/-- Field `children` (`num_children` is its length). -/
def children : ASTNode → List ASTNode
  | mk _ _ _ cs => cs

end ASTNode

open NodeType TokenType

/-- The function `create_node (type)`: a node without value, token or children. -/
def create_node (t : NodeType) : ASTNode := .mk t none none []

/-- The function `add_child (parent, child)`: the child becomes the last child. -/
def add_child (parent child : ASTNode) : ASTNode :=
  .mk parent.type parent.value parent.token (parent.children ++ [child])

/-- Assignment to the field `value`. -/
def set_value (n : ASTNode) (v : CStr) : ASTNode :=
  .mk n.type (some v) n.token n.children

/-- Assignment to the field `token`. -/
def set_token (n : ASTNode) (k : Token) : ASTNode :=
  .mk n.type n.value (some k) n.children

/-! ## `annotate_func_calls` (parse.c 73-84) -/

/-- The rewrite of one node's value by `annotate_func_calls`: a call node
with a value that has no `#` gets `value#counter` (through `buf[256]`) and
the counter is incremented. -/
def annotate_value (t : NodeType) (v : Option CStr) (counter : Int) : Option CStr × Int :=
  match v with
  | some s =>
    if t = NODE_FUNC_CALL then
      if strchr s '#' = none then
        (some (snprintf 256 (s ++ ['#'] ++ fmt_d counter)), counter + 1)
      else (v, counter)
    else (v, counter)
  | none => (v, counter)

mutual
/-- The function `annotate_func_calls (n, counter)` for a node `n` that is not NULL: the
rewritten tree and the counter afterwards. -/
def annotate_func_calls : ASTNode → Int → ASTNode × Int
  | .mk t v k cs, counter =>
    let r := annotate_value t v counter
    let rs := annotate_children cs r.2
    (.mk t r.1 k rs.1, rs.2)
/-- The loop `for (i...) annotate_func_calls (n->children[i], counter)`. -/
def annotate_children : List ASTNode → Int → List ASTNode × Int
  | [], counter => ([], counter)
  | n :: rest, counter =>
    let r := annotate_func_calls n counter
    let rs := annotate_children rest r.2
    (r.1 :: rs.1, rs.2)
end

mutual
/-- The nodes of a tree in pre-order (the order in which the passes of
`parse.c` visit them). -/
def preorder : ASTNode → List ASTNode
  | .mk t v k cs => .mk t v k cs :: preorder_list cs
/-- Pre-order over a list of siblings. -/
def preorder_list : List ASTNode → List ASTNode
  | [] => []
  | n :: rest => preorder n ++ preorder_list rest
end

/-- The values of the call nodes of a forest, in pre-order. -/
def call_values (l : List ASTNode) : List (Option CStr) :=
  ((preorder_list l).filter (fun n => decide (n.type = NODE_FUNC_CALL))).map ASTNode.value

/-- The text `name#c, name#(c+1), ...` the specification gives to the calls
of names `names`, first index `c`. -/
def number_calls (c : Int) : List CStr → List CStr
  | [] => []
  | name :: rest => (name ++ ['#'] ++ fmt_d c) :: number_calls (c + 1) rest

/-- What `annotate_func_calls` never changes in a node: kind, token and
number of children. -/
def node_shape (n : ASTNode) : NodeType × Option Token × Nat :=
  (n.type, n.token, n.children.length)

/-- The values of the nodes of a forest that are not calls, in pre-order. -/
def other_values (l : List ASTNode) : List (Option CStr) :=
  ((preorder_list l).filter (fun n => !decide (n.type = NODE_FUNC_CALL))).map ASTNode.value

/-- The C library `isspace` of the C locale. -/
def isspace (c : Char) : Bool :=
  c = ' ' || c = '\t' || c = '\n' || c = Char.ofNat 11 || c = Char.ofNat 12 || c = '\r'

/-- The number a text denotes for the C library conversions: optional white
space, an optional sign, then decimal digits, without any bound. -/
def decimal_value (s : CStr) : Int :=
  match s.dropWhile isspace with
  | '-' :: r => - (digits_value 0 r : Int)
  | '+' :: r => (digits_value 0 r : Int)
  | r => (digits_value 0 r : Int)

/-- The C library `strtol (s, NULL, 10)` for a 64-bit `long`: the number the
text denotes, `LONG_MIN` or `LONG_MAX` when it is out of range. -/
def strtol (s : CStr) : Int :=
  if decimal_value s < -9223372036854775808 then -9223372036854775808
  else if 9223372036854775807 < decimal_value s then 9223372036854775807
  else decimal_value s

/-- The conversion of a `long` to `int`: the low 32 bits in two's
complement. -/
def long_to_int (v : Int) : Int := (v + 2147483648) % 4294967296 - 2147483648

/-- The C library `atoi`, which is `(int) strtol (s, NULL, 10)`: the number
the text denotes when it fits an `int`; beyond that the C standard fixes no
result, and the conversion of glibc on a 64-bit `long` is taken
(`4294967296` gives 0, `4294967299` gives 3). -/
def atoi (s : CStr) : Int := long_to_int (strtol s)

/-- The instance index the generator reads back from an annotated call
value: `atoi (hash + 1)` where `hash = strchr (value, '#')`. -/
def call_index (v : CStr) : Option Int :=
  match strchr v '#' with
  | some h => some (atoi (h.drop 1))
  | none => none

/-- The function name the generator reads back from an annotated call
value: the characters before the first `#`, at most 120 of them. -/
def call_fname (v : CStr) : CStr :=
  match strchr v '#' with
  | some h => v.take (min (v.length - h.length) 120)
  | none => v

/-! ## The variable tracker (parse.c 19-37, 1134-1165) -/

/-- The struct `TrackedVar`: a scalar local and its process variable. -/
structure TrackedVar where
  orig : CStr
  gen : CStr
  vhdl_type : CStr
  ordinal : Int
  deriving DecidableEq

/-- One iteration of the inner collection loop of `generate_vhdl` on the
statement child `st`: the tracked variables and the comment text so far.
`ctype_to_vhdl` is the external type mapping. -/
def track_decl (ctype_to_vhdl : Option CStr → CStr)
    (acc : List TrackedVar × CStr) (st : ASTNode) : List TrackedVar × CStr :=
  match st.value with
  | none => acc
  | some v =>
    if st.type = NODE_VAR_DECL then
      match strchr v '[' with
      | some lbr =>
        let blen := min (v.length - lbr.length) 63
        (acc.1, acc.2 ++ "  -- note: array ".toList ++ v.take blen
          ++ " kept as signal (not variableized)\n".toList)
      | none =>
        if v = "result".toList then acc
        else if acc.1.length < 256 then
          let ord : Int := ((acc.1.filter (fun p => decide (p.orig = v))).length : Nat)
          (acc.1 ++ [{ orig := v, ordinal := ord,
                       vhdl_type := ctype_to_vhdl (st.token.map Token.value),
                       gen := build_gen_name v ord [] 64 }], acc.2)
        else acc
    else acc

/-- The collection loop over the children of a function node. -/
def collect_tracked (ctype_to_vhdl : Option CStr → CStr)
    (children : List ASTNode) : List TrackedVar × CStr :=
  children.foldl
    (fun acc child =>
      if child.type = NODE_STATEMENT then
        child.children.foldl (track_decl ctype_to_vhdl) acc
      else acc)
    ([], [])

/-- The function `find_tracked (name)` for a name that is not NULL: the index of the
first tracked variable of that original name, or `-1`. -/
def find_tracked (g_tracking_active : Bool) (g_tracked_vars : List TrackedVar)
    (name : CStr) : Int :=
  if !g_tracking_active then -1
  else
    match g_tracked_vars.findIdx? (fun t => decide (t.orig = name)) with
    | some i => (i : Nat)
    | none => -1

/-! ## Parser state and the helpers of `utils.h` -/

/-- The struct `ArrayInfo` (parse.h): `char name[64]; int size`. -/
structure ArrayInfo where
  name : CStr
  size : Int
  deriving DecidableEq

/-- The globals of the parser: the lookahead `current_token`, the tokens the
lexer has not delivered yet, the array table `g_arrays[0 .. g_array_count)`
and `s_loop_depth`. -/
structure PState where
  current_token : Token
  input : List Token
  g_arrays : List ArrayInfo
  s_loop_depth : Int
  deriving DecidableEq

/-- Outcome of a parsing function: a value and the state after it, or
`exit (EXIT_FAILURE)` after the diagnostic `Error (line N): msg`, or the
recursion budget of the embedding ran out. -/
inductive PResult (α : Type) where
  | ok (val : α) (s : PState)
  | fatal (line : Nat) (msg : String)
  | out_of_fuel

/-- A parsing function. -/
def P (α : Type) : Type := PState → PResult α

/-- Sequencing of parsing functions. -/
def P.bind {α β : Type} (m : P α) (f : α → P β) : P β := fun s =>
  match m s with
  | .ok a s1 => f a s1
  | .fatal l msg => .fatal l msg
  | .out_of_fuel => .out_of_fuel

instance : Monad P where
  pure a := fun s => .ok a s
  bind := P.bind

/-- Modelled from the spec: the lexer is not part of the sources; it delivers
the tokens of the stream one at a time and an end-of-file token from then
on. -/
def next_token : List Token → Token × List Token
  | [] => (⟨TOKEN_EOF, [], 0⟩, [])
  | t :: rest => (t, rest)

/-- Modelled from the spec: `advance` of `utils.h` requests the next token. -/
def advance_state (s : PState) : PState :=
  { s with current_token := (next_token s.input).1, input := (next_token s.input).2 }

/-- Modelled from the spec: `match (type)` of `utils.h` tests the kind of the
lookahead. -/
def match_state (s : PState) (t : TokenType) : Bool := decide (s.current_token.type = t)

/-- The state as a value. -/
def get_state : P PState := fun s => .ok s s

/-- Replace the state. -/
def set_state (s : PState) : P Unit := fun _ => .ok () s

/-- The function `advance (input)`. -/
def advance : P Unit := fun s => .ok () (advance_state s)

/-- The function `match (type)`. -/
def match_token (t : TokenType) : P Bool := fun s => .ok (match_state s t) s

/-- Modelled from the spec: `consume (input, type)` of `utils.h` advances and
returns 1 when the lookahead has this kind, else returns 0. -/
def consume (t : TokenType) : P Bool := fun s =>
  if match_state s t then .ok true (advance_state s) else .ok false s

/-- A fatal error: the diagnostic `Error (line N): msg` with the line of the
lookahead, then `exit (EXIT_FAILURE)`. -/
def fatal {α : Type} (msg : String) : P α := fun s => .fatal s.current_token.line msg

/-- The lookahead is a token of kind `t` with text `text`
(`match (t) && strcmp (current_token.value, text) == 0`). -/
def match_text (t : TokenType) (text : String) : P Bool := fun s =>
  .ok (match_state s t && decide (s.current_token.value = text.toList)) s

/-- Modelled from the spec: `is_number_str` of `utils.h` recognises a pure
numeric literal, a non-empty string of decimal digits. -/
def is_number_str (s : CStr) : Bool := !s.isEmpty && s.all is_dec_digit

/-- Modelled from the spec: `register_array` of `utils.h` adds a name and its
size to the array table (`ArrayInfo g_arrays[128]`, `char name[64]`). -/
def register_array (tbl : List ArrayInfo) (name : CStr) (size : Int) : List ArrayInfo :=
  if tbl.length < 128 then tbl ++ [{ name := name.take 63, size := size }] else tbl

/-- Modelled from the spec: `find_array_size` of `utils.h` is the size
registered for the name, and a value that is not positive when there is
none. -/
def find_array_size (tbl : List ArrayInfo) (name : CStr) : Int :=
  match tbl.find? (fun a => decide (a.name = name)) with
  | some a => a.size
  | none => -1

/-- The C library `strncat (dst, src, n)`. -/
def strncat (dst src : CStr) (n : Nat) : CStr := dst ++ src.take n

/-! ## Token loops of the parser -/

/-- One iteration of the index capture loop on the lookahead `cur`: the new
`idx_buf[512]` and `paren_depth`. -/
def capture_step (cur : Token) (idx_buf : CStr) (paren_depth : Int) : CStr × Int :=
  if cur.type = TOKEN_PARENTHESIS_OPEN then
    (strncat idx_buf ['('] (512 - idx_buf.length - 1), paren_depth + 1)
  else if cur.type = TOKEN_PARENTHESIS_CLOSE then
    (strncat idx_buf [')'] (512 - idx_buf.length - 1),
      if paren_depth > 0 then paren_depth - 1 else paren_depth)
  else
    (strncat idx_buf cur.value (512 - idx_buf.length - 1), paren_depth)

/-- The loop `while (!match (TOKEN_EOF)) ...` that captures the text of an
array index up to the closing bracket (parse.c 395-415 and 887-907): the text,
the lookahead and the remaining tokens afterwards. -/
def capture_index : Token → List Token → CStr → Int → CStr × Token × List Token
  | cur, [], idx_buf, paren_depth =>
    if cur.type = TOKEN_EOF then (idx_buf, cur, [])
    else if cur.type = TOKEN_BRACKET_CLOSE ∧ paren_depth = 0 then (idx_buf, cur, [])
    else ((capture_step cur idx_buf paren_depth).1, (next_token []).1, [])
  | cur, t :: rest, idx_buf, paren_depth =>
    if cur.type = TOKEN_EOF then (idx_buf, cur, t :: rest)
    else if cur.type = TOKEN_BRACKET_CLOSE ∧ paren_depth = 0 then (idx_buf, cur, t :: rest)
    else
      capture_index t rest (capture_step cur idx_buf paren_depth).1
        (capture_step cur idx_buf paren_depth).2

/-- The index capture as a parsing function. -/
def capture_index_text : P CStr := fun s =>
  let r := capture_index s.current_token s.input [] 0
  .ok r.1 { s with current_token := r.2.1, input := r.2.2 }

/-- The loops `while (!match (...) && !match (TOKEN_EOF)) advance (input);`:
advance until the lookahead satisfies `stop` or is the end of file. -/
def skip_until (stop : TokenType → Bool) : Token → List Token → Token × List Token
  | cur, [] =>
    if stop cur.type || decide (cur.type = TOKEN_EOF) then (cur, [])
    else ((next_token []).1, [])
  | cur, t :: rest =>
    if stop cur.type || decide (cur.type = TOKEN_EOF) then (cur, t :: rest)
    else skip_until stop t rest

/-- The skipping loop as a parsing function. -/
def skip_tokens_until (stop : TokenType → Bool) : P Unit := fun s =>
  let r := skip_until stop s.current_token s.input
  .ok () { s with current_token := r.1, input := r.2 }

/-- One iteration of the array initializer loop: a number or identifier
becomes an element node, any other token is skipped. -/
def init_list_step (cur : Token) (init_list : ASTNode) : ASTNode :=
  if cur.type = TOKEN_NUMBER ∨ cur.type = TOKEN_IDENTIFIER then
    add_child init_list (set_value (create_node NODE_EXPRESSION) cur.value)
  else init_list

/-- The array initializer loop (parse.c 344-356). -/
def init_list_loop : Token → List Token → ASTNode → ASTNode × Token × List Token
  | cur, [], init_list =>
    if cur.type = TOKEN_BRACE_CLOSE ∨ cur.type = TOKEN_EOF then (init_list, cur, [])
    else (init_list_step cur init_list, (next_token []).1, [])
  | cur, t :: rest, init_list =>
    if cur.type = TOKEN_BRACE_CLOSE ∨ cur.type = TOKEN_EOF then (init_list, cur, t :: rest)
    else init_list_loop t rest (init_list_step cur init_list)

/-- The array initializer loop as a parsing function. -/
def parse_init_list (init_list : ASTNode) : P ASTNode := fun s =>
  let r := init_list_loop s.current_token s.input init_list
  .ok r.1 { s with current_token := r.2.1, input := r.2.2 }

/-- The static bounds check on a captured index text (parse.c 424-432 and
916-924). -/
def check_bounds (name idx_buf : CStr) : P Unit := fun s =>
  if is_number_str idx_buf then
    let idx_val := atoi idx_buf
    let arr_size := find_array_size s.g_arrays name
    if arr_size > 0 ∧ (idx_val < 0 ∨ idx_val ≥ arr_size) then
      .fatal s.current_token.line "Array index %d out of bounds for '%s' with size %d"
    else .ok () s
  else .ok () s

/-! ## Expressions (parse.c 796-978) -/

mutual
/-- The function `parse_primary`; `none` is the NULL result. `get_precedence` is the
external precedence table. -/
def parse_primary (get_precedence : CStr → Int) : Nat → P (Option ASTNode)
  | 0 => fun _ => .out_of_fuel
  | fuel + 1 => do
    if ← match_text TOKEN_OPERATOR "!" then
      advance
      match ← parse_primary get_precedence fuel with
      | none => pure none
      | some inner =>
        pure (some (add_child (set_value (create_node NODE_BINARY_OP) ['!']) inner))
    else if ← match_text TOKEN_OPERATOR "~" then
      advance
      match ← parse_primary get_precedence fuel with
      | none => pure none
      | some inner =>
        pure (some (add_child (set_value (create_node NODE_BINARY_OP) ['~']) inner))
    else if ← match_text TOKEN_OPERATOR "-" then
      advance
      match ← parse_primary get_precedence fuel with
      | none => pure none
      | some inner =>
        match inner.value with
        | some v =>
          if inner.type = NODE_EXPRESSION then
            pure (some (set_value (create_node NODE_EXPRESSION) (snprintf 128 ('-' :: v))))
          else
            pure (some (add_child (add_child (set_value (create_node NODE_BINARY_EXPR) ['-'])
              (set_value (create_node NODE_EXPRESSION) ['0'])) inner))
        | none =>
          pure (some (add_child (add_child (set_value (create_node NODE_BINARY_EXPR) ['-'])
            (set_value (create_node NODE_EXPRESSION) ['0'])) inner))
    else if ← match_token TOKEN_PARENTHESIS_OPEN then
      advance
      let node ← parse_expression_prec get_precedence fuel (-2)
      if ← consume TOKEN_PARENTHESIS_CLOSE then pure node
      else fatal "Expected ')' after expression"
    else if ← match_token TOKEN_IDENTIFIER then
      let ident_buf := (← get_state).current_token.value.take 127
      advance
      if ← match_token TOKEN_PARENTHESIS_OPEN then
        advance
        let call ← parse_call_args get_precedence fuel
          (set_value (create_node NODE_FUNC_CALL) ident_buf)
        if ← consume TOKEN_PARENTHESIS_CLOSE then pure (some call)
        else fatal "Expected ')' after function call arguments for '%s'"
      else if ← match_token TOKEN_BRACKET_OPEN then
        advance
        let idx_buf ← capture_index_text
        if ← consume TOKEN_BRACKET_CLOSE then
          let node := set_value (create_node NODE_EXPRESSION)
            (snprintf 700 (ident_buf ++ ['['] ++ idx_buf ++ [']']))
          check_bounds ident_buf idx_buf
          pure (some node)
        else fatal "Expected ']' after array index in expression"
      else
        pure (some (set_value (create_node NODE_EXPRESSION) ident_buf))
    else if ← match_token TOKEN_NUMBER then
      let node := set_value (create_node NODE_EXPRESSION) (← get_state).current_token.value
      advance
      pure (some node)
    else pure none
/-- The argument loop of a call (parse.c 871-876). -/
def parse_call_args (get_precedence : CStr → Int) : Nat → ASTNode → P ASTNode
  | 0, _ => fun _ => .out_of_fuel
  | fuel + 1, call => do
    if (← match_token TOKEN_PARENTHESIS_CLOSE) || (← match_token TOKEN_EOF) then pure call
    else
      let arg ← parse_expression_prec get_precedence fuel (-2)
      let call1 := match arg with
        | some a => add_child call a
        | none => call
      if ← match_token TOKEN_COMMA then
        advance
        parse_call_args get_precedence fuel call1
      else pure call1
/-- The function `parse_expression_prec (input, min_prec)`. -/
def parse_expression_prec (get_precedence : CStr → Int) : Nat → Int → P (Option ASTNode)
  | 0, _ => fun _ => .out_of_fuel
  | fuel + 1, min_prec => do
    match ← parse_primary get_precedence fuel with
    | none => pure none
    | some left => do
      let r ← parse_operators get_precedence fuel min_prec left
      pure (some r)
/-- The loop `while (match (TOKEN_OPERATOR))` of `parse_expression_prec`. -/
def parse_operators (get_precedence : CStr → Int) : Nat → Int → ASTNode → P ASTNode
  | 0, _, _ => fun _ => .out_of_fuel
  | fuel + 1, min_prec, left => do
    if ← match_token TOKEN_OPERATOR then
      let op := (← get_state).current_token.value
      let prec := get_precedence op
      if prec < min_prec then pure left
      else
        let op_buf := op.take 7
        advance
        match ← parse_expression_prec get_precedence fuel (prec + 1) with
        | none => fatal "Expected right operand after operator '%s'"
        | some right =>
          parse_operators get_precedence fuel min_prec
            (add_child (add_child (set_value (create_node NODE_BINARY_EXPR) op_buf) left) right)
    else pure left
end

/-- The function `parse_expression (input)`. -/
def parse_expression (get_precedence : CStr → Int) (fuel : Nat) : P (Option ASTNode) :=
  parse_expression_prec get_precedence fuel (-2)

/-! ## Statements (parse.c 274-793) -/

/-- The lookahead is one of the type keywords `int`, `float`, `char`,
`double`. -/
def match_type_keyword : P Bool := fun s =>
  .ok (match_state s TOKEN_KEYWORD &&
    (decide (s.current_token.value = "int".toList) ||
     decide (s.current_token.value = "float".toList) ||
     decide (s.current_token.value = "char".toList) ||
     decide (s.current_token.value = "double".toList))) s

/-- The statements `s_loop_depth++` and `s_loop_depth--`. -/
def add_loop_depth (d : Int) : P Unit := fun s =>
  .ok () { s with s_loop_depth := s.s_loop_depth + d }

/-- The call `add_child` when the child is not NULL. -/
def add_child_opt (parent : ASTNode) (child : Option ASTNode) : ASTNode :=
  match child with
  | some c => add_child parent c
  | none => parent

/-- The variable declaration branch of `parse_statement` (parse.c 292-383),
entered with a type keyword as lookahead. -/
def parse_declaration (get_precedence : CStr → Int) (fuel : Nat) (stmt_node : ASTNode) :
    P ASTNode := do
  let type_token := (← get_state).current_token
  advance
  if ← match_token TOKEN_IDENTIFIER then
    let name_token := (← get_state).current_token
    advance
    let var_decl_node :=
      set_value (set_token (create_node NODE_VAR_DECL) type_token) name_token.value
    let arr : ASTNode × Bool ←
      (do
        if ← match_token TOKEN_BRACKET_OPEN then
          advance
          if ← match_token TOKEN_NUMBER then
            let size_text := (← get_state).current_token.value
            let arr_size_buf := snprintf 256 size_text
            let node := set_value var_decl_node
              (snprintf 1024 (name_token.value ++ ['['] ++ size_text ++ [']']))
            advance
            let s ← get_state
            set_state { s with
              g_arrays := register_array s.g_arrays name_token.value (atoi arr_size_buf) }
            if ← consume TOKEN_BRACKET_CLOSE then pure (node, true)
            else fatal "Expected ']' after array size"
          else fatal "Expected array size after '['"
        else pure (var_decl_node, false))
    let var_decl_node ←
      (do
        if ← match_text TOKEN_OPERATOR "=" then
          advance
          if arr.2 && (← match_token TOKEN_BRACE_OPEN) then
            advance
            let init_list ← parse_init_list
              (set_value (create_node NODE_EXPRESSION) "array_init".toList)
            if ← consume TOKEN_BRACE_CLOSE then pure (add_child arr.1 init_list)
            else fatal "Expected '\x7d' after array initializer"
          else
            let init_expr ← parse_expression get_precedence fuel
            skip_tokens_until (fun t => decide (t = TOKEN_SEMICOLON))
            pure (add_child_opt arr.1 init_expr)
        else pure arr.1)
    if ← consume TOKEN_SEMICOLON then pure (add_child stmt_node var_decl_node)
    else fatal "Expected ';' after variable declaration"
  else fatal "Expected variable name after type"

/-- The target of an assignment (parse.c 387-436), entered with an identifier
as lookahead: the identifier, or the array access `name[index text]` with
its static bounds check. -/
def parse_assignment_target : P ASTNode := do
  let lhs_token := (← get_state).current_token
  advance
  if ← match_token TOKEN_BRACKET_OPEN then
    advance
    let idx_buf ← capture_index_text
    if ← consume TOKEN_BRACKET_CLOSE then
      let lhs := set_value (create_node NODE_EXPRESSION)
        (snprintf 1024 (lhs_token.value ++ ['['] ++ idx_buf ++ [']']))
      check_bounds lhs_token.value idx_buf
      pure lhs
    else fatal "Expected ']' after array index"
  else pure (set_value (create_node NODE_EXPRESSION) lhs_token.value)

/-- The assignment branch of `parse_statement` (parse.c 386-465), entered
with an identifier as lookahead. -/
def parse_assignment (get_precedence : CStr → Int) (fuel : Nat) (stmt_node : ASTNode) :
    P ASTNode := do
  let lhs_expr ← parse_assignment_target
  if ← match_text TOKEN_OPERATOR "=" then
    advance
    let assign_node := add_child (create_node NODE_ASSIGNMENT) lhs_expr
    let rhs_node ← parse_expression get_precedence fuel
    if ← consume TOKEN_SEMICOLON then
      pure (add_child stmt_node (add_child_opt assign_node rhs_node))
    else fatal "Expected ';' after assignment"
  else
    skip_tokens_until (fun t => decide (t = TOKEN_SEMICOLON))
    if ← match_token TOKEN_SEMICOLON then
      advance
      pure stmt_node
    else pure stmt_node

/-- The return branch of `parse_statement` (parse.c 468-481). -/
def parse_return (get_precedence : CStr → Int) (fuel : Nat) (stmt_node : ASTNode) :
    P ASTNode := do
  let stmt := set_token stmt_node (← get_state).current_token
  advance
  let return_expr ← parse_expression get_precedence fuel
  if ← consume TOKEN_SEMICOLON then pure (add_child_opt stmt return_expr)
  else fatal "Expected ';' after return statement"

/-- The break branch of `parse_statement` (parse.c 752-766). -/
def parse_break (stmt_node : ASTNode) : P ASTNode := do
  if (← get_state).s_loop_depth ≤ 0 then fatal "'break' not within a loop"
  else
    advance
    if ← consume TOKEN_SEMICOLON then
      pure (add_child stmt_node (create_node NODE_BREAK_STATEMENT))
    else fatal "Expected ';' after 'break'"

/-- The continue branch of `parse_statement` (parse.c 769-783). -/
def parse_continue (stmt_node : ASTNode) : P ASTNode := do
  if (← get_state).s_loop_depth ≤ 0 then fatal "'continue' not within a loop"
  else
    advance
    if ← consume TOKEN_SEMICOLON then
      pure (add_child stmt_node (create_node NODE_CONTINUE_STATEMENT))
    else fatal "Expected ';' after 'continue'"

/-- The fallback of `parse_statement` (parse.c 787-792). -/
def parse_unknown (stmt_node : ASTNode) : P ASTNode := do
  skip_tokens_until (fun t => decide (t = TOKEN_SEMICOLON) || decide (t = TOKEN_BRACE_CLOSE))
  if ← match_token TOKEN_SEMICOLON then
    advance
    pure stmt_node
  else pure stmt_node

/-- The increment clause of a `for` header (parse.c 686-714). -/
def parse_for_increment (get_precedence : CStr → Int) (fuel : Nat) : P (Option ASTNode) := do
  if ← match_token TOKEN_PARENTHESIS_CLOSE then pure none
  else if ← match_token TOKEN_IDENTIFIER then
    let inc_lhs := (← get_state).current_token
    advance
    if (← match_text TOKEN_OPERATOR "++") || (← match_text TOKEN_OPERATOR "--") then
      let op := (← get_state).current_token.value
      let lhs := set_value (create_node NODE_EXPRESSION) inc_lhs.value
      let rhs := set_value (create_node NODE_BINARY_EXPR)
        (if op = "++".toList then ['+'] else ['-'])
      let op_l := set_value (create_node NODE_EXPRESSION) inc_lhs.value
      let op_r := set_value (create_node NODE_EXPRESSION) ['1']
      let incr_expr := add_child (add_child (create_node NODE_ASSIGNMENT) lhs)
        (add_child (add_child rhs op_l) op_r)
      advance
      pure (some incr_expr)
    else if ← match_text TOKEN_OPERATOR "=" then
      advance
      let incr_expr := add_child (create_node NODE_ASSIGNMENT)
        (set_value (create_node NODE_EXPRESSION) inc_lhs.value)
      let rhs ← parse_expression get_precedence fuel
      pure (some (add_child_opt incr_expr rhs))
    else pure none
  else pure none

/-- The assignment form of the init clause of a `for` header, with the rewind
when the identifier is not followed by `=` (parse.c 646-668). -/
def parse_for_init_assignment (get_precedence : CStr → Int) (fuel : Nat) :
    P (Option ASTNode) := do
  if ← match_token TOKEN_IDENTIFIER then
    let saved ← get_state
    let temp_lhs := saved.current_token
    advance
    if ← match_text TOKEN_OPERATOR "=" then
      advance
      let assign := add_child (create_node NODE_ASSIGNMENT)
        (set_value (create_node NODE_EXPRESSION) temp_lhs.value)
      let rhs_expr ← parse_expression get_precedence fuel
      if ← consume TOKEN_SEMICOLON then pure (some (add_child_opt assign rhs_expr))
      else fatal "Expected ';' after for-init assignment"
    else
      let s ← get_state
      set_state { s with current_token := saved.current_token, input := saved.input }
      pure none
  else pure none

/-- The node a declaration statement contributes as init clause of a `for`
(parse.c 639-644). -/
def for_init_of_statement (init_stmt : ASTNode) : Option ASTNode :=
  match init_stmt.children with
  | child0 :: _ =>
    if child0.type = NODE_VAR_DECL ∨ child0.type = NODE_ASSIGNMENT then some child0 else none
  | [] => none

mutual
/-- The function `parse_statement (input)`. -/
def parse_statement (get_precedence : CStr → Int) : Nat → P ASTNode
  | 0 => fun _ => .out_of_fuel
  | fuel + 1 => do
    let stmt_node := create_node NODE_STATEMENT
    if ← match_type_keyword then parse_declaration get_precedence fuel stmt_node
    else if ← match_token TOKEN_IDENTIFIER then parse_assignment get_precedence fuel stmt_node
    else if ← match_text TOKEN_KEYWORD "return" then parse_return get_precedence fuel stmt_node
    else if ← match_text TOKEN_KEYWORD "if" then
      advance
      if ← consume TOKEN_PARENTHESIS_OPEN then
        let cond_expr ← parse_expression get_precedence fuel
        if ← consume TOKEN_PARENTHESIS_CLOSE then
          if ← consume TOKEN_BRACE_OPEN then
            let if_node ← parse_body get_precedence fuel
              (add_child_opt (create_node NODE_IF_STATEMENT) cond_expr)
            if ← consume TOKEN_BRACE_CLOSE then
              let if_node ← parse_else_chain get_precedence fuel if_node
              pure (add_child stmt_node if_node)
            else fatal "Expected '\x7d' after if block"
          else fatal "Expected '\x7b' after if condition"
        else fatal "Expected ')' after if condition"
      else fatal "Expected '(' after 'if'"
    else if ← match_text TOKEN_KEYWORD "while" then
      advance
      if ← consume TOKEN_PARENTHESIS_OPEN then
        let cond_expr ← parse_expression get_precedence fuel
        if ← consume TOKEN_PARENTHESIS_CLOSE then
          if ← consume TOKEN_BRACE_OPEN then
            add_loop_depth 1
            let while_node ← parse_body get_precedence fuel
              (add_child_opt (create_node NODE_WHILE_STATEMENT) cond_expr)
            add_loop_depth (-1)
            if ← consume TOKEN_BRACE_CLOSE then pure (add_child stmt_node while_node)
            else fatal "Expected '\x7d' after while block"
          else fatal "Expected '\x7b' after while condition"
        else fatal "Expected ')' after while condition"
      else fatal "Expected '(' after 'while'"
    else if ← match_text TOKEN_KEYWORD "for" then
      advance
      if ← consume TOKEN_PARENTHESIS_OPEN then
        let init_node : Option ASTNode ←
          (do
            if ← match_token TOKEN_SEMICOLON then pure none
            else if ← match_type_keyword then
              let init_stmt ← parse_statement get_precedence fuel
              pure (for_init_of_statement init_stmt)
            else parse_for_init_assignment get_precedence fuel)
        if ← match_token TOKEN_SEMICOLON then advance
        let cond_expr : Option ASTNode ←
          (do
            if ← match_token TOKEN_SEMICOLON then pure none
            else parse_expression get_precedence fuel)
        if ← consume TOKEN_SEMICOLON then
          let incr_expr ← parse_for_increment get_precedence fuel
          if ← consume TOKEN_PARENTHESIS_CLOSE then
            if ← consume TOKEN_BRACE_OPEN then
              let for_node := add_child_opt (create_node NODE_FOR_STATEMENT) init_node
              let for_node := match cond_expr with
                | some c => add_child for_node c
                | none => add_child for_node (set_value (create_node NODE_EXPRESSION) ['1'])
              add_loop_depth 1
              let for_node ← parse_body get_precedence fuel for_node
              add_loop_depth (-1)
              if ← consume TOKEN_BRACE_CLOSE then
                pure (add_child stmt_node (add_child_opt for_node incr_expr))
              else fatal "Expected '\x7d' after for body"
            else fatal "Expected '\x7b' after for header"
          else fatal "Expected ')' after for header"
        else fatal "Expected ';' after for condition"
      else fatal "Expected '(' after 'for'"
    else if (← match_text TOKEN_KEYWORD "break") || (← match_text TOKEN_IDENTIFIER "break") then
      parse_break stmt_node
    else if (← match_text TOKEN_KEYWORD "continue")
        || (← match_text TOKEN_IDENTIFIER "continue") then
      parse_continue stmt_node
    else parse_unknown stmt_node
/-- The loops `while (!match (TOKEN_BRACE_CLOSE) && !match (TOKEN_EOF))` that
parse the statements of a block into children of `node`. -/
def parse_body (get_precedence : CStr → Int) : Nat → ASTNode → P ASTNode
  | 0, _ => fun _ => .out_of_fuel
  | fuel + 1, node => do
    if (← match_token TOKEN_BRACE_CLOSE) || (← match_token TOKEN_EOF) then pure node
    else
      let inner_stmt ← parse_statement get_precedence fuel
      parse_body get_precedence fuel (add_child node inner_stmt)
/-- The loop over `else if` and `else` clauses (parse.c 522-569). -/
def parse_else_chain (get_precedence : CStr → Int) : Nat → ASTNode → P ASTNode
  | 0, _ => fun _ => .out_of_fuel
  | fuel + 1, if_node => do
    if ← match_text TOKEN_KEYWORD "else" then
      advance
      if ← match_text TOKEN_KEYWORD "if" then
        advance
        if ← consume TOKEN_PARENTHESIS_OPEN then
          let elseif_cond ← parse_expression get_precedence fuel
          if ← consume TOKEN_PARENTHESIS_CLOSE then
            if ← consume TOKEN_BRACE_OPEN then
              let elseif_node ← parse_body get_precedence fuel
                (add_child_opt (create_node NODE_ELSE_IF_STATEMENT) elseif_cond)
              if ← consume TOKEN_BRACE_CLOSE then
                parse_else_chain get_precedence fuel (add_child if_node elseif_node)
              else fatal "Expected '\x7d' after else if block"
            else fatal "Expected '\x7b' after else if condition"
          else fatal "Expected ')' after else if condition"
        else fatal "Expected '(' after 'else if'"
      else
        if ← consume TOKEN_BRACE_OPEN then
          let else_node ← parse_body get_precedence fuel (create_node NODE_ELSE_STATEMENT)
          if ← consume TOKEN_BRACE_CLOSE then pure (add_child if_node else_node)
          else fatal "Expected '\x7d' after else block"
        else fatal "Expected '\x7b' after else"
    else pure if_node
end

/-! ## Functions and programs (parse.c 125-272) -/

/-- The parameter loop of `parse_function` (parse.c 211-240). -/
def parse_parameters : Nat → ASTNode → P ASTNode
  | 0, _ => fun _ => .out_of_fuel
  | fuel + 1, func_node => do
    if (← match_token TOKEN_PARENTHESIS_CLOSE) || (← match_token TOKEN_EOF) then pure func_node
    else if ← match_token TOKEN_KEYWORD then
      let param_type := (← get_state).current_token
      advance
      if ← match_token TOKEN_IDENTIFIER then
        let param_name := (← get_state).current_token
        advance
        let param_node :=
          set_value (set_token (create_node NODE_VAR_DECL) param_type) param_name.value
        if ← match_token TOKEN_COMMA then advance
        parse_parameters fuel (add_child func_node param_node)
      else
        -- "Expected parameter name" is printed and the loop is left
        pure func_node
    else
      advance
      parse_parameters fuel func_node

/-- The statement loop of `parse_function` (parse.c 256-269). -/
def parse_function_body (get_precedence : CStr → Int) : Nat → Int → ASTNode → P ASTNode
  | 0, _, _ => fun _ => .out_of_fuel
  | fuel + 1, brace_depth, func_node => do
    if brace_depth > 0 && !(← match_token TOKEN_EOF) then
      if ← match_token TOKEN_BRACE_OPEN then
        advance
        parse_function_body get_precedence fuel (brace_depth + 1) func_node
      else if ← match_token TOKEN_BRACE_CLOSE then
        advance
        parse_function_body get_precedence fuel (brace_depth - 1) func_node
      else
        let stmt ← parse_statement get_precedence fuel
        parse_function_body get_precedence fuel brace_depth (add_child func_node stmt)
    else pure func_node

/-- The function `parse_function (input, return_type, func_name)`. -/
def parse_function (get_precedence : CStr → Int) (fuel : Nat)
    (return_type func_name : Token) : P ASTNode := do
  let func_node :=
    set_value (set_token (create_node NODE_FUNCTION_DECL) return_type) func_name.value
  let s ← get_state
  set_state { s with g_arrays := [] }
  if ← consume TOKEN_PARENTHESIS_OPEN then
    let func_node ← parse_parameters fuel func_node
    if ← consume TOKEN_PARENTHESIS_CLOSE then
      if ← consume TOKEN_BRACE_OPEN then
        parse_function_body get_precedence fuel 1 func_node
      else fatal "Expected '\x7b' to start function body"
    else fatal "Expected ')' after parameter list"
  else fatal "Expected '(' after function name"

/-- The loop of `parse_program` (parse.c 134-179). -/
def parse_program_loop (get_precedence : CStr → Int) : Nat → ASTNode → P ASTNode
  | 0, _ => fun _ => .out_of_fuel
  | fuel + 1, program_node => do
    if ← match_token TOKEN_EOF then pure program_node
    else if ← match_token TOKEN_KEYWORD then
      let return_type := (← get_state).current_token
      advance
      if ← match_token TOKEN_IDENTIFIER then
        let func_name := (← get_state).current_token
        advance
        if ← match_token TOKEN_PARENTHESIS_OPEN then
          let func_node ← parse_function get_precedence fuel return_type func_name
          parse_program_loop get_precedence fuel (add_child program_node func_node)
        else
          skip_tokens_until (fun t => decide (t = TOKEN_SEMICOLON))
          if ← match_token TOKEN_SEMICOLON then advance
          parse_program_loop get_precedence fuel program_node
      else
        advance
        parse_program_loop get_precedence fuel program_node
    else
      advance
      parse_program_loop get_precedence fuel program_node

/-- The function `parse_program (input)`. -/
def parse_program (get_precedence : CStr → Int) (fuel : Nat) : P ASTNode := do
  advance
  parse_program_loop get_precedence fuel (create_node NODE_PROGRAM)

/-- The parser's globals before `parse_program` on the token stream
`tokens`. -/
def initial_state (tokens : List Token) : PState :=
  { current_token := ⟨TOKEN_EOF, [], 0⟩, input := tokens, g_arrays := [], s_loop_depth := 0 }

/-! ## Generator state and output (parse.c 27-30, 980-1740) -/

/-- The globals of the generator: `g_tracked_vars[0 .. g_tracked_count)`,
`g_tracking_active` and `g_in_clock_body`. -/
structure GenState where
  g_tracked_vars : List TrackedVar
  g_tracking_active : Bool
  g_in_clock_body : Bool
  deriving DecidableEq

/-- Outcome of a generating function: a value, the globals and the text
written to `output`; or the C code has no defined behaviour on this tree (a
child that does not exist is read, a NULL string is read or printed, a local
buffer overflows); or the recursion budget of the embedding ran out. -/
inductive GResult (α : Type) where
  | ok (val : α) (st : GenState) (out : CStr)
  | undefined
  | out_of_fuel

/-- A generating function. -/
def G (α : Type) : Type := GenState → GResult α

/-- Sequencing of generating functions: the texts are concatenated. -/
def G.bind {α β : Type} (m : G α) (f : α → G β) : G β := fun st =>
  match m st with
  | .ok a st1 out1 =>
    match f a st1 with
    | .ok b st2 out2 => .ok b st2 (out1 ++ out2)
    | .undefined => .undefined
    | .out_of_fuel => .out_of_fuel
  | .undefined => .undefined
  | .out_of_fuel => .out_of_fuel

instance : Monad G where
  pure a := fun st => .ok a st []
  bind := G.bind

/-- The C library `fprintf (output, ...)` of a finished text. -/
def emit (text : CStr) : G Unit := fun st => .ok () st text

/-- The C library `fprintf (output, ...)` of a literal text. -/
def emit_s (text : String) : G Unit := emit text.toList

/-- No defined behaviour. -/
def undefined_behaviour {α : Type} : G α := fun _ => .undefined

/-- A string argument that the code reads or prints without a NULL test. -/
def deref (v : Option CStr) : G CStr :=
  match v with
  | some s => pure s
  | none => undefined_behaviour

/-- The globals as a value. -/
def get_globals : G GenState := fun st => .ok st st []

/-- Replace the globals. -/
def set_globals (st : GenState) : G Unit := fun _ => .ok () st []

/-- A loop `for (i = 0; i < n; i++) body (list[i])`. -/
def for_each {α : Type} (f : α → G Unit) : List α → G Unit
  | [] => pure ()
  | a :: rest => do
    f a
    for_each f rest

/-- The operators that `parse.c` takes as boolean-valued: comparisons and
logical combinations. -/
def is_bool_op (op : CStr) : Bool :=
  decide (op = "==".toList) || decide (op = "!=".toList) || decide (op = "<".toList) ||
  decide (op = "<=".toList) || decide (op = ">".toList) || decide (op = ">=".toList) ||
  decide (op = "&&".toList) || decide (op = "||".toList)

/-- The C library `isalpha` of the C locale. -/
def isalpha (c : Char) : Bool :=
  (decide ('a' ≤ c) && decide (c ≤ 'z')) || (decide ('A' ≤ c) && decide (c ≤ 'Z'))

/-- The test `isalpha (v[1]) || v[1] == '_'` on the second character of a
string (the terminating NUL when there is none). -/
def second_is_name_start (v : CStr) : Bool :=
  match v.get? 1 with
  | some c => isalpha c || decide (c = '_')
  | none => false

/-- The loop that tests whether every character of a non-empty string is a
digit or a dot (parse.c 1494, 1515). -/
def is_num_text (v : CStr) : Bool :=
  !v.isEmpty && v.all (fun c => is_dec_digit c || decide (c = '.'))

/-- The decoding of an array access value `name[index]` at its first `[`
(`lbr`) into the buffers `arr_name[64]` and `arr_idx[64]`: `none` when there
is no closing bracket after a non-empty index. -/
def decode_access (v lbr : CStr) : G (Option (CStr × CStr)) :=
  let name_len := v.length - lbr.length
  if 64 ≤ name_len then undefined_behaviour
  else
    let arr_name := v.take name_len
    let idx_start := lbr.drop 1
    match strchr idx_start ']' with
    | none => pure none
    | some idx_end =>
      let idx_len := idx_start.length - idx_end.length
      if idx_len = 0 then pure none
      else if 64 ≤ idx_len then undefined_behaviour
      else pure (some (arr_name, idx_start.take idx_len))

/-- The name and index of an annotated call value with its `#` at `hash`:
`fname[128]` takes at most 120 characters, the index is `atoi (hash + 1)`. -/
def decode_call (v hash : CStr) : CStr × Int :=
  (v.take (min (v.length - hash.length) 120), atoi (hash.drop 1))

/-! ## Call signals and instantiations (parse.c 86-123) -/

mutual
/-- The function `declare_func_call_signals (n, output)` for a node that is not NULL: the
text written. -/
def declare_func_call_signals : ASTNode → CStr
  | .mk t v _ cs =>
    (match v with
      | some s =>
        if t = NODE_FUNC_CALL then
          match strchr s '#' with
          | some hash =>
            "  signal call_".toList ++ (decode_call s hash).1 ++ "_".toList
              ++ fmt_d (decode_call s hash).2
              ++ "_res : std_logic_vector(31 downto 0);\n".toList
          | none => []
        else []
      | none => [])
    ++ declare_func_call_signals_list cs
/-- The loop over the children in `declare_func_call_signals`. -/
def declare_func_call_signals_list : List ASTNode → CStr
  | [] => []
  | n :: rest => declare_func_call_signals n ++ declare_func_call_signals_list rest
end

mutual
/-- The function `emit_func_call_instantiations (n, output)` for a node that is not NULL;
`g` is `generate_vhdl`, which `emit_inline_expr` calls on an argument. -/
def emit_func_call_instantiations (g : ASTNode → G Unit) : ASTNode → G Unit
  | .mk t v _ cs => do
    (match v with
      | some s =>
        if t = NODE_FUNC_CALL then
          match strchr s '#' with
          | some hash => do
            let fname := (decode_call s hash).1
            let idx := (decode_call s hash).2
            emit ("  u_".toList ++ fname ++ "_".toList ++ fmt_d idx ++ ": entity work.".toList
              ++ fname ++ " port map( clk, reset".toList)
            for_each (fun arg => do
              emit_s ", "
              g arg) cs
            emit (", call_".toList ++ fname ++ "_".toList ++ fmt_d idx ++ "_res );\n".toList)
          | none => pure ()
        else pure ()
      | none => pure ())
    emit_func_call_instantiations_list g cs
/-- The loop over the children in `emit_func_call_instantiations`. -/
def emit_func_call_instantiations_list (g : ASTNode → G Unit) : List ASTNode → G Unit
  | [] => pure ()
  | n :: rest => do
    emit_func_call_instantiations g n
    emit_func_call_instantiations_list g rest
end

/-! ## The function case of `generate_vhdl` (parse.c 1002-1191) -/

/-- The port line of a parameter child (parse.c 1016-1025). -/
def gen_param_port (ctype_to_vhdl : Option CStr → CStr) (child : ASTNode) : G Unit :=
  if child.type = NODE_VAR_DECL then do
    let name ← deref child.value
    emit ("    ".toList ++ name ++ " : in ".toList
      ++ ctype_to_vhdl (child.token.map Token.value) ++ ";\n".toList)
  else pure ()

/-- The type of the `result` port (parse.c 983, 1029-1031). -/
def result_vhdl_type (ctype_to_vhdl : Option CStr → CStr) (node : ASTNode) : CStr :=
  match node.token with
  | some k =>
    if k.value.length > 0 then ctype_to_vhdl (some k.value)
    else "std_logic_vector(31 downto 0)".toList
  | none => "std_logic_vector(31 downto 0)".toList

/-- The header comment and the entity of a function (parse.c 1003-1037). -/
def gen_entity (ctype_to_vhdl : Option CStr → CStr) (node : ASTNode) : G Unit := do
  let name ← deref node.value
  emit ("-- Function: ".toList ++ name ++ "\n".toList)
  emit ("entity ".toList ++ name ++ " is\n".toList)
  emit_s "  port (\n"
  emit_s "    clk : in std_logic;\n"
  emit_s "    reset : in std_logic;\n"
  for_each (gen_param_port ctype_to_vhdl) node.children
  emit ("    result : out ".toList ++ result_vhdl_type ctype_to_vhdl node ++ "\n".toList)
  emit_s "  );\n"
  emit_s "end entity;\n\n"

/-- The 32 characters `'0'`/`'1'` of `(num >> b) & 1` for `b` from 31 down
to 0. -/
def bit_string (num : Int) : CStr :=
  (List.range 32).map (fun i => if (num >>> (31 - i)) % 2 = 1 then '1' else '0')

/-- One element of an array initializer (parse.c 1069-1090); `last` tells
whether it is the last one. -/
def gen_init_element (type_text : CStr) (elem : ASTNode) (last : Bool) : G Unit := do
  let sep := if last then [] else ", ".toList
  if type_text = "int".toList then do
    let val ← deref elem.value
    emit ("\"".toList ++ bit_string (atoi val) ++ "\"".toList ++ sep)
  else if type_text = "float".toList ∨ type_text = "double".toList then do
    let val ← deref elem.value
    emit (val ++ sep)
  else if type_text = "char".toList then do
    let val ← deref elem.value
    emit ("'".toList ++ val ++ "'".toList ++ sep)
  else do
    let val ← deref elem.value
    emit (val ++ sep)

/-- The loop over the elements of an array initializer. -/
def gen_init_elements (type_text : CStr) : List ASTNode → G Unit
  | [] => pure ()
  | elem :: rest => do
    gen_init_element type_text elem rest.isEmpty
    gen_init_elements type_text rest

/-- The `array_init` child of an array declaration, when it has one. -/
def array_init_child (decl : ASTNode) : Option ASTNode :=
  match decl.children with
  | c :: _ =>
    match c.value with
    | some v => if v = "array_init".toList then some c else none
    | none => none
  | [] => none

/-- The type and signal of an array local, from the declaration value
`name[size]` with its first `[` at `arr_bracket` (parse.c 1051-1063, 1112-1114):
`none` when the size is missing. -/
def gen_array_signal (ctype_to_vhdl : Option CStr → CStr) (decl : ASTNode)
    (v arr_bracket : CStr) : G (Option CStr) :=
  let name_len := v.length - arr_bracket.length
  if 64 ≤ name_len then undefined_behaviour
  else
    let arr_name := v.take name_len
    let size_start := arr_bracket.drop 1
    match strchr size_start ']' with
    | none => pure none
    | some size_end =>
      let size_len := size_start.length - size_end.length
      if size_len = 0 then pure none
      else if 32 ≤ size_len then undefined_behaviour
      -- `atoi (arr_size) - 1` overflows an `int`
      else if atoi (size_start.take size_len) = -2147483648 then undefined_behaviour
      else do
        let arr_size := size_start.take size_len
        emit ("  type ".toList ++ arr_name ++ "_type is array (0 to ".toList
          ++ fmt_d (atoi arr_size - 1) ++ ") of ".toList
          ++ ctype_to_vhdl (decl.token.map Token.value) ++ ";\n".toList)
        emit ("  signal ".toList ++ arr_name ++ " : ".toList ++ arr_name ++ "_type;\n".toList)
        pure (some arr_name)

/-- The signal declarations of a declaration among the statements of a
function (parse.c 1047-1104). -/
def gen_local_signal (ctype_to_vhdl : Option CStr → CStr) (stmt_child : ASTNode) : G Unit := do
  let v ← deref stmt_child.value
  match strchr v '[' with
  | some arr_bracket => do
    match ← gen_array_signal ctype_to_vhdl stmt_child v arr_bracket with
    | none => pure ()
    | some arr_name =>
      match array_init_child stmt_child with
      | none => pure ()
      | some init_list => do
        emit_s "  -- Array initialization\n"
        emit ("  constant ".toList ++ arr_name ++ "_init : ".toList ++ arr_name
          ++ "_type := (".toList)
        -- the type keyword is read once per element
        (match init_list.children with
          | [] => pure ()
          | _ :: _ => do
            let type_text ← deref (stmt_child.token.map Token.value)
            gen_init_elements type_text init_list.children)
        emit_s ");\n"
        emit ("  signal ".toList ++ arr_name ++ " : ".toList ++ arr_name ++ "_type := ".toList
          ++ arr_name ++ "_init;\n".toList)
  | none =>
    if v = "result".toList then
      emit ("  signal internal_".toList ++ v ++ " : ".toList
        ++ ctype_to_vhdl (stmt_child.token.map Token.value) ++ ";\n".toList)
    else
      emit ("  signal ".toList ++ v ++ " : ".toList
        ++ ctype_to_vhdl (stmt_child.token.map Token.value) ++ ";\n".toList)

/-- The signal declaration of a declaration in a `for` header (parse.c
1107-1119). -/
def gen_for_header_signal (ctype_to_vhdl : Option CStr → CStr) (for_child : ASTNode) :
    G Unit :=
  if for_child.type = NODE_VAR_DECL then
    match for_child.value with
    | none => undefined_behaviour
    | some v =>
      match strchr v '[' with
      | some arr_br => do
        let _ ← gen_array_signal ctype_to_vhdl for_child v arr_br
        pure ()
      | none =>
        emit ("  signal ".toList ++ v ++ " : ".toList
          ++ ctype_to_vhdl (for_child.token.map Token.value) ++ ";\n".toList)
  else pure ()

/-- The declarations for one child of a statement (parse.c 1046-1120). -/
def gen_statement_signals (ctype_to_vhdl : Option CStr → CStr) (stmt_child : ASTNode) :
    G Unit := do
  if stmt_child.type = NODE_VAR_DECL then gen_local_signal ctype_to_vhdl stmt_child
  if stmt_child.type = NODE_FOR_STATEMENT then
    for_each (gen_for_header_signal ctype_to_vhdl) stmt_child.children

/-- The signal declarations of the architecture (parse.c 1042-1123). -/
def gen_signals (ctype_to_vhdl : Option CStr → CStr) (children : List ASTNode) : G Unit :=
  for_each (fun child =>
    if child.type = NODE_STATEMENT then
      for_each (gen_statement_signals ctype_to_vhdl) child.children
    else pure ()) children

/-- The declaration `variable gen : type;` of a tracked variable. -/
def variable_line (t : TrackedVar) : CStr :=
  "    variable ".toList ++ t.gen ++ " : ".toList ++ t.vhdl_type ++ ";\n".toList

/-- The copy-in line `gen := orig;` of a tracked variable. -/
def copy_in_line (t : TrackedVar) : CStr :=
  "      ".toList ++ t.gen ++ " := ".toList ++ t.orig ++ ";\n".toList

/-- The copy-out line `orig <= gen;` of a tracked variable. -/
def copy_out_line (t : TrackedVar) : CStr :=
  "      ".toList ++ t.orig ++ " <= ".toList ++ t.gen ++ ";\n".toList

/-- The declarations and statements of the architecture of a function
(parse.c 1041-1188); `g` is `generate_vhdl`. -/
def gen_architecture_body (ctype_to_vhdl : Option CStr → CStr) (g : ASTNode → G Unit)
    (node : ASTNode) : G Unit := do
  gen_signals ctype_to_vhdl node.children
  -- the calls are annotated in place, from `call_counter = 0`
  let children := (annotate_children node.children 0).1
  emit (declare_func_call_signals_list children)
  emit_s "begin\n"
  emit_func_call_instantiations_list g children
  let tracked := collect_tracked ctype_to_vhdl children
  set_globals { g_tracked_vars := tracked.1, g_tracking_active := true,
                g_in_clock_body := (← get_globals).g_in_clock_body }
  emit tracked.2
  emit_s "  process(clk, reset)\n"
  emit (tracked.1.map variable_line).flatten
  emit_s "  begin\n"
  emit_s "    if reset = '1' then\n"
  emit_s "      -- Reset logic\n"
  emit_s "    elsif rising_edge(clk) then\n"
  let st ← get_globals
  set_globals { st with g_in_clock_body := true }
  emit (tracked.1.map copy_in_line).flatten
  for_each (fun child => if child.type = NODE_STATEMENT then g child else pure ()) children
  let st ← get_globals
  emit (st.g_tracked_vars.map copy_out_line).flatten
  set_globals { g_tracked_vars := [], g_tracking_active := false, g_in_clock_body := false }
  emit_s "    end if;\n"
  emit_s "  end process;\n"

/-- The architecture of a function (parse.c 1039-1189); `g` is
`generate_vhdl`. -/
def gen_architecture (ctype_to_vhdl : Option CStr → CStr) (g : ASTNode → G Unit)
    (node : ASTNode) : G Unit := do
  let name ← deref node.value
  emit ("architecture behavioral of ".toList ++ name ++ " is\n".toList)
  gen_architecture_body ctype_to_vhdl g node
  emit_s "end architecture;\n\n"

/-! ## Statements and expressions of `generate_vhdl` (parse.c 1193-1739) -/

/-- The condition of an `if`, `elsif`, `while` or `for` (parse.c 1304-1324,
1375-1389, 1573-1596, 1603-1625); `spaced` selects the `( %s )` fallback of
the `for` case. -/
def gen_condition (g : ASTNode → G Unit) (cond : ASTNode) (spaced : Bool) : G Unit :=
  if cond.type = NODE_BINARY_EXPR then do
    let cop ← deref cond.value
    if is_bool_op cop then g cond
    else do
      emit_s "unsigned("
      g cond
      emit_s ") /= 0"
  else if cond.type = NODE_BINARY_OP then g cond
  else
    match cond.value with
    | some v =>
      if cond.type = NODE_EXPRESSION then emit ("unsigned(".toList ++ v ++ ") /= 0".toList)
      else if spaced then emit ("( ".toList ++ v ++ " )".toList)
      else emit ("(".toList ++ v ++ ")".toList)
    | none => if spaced then emit_s "( false )" else emit_s "(false)"

/-- An assignment `lhs = rhs` to a signal, as the `for` case emits its init
and increment (parse.c 1344-1351, 1400-1407). -/
def gen_signal_assignment (g : ASTNode → G Unit) (lhs rhs : ASTNode) : G Unit :=
  match lhs.value with
  | some v =>
    match strchr v '[' with
    | some lbr => do
      match ← decode_access v lbr with
      | some (arr_name, arr_idx) => do
        emit (arr_name ++ "(".toList ++ arr_idx ++ ") <= ".toList)
        g rhs
        emit_s ";\n"
      | none => pure ()
    | none => do
      emit (v ++ " <= ".toList)
      g rhs
      emit_s ";\n"
  | none => do
    emit_s "unknown <= "
    g rhs
    emit_s ";\n"

/-- The text for one child of a statement node (parse.c 1194-1298). -/
def gen_statement_child (g : ASTNode → G Unit) (child : ASTNode) : G Unit := do
  match child.type with
  | NODE_VAR_DECL =>
    let arr_bracket := match child.value with
      | some v => strchr v '['
      | none => none
    match child.children, arr_bracket with
    | init :: _, none => do
      let st ← get_globals
      let tracked_idx := match child.value with
        | some v => find_tracked st.g_tracking_active st.g_tracked_vars v
        | none => -1
      if tracked_idx ≥ 0 ∧ st.g_in_clock_body = true then
        match st.g_tracked_vars.get? tracked_idx.toNat with
        | some t => emit ("      ".toList ++ t.gen ++ " := ".toList)
        | none => undefined_behaviour
      else
        emit ("      ".toList ++ child.value.getD "unknown".toList ++ " <= ".toList)
      g init
      emit_s ";\n"
    | _, _ => pure ()
  | NODE_ASSIGNMENT =>
    match child.children with
    | [lhs, rhs] =>
      match lhs.value with
      | some v =>
        match strchr v '[' with
        | some lbr => do
          match ← decode_access v lbr with
          | some (arr_name, arr_idx) => do
            emit ("      ".toList ++ arr_name ++ "(".toList ++ arr_idx ++ ") <= ".toList)
            g rhs
            emit_s ";\n"
          | none => emit_s "      -- Invalid array index\n"
        | none => do
          let st ← get_globals
          let tracked_idx := find_tracked st.g_tracking_active st.g_tracked_vars v
          if tracked_idx ≥ 0 ∧ st.g_in_clock_body = true then
            match st.g_tracked_vars.get? tracked_idx.toNat with
            | some t => do
              emit ("      ".toList ++ t.gen ++ " := ".toList)
              g rhs
              emit_s ";\n"
            | none => undefined_behaviour
          else do
            emit ("      ".toList ++ v ++ " <= ".toList)
            g rhs
            emit_s ";\n"
      | none => do
        emit_s "      unknown <= "
        g rhs
        emit_s ";\n"
    | _ => pure ()
  | NODE_FUNC_CALL =>
    emit ("      -- function call ".toList ++ child.value.getD "unknown".toList
      ++ " executed\n".toList)
  | NODE_IF_STATEMENT => g child
  | NODE_WHILE_STATEMENT => g child
  | NODE_FOR_STATEMENT => g child
  | NODE_BREAK_STATEMENT => g child
  | NODE_CONTINUE_STATEMENT => g child
  | NODE_EXPRESSION => do
    emit_s "      result <= "
    (match child.value with
      | some v =>
        if v.head? = some '-' ∧ v.length > 1 then
          if second_is_name_start v then emit ("-unsigned(".toList ++ v.drop 1 ++ ")".toList)
          else emit ("to_signed(".toList ++ v ++ ", 32)".toList)
        else g child
      | none => g child)
    emit_s ";\n"
  | NODE_BINARY_EXPR => do
    emit_s "      result <= "
    g child
    emit_s ";\n"
  | NODE_BINARY_OP => do
    emit_s "      result <= "
    g child
    emit_s ";\n"
  | _ => pure ()

/-- The loop over the children with index above `cond_index` other than
`incr_index` in the `for` case (parse.c 1391-1394); `j` is the index of the
first node of the list. -/
def gen_for_body (g : ASTNode → G Unit) (cond_index incr_index : Int) :
    Nat → List ASTNode → G Unit
  | _, [] => pure ()
  | j, c :: rest => do
    if cond_index + 1 ≤ (j : Int) ∧ (j : Int) ≠ incr_index then g c
    gen_for_body g cond_index incr_index (j + 1) rest

/-- The `for` case of `generate_vhdl` (parse.c 1332-1412). -/
def gen_for (g : ASTNode → G Unit) (node : ASTNode) : G Unit :=
  match node.children with
  | [] => pure ()
  | first :: _ => do
    let cond_index : Nat ←
      (do
        if first.type = NODE_ASSIGNMENT then
          match first.children with
          | [lhs, rhs] => do
            emit_s "      "
            gen_signal_assignment g lhs rhs
            pure 1
          | _ => pure 0
        else if first.type = NODE_VAR_DECL then
          match first.children with
          | init :: _ => do
            emit ("      ".toList ++ first.value.getD "unknown".toList ++ " <= ".toList)
            g init
            emit_s ";\n"
            pure 1
          | [] => pure 1
        else pure 0)
    match node.children.get? cond_index with
    | none => pure ()
    | some cond => do
      let last_index : Nat := node.children.length - 1
      let incr : Option ASTNode :=
        match node.children.get? last_index with
        | some c => if c.type = NODE_ASSIGNMENT ∧ last_index ≠ cond_index then some c else none
        | none => none
      let incr_index : Int := match incr with
        | some _ => (last_index : Int)
        | none => -1
      emit_s "      while "
      gen_condition g cond true
      emit_s " loop\n"
      gen_for_body g cond_index incr_index 0 node.children
      (match incr with
        | some i =>
          match i.children with
          | [lhs, rhs] => do
            emit_s "        "
            gen_signal_assignment g lhs rhs
          | _ => pure ()
        | none => pure ())
      emit_s "      end loop;\n"

/-- An operand of a logical `&&` or `||` (parse.c 1437-1479). -/
def gen_logical_operand (g : ASTNode → G Unit) (operand : ASTNode) : G Unit :=
  let operand_is_bool := match operand.value with
    | some op => decide (operand.type = NODE_BINARY_EXPR) && is_bool_op op
    | none => false
  if operand_is_bool then do
    emit_s "("
    g operand
    emit_s ")"
  else do
    emit_s "unsigned("
    g operand
    emit_s ") /= 0"

/-- An operand of a comparison (parse.c 1489-1506, 1511-1526). -/
def gen_comparison_operand (is_negative_literal : Option CStr → Bool)
    (g : ASTNode → G Unit) (operand : ASTNode) : G Unit :=
  if operand.type = NODE_EXPRESSION then
    if is_negative_literal operand.value then do
      let v ← deref operand.value
      emit ("to_signed(".toList ++ v ++ ", 32)".toList)
    else do
      let v ← deref operand.value
      if is_num_text v then emit ("to_unsigned(".toList ++ v ++ ", 32)".toList)
      else emit ("unsigned(".toList ++ v ++ ")".toList)
  else do
    emit_s "unsigned("
    g operand
    emit_s ")"

/-- The binary expression case of `generate_vhdl` (parse.c 1422-1569). -/
def gen_binary_expr (is_negative_literal : Option CStr → Bool) (g : ASTNode → G Unit)
    (node : ASTNode) : G Unit := do
  let op0 ← deref node.value
  let op := if op0 = "==".toList then "=".toList
    else if op0 = "!=".toList then "/=".toList else op0
  match node.children with
  | left :: right :: _ =>
    if op = "&&".toList ∨ op = "||".toList then do
      emit_s "("
      gen_logical_operand g left
      emit_s (if op = "&&".toList then " and " else " or ")
      gen_logical_operand g right
      emit_s ")"
    else if op = "=".toList ∨ op = "/=".toList ∨ op = "<".toList ∨ op = "<=".toList
        ∨ op = ">".toList ∨ op = ">=".toList then do
      gen_comparison_operand is_negative_literal g left
      emit (" ".toList ++ op ++ " ".toList)
      gen_comparison_operand is_negative_literal g right
    else if op = "&".toList then do
      emit_s "unsigned("
      g left
      emit_s ") and unsigned("
      g right
      emit_s ")"
    else if op = "|".toList then do
      emit_s "unsigned("
      g left
      emit_s ") or unsigned("
      g right
      emit_s ")"
    else if op = "^".toList then do
      emit_s "unsigned("
      g left
      emit_s ") xor unsigned("
      g right
      emit_s ")"
    else if op = "<<".toList then do
      emit_s "shift_left(unsigned("
      g left
      emit_s "), to_integer(unsigned("
      g right
      emit_s ")))"
    else if op = ">>".toList then do
      emit_s "shift_right(unsigned("
      g left
      emit_s "), to_integer(unsigned("
      g right
      emit_s ")))"
    else do
      g left
      emit (" ".toList ++ op ++ " ".toList)
      g right
  | _ => undefined_behaviour

/-- One branch of an `if` node, a child after the condition (parse.c
1598-1637). -/
def gen_if_branch (g : ASTNode → G Unit) (branch : ASTNode) : G Unit :=
  if branch.type = NODE_ELSE_IF_STATEMENT then
    match branch.children with
    | elseif_cond :: body => do
      emit_s "      elsif "
      gen_condition g elseif_cond false
      emit_s " then\n"
      for_each g body
    | [] => undefined_behaviour
  else if branch.type = NODE_ELSE_STATEMENT then do
    emit_s "      else\n"
    for_each g branch.children
  else g branch

/-- The expression case of `generate_vhdl` (parse.c 1641-1680). -/
def gen_expression (is_negative_literal : Option CStr → Bool) (node : ASTNode) : G Unit :=
  match (match node.value with
    | some v => (strchr v '[').map (fun lbr => (v, lbr))
    | none => none) with
  | some (v, lbr) => do
    match ← decode_access v lbr with
    | some (arr_name, arr_idx) => emit (arr_name ++ "(".toList ++ arr_idx ++ ")".toList)
    | none => emit_s "-- Invalid array index"
  | none =>
    if is_negative_literal node.value then do
      let v ← deref node.value
      if second_is_name_start v then emit ("-unsigned(".toList ++ v.drop 1 ++ ")".toList)
      else emit ("to_signed(".toList ++ v ++ ", 32)".toList)
    else
      match node.value with
      | some v => do
        let st ← get_globals
        let idx := find_tracked st.g_tracking_active st.g_tracked_vars v
        if idx ≥ 0 ∧ st.g_in_clock_body = true then
          match st.g_tracked_vars.get? idx.toNat with
          | some t => emit t.gen
          | none => undefined_behaviour
        else emit v
      | none => emit_s "unknown"

/-- The call case of `generate_vhdl` (parse.c 1681-1695). -/
def gen_func_call (node : ASTNode) : G Unit :=
  match node.value with
  | some v =>
    match strchr v '#' with
    | some hash =>
      emit ("call_".toList ++ (decode_call v hash).1 ++ "_".toList
        ++ fmt_d (decode_call v hash).2 ++ "_res".toList)
    | none => emit (v ++ "_result".toList)
  | none => emit_s "unknown_call_res"

/-- The unary operator case of `generate_vhdl` (parse.c 1696-1734). -/
def gen_unary_op (g : ASTNode → G Unit) (node : ASTNode) : G Unit :=
  match node.value, node.children with
  | some v, [inner] =>
    if v = "!".toList then
      let inner_is_bool := match inner.value with
        | some iop =>
          (decide (inner.type = NODE_BINARY_EXPR) && is_bool_op iop) ||
          (decide (inner.type = NODE_BINARY_OP) && decide (iop = "!".toList))
        | none => false
      if inner_is_bool then do
        emit_s "not ("
        g inner
        emit_s ")"
      else do
        emit_s "(unsigned("
        g inner
        emit_s ") = 0)"
    else if v = "~".toList then do
      emit_s "not unsigned("
      g inner
      emit_s ")"
    else emit_s "-- unsupported unary op"
  | _, _ => emit_s "-- unsupported unary op"

/-- The function `generate_vhdl (node, output)` for a node that is not NULL. The recursion
budget bounds the depth of the calls; `ctype_to_vhdl` and
`is_negative_literal` are the external helpers. -/
def generate_vhdl (ctype_to_vhdl : Option CStr → CStr)
    (is_negative_literal : Option CStr → Bool) : Nat → ASTNode → G Unit
  | 0, _ => fun _ => .out_of_fuel
  | fuel + 1, node =>
    let g := generate_vhdl ctype_to_vhdl is_negative_literal fuel
    match node.type with
    | NODE_PROGRAM => do
      emit_s "-- VHDL generated by compi\n\n"
      emit_s "library IEEE;\n"
      emit_s "use IEEE.STD_LOGIC_1164.ALL;\n"
      emit_s "use IEEE.NUMERIC_STD.ALL;\n\n"
      for_each g node.children
    | NODE_FUNCTION_DECL => do
      gen_entity ctype_to_vhdl node
      gen_architecture ctype_to_vhdl g node
    | NODE_STATEMENT => for_each (gen_statement_child g) node.children
    | NODE_WHILE_STATEMENT =>
      match node.children with
      | cond :: body => do
        emit_s "      while "
        gen_condition g cond false
        emit_s " loop\n"
        for_each g body
        emit_s "      end loop;\n"
      | [] => undefined_behaviour
    | NODE_FOR_STATEMENT => gen_for g node
    | NODE_BREAK_STATEMENT => emit_s "      exit;\n"
    | NODE_CONTINUE_STATEMENT => emit_s "      next;\n"
    | NODE_BINARY_EXPR => gen_binary_expr is_negative_literal g node
    | NODE_IF_STATEMENT =>
      match node.children with
      | cond :: branches => do
        emit_s "      if "
        gen_condition g cond false
        emit_s " then\n"
        for_each (gen_if_branch g) branches
        emit_s "      end if;\n"
      | [] => undefined_behaviour
    | NODE_EXPRESSION => gen_expression is_negative_literal node
    | NODE_FUNC_CALL => gen_func_call node
    | NODE_BINARY_OP => gen_unary_op g node
    | _ => pure ()

/-- The globals of the generator before the first call. -/
def initial_globals : GenState :=
  { g_tracked_vars := [], g_tracking_active := false, g_in_clock_body := false }

/-! ## Example inputs -/

/-- A token of kind `t` and text `text` on line 1. -/
def tok (t : TokenType) (text : String) : Token := ⟨t, text.toList, 1⟩

/-- The tokens of `int f() { int x; int x; int x_v; int x_v; }`. -/
def shadow_tokens : List Token :=
  [tok TOKEN_KEYWORD "int", tok TOKEN_IDENTIFIER "f", tok TOKEN_PARENTHESIS_OPEN "(",
   tok TOKEN_PARENTHESIS_CLOSE ")", tok TOKEN_BRACE_OPEN "\x7b",
   tok TOKEN_KEYWORD "int", tok TOKEN_IDENTIFIER "x", tok TOKEN_SEMICOLON ";",
   tok TOKEN_KEYWORD "int", tok TOKEN_IDENTIFIER "x", tok TOKEN_SEMICOLON ";",
   tok TOKEN_KEYWORD "int", tok TOKEN_IDENTIFIER "x_v", tok TOKEN_SEMICOLON ";",
   tok TOKEN_KEYWORD "int", tok TOKEN_IDENTIFIER "x_v", tok TOKEN_SEMICOLON ";",
   tok TOKEN_BRACE_CLOSE "\x7d", tok TOKEN_EOF ""]

/-- The tracked variables of every function of a parsed program: original
name, ordinal and generated name. -/
def tracked_of_program (ctype_to_vhdl : Option CStr → CStr) :
    PResult ASTNode → List (List (CStr × Int × CStr))
  | .ok prog _ =>
    prog.children.map (fun f =>
      (collect_tracked ctype_to_vhdl f.children).1.map (fun t => (t.orig, t.ordinal, t.gen)))
  | _ => []

/-- A call node `name (args)`. -/
def call_node (name : String) (args : List ASTNode) : ASTNode :=
  .mk NODE_FUNC_CALL (some name.toList) none args

/-- The statement `r = f (g (1)) + f (2);` as the parser builds it. -/
def calls_statement : ASTNode :=
  .mk NODE_STATEMENT none none
    [.mk NODE_ASSIGNMENT none none
      [.mk NODE_EXPRESSION (some "r".toList) none [],
       .mk NODE_BINARY_EXPR (some "+".toList) none
        [call_node "f" [call_node "g" [.mk NODE_EXPRESSION (some "1".toList) none []]],
         call_node "f" [.mk NODE_EXPRESSION (some "2".toList) none []]]]]

/-- The keyword token `break` (for `true`) or `continue` (for `false`). -/
def loop_control_token (is_break : Bool) : Token :=
  tok TOKEN_KEYWORD (if is_break then "break" else "continue")

/-- The statement node of `break;` (for `true`) or `continue;` (for `false`):
a Statement node whose only child is the BreakStatement, respectively
ContinueStatement, node. -/
def loop_control_statement (is_break : Bool) : ASTNode :=
  .mk NODE_STATEMENT none none
    [.mk (if is_break then NODE_BREAK_STATEMENT else NODE_CONTINUE_STATEMENT) none none []]

/-- The tokens `body` inside `k` nested blocks `if (x) { ... }`. -/
def nested_ifs : Nat → List Token → List Token
  | 0, body => body
  | k + 1, body =>
    [tok TOKEN_KEYWORD "if", tok TOKEN_PARENTHESIS_OPEN "(", tok TOKEN_IDENTIFIER "x",
      tok TOKEN_PARENTHESIS_CLOSE ")", tok TOKEN_BRACE_OPEN "\x7b"]
      ++ nested_ifs k body ++ [tok TOKEN_BRACE_CLOSE "\x7d"]

/-- The statement `inner` inside `k` nested `if (x)` statements. -/
def nested_if_nodes : Nat → ASTNode → ASTNode
  | 0, inner => inner
  | k + 1, inner =>
    .mk NODE_STATEMENT none none
      [.mk NODE_IF_STATEMENT none none
        [.mk NODE_EXPRESSION (some "x".toList) none [], nested_if_nodes k inner]]

/-- The tokens `while (x) { body }`. -/
def while_tokens (body : List Token) : List Token :=
  [tok TOKEN_KEYWORD "while", tok TOKEN_PARENTHESIS_OPEN "(", tok TOKEN_IDENTIFIER "x",
    tok TOKEN_PARENTHESIS_CLOSE ")", tok TOKEN_BRACE_OPEN "\x7b"]
    ++ body ++ [tok TOKEN_BRACE_CLOSE "\x7d"]

/-- The tokens `for (;;) { body }`. -/
def for_tokens (body : List Token) : List Token :=
  [tok TOKEN_KEYWORD "for", tok TOKEN_PARENTHESIS_OPEN "(", tok TOKEN_SEMICOLON ";",
    tok TOKEN_SEMICOLON ";", tok TOKEN_PARENTHESIS_CLOSE ")", tok TOKEN_BRACE_OPEN "\x7b"]
    ++ body ++ [tok TOKEN_BRACE_CLOSE "\x7d"]

/-- The lookahead followed by the tokens not yet delivered. -/
def token_stream (s : PState) : List Token := s.current_token :: s.input

/-- A conventional precedence table, for the examples. -/
def example_precedence (op : CStr) : Int :=
  if op = "||".toList then -2
  else if op = "&&".toList then -1
  else if op = "|".toList then 0
  else if op = "^".toList then 1
  else if op = "&".toList then 2
  else if op = "==".toList ∨ op = "!=".toList then 3
  else if op = "<".toList ∨ op = "<=".toList ∨ op = ">".toList ∨ op = ">=".toList then 4
  else if op = "<<".toList ∨ op = ">>".toList then 5
  else if op = "+".toList ∨ op = "-".toList then 6
  else if op = "*".toList ∨ op = "/".toList ∨ op = "%".toList then 7
  else -3

/-- The parser at the first token of `tokens`, in a function whose array
table is `arrays`, at loop depth `depth`. -/
def state_on (tokens : List Token) (arrays : List ArrayInfo) (depth : Int) : PState :=
  { current_token := (next_token tokens).1, input := (next_token tokens).2,
    g_arrays := arrays, s_loop_depth := depth }

/-- A type mapping, for the examples: `int` is a 32 bit vector. -/
def example_ctype_to_vhdl (t : Option CStr) : CStr :=
  match t with
  | some v => if v = "int".toList then "std_logic_vector(31 downto 0)".toList else "real".toList
  | none => "std_logic_vector(31 downto 0)".toList

/-- A test for negative literals, for the examples: a leading `-` followed
by more text. -/
def example_is_negative_literal (v : Option CStr) : Bool :=
  match v with
  | some s => decide (s.head? = some '-') && decide (1 < s.length)
  | none => false

/-- The tokens of `int add(int a, int b) { return a + b; }`. -/
def add_tokens : List Token :=
  [tok TOKEN_KEYWORD "int", tok TOKEN_IDENTIFIER "add", tok TOKEN_PARENTHESIS_OPEN "(",
   tok TOKEN_KEYWORD "int", tok TOKEN_IDENTIFIER "a", tok TOKEN_COMMA ",",
   tok TOKEN_KEYWORD "int", tok TOKEN_IDENTIFIER "b", tok TOKEN_PARENTHESIS_CLOSE ")",
   tok TOKEN_BRACE_OPEN "\x7b", tok TOKEN_KEYWORD "return", tok TOKEN_IDENTIFIER "a",
   tok TOKEN_OPERATOR "+", tok TOKEN_IDENTIFIER "b", tok TOKEN_SEMICOLON ";",
   tok TOKEN_BRACE_CLOSE "\x7d", tok TOKEN_EOF ""]

/-- The function node of `int add(int a, int b) { return a + b; }`. -/
def add_function : ASTNode :=
  .mk NODE_FUNCTION_DECL (some "add".toList) (some (tok TOKEN_KEYWORD "int"))
    [.mk NODE_VAR_DECL (some "a".toList) (some (tok TOKEN_KEYWORD "int")) [],
     .mk NODE_VAR_DECL (some "b".toList) (some (tok TOKEN_KEYWORD "int")) [],
     .mk NODE_STATEMENT none (some (tok TOKEN_KEYWORD "return"))
      [.mk NODE_BINARY_EXPR (some "+".toList) none
        [.mk NODE_EXPRESSION (some "a".toList) none [],
         .mk NODE_EXPRESSION (some "b".toList) none []]]]

/-- The text generated for `int add(int a, int b) { return a + b; }` when the
mapped type of `int` is `T`. -/
def add_vhdl (T : CStr) : CStr :=
  "-- VHDL generated by compi\n\n".toList ++ ("library IEEE;\n".toList ++
  ("use IEEE.STD_LOGIC_1164.ALL;\n".toList ++ ("use IEEE.NUMERIC_STD.ALL;\n\n".toList ++
  ("-- Function: add\n".toList ++ ("entity add is\n".toList ++ ("  port (\n".toList ++
  ("    clk : in std_logic;\n".toList ++ ("    reset : in std_logic;\n".toList ++
  ("    a : in ".toList ++ (T ++ (";\n".toList ++
  ("    b : in ".toList ++ (T ++ (";\n".toList ++
  ("    result : out ".toList ++ (T ++ ("\n".toList ++
  ("  );\n".toList ++ ("end entity;\n\n".toList ++
  ("architecture behavioral of add is\n".toList ++ ("begin\n".toList ++
  ("  process(clk, reset)\n".toList ++ ("  begin\n".toList ++
  ("    if reset = '1' then\n".toList ++ ("      -- Reset logic\n".toList ++
  ("    elsif rising_edge(clk) then\n".toList ++
  ("      result <= a + b;\n".toList ++
  ("    end if;\n".toList ++ ("  end process;\n".toList ++
  "end architecture;\n\n".toList)))))))))))))))))))))))))))))

/-- The leaf node of the identifier or literal `text`. -/
def leaf (text : String) : ASTNode := .mk NODE_EXPRESSION (some text.toList) none []

/-- The binary expression node `left op right`. -/
def binary (op : String) (left right : ASTNode) : ASTNode :=
  .mk NODE_BINARY_EXPR (some op.toList) none [left, right]

/-- A keyword token. -/
def t_kw (text : String) : Token := tok TOKEN_KEYWORD text

/-- An identifier token. -/
def t_id (text : String) : Token := tok TOKEN_IDENTIFIER text

/-- A number token. -/
def t_num (text : String) : Token := tok TOKEN_NUMBER text

/-- An operator token. -/
def t_op (text : String) : Token := tok TOKEN_OPERATOR text

/-- The token `(`. -/
def t_lp : Token := tok TOKEN_PARENTHESIS_OPEN "("

/-- The token `)`. -/
def t_rp : Token := tok TOKEN_PARENTHESIS_CLOSE ")"

/-- The token that opens a block. -/
def t_lb : Token := tok TOKEN_BRACE_OPEN "\x7b"

/-- The token that closes a block. -/
def t_rb : Token := tok TOKEN_BRACE_CLOSE "\x7d"

/-- The token `;`. -/
def t_semi : Token := tok TOKEN_SEMICOLON ";"

/-- The token `,`. -/
def t_comma : Token := tok TOKEN_COMMA ","

/-- The end of file token. -/
def t_eof : Token := tok TOKEN_EOF ""

/-- The text written by a generating function, when it returns. -/
def text_of : GResult Unit → Option String
  | .ok _ _ out => some (String.mk out)
  | _ => none

/-- The tokens of `int f(int x) { if (~x) { return 1; } return 0; }`. -/
def not_condition_tokens : List Token :=
  [t_kw "int", t_id "f", t_lp, t_kw "int", t_id "x", t_rp, t_lb,
   t_kw "if", t_lp, t_op "~", t_id "x", t_rp, t_lb, t_kw "return", t_num "1", t_semi, t_rb,
   t_kw "return", t_num "0", t_semi, t_rb, t_eof]

/-- The assignment node `name = rhs`. -/
def assign (name : String) (rhs : ASTNode) : ASTNode :=
  .mk NODE_ASSIGNMENT none none [leaf name, rhs]

/-- The statement node around `children`. -/
def statement (children : List ASTNode) : ASTNode := .mk NODE_STATEMENT none none children

/-- The tokens of `for (int i = 0; i < n; i++) { sum = sum + i; }`. -/
def for_sum_tokens : List Token :=
  [t_kw "for", t_lp, t_kw "int", t_id "i", t_op "=", t_num "0", t_semi,
   t_id "i", t_op "<", t_id "n", t_semi, t_id "i", t_op "++", t_rp, t_lb,
   t_id "sum", t_op "=", t_id "sum", t_op "+", t_id "i", t_semi, t_rb]

/-- The For node of `for (int i = 0; i < n; i++) { sum = sum + i; }`: the
init declaration, the condition, the body statement and the increment. -/
def for_sum_node : ASTNode :=
  .mk NODE_FOR_STATEMENT none none
    (.mk NODE_VAR_DECL (some "i".toList) (some (t_kw "int")) [leaf "0"]
      :: binary "<" (leaf "i") (leaf "n")
      :: ([statement [assign "sum" (binary "+" (leaf "sum") (leaf "i"))]]
          ++ [assign "i" (binary "+" (leaf "i") (leaf "1"))]))

/-- The tokens of `int f(int n) { int i; for (i = 0; i < n; i++) { } return i; }`. -/
def for_tracked_tokens : List Token :=
  [t_kw "int", t_id "f", t_lp, t_kw "int", t_id "n", t_rp, t_lb,
   t_kw "int", t_id "i", t_semi,
   t_kw "for", t_lp, t_id "i", t_op "=", t_num "0", t_semi,
   t_id "i", t_op "<", t_id "n", t_semi, t_id "i", t_op "++", t_rp, t_lb, t_rb,
   t_kw "return", t_id "i", t_semi, t_rb, t_eof]

/-- The text generated from the program parsed from `tokens`, with the
example helpers; `none` when the parser or the generator does not return. -/
def translate (fuel : Nat) (tokens : List Token) : Option String :=
  match parse_program example_precedence fuel (initial_state tokens) with
  | .ok program _ =>
    text_of (generate_vhdl example_ctype_to_vhdl example_is_negative_literal fuel program
      initial_globals)
  | _ => none

/-- The tokens of `for (i = 0; ; i++) { }`. -/
def for_no_condition_tokens : List Token :=
  [t_kw "for", t_lp, t_id "i", t_op "=", t_num "0", t_semi, t_semi,
   t_id "i", t_op "++", t_rp, t_lb, t_rb]

/-- The tokens of `for (;;) { }`. -/
def for_empty_header_tokens : List Token :=
  [t_kw "for", t_lp, t_semi, t_semi, t_rp, t_lb, t_rb]

/-- The tokens of `int f(int) { return 0; }`. -/
def unnamed_parameter_tokens : List Token :=
  [t_kw "int", t_id "f", t_lp, t_kw "int", t_rp, t_lb, t_kw "return", t_num "0", t_semi,
   t_rb, t_eof]

/-- The tokens of `for (int i = 0; ; i++) { }`. -/
def for_decl_no_condition_tokens : List Token :=
  [t_kw "for", t_lp, t_kw "int", t_id "i", t_op "=", t_num "0", t_semi, t_semi,
   t_id "i", t_op "++", t_rp, t_lb, t_rb]

/-- The tokens of `for (;; ++i) { }`. -/
def for_only_prefix_increment_tokens : List Token :=
  [t_kw "for", t_lp, t_semi, t_semi, t_op "++", t_id "i", t_rp, t_lb, t_rb]

/-- The tokens of `for (;; i += 1) { }`. -/
def for_only_compound_increment_tokens : List Token :=
  [t_kw "for", t_lp, t_semi, t_semi, t_id "i", t_op "+=", t_num "1", t_rp, t_lb, t_rb]

/-- The tokens of `int g; int add(int a, int b) { return a + b; } int h = 1;
int two() { return 2; }`. -/
def top_level_tokens : List Token :=
  [t_kw "int", t_id "g", t_semi,
   t_kw "int", t_id "add", t_lp, t_kw "int", t_id "a", t_comma, t_kw "int", t_id "b", t_rp,
   t_lb, t_kw "return", t_id "a", t_op "+", t_id "b", t_semi, t_rb,
   t_kw "int", t_id "h", t_op "=", t_num "1", t_semi,
   t_kw "int", t_id "two", t_lp, t_rp, t_lb, t_kw "return", t_num "2", t_semi, t_rb, t_eof]

/-- The function node of `int two() { return 2; }`. -/
def two_function : ASTNode :=
  .mk NODE_FUNCTION_DECL (some "two".toList) (some (t_kw "int"))
    [.mk NODE_STATEMENT none (some (t_kw "return")) [leaf "2"]]

/-- The tokens of `return f() { }`. -/
def return_function_tokens : List Token :=
  [t_kw "return", t_id "f", t_lp, t_rp, t_lb, t_rb, t_eof]

/-- The parser after the last token of a stream that ends with the end of
file token. -/
def state_at_end : PState :=
  { current_token := t_eof, input := [], g_arrays := [], s_loop_depth := 0 }

/-- The tokens of `int f(int a) { int x = a; int y = -x; if (x < 3) { y = x; }
if (x) { y = 1; } return -x; }`. -/
def tracked_reads_tokens : List Token :=
  [t_kw "int", t_id "f", t_lp, t_kw "int", t_id "a", t_rp, t_lb,
   t_kw "int", t_id "x", t_op "=", t_id "a", t_semi,
   t_kw "int", t_id "y", t_op "=", t_op "-", t_id "x", t_semi,
   t_kw "if", t_lp, t_id "x", t_op "<", t_num "3", t_rp, t_lb,
   t_id "y", t_op "=", t_id "x", t_semi, t_rb,
   t_kw "if", t_lp, t_id "x", t_rp, t_lb, t_id "y", t_op "=", t_num "1", t_semi, t_rb,
   t_kw "return", t_op "-", t_id "x", t_semi, t_rb, t_eof]

/-- The tokens of `int g(int x) { int y = f(h(x)); if (f(x)) { y = 1; }
return f(y); }`. -/
def call_uses_tokens : List Token :=
  [t_kw "int", t_id "g", t_lp, t_kw "int", t_id "x", t_rp, t_lb,
   t_kw "int", t_id "y", t_op "=", t_id "f", t_lp, t_id "h", t_lp, t_id "x", t_rp, t_rp, t_semi,
   t_kw "if", t_lp, t_id "f", t_lp, t_id "x", t_rp, t_rp, t_lb,
   t_id "y", t_op "=", t_num "1", t_semi, t_rb,
   t_kw "return", t_id "f", t_lp, t_id "y", t_rp, t_semi, t_rb, t_eof]

/-- The text generated for a function `int f(int n)`, with the example type
mapping, around its signal declarations, its process variable declarations
and the statements of its clocked branch. -/
def unary_function_text (signals process_vars statements : String) : String :=
  "-- VHDL generated by compi\n\n" ++
  "library IEEE;\n" ++
  "use IEEE.STD_LOGIC_1164.ALL;\n" ++
  "use IEEE.NUMERIC_STD.ALL;\n\n" ++
  "-- Function: f\n" ++
  "entity f is\n" ++
  "  port (\n" ++
  "    clk : in std_logic;\n" ++
  "    reset : in std_logic;\n" ++
  "    n : in std_logic_vector(31 downto 0);\n" ++
  "    result : out std_logic_vector(31 downto 0)\n" ++
  "  );\n" ++
  "end entity;\n\n" ++
  "architecture behavioral of f is\n" ++
  signals ++
  "begin\n" ++
  "  process(clk, reset)\n" ++
  process_vars ++
  "  begin\n" ++
  "    if reset = '1' then\n" ++
  "      -- Reset logic\n" ++
  "    elsif rising_edge(clk) then\n" ++
  statements ++
  "    end if;\n" ++
  "  end process;\n" ++
  "end architecture;\n\n"

/-- The tokens of `int f(int n) { ... return n; }` around the tokens of the
statements before the `return`. -/
def unary_function_tokens (statements : List Token) : List Token :=
  [t_kw "int", t_id "f", t_lp, t_kw "int", t_id "n", t_rp, t_lb] ++ statements ++
    [t_kw "return", t_id "n", t_semi, t_rb, t_eof]

/-- The tokens of `while (n < 3) { int j = 0; n = j; }`. -/
def while_declaration_tokens : List Token :=
  [t_kw "while", t_lp, t_id "n", t_op "<", t_num "3", t_rp, t_lb,
   t_kw "int", t_id "j", t_op "=", t_num "0", t_semi,
   t_id "n", t_op "=", t_id "j", t_semi, t_rb]

/-- The tokens of `for (int k = 0; k < n; k++) { int m = k; }`. -/
def for_declaration_tokens : List Token :=
  [t_kw "for", t_lp, t_kw "int", t_id "k", t_op "=", t_num "0", t_semi,
   t_id "k", t_op "<", t_id "n", t_semi, t_id "k", t_op "++", t_rp, t_lb,
   t_kw "int", t_id "m", t_op "=", t_id "k", t_semi, t_rb]

/-- The tokens of `if (n) { int p = 1; }`. -/
def if_declaration_tokens : List Token :=
  [t_kw "if", t_lp, t_id "n", t_rp, t_lb, t_kw "int", t_id "p", t_op "=", t_num "1", t_semi, t_rb]

/-- The tokens of `int q = n;`. -/
def top_declaration_tokens : List Token :=
  [t_kw "int", t_id "q", t_op "=", t_id "n", t_semi]

/-- The tokens of `int x = 1 y = 2;`. -/
def unterminated_declaration_tokens : List Token :=
  [t_kw "int", t_id "x", t_op "=", t_num "1", t_id "y", t_op "=", t_num "2", t_semi]

/-- The tokens of `name;` with `name` an identifier token. -/
def identifier_statement_tokens (name : String) : List Token := [t_id name, t_semi]

/-- The node of the logical negation `!inner`. -/
def logical_not (inner : ASTNode) : ASTNode := .mk NODE_BINARY_OP (some "!".toList) none [inner]

/-- The scalar declaration `T name;` as a statement of a function body. -/
def declaration_statement (type_name name : String) : ASTNode :=
  statement [.mk NODE_VAR_DECL (some name.toList) (some (t_kw type_name)) []]

/-- The statements of `int x; int a[3]; int result; float x; int y;`. -/
def shadowed_declarations : List ASTNode :=
  [declaration_statement "int" "x", declaration_statement "int" "a[3]",
   declaration_statement "int" "result", declaration_statement "float" "x",
   declaration_statement "int" "y"]

/-- The tokens of `a op1 b op2 c;` for identifiers `a`, `b`, `c`. -/
def three_operand_tokens (op1 op2 : String) : List Token :=
  [t_id "a", t_op op1, t_id "b", t_op op2, t_id "c", t_semi]
/-! ## Auxiliary definitions of the proofs -/

/-- The part of a node the annotator reads and writes, with its shape. -/
abbrev NodeHead := NodeType × Option CStr × Option Token × Nat

/-- The head of a node. -/
def node_head (n : ASTNode) : NodeHead := (n.type, n.value, n.token, n.children.length)

/-- The annotator on the pre-order list of node heads. -/
def relabel : List NodeHead → Int → List NodeHead × Int
  | [], c => ([], c)
  | (t, v, k, a) :: rest, c =>
    let r := annotate_value t v c
    let rs := relabel rest r.2
    ((t, r.1, k, a) :: rs.1, rs.2)

/-- The node head is that of a call. -/
def head_is_call (h : NodeHead) : Bool := decide (h.1 = NODE_FUNC_CALL)

/-- Every call value of the forest carries a `#`. -/
def Annotated (l : List ASTNode) : Prop :=
  ∀ n ∈ preorder_list l, n.type = NODE_FUNC_CALL → ∀ s, n.value = some s → strchr s '#' ≠ none


/-- The lookahead and the next tokens of the state are the array declaration
`T a [ n ] ;` with a type keyword `T` and the decimal literal `n`, followed by
`rest`. -/
def AtArrayDeclaration (s : PState) (T : Token) (a : CStr) (n : Nat) (rest : List Token) :
    Prop :=
  s.current_token = T ∧ T.type = TOKEN_KEYWORD ∧
  (T.value = "int".toList ∨ T.value = "float".toList ∨ T.value = "char".toList ∨
    T.value = "double".toList) ∧
  ∃ t1 t2 t3 t4 t5 : Token, s.input = t1 :: t2 :: t3 :: t4 :: t5 :: rest ∧
    t1.type = TOKEN_IDENTIFIER ∧ t1.value = a ∧ t2.type = TOKEN_BRACKET_OPEN ∧
    t3.type = TOKEN_NUMBER ∧ t3.value = fmt_u n ∧ t4.type = TOKEN_BRACKET_CLOSE ∧
    t5.type = TOKEN_SEMICOLON

/-- The state after the lexer has delivered the tokens before `rest`. -/
def state_at (s : PState) (rest : List Token) : PState :=
  { s with current_token := (next_token rest).1, input := (next_token rest).2 }

/-- The diagnostic of the static bounds check. -/
def bounds_message : String := "Array index %d out of bounds for '%s' with size %d"

/-- The captured index text of the array access at the lookahead. -/
def captured_index (s : PState) : CStr :=
  (capture_index (advance_state (advance_state s)).current_token
    (advance_state (advance_state s)).input [] 0).1


mutual
/-- Height of a tree. -/
def height : ASTNode → Nat
  | .mk _ _ _ cs => height_list cs + 1
/-- Largest height in a list of trees. -/
def height_list : List ASTNode → Nat
  | [] => 0
  | n :: rest => max (height n) (height_list rest)
end

/-- The generating function never runs out of recursion budget. -/
structure NoFuelOut {α : Type} (m : G α) : Prop where
  never : ∀ st, m st ≠ .out_of_fuel


/-- The port line of a parameter: its name, `in`, and the externally mapped
type. -/
def param_port_line (ctype_to_vhdl : Option CStr → CStr) (c : ASTNode) : CStr :=
  "    ".toList ++ c.value.getD [] ++ " : in ".toList
    ++ ctype_to_vhdl (c.token.map Token.value) ++ ";\n".toList

/-- The parameter children of a function node, in declaration order. -/
def param_children (node : ASTNode) : List ASTNode :=
  node.children.filter (fun c => decide (c.type = NODE_VAR_DECL))

/-- The entries of the port list of a function: `clk`, `reset`, one `in`
port per parameter in declaration order, and the `result` `out` port. -/
def port_lines (ctype_to_vhdl : Option CStr → CStr) (node : ASTNode) : List CStr :=
  ["    clk : in std_logic;\n".toList, "    reset : in std_logic;\n".toList]
    ++ (param_children node).map (param_port_line ctype_to_vhdl)
    ++ ["    result : out ".toList ++ result_vhdl_type ctype_to_vhdl node ++ "\n".toList]

/-- The block `entity <name> is ... end entity;` with the port list. -/
def entity_block (ctype_to_vhdl : Option CStr → CStr) (node : ASTNode) (name : CStr) : CStr :=
  "entity ".toList ++ name ++ " is\n".toList ++ "  port (\n".toList
    ++ (port_lines ctype_to_vhdl node).flatten ++ "  );\n".toList ++ "end entity;\n\n".toList

/-- The block `architecture behavioral of <name> is ... end architecture;`
around the text `body`. -/
def architecture_block (name body : CStr) : CStr :=
  "architecture behavioral of ".toList ++ name ++ " is\n".toList ++ body
    ++ "end architecture;\n\n".toList

/-- The result of a generating function with its text replaced. -/
def map_text (f : CStr → CStr) : GResult Unit → GResult Unit
  | .ok a st out => .ok a st (f out)
  | .undefined => .undefined
  | .out_of_fuel => .out_of_fuel

/-- The state after the loop that skips a global declaration (parse.c
165-168): the lookahead moves to the next `;` or to the end of file, and past
the `;`. -/
def after_semicolon (s : PState) : PState :=
  let r := skip_until (fun t => decide (t = TOKEN_SEMICOLON)) s.current_token s.input
  let s1 := { s with current_token := r.1, input := r.2 }
  if s1.current_token.type = TOKEN_SEMICOLON then advance_state s1 else s1

/-- The node is a binary expression with a comparison or logical operator. -/
def is_boolean_binary (n : ASTNode) : Bool :=
  decide (n.type = NODE_BINARY_EXPR) &&
    (decide (n.value = some "==".toList) || decide (n.value = some "!=".toList) ||
     decide (n.value = some "<".toList) || decide (n.value = some "<=".toList) ||
     decide (n.value = some ">".toList) || decide (n.value = some ">=".toList) ||
     decide (n.value = some "&&".toList) || decide (n.value = some "||".toList))

/-- The text of an operand of `&&` or `||` whose lowering is `text`: in
parentheses for a comparison or logical expression, inside
`unsigned(...) /= 0` for any other operand. -/
def logical_operand_text (operand : ASTNode) (text : CStr) : CStr :=
  if is_boolean_binary operand then "(".toList ++ text ++ ")".toList
  else "unsigned(".toList ++ text ++ ") /= 0".toList

/-- The number of tokens that a lookahead and the tokens not yet delivered
still offer: the lookahead, unless it is the end of file, and the rest. -/
def tokens_left (cur : Token) (input : List Token) : Nat :=
  input.length + (if cur.type = TOKEN_EOF then 0 else 1)

/-- The number of tokens the parser can still consume. -/
def remaining (s : PState) : Nat := tokens_left s.current_token s.input

/-- From the state `s` the parsing function returns or stops with a fatal
error, within its recursion budget, and when it returns at most `n` tokens
remain. -/
def Within {α : Type} (m : P α) (s : PState) (n : Nat) : Prop :=
  match m s with
  | .ok _ s1 => remaining s1 ≤ n
  | .fatal _ _ => True
  | .out_of_fuel => False

/-- From every state whose lookahead kind satisfies `pre` and that has at
most `k` tokens left, the parsing function returns or stops with a fatal
error, within its recursion budget, and when it returns at most `n` tokens
remain. -/
def Runs {α : Type} (pre : TokenType → Prop) (m : P α) (k n : Nat) : Prop :=
  ∀ s, pre s.current_token.type → remaining s ≤ k → Within m s n

/-- No knowledge about the lookahead. -/
@[reducible] def any_token : TokenType → Prop := fun _ => True

/-- Every result that the parsing function `m` returns satisfies `Q`. -/
def Ensures {α : Type} (m : P α) (Q : α → Prop) : Prop :=
  ∀ s, match m s with
    | .ok a _ => Q a
    | _ => True

/-- The node `b` has the kind, the value and the token of the node `a`. -/
def same_header (a b : ASTNode) : Prop :=
  b.type = a.type ∧ b.value = a.value ∧ b.token = a.token

/-- A FunctionDecl node that carries a keyword token as return type and the
text of an identifier token as name. -/
def is_function_decl (c : ASTNode) : Prop :=
  c.type = NODE_FUNCTION_DECL ∧
    ∃ K I : Token, K.type = TOKEN_KEYWORD ∧ I.type = TOKEN_IDENTIFIER ∧
      c.token = some K ∧ c.value = some I.value

/-- A scalar declaration as the specification words it: a VarDecl node whose
value has no `[` and is not `result`. -/
def is_scalar_declaration (st : ASTNode) : Bool :=
  decide (st.type = NODE_VAR_DECL) &&
    match st.value with
    | some v => (strchr v '[').isNone && !decide (v = "result".toList)
    | none => false

/-- The scalar declarations among the top-level statements of a function,
in declaration order: the children of the Statement children of the function
node that are scalar declarations. -/
def top_level_declarations (children : List ASTNode) : List ASTNode :=
  (((children.filter (fun c => decide (c.type = NODE_STATEMENT))).map
    ASTNode.children).flatten).filter is_scalar_declaration

/-- The tracked entry the specification gives to the declaration `st` that
comes after the declarations `earlier`: its ordinal is the number of earlier
declarations of the same name, its generated name is `build_gen_name` of the
name and the ordinal in the 64 byte buffer of the entry. -/
def tracked_entry (ctype_to_vhdl : Option CStr → CStr) (earlier : List ASTNode)
    (st : ASTNode) : TrackedVar :=
  let ord : Int := ((earlier.filter (fun e => decide (e.value = st.value))).length : Nat)
  { orig := st.value.getD [], ordinal := ord,
    vhdl_type := ctype_to_vhdl (st.token.map Token.value),
    gen := build_gen_name (st.value.getD []) ord [] 64 }

/-- The tracked entries of the declarations `decls` that come after the
declarations `earlier`. -/
def tracked_entries (ctype_to_vhdl : Option CStr → CStr) :
    List ASTNode → List ASTNode → List TrackedVar
  | _, [] => []
  | earlier, st :: rest =>
    tracked_entry ctype_to_vhdl earlier st
      :: tracked_entries ctype_to_vhdl (earlier ++ [st]) rest

/-- The node `parse_primary` builds for a unary minus applied to the operand
`inner` (parse.c 826-843): an Expression node with value `-` + value through
`buf[128]` when the operand is an Expression node with a value, else the
subtraction `0 - inner`. -/
def negate (inner : ASTNode) : ASTNode :=
  match inner.value with
  | some v =>
    if inner.type = NODE_EXPRESSION then
      .mk NODE_EXPRESSION (some (snprintf 128 ('-' :: v))) none []
    else .mk NODE_BINARY_EXPR (some ['-']) none [leaf "0", inner]
  | none => .mk NODE_BINARY_EXPR (some ['-']) none [leaf "0", inner]

/-- The tokens of `-` followed by a number of 127 digits `1`. -/
def long_negation_tokens : List Token :=
  [t_op "-", ⟨TOKEN_NUMBER, List.replicate 127 '1', 1⟩, t_semi]

/-- The tokens of `-(-x)`. -/
def double_negation_tokens (x : CStr) : List Token :=
  [t_op "-", t_lp, t_op "-", ⟨TOKEN_IDENTIFIER, x, 1⟩, t_rp, t_semi]

mutual
/-- The in-order reading of an expression tree: the reading of the first
child, then for each further child the value of the node and the reading of
that child; a node without children reads as its value. -/
def inorder : ASTNode → List CStr
  | .mk _ v _ [] => [v.getD []]
  | .mk _ v _ (c :: rest) => inorder c ++ inorder_rest (v.getD []) rest
/-- The in-order reading of the children after the first. -/
def inorder_rest (op : CStr) : List ASTNode → List CStr
  | [] => []
  | c :: rest => op :: (inorder c ++ inorder_rest op rest)
end

/-- The init clause of the `for` case of `parse_statement` (parse.c 627-669):
nothing in front of a `;`, the first child of a declaration statement, or an
assignment `identifier = expression;`. -/
def parse_for_init (get_precedence : CStr → Int) (fuel : Nat) : P (Option ASTNode) := do
  if ← match_token TOKEN_SEMICOLON then pure none
  else if ← match_type_keyword then
    let init_stmt ← parse_statement get_precedence fuel
    pure (for_init_of_statement init_stmt)
  else parse_for_init_assignment get_precedence fuel

/-- The condition clause of the `for` case of `parse_statement` (parse.c
672-676). -/
def parse_for_condition (get_precedence : CStr → Int) (fuel : Nat) : P (Option ASTNode) := do
  if ← match_token TOKEN_SEMICOLON then pure none
  else parse_expression get_precedence fuel

/-- The `for` case of `parse_statement` (parse.c 620-749), entered with the
keyword `for` as lookahead. -/
def parse_for (get_precedence : CStr → Int) (fuel : Nat) (stmt_node : ASTNode) : P ASTNode := do
  advance
  if ← consume TOKEN_PARENTHESIS_OPEN then
    let init_node ← parse_for_init get_precedence fuel
    if ← match_token TOKEN_SEMICOLON then advance
    let cond_expr ← parse_for_condition get_precedence fuel
    if ← consume TOKEN_SEMICOLON then
      let incr_expr ← parse_for_increment get_precedence fuel
      if ← consume TOKEN_PARENTHESIS_CLOSE then
        if ← consume TOKEN_BRACE_OPEN then
          let for_node := add_child_opt (create_node NODE_FOR_STATEMENT) init_node
          let for_node := match cond_expr with
            | some c => add_child for_node c
            | none => add_child for_node (set_value (create_node NODE_EXPRESSION) ['1'])
          add_loop_depth 1
          let for_node ← parse_body get_precedence fuel for_node
          add_loop_depth (-1)
          if ← consume TOKEN_BRACE_CLOSE then
            pure (add_child stmt_node (add_child_opt for_node incr_expr))
          else fatal "Expected '\x7d' after for body"
        else fatal "Expected '\x7b' after for header"
      else fatal "Expected ')' after for header"
    else fatal "Expected ';' after for condition"
  else fatal "Expected '(' after 'for'"

/-- The For node the specification describes: the init clause if present,
the condition (the constant `1` when there is none), the body statements in
source order, and the increment last. -/
def for_node_of (init cond incr : Option ASTNode) (body : List ASTNode) : ASTNode :=
  .mk NODE_FOR_STATEMENT none none
    (init.toList ++ [cond.getD (leaf "1")] ++ body ++ incr.toList)

/-- The node `node` with the children `extra` added after its own. -/
def with_children (node : ASTNode) (extra : List ASTNode) : ASTNode :=
  .mk node.type node.value node.token (node.children ++ extra)

/-- The state after the separator of the init clause (parse.c 670): a `;`
in front is consumed. -/
def after_separator (s : PState) : PState :=
  if s.current_token.type = TOKEN_SEMICOLON then advance_state s else s

/-- The state with `s_loop_depth` changed by `d`. -/
def at_depth (s : PState) (d : Int) : PState := { s with s_loop_depth := s.s_loop_depth + d }

/-! ## Definitions for the process, the array accesses and the loop depth -/

/-- The token `[`. -/
def t_lk : Token := tok TOKEN_BRACKET_OPEN "["

/-- The token `]`. -/
def t_rk : Token := tok TOKEN_BRACKET_CLOSE "]"

/-- The tokens of `int f(int n) { int a[2] = {1, 2}; return n; }`. -/
def initialised_array_tokens : List Token :=
  unary_function_tokens
    [t_kw "int", t_id "a", t_lk, t_num "2", t_rk, t_op "=", t_lb, t_num "1", t_comma,
     t_num "2", t_rb, t_semi]

/-- The tokens of `if () { x = 1; }`. -/
def empty_if_tokens : List Token :=
  [t_kw "if", t_lp, t_rp, t_lb, t_id "x", t_op "=", t_num "1", t_semi, t_rb]

/-- The tokens of `while () { }`. -/
def empty_while_tokens : List Token := [t_kw "while", t_lp, t_rp, t_lb, t_rb]

/-- The tokens of `if (a) { } else if () { x = 1; }`. -/
def empty_else_if_tokens : List Token :=
  [t_kw "if", t_lp, t_id "a", t_rp, t_lb, t_rb, t_kw "else", t_kw "if", t_lp, t_rp, t_lb,
   t_id "x", t_op "=", t_num "1", t_semi, t_rb]

/-- The tokens of `int f(int n) { int x; int x; x = n; if (x < 3) { x = x + 1; }
return n; }`. -/
def redeclared_tokens : List Token :=
  unary_function_tokens
    [t_kw "int", t_id "x", t_semi, t_kw "int", t_id "x", t_semi,
     t_id "x", t_op "=", t_id "n", t_semi,
     t_kw "if", t_lp, t_id "x", t_op "<", t_num "3", t_rp, t_lb,
     t_id "x", t_op "=", t_id "x", t_op "+", t_num "1", t_semi, t_rb]

/-- The operators that the binary expression case of `generate_vhdl` lowers
in a way of their own (parse.c 1424-1561): the comparisons (`==` and `!=` are
first mapped to `=` and `/=`), the logical `&&` and `||`, the bitwise `&`, `|`,
`^` and the shifts. Every other operator takes the arithmetic branch. -/
def special_operators : List CStr :=
  ["==", "!=", "=", "/=", "<", "<=", ">", ">=", "&&", "||", "&", "|", "^", "<<", ">>"].map
    String.toList

/-- The tokens of `(a + b) * c;`. -/
def grouped_sum_tokens : List Token :=
  [t_lp, t_id "a", t_op "+", t_id "b", t_rp, t_op "*", t_id "c", t_semi]

/-- The tokens of `int g(int x) { return ...; }` around the tokens of the
returned expression. -/
def return_tokens (expression : List Token) : List Token :=
  [t_kw "int", t_id "g", t_lp, t_kw "int", t_id "x", t_rp, t_lb, t_kw "return"] ++ expression ++
    [t_semi, t_rb, t_eof]

/-- The text generated for `int g(int x) { return ...; }` around the
declarations and the lowered statement. -/
def return_text (declarations statements : String) : String :=
  "-- VHDL generated by compi\n\n" ++
  "library IEEE;\n" ++
  "use IEEE.STD_LOGIC_1164.ALL;\n" ++
  "use IEEE.NUMERIC_STD.ALL;\n\n" ++
  "-- Function: g\n" ++
  "entity g is\n" ++
  "  port (\n" ++
  "    clk : in std_logic;\n" ++
  "    reset : in std_logic;\n" ++
  "    x : in std_logic_vector(31 downto 0);\n" ++
  "    result : out std_logic_vector(31 downto 0)\n" ++
  "  );\n" ++
  "end entity;\n\n" ++
  "architecture behavioral of g is\n" ++
  declarations ++
  "  process(clk, reset)\n" ++
  "  begin\n" ++
  "    if reset = '1' then\n" ++
  "      -- Reset logic\n" ++
  "    elsif rising_edge(clk) then\n" ++
  statements ++
  "    end if;\n" ++
  "  end process;\n" ++
  "end architecture;\n\n"

/-- The text that the statement case emits for a leaf child with value `v`
whose own lowering is `text` (parse.c 1272-1291). -/
def returned_leaf_text (v : Option CStr) (text : CStr) : CStr :=
  match v with
  | some w =>
    if w.head? = some '-' ∧ w.length > 1 then
      if second_is_name_start w then "-unsigned(".toList ++ w.drop 1 ++ ")".toList
      else "to_signed(".toList ++ w ++ ", 32)".toList
    else text
  | none => text

/-- Whether the parser returned. -/
def returned {α : Type} : PResult α → Bool
  | .ok _ _ => true
  | _ => false

/-- The tokens of `int f() { int a[3]; } int g() { a[7] = 1; return a[9]; }`. -/
def other_function_array_tokens : List Token :=
  [t_kw "int", t_id "f", t_lp, t_rp, t_lb,
   t_kw "int", t_id "a", t_lk, t_num "3", t_rk, t_semi, t_rb,
   t_kw "int", t_id "g", t_lp, t_rp, t_lb,
   t_id "a", t_lk, t_num "7", t_rk, t_op "=", t_num "1", t_semi,
   t_kw "return", t_id "a", t_lk, t_num "9", t_rk, t_semi, t_rb, t_eof]

/-- The tokens of `int f() { int a[0]; a[5] = 1; return a[2000000000]; }`. -/
def empty_array_tokens : List Token :=
  [t_kw "int", t_id "f", t_lp, t_rp, t_lb,
   t_kw "int", t_id "a", t_lk, t_num "0", t_rk, t_semi,
   t_id "a", t_lk, t_num "5", t_rk, t_op "=", t_num "1", t_semi,
   t_kw "return", t_id "a", t_lk, t_num "2000000000", t_rk, t_semi, t_rb, t_eof]

/-- The tokens of `int f() { int a[3]; a[7] = 1; }`. -/
def same_function_array_tokens : List Token :=
  [t_kw "int", t_id "f", t_lp, t_rp, t_lb,
   t_kw "int", t_id "a", t_lk, t_num "3", t_rk, t_semi,
   t_id "a", t_lk, t_num "7", t_rk, t_op "=", t_num "1", t_semi, t_rb, t_eof]

/-- The generating function leaves the tracker globals as it found them when
it returns. -/
structure KeepsGlobals {α : Type} (m : G α) : Prop where
  keeps : ∀ st a st1 out, m st = .ok a st1 out → st1 = st

/-- The declarations of the architecture of a function and its concurrent
part, up to the process (parse.c 1041-1165): the signals of the locals, the
result signals of the calls, `begin`, the instantiations of the calls, and
the notes of the tracker. -/
def gen_declarations (ctype_to_vhdl : Option CStr → CStr) (g : ASTNode → G Unit)
    (node : ASTNode) : G Unit := do
  gen_signals ctype_to_vhdl node.children
  let children := (annotate_children node.children 0).1
  emit (declare_func_call_signals_list children)
  emit_s "begin\n"
  emit_func_call_instantiations_list g children
  emit (collect_tracked ctype_to_vhdl children).2

/-- The loop over the statements of a function in the clocked branch (parse.c
1176-1181). -/
def gen_statements (g : ASTNode → G Unit) (children : List ASTNode) : G Unit :=
  for_each (fun child => if child.type = NODE_STATEMENT then g child else pure ()) children

/-- The process the specification describes for the tracked variables
`tracked` and the lowered statements `statements`: one variable declaration
per tracked variable, and in the clocked branch the copy-in lines, the
statements and the copy-out lines. -/
def process_text (tracked : List TrackedVar) (statements : CStr) : CStr :=
  "  process(clk, reset)\n".toList
    ++ (tracked.map variable_line).flatten
    ++ "  begin\n".toList
    ++ "    if reset = '1' then\n".toList
    ++ "      -- Reset logic\n".toList
    ++ "    elsif rising_edge(clk) then\n".toList
    ++ (tracked.map copy_in_line).flatten
    ++ statements
    ++ (tracked.map copy_out_line).flatten
    ++ "    end if;\n".toList
    ++ "  end process;\n".toList

/-- The globals of the generator inside the clocked branch of a function
with the tracked variables `tracked`. -/
def clocked_globals (tracked : List TrackedVar) : GenState :=
  { g_tracked_vars := tracked, g_tracking_active := true, g_in_clock_body := true }

/-- The tokens of `int f(int n) { int x = n; int y; y = x; return y; }`. -/
def two_tracked_tokens : List Token :=
  [t_kw "int", t_id "f", t_lp, t_kw "int", t_id "n", t_rp, t_lb,
   t_kw "int", t_id "x", t_op "=", t_id "n", t_semi,
   t_kw "int", t_id "y", t_semi,
   t_id "y", t_op "=", t_id "x", t_semi,
   t_kw "return", t_id "y", t_semi, t_rb, t_eof]

/-- The function node of `int f(int n) { int x = n; int y; y = x; return y; }`. -/
def two_tracked_function : ASTNode :=
  .mk NODE_FUNCTION_DECL (some "f".toList) (some (t_kw "int"))
    [.mk NODE_VAR_DECL (some "n".toList) (some (t_kw "int")) [],
     statement [.mk NODE_VAR_DECL (some "x".toList) (some (t_kw "int")) [leaf "n"]],
     declaration_statement "int" "y",
     statement [assign "y" (leaf "x")],
     .mk NODE_STATEMENT none (some (t_kw "return")) [leaf "y"]]

/-- The text an index token contributes to the captured index: `(` and `)`
for the parentheses, the token text otherwise. -/
def index_token_text (t : Token) : CStr :=
  if t.type = TOKEN_PARENTHESIS_OPEN then ['(']
  else if t.type = TOKEN_PARENTHESIS_CLOSE then [')']
  else t.value

/-- The parenthesis depth after an index token. -/
def depth_after (t : Token) (paren_depth : Int) : Int :=
  if t.type = TOKEN_PARENTHESIS_OPEN then paren_depth + 1
  else if t.type = TOKEN_PARENTHESIS_CLOSE then
    if paren_depth > 0 then paren_depth - 1 else paren_depth
  else paren_depth

/-- The index tokens of an array access, from the lookahead `cur` after the
`[`: the tokens in front of the first `]` outside parentheses, or in front of
the end of file. -/
def index_tokens : Token → List Token → Int → List Token
  | cur, [], paren_depth =>
    if cur.type = TOKEN_EOF then []
    else if cur.type = TOKEN_BRACKET_CLOSE ∧ paren_depth = 0 then []
    else [cur]
  | cur, t :: rest, paren_depth =>
    if cur.type = TOKEN_EOF then []
    else if cur.type = TOKEN_BRACKET_CLOSE ∧ paren_depth = 0 then []
    else cur :: index_tokens t rest (depth_after cur paren_depth)

/-- The concatenated texts of index tokens. -/
def index_text (tokens : List Token) : CStr := (tokens.map index_token_text).flatten

/-- The index tokens of the array access at the lookahead of `s`, an
identifier followed by `[`. -/
def access_index_tokens (s : PState) : List Token :=
  index_tokens (advance_state (advance_state s)).current_token
    (advance_state (advance_state s)).input 0

/-- The state in which the index capture of the array access at the
lookahead of `s` stops. -/
def after_capture (s : PState) : PState :=
  { advance_state (advance_state s) with
    current_token := (capture_index (advance_state (advance_state s)).current_token
      (advance_state (advance_state s)).input [] 0).2.1,
    input := (capture_index (advance_state (advance_state s)).current_token
      (advance_state (advance_state s)).input [] 0).2.2 }

/-- The value `name[index]` of an array access. -/
def access_value (name index : CStr) : CStr := name ++ ['['] ++ index ++ [']']

/-- The tokens of `a[(i + 1) * 2]` followed by `;`. -/
def computed_access_tokens : List Token :=
  [t_id "a", t_lk, t_lp, t_id "i", t_op "+", t_num "1", t_rp, t_op "*", t_num "2", t_rk, t_semi]

/-- Whenever the parsing function returns, the loop-depth counter
`s_loop_depth` has the value it had on entry. -/
def KeepsDepth {α : Type} (m : P α) : Prop :=
  ∀ s, match m s with
    | .ok _ s1 => s1.s_loop_depth = s.s_loop_depth
    | _ => True

/-- The tokens `while (x) {` (for `true`) or `for (;;) {` (for `false`). -/
def loop_header (is_while : Bool) : List Token :=
  if is_while then [t_kw "while", t_lp, t_id "x", t_rp, t_lb]
  else [t_kw "for", t_lp, t_semi, t_semi, t_rp, t_lb]

/-- The node of the loop `while (x) { ... }` (for `true`) or `for (;;) { ... }`
(for `false`) with the statements `body`. -/
def loop_node (is_while : Bool) (body : List ASTNode) : ASTNode :=
  if is_while then .mk NODE_WHILE_STATEMENT none none (leaf "x" :: body)
  else .mk NODE_FOR_STATEMENT none none (leaf "1" :: body)

/-- The tokens `inner` inside nested loops of the given kinds, the first kind
outermost. -/
def nested_loops : List Bool → List Token → List Token
  | [], inner => inner
  | b :: rest, inner => loop_header b ++ nested_loops rest inner ++ [t_rb]

/-- The statement `inner` inside nested loop statements of the given kinds. -/
def nested_loop_nodes : List Bool → ASTNode → ASTNode
  | [], inner => inner
  | b :: rest, inner => statement [loop_node b [nested_loop_nodes rest inner]]

/-- The closing braces of nested loops of the given kinds. -/
def closing_braces (kinds : List Bool) : List Token := kinds.map (fun _ => t_rb)

/-- The tokens of `int int f() { }`. -/
def doubled_type_tokens : List Token :=
  [t_kw "int", t_kw "int", t_id "f", t_lp, t_rp, t_lb, t_rb, t_eof]


/-! ## Lemmas: C strings -/

theorem strrchr_none {s : CStr} {x : Char} (h : x ∉ s) : strrchr s x = none := by
  induction s with
  | nil => rfl
  | cons c s ih =>
    have hc : c ≠ x := fun e => h (by simp [e])
    have hs : x ∉ s := fun e => h (by simp [e])
    simp [strrchr, ih hs, hc]

theorem strrchr_append_last (pre rest : CStr) (x : Char) (h : x ∉ rest) :
    strrchr (pre ++ x :: rest) x = some (x :: rest) := by
  induction pre with
  | nil => simp [strrchr, strrchr_none h]
  | cons c pre ih => simp [strrchr, ih]

theorem strrchr_some {s p : CStr} {x : Char} (h : strrchr s x = some p) :
    ∃ pre rest, s = pre ++ x :: rest ∧ p = x :: rest := by
  induction s generalizing p with
  | nil => simp [strrchr] at h
  | cons c s ih =>
    simp only [strrchr] at h
    cases hs : strrchr s x with
    | some r =>
      rw [hs] at h
      simp only [Option.some.injEq] at h
      subst h
      obtain ⟨pre, rest, h1, h2⟩ := ih hs
      exact ⟨c :: pre, rest, by simp [h1], h2⟩
    | none =>
      rw [hs] at h
      by_cases hc : c = x
      · simp only [hc, if_true, Option.some.injEq] at h
        exact ⟨[], s, by simp [hc], by rw [← h]⟩
      · simp [hc] at h

theorem last_two_eq {l : CStr} {a b : Char} (hlen : 2 ≤ l.length)
    (ha : l.get? (l.length - 2) = some a) (hb : l.get? (l.length - 1) = some b) :
    ∃ pre, l = pre ++ [a, b] := by
  rcases List.eq_nil_or_concat l with h | ⟨l1, x, h⟩
  · subst h; simp at hlen
  rcases List.eq_nil_or_concat l1 with h1 | ⟨l2, y, h1⟩
  · subst h1; subst h; simp at hlen
  subst h1; subst h
  refine ⟨l2, ?_⟩
  simp only [List.concat_eq_append] at ha hb ⊢
  have e1 : (l2 ++ [y] ++ [x]).length - 2 = l2.length := by simp
  have e2 : (l2 ++ [y] ++ [x]).length - 1 = l2.length + 1 := by simp
  rw [e1] at ha
  rw [e2] at hb
  have ha2 : (l2 ++ [y] ++ [x]).get? l2.length = some y := by
    simp
    rw [List.getElem_append_right (by simp)]; simp
  have hb2 : (l2 ++ [y] ++ [x]).get? (l2.length + 1) = some x := by
    simp
    rw [List.getElem_append_right (by simp)]; simp
  rw [ha2] at ha
  rw [hb2] at hb
  simp only [Option.some.injEq] at ha hb
  subst ha; subst hb
  simp


theorem is_dec_digit_ne_underscore {c : Char} (h : is_dec_digit c = true) : c ≠ '_' := by
  intro e; subst e; revert h; decide

theorem has_v_suffix_of_convention {s : CStr} (h : EndsInVConvention s) :
    has_v_suffix s = true := by
  unfold has_v_suffix
  simp only []
  split
  · rfl
  · rename_i hno
    rcases h with ⟨pre, rfl⟩ | ⟨pre, ds, rfl, hne, hd⟩
    · exfalso; apply hno
      refine ⟨by simp, ?_, ?_⟩
      · have : (pre ++ ['_', 'v']).length - 2 = pre.length := by simp
        rw [this]; simp
        rw [List.getElem_append_right (by simp)]; simp
      · have : (pre ++ ['_', 'v']).length - 1 = pre.length + 1 := by simp
        rw [this]; simp
        rw [List.getElem_append_right (by simp)]; simp
    · have hmem : '_' ∉ ('v' :: ds) := by
        intro hm
        rcases List.mem_cons.mp hm with e | e
        · exact absurd e (by decide)
        · exact is_dec_digit_ne_underscore (hd _ e) rfl
      have hr : strrchr (pre ++ ['_', 'v'] ++ ds) '_' = some ('_' :: 'v' :: ds) := by
        have := strrchr_append_last pre ('v' :: ds) '_' hmem
        simpa using this
      rw [hr]
      have hall : ds.all is_dec_digit = true := by
        rw [List.all_eq_true]; exact hd
      simp [hall, hne]

theorem convention_of_has_v_suffix {s : CStr} (h : has_v_suffix s = true) :
    EndsInVConvention s := by
  unfold has_v_suffix at h
  simp only [] at h
  split at h
  · rename_i hc
    exact Or.inl (last_two_eq hc.1 hc.2.1 hc.2.2)
  · split at h
    · exact absurd h (by simp)
    · rename_i p hp
      obtain ⟨pre, rest, hs, hpe⟩ := strrchr_some hp
      subst hpe
      split at h
      · rename_i hv
        cases rest with
        | nil => simp at hv
        | cons r q =>
          simp at hv
          subst hv
          simp only [List.drop_succ_cons, List.drop_zero] at h
          split at h
          · rename_i hall
            split at h
            · exact absurd h (by simp)
            · rename_i hq
              right
              refine ⟨pre, q, by simp [hs], hq, ?_⟩
              rw [List.all_eq_true] at hall
              exact hall
          · exact absurd h (by simp)
      · exact absurd h (by simp)

theorem has_v_suffix_iff (s : CStr) : has_v_suffix s = true ↔ EndsInVConvention s :=
  ⟨convention_of_has_v_suffix, has_v_suffix_of_convention⟩


/-! ## Lemmas: decimal output -/

theorem digitChar_is_dec_digit : ∀ d : Fin 10, is_dec_digit (Nat.digitChar d.val) = true := by
  decide

theorem digitChar_value : ∀ d : Fin 10, (Nat.digitChar d.val).toNat - 48 = d.val := by
  decide

theorem fmt_u_core_digits (fuel n : Nat) : ∀ c ∈ fmt_u_core fuel n, is_dec_digit c = true := by
  induction fuel generalizing n with
  | zero => simp [fmt_u_core]
  | succ fuel ih =>
    intro c hc
    unfold fmt_u_core at hc
    split at hc
    · rename_i h
      simp only [List.mem_singleton] at hc
      subst hc
      exact digitChar_is_dec_digit ⟨n, h⟩
    · rcases List.mem_append.mp hc with h1 | h1
      · exact ih _ c h1
      · simp only [List.mem_singleton] at h1
        subst h1
        exact digitChar_is_dec_digit ⟨n % 10, Nat.mod_lt _ (by decide)⟩

theorem fmt_u_core_ne_nil (fuel n : Nat) : fmt_u_core (fuel + 1) n ≠ [] := by
  unfold fmt_u_core
  split <;> simp

theorem digits_value_append (acc : Nat) (xs ys : CStr)
    (h : ∀ c ∈ xs, is_dec_digit c = true) :
    digits_value acc (xs ++ ys) = digits_value (digits_value acc xs) ys := by
  induction xs generalizing acc with
  | nil => rfl
  | cons c xs ih =>
    have hc : is_dec_digit c = true := h c (by simp)
    simp only [List.cons_append, digits_value, hc, if_true]
    exact ih _ (fun d hd => h d (by simp [hd]))

theorem digits_value_fmt_u_core (fuel n : Nat) (h : n < fuel) :
    digits_value 0 (fmt_u_core fuel n) = n := by
  induction fuel generalizing n with
  | zero => omega
  | succ fuel ih =>
    unfold fmt_u_core
    split
    · rename_i h10
      have h1 := digitChar_is_dec_digit ⟨n, h10⟩
      have h2 := digitChar_value ⟨n, h10⟩
      simp only at h1 h2
      simp [digits_value, h1, h2]
    · rename_i h10
      have hlt : n % 10 < 10 := Nat.mod_lt _ (by decide)
      have h1 := digitChar_is_dec_digit ⟨n % 10, hlt⟩
      have h2 := digitChar_value ⟨n % 10, hlt⟩
      simp only at h1 h2
      rw [digits_value_append _ _ _ (fmt_u_core_digits fuel (n / 10)), ih (n / 10) (by omega)]
      simp [digits_value, h1, h2]
      omega

theorem digits_value_fmt_u (n : Nat) : digits_value 0 (fmt_u n) = n :=
  digits_value_fmt_u_core (n + 1) n (by omega)

theorem fmt_u_injective {m n : Nat} (h : fmt_u m = fmt_u n) : m = n := by
  have := congrArg (digits_value 0) h
  rwa [digits_value_fmt_u, digits_value_fmt_u] at this

theorem fmt_u_ne_nil (n : Nat) : fmt_u n ≠ [] := fmt_u_core_ne_nil n n

theorem fmt_u_digits (n : Nat) : ∀ c ∈ fmt_u n, is_dec_digit c = true :=
  fmt_u_core_digits (n + 1) n

theorem fmt_d_of_nonneg {i : Int} (h : 0 ≤ i) : fmt_d i = fmt_u i.toNat := by
  unfold fmt_d
  rw [if_neg (by omega)]

theorem fmt_d_injective_nonneg {m n : Int} (hm : 0 ≤ m) (hn : 0 ≤ n)
    (h : fmt_d m = fmt_d n) : m = n := by
  rw [fmt_d_of_nonneg hm, fmt_d_of_nonneg hn] at h
  have := fmt_u_injective h
  omega

/-! ## Lemmas: `build_gen_name` -/

theorem snprintf_fits {size : Nat} {t : CStr} (h : t.length < size) : snprintf size t = t := by
  unfold snprintf
  exact List.take_of_length_le (by omega)

theorem build_gen_name_fits {orig : CStr} {ordinal : Int} {out : CStr} {outsz : Nat}
    (h : (gen_name_text orig ordinal).length < outsz) :
    build_gen_name orig ordinal out outsz = gen_name_text orig ordinal := by
  unfold build_gen_name
  rw [if_neg (by omega), snprintf_fits h]

theorem gen_name_text_suffix {orig : CStr} (ordinal : Int) (h : has_v_suffix orig = true) :
    gen_name_text orig ordinal = orig ++ fmt_d ordinal := by
  unfold gen_name_text
  by_cases h0 : ordinal = 0
  · subst h0; simp [h]; decide
  · simp [h0, h]

theorem gen_name_text_plain {orig : CStr} (ordinal : Int) (h : has_v_suffix orig = false) :
    gen_name_text orig ordinal =
      orig ++ ['_', 'v'] ++ (if ordinal = 0 then [] else fmt_d ordinal) := by
  unfold gen_name_text
  by_cases h0 : ordinal = 0
  · subst h0; simp [h]
  · simp [h0, h]

theorem gen_name_text_injective {orig : CStr} {m n : Int} (hm : 0 ≤ m) (hn : 0 ≤ n)
    (h : gen_name_text orig m = gen_name_text orig n) : m = n := by
  cases hs : has_v_suffix orig with
  | true =>
    rw [gen_name_text_suffix m hs, gen_name_text_suffix n hs] at h
    exact fmt_d_injective_nonneg hm hn (List.append_cancel_left h)
  | false =>
    rw [gen_name_text_plain m hs, gen_name_text_plain n hs] at h
    have h2 := List.append_cancel_left h
    by_cases m0 : m = 0 <;> by_cases n0 : n = 0
    · rw [m0, n0]
    · rw [if_pos m0, if_neg n0, fmt_d_of_nonneg hn] at h2
      exact absurd h2.symm (fmt_u_ne_nil _)
    · rw [if_neg m0, if_pos n0, fmt_d_of_nonneg hm] at h2
      exact absurd h2 (fmt_u_ne_nil _)
    · rw [if_neg m0, if_neg n0] at h2
      exact fmt_d_injective_nonneg hm hn h2

theorem gen_name_text_convention (orig : CStr) {ordinal : Int} (h : 0 ≤ ordinal) :
    EndsInVConvention (gen_name_text orig ordinal) := by
  cases hs : has_v_suffix orig with
  | true =>
    rw [gen_name_text_suffix ordinal hs, fmt_d_of_nonneg h]
    rcases (has_v_suffix_iff orig).mp hs with ⟨pre, hp⟩ | ⟨pre, ds, hp, hne, hd⟩
    · right
      exact ⟨pre, fmt_u ordinal.toNat, by rw [hp], fmt_u_ne_nil _, fmt_u_digits _⟩
    · right
      refine ⟨pre, ds ++ fmt_u ordinal.toNat, by rw [hp]; simp, by simp [hne], ?_⟩
      intro c hc
      rcases List.mem_append.mp hc with h1 | h1
      · exact hd c h1
      · exact fmt_u_digits _ c h1
  | false =>
    rw [gen_name_text_plain ordinal hs]
    by_cases h0 : ordinal = 0
    · left; exact ⟨orig, by simp [h0]⟩
    · right
      rw [if_neg h0, fmt_d_of_nonneg h]
      exact ⟨orig, fmt_u ordinal.toNat, rfl, fmt_u_ne_nil _, fmt_u_digits _⟩


/-! ## Lemmas: `annotate_func_calls` -/

theorem relabel_append (a b : List NodeHead) (c : Int) :
    relabel (a ++ b) c =
      ((relabel a c).1 ++ (relabel b (relabel a c).2).1, (relabel b (relabel a c).2).2) := by
  induction a generalizing c with
  | nil => simp [relabel]
  | cons h a ih =>
    obtain ⟨t, v, k, n⟩ := h
    simp [relabel, ih]

mutual
theorem annotate_children_length : ∀ (l : List ASTNode) (c : Int),
    (annotate_children l c).1.length = l.length
  | [], c => by simp [annotate_children]
  | n :: rest, c => by
    simp [annotate_children, annotate_children_length rest]
end

mutual
theorem annotate_func_calls_heads : ∀ (n : ASTNode) (c : Int),
    (preorder (annotate_func_calls n c).1).map node_head = (relabel ((preorder n).map node_head) c).1
      ∧ (annotate_func_calls n c).2 = (relabel ((preorder n).map node_head) c).2
  | .mk t v k cs, c => by
    have ih := annotate_children_heads cs (annotate_value t v c).2
    simp only [annotate_func_calls, preorder, List.map_cons, relabel, node_head, ASTNode.type,
      ASTNode.value, ASTNode.token, ASTNode.children, annotate_children_length]
    exact ⟨by rw [ih.1], ih.2⟩
theorem annotate_children_heads : ∀ (l : List ASTNode) (c : Int),
    (preorder_list (annotate_children l c).1).map node_head
        = (relabel ((preorder_list l).map node_head) c).1
      ∧ (annotate_children l c).2 = (relabel ((preorder_list l).map node_head) c).2
  | [], c => by simp [annotate_children, preorder_list, relabel]
  | n :: rest, c => by
    have h1 := annotate_func_calls_heads n c
    have h2 := annotate_children_heads rest (annotate_func_calls n c).2
    simp only [annotate_children, preorder_list, List.map_append, relabel_append]
    rw [h1.1, h2.1, h2.2, h1.2]
    exact ⟨rfl, rfl⟩
end

theorem strchr_none_iff {s : CStr} {x : Char} : strchr s x = none ↔ x ∉ s := by
  induction s with
  | nil => simp [strchr]
  | cons c s ih =>
    by_cases h : c = x
    · simp [strchr, h]
    · have h2 : ¬ x = c := fun e => h e.symm
      simp [strchr, h, h2, ih]

theorem strchr_append_first (pre rest : CStr) (x : Char) (h : strchr pre x = none) :
    strchr (pre ++ x :: rest) x = some (x :: rest) := by
  induction pre with
  | nil => simp [strchr]
  | cons c pre ih =>
    by_cases hc : c = x
    · simp [strchr, hc] at h
    · simp only [strchr, hc, if_false] at h
      simp [strchr, hc, ih h]

theorem fmt_u_core_length (fuel n e : Nat) (he : 0 < e) (h : n < 10 ^ e) :
    (fmt_u_core fuel n).length ≤ e := by
  induction fuel generalizing n e with
  | zero => simp [fmt_u_core]
  | succ fuel ih =>
    unfold fmt_u_core
    split
    · simpa using he
    · rename_i h10
      have he2 : 2 ≤ e := by
        rcases Nat.lt_or_ge e 2 with h2 | h2
        · have : e = 1 := by omega
          subst this
          simp at h
          omega
        · exact h2
      have hdiv : n / 10 < 10 ^ (e - 1) := by
        have : 10 ^ e = 10 ^ (e - 1) * 10 := by
          rw [← Nat.pow_succ]; congr 1; omega
        rw [this] at h
        exact Nat.div_lt_of_lt_mul (by rwa [Nat.mul_comm] at h)
      have := ih (n / 10) (e - 1) (by omega) hdiv
      simp only [List.length_append, List.length_singleton]
      omega

theorem fmt_d_length {i : Int} (hlo : -2147483648 ≤ i) (hhi : i ≤ 2147483647) :
    (fmt_d i).length ≤ 11 := by
  unfold fmt_d
  split
  · have := fmt_u_core_length (i.natAbs + 1) i.natAbs 10 (by decide) (by omega)
    simp only [List.length_cons, fmt_u]
    omega
  · have := fmt_u_core_length (i.toNat + 1) i.toNat 10 (by decide) (by omega)
    simp only [fmt_u]
    omega

theorem fmt_u_head (n : Nat) : ∃ d rest, fmt_u n = d :: rest ∧ is_dec_digit d = true := by
  cases h : fmt_u n with
  | nil => exact absurd h (fmt_u_ne_nil n)
  | cons d rest => exact ⟨d, rest, rfl, fmt_u_digits n d (by simp [h])⟩

theorem digit_not_space_sign : ∀ {d : Char}, is_dec_digit d = true →
    isspace d = false ∧ d ≠ '-' ∧ d ≠ '+' := by
  intro d hd
  refine ⟨?_, ?_, ?_⟩
  · unfold isspace
    unfold is_dec_digit at hd
    simp only [Bool.not_eq_true', Bool.or_eq_false_iff, decide_eq_false_iff_not, not_lt] at hd
    obtain ⟨h1, h2⟩ := hd
    have h1n : ('0' : Char).toNat ≤ d.toNat := h1
    have e : ∀ c : Char, c.toNat < ('0' : Char).toNat → d ≠ c := by
      intro c hc e; subst e; omega
    simp [e ' ' (by decide), e '\t' (by decide), e '\n' (by decide), e '\r' (by decide),
      e (Char.ofNat 11) (by decide), e (Char.ofNat 12) (by decide)]
  · intro e; subst e; revert hd; decide
  · intro e; subst e; revert hd; decide

theorem decimal_value_minus (r : CStr) :
    decimal_value ('-' :: r) = - (digits_value 0 r : Int) := by
  have : List.dropWhile isspace ('-' :: r) = '-' :: r := by
    simp [List.dropWhile, isspace]
  unfold decimal_value
  rw [this]
  split
  · rename_i r2 heq
    simp only [List.cons.injEq, true_and] at heq
    rw [heq]
  · rename_i r2 heq
    simp only [List.cons.injEq] at heq
    exact absurd heq.1 (by decide)
  · rename_i h1 h2
    exact absurd rfl (h1 r)

theorem decimal_value_digit {d : Char} (rest : CStr) (hd : is_dec_digit d = true) :
    decimal_value (d :: rest) = (digits_value 0 (d :: rest) : Int) := by
  obtain ⟨h1, h2, h3⟩ := digit_not_space_sign hd
  have : List.dropWhile isspace (d :: rest) = d :: rest := by
    simp [List.dropWhile, h1]
  unfold decimal_value
  rw [this]
  split
  · rename_i r heq
    simp only [List.cons.injEq] at heq
    exact absurd heq.1 h2
  · rename_i r heq
    simp only [List.cons.injEq] at heq
    exact absurd heq.1 h3
  · rfl

theorem decimal_value_fmt_d (i : Int) : decimal_value (fmt_d i) = i := by
  unfold fmt_d
  by_cases hneg : i < 0
  · rw [if_pos hneg, decimal_value_minus, digits_value_fmt_u]
    omega
  · rw [if_neg hneg]
    obtain ⟨d, rest, hd, hdig⟩ := fmt_u_head i.toNat
    have hv := digits_value_fmt_u i.toNat
    rw [hd] at hv ⊢
    rw [decimal_value_digit rest hdig, hv]
    omega

theorem atoi_of_int (s : CStr) (hlo : -2147483648 ≤ decimal_value s)
    (hhi : decimal_value s ≤ 2147483647) : atoi s = decimal_value s := by
  unfold atoi strtol long_to_int
  rw [if_neg (by omega), if_neg (by omega)]
  omega

theorem atoi_fmt_d (i : Int) (hlo : -2147483648 ≤ i) (hhi : i ≤ 2147483647) :
    atoi (fmt_d i) = i := by
  rw [atoi_of_int _ (by rw [decimal_value_fmt_d]; exact hlo)
    (by rw [decimal_value_fmt_d]; exact hhi), decimal_value_fmt_d]

theorem call_index_number (name : CStr) (i : Int) (h : strchr name '#' = none)
    (hlo : -2147483648 ≤ i) (hhi : i ≤ 2147483647) :
    call_index (name ++ ['#'] ++ fmt_d i) = some i := by
  unfold call_index
  have : name ++ ['#'] ++ fmt_d i = name ++ '#' :: fmt_d i := by simp
  rw [this, strchr_append_first name (fmt_d i) '#' h]
  simp [atoi_fmt_d i hlo hhi]


theorem call_values_eq_heads (l : List ASTNode) :
    call_values l = (((preorder_list l).map node_head).filter head_is_call).map (fun h => h.2.1) := by
  unfold call_values
  rw [List.filter_map, List.map_map]
  rfl

theorem other_values_eq_heads (l : List ASTNode) :
    other_values l =
      (((preorder_list l).map node_head).filter (fun h => !head_is_call h)).map (fun h => h.2.1) := by
  unfold other_values
  rw [List.filter_map, List.map_map]
  rfl

theorem annotate_value_fresh {v : CStr} {c : Int} (h1 : strchr v '#' = none)
    (h2 : v.length < 128) (hlo : -2147483648 ≤ c) (hhi : c ≤ 2147483647) :
    annotate_value NODE_FUNC_CALL (some v) c = (some (v ++ ['#'] ++ fmt_d c), c + 1) := by
  have hl := fmt_d_length hlo hhi
  unfold annotate_value
  simp only [h1, if_true]
  rw [snprintf_fits (by simp only [List.length_append, List.length_singleton]; omega)]

theorem annotate_value_other {t : NodeType} (v : Option CStr) (c : Int)
    (h : t ≠ NODE_FUNC_CALL) : annotate_value t v c = (v, c) := by
  unfold annotate_value
  cases v <;> simp [h]

theorem relabel_fresh : ∀ (hs : List NodeHead) (c : Int) (names : List CStr),
    (hs.filter head_is_call).map (fun h => h.2.1) = names.map some →
    (∀ v ∈ names, strchr v '#' = none ∧ v.length < 128) →
    -2147483648 ≤ c → c + names.length ≤ 2147483647 →
    ((relabel hs c).1.filter head_is_call).map (fun h => h.2.1)
        = (number_calls c names).map some
      ∧ (relabel hs c).2 = c + names.length
      ∧ (relabel hs c).1.map (fun h => (h.1, h.2.2.1, h.2.2.2))
          = hs.map (fun h => (h.1, h.2.2.1, h.2.2.2))
      ∧ ((relabel hs c).1.filter (fun h => !head_is_call h)).map (fun h => h.2.1)
          = (hs.filter (fun h => !head_is_call h)).map (fun h => h.2.1) := by
  intro hs
  induction hs with
  | nil =>
    intro c names hn _ _ _
    have : names = [] := by
      cases names with
      | nil => rfl
      | cons a b => simp at hn
    subst this
    simp [relabel, number_calls]
  | cons h hs ih =>
    intro c names hn hf hlo hhi
    obtain ⟨t, v, k, a⟩ := h
    by_cases ht : t = NODE_FUNC_CALL
    · subst ht
      have hc : head_is_call (NODE_FUNC_CALL, v, k, a) = true := by simp [head_is_call]
      rw [List.filter_cons_of_pos hc] at hn
      cases names with
      | nil => simp at hn
      | cons name names =>
        simp only [List.map_cons, List.cons.injEq] at hn
        obtain ⟨hv, hn⟩ := hn
        have hv2 : v = some name := hv
        subst hv2
        have hfn := hf name (by simp)
        have hlen : (name :: names).length = names.length + 1 := rfl
        rw [hlen] at hhi
        push_cast at hhi
        have hav := annotate_value_fresh (c := c) hfn.1 hfn.2 hlo (by omega)
        obtain ⟨i1, i2, i3, i4⟩ := ih (c + 1) names hn (fun w hw => hf w (by simp [hw]))
          (by omega) (by omega)
        simp only [relabel, hav]
        refine ⟨?_, ?_, ?_, ?_⟩
        · rw [List.filter_cons_of_pos (by simp [head_is_call])]
          simp only [List.map_cons, number_calls, i1]
        · rw [i2, hlen]; push_cast; omega
        · simp only [List.map_cons, i3]
        · rw [List.filter_cons_of_neg (by simp [head_is_call]),
            List.filter_cons_of_neg (by simp [head_is_call])]
          exact i4
    · have hc : ¬ (head_is_call (t, v, k, a) = true) := by simp [head_is_call, ht]
      rw [List.filter_cons_of_neg hc] at hn
      obtain ⟨i1, i2, i3, i4⟩ := ih c names hn hf hlo hhi
      simp only [relabel, annotate_value_other v c ht]
      refine ⟨?_, i2, ?_, ?_⟩
      · rw [List.filter_cons_of_neg hc]; exact i1
      · simp only [List.map_cons, i3]
      · rw [List.filter_cons_of_pos (by simp [head_is_call, ht]),
          List.filter_cons_of_pos (by simp [head_is_call, ht])]
        simp only [List.map_cons, i4]

theorem number_calls_index : ∀ (names : List CStr) (c : Int),
    (∀ v ∈ names, strchr v '#' = none) →
    -2147483648 ≤ c → c + names.length ≤ 2147483647 →
    (number_calls c names).map call_index
      = (List.range names.length).map (fun (i : Nat) => some (c + (i : Int))) := by
  intro names
  induction names with
  | nil => intro c _ _ _; simp [number_calls]
  | cons name names ih =>
    intro c hf hlo hhi
    simp only [List.length_cons, Nat.cast_add, Nat.cast_one] at hhi
    simp only [number_calls, List.map_cons, List.length_cons, List.range_succ_eq_map,
      List.map_map]
    rw [call_index_number name c (hf name (by simp)) hlo (by omega),
      ih (c + 1) (fun w hw => hf w (by simp [hw])) (by omega) (by omega)]
    simp only [Nat.cast_zero, add_zero, List.cons.injEq, true_and]
    apply List.map_congr_left
    intro i _
    simp only [Function.comp, Nat.succ_eq_add_one, Nat.cast_add, Nat.cast_one]
    congr 1
    omega

theorem range_indices_nodup (k : Nat) (c : Int) :
    ((List.range k).map (fun (i : Nat) => some (c + (i : Int)))).Nodup := by
  apply List.Nodup.map _ (List.nodup_range k)
  intro a b h
  simp only [Option.some.injEq] at h
  omega


theorem annotate_value_annotated {t : NodeType} {v : Option CStr} (c : Int)
    (h : t = NODE_FUNC_CALL → ∀ s, v = some s → strchr s '#' ≠ none) :
    annotate_value t v c = (v, c) := by
  unfold annotate_value
  cases v with
  | none => rfl
  | some s =>
    by_cases ht : t = NODE_FUNC_CALL
    · simp [ht, h ht s rfl]
    · simp [ht]

theorem preorder_self (n : ASTNode) : n ∈ preorder n := by
  cases n with
  | mk t v k cs => simp [preorder]

mutual
theorem annotate_func_calls_fixed : ∀ (n : ASTNode) (c : Int), Annotated [n] →
    annotate_func_calls n c = (n, c)
  | .mk t v k cs, c, h => by
    have hv : annotate_value t v c = (v, c) :=
      annotate_value_annotated c (fun ht s hs =>
        h (.mk t v k cs) (by simp [preorder_list, preorder]) ht s hs)
    have hcs : Annotated cs := fun m hm =>
      h m (by simp [preorder_list, preorder, hm])
    simp only [annotate_func_calls, hv, annotate_children_fixed cs c hcs]
theorem annotate_children_fixed : ∀ (l : List ASTNode) (c : Int), Annotated l →
    annotate_children l c = (l, c)
  | [], c, _ => by simp [annotate_children]
  | n :: rest, c, h => by
    have h1 : Annotated [n] := fun m hm =>
      h m (by simp only [preorder_list, List.append_nil] at hm; simp [preorder_list, hm])
    have h2 : Annotated rest := fun m hm => h m (by simp [preorder_list, hm])
    simp only [annotate_children, annotate_func_calls_fixed n c h1,
      annotate_children_fixed rest c h2]
end

theorem strchr_append_mem (pre rest : CStr) (x : Char) :
    strchr (pre ++ x :: rest) x ≠ none := by
  rw [Ne, strchr_none_iff]
  simp

theorem relabel_annotated : ∀ (hs : List NodeHead) (c : Int),
    (∀ h ∈ hs, head_is_call h = true → ∀ s, h.2.1 = some s → strchr s '#' = none →
      s.length < 128) →
    -2147483648 ≤ c → c + (hs.filter head_is_call).length ≤ 2147483647 →
    (∀ h ∈ (relabel hs c).1, head_is_call h = true → ∀ s, h.2.1 = some s →
      strchr s '#' ≠ none) := by
  intro hs
  induction hs with
  | nil => intro c _ _ _ h hh; simp [relabel] at hh
  | cons h0 hs ih =>
    intro c hfit hlo hhi
    obtain ⟨t, v, k, a⟩ := h0
    have hstep : c ≤ (annotate_value t v c).2 ∧
        (annotate_value t v c).2 + (hs.filter head_is_call).length
          ≤ c + (((t, v, k, a) :: hs).filter head_is_call).length := by
      unfold annotate_value
      cases v with
      | none =>
        simp only [le_refl, true_and]
        by_cases ht : t = NODE_FUNC_CALL <;> simp [List.filter_cons, head_is_call, ht]
      | some s =>
        by_cases ht : t = NODE_FUNC_CALL
        · by_cases hs' : strchr s '#' = none
          · simp [List.filter_cons, head_is_call, ht, hs']; omega
          · simp [List.filter_cons, head_is_call, ht, hs']
        · simp [List.filter_cons, head_is_call, ht]
    have hrest := ih (annotate_value t v c).2 (fun h hh => hfit h (by simp [hh]))
      (by omega) (by omega)
    intro h hh hcall s hs'
    simp only [relabel, List.mem_cons] at hh
    rcases hh with rfl | hh
    · simp only [head_is_call, decide_eq_true_eq] at hcall
      subst hcall
      simp only at hs'
      cases v with
      | none => simp [annotate_value] at hs'
      | some s0 =>
        by_cases h0 : strchr s0 '#' = none
        · have hlen := hfit (NODE_FUNC_CALL, some s0, k, a) (by simp)
            (by simp [head_is_call]) s0 rfl h0
          have hc2 : c ≤ 2147483647 := by
            have : 0 ≤ ((List.filter head_is_call ((NODE_FUNC_CALL, some s0, k, a) :: hs)).length : Int) :=
              Int.ofNat_nonneg _
            omega
          rw [annotate_value_fresh h0 hlen hlo hc2] at hs'
          simp only [Option.some.injEq] at hs'
          rw [← hs']
          have : s0 ++ ['#'] ++ fmt_d c = s0 ++ '#' :: fmt_d c := by simp
          rw [this]
          exact strchr_append_mem _ _ _
        · have : annotate_value NODE_FUNC_CALL (some s0) c = (some s0, c) := by
            simp [annotate_value, h0]
          rw [this] at hs'
          simp only [Option.some.injEq] at hs'
          rw [← hs']; exact h0
    · exact hrest h hh hcall s hs'

theorem mem_map_node_head {l : List ASTNode} {n : ASTNode} (h : n ∈ l) :
    node_head n ∈ l.map node_head := List.mem_map_of_mem _ h

/-! ## Lemmas: the parser -/

@[simp] theorem parser_bind_apply {α β : Type} (m : P α) (f : α → P β) (s : PState) :
    (m >>= f) s = P.bind m f s := rfl

@[simp] theorem parser_pure_apply {α : Type} (a : α) (s : PState) :
    (pure a : P α) s = .ok a s := rfl

theorem atoi_fmt_u (k : Nat) (hk : k ≤ 2147483647) : atoi (fmt_u k) = (k : Int) := by
  have h := atoi_fmt_d (k : Int) (by omega) (by omega)
  rw [fmt_d_of_nonneg (by omega)] at h
  simpa using h

theorem fmt_u_length (k : Nat) (h : k ≤ 2147483647) : (fmt_u k).length ≤ 10 :=
  fmt_u_core_length (k + 1) k 10 (by decide) (by omega)


theorem snprintf_access_fits (size : Nat) (a idx : CStr) (h : a.length + idx.length + 2 < size) :
    snprintf size (a ++ ['['] ++ idx ++ [']']) = a ++ ['['] ++ idx ++ [']'] :=
  snprintf_fits (by simp only [List.length_append, List.length_singleton]; omega)

theorem find_array_size_register_new (tbl : List ArrayInfo) (a : CStr) (n : Int)
    (hroom : tbl.length < 128) (hnew : ∀ e ∈ tbl, e.name ≠ a) (hlen : a.length < 64) :
    find_array_size (register_array tbl a n) a = n := by
  have hta : List.take 63 a = a := List.take_of_length_le (by omega)
  have hnone : tbl.find? (fun e => decide (e.name = a)) = none := by
    rw [List.find?_eq_none]
    intro e he
    simpa using hnew e he
  simp [find_array_size, register_array, hroom, hta, List.find?_append, hnone]

theorem declaration_registers (get_precedence : CStr → Int) (fuel : Nat) (s : PState)
    (T : Token) (a : CStr) (n : Nat) (rest : List Token)
    (hat : AtArrayDeclaration s T a n rest) (hn : n ≤ 2147483647) (hlen : a.length < 128) :
    parse_statement get_precedence (fuel + 1) s
      = .ok (.mk NODE_STATEMENT none none
              [.mk NODE_VAR_DECL (some (a ++ ['['] ++ fmt_u n ++ [']'])) (some T) []])
          { state_at s rest with g_arrays := register_array s.g_arrays a n } := by
  obtain ⟨cur, input, arrays, depth⟩ := s
  obtain ⟨hcur, hT, hTv, t1, t2, t3, t4, t5, hin, h1, h1v, h2, h3, h3v, h4, h5⟩ := hat
  simp only at hcur hin
  subst hin
  subst hcur
  have hl := fmt_u_length n hn
  have hsn0 := snprintf_access_fits 1024 a (fmt_u n) (by omega)
  have hsn : snprintf 1024 (a ++ '[' :: (fmt_u n ++ [']'])) = a ++ '[' :: (fmt_u n ++ [']']) := by
    simpa using hsn0
  have hs256 : snprintf 256 (fmt_u n) = fmt_u n := snprintf_fits (by omega)
  have hkw : (decide (cur.value = "int".toList) || decide (cur.value = "float".toList) ||
      decide (cur.value = "char".toList) || decide (cur.value = "double".toList)) = true := by
    rcases hTv with h | h | h | h <;> simp [h]
  simp only [String.toList] at hkw
  simp [parse_statement, parse_declaration, match_type_keyword, match_state, match_token, hT,
    hkw, P.bind, get_state, set_state, advance, advance_state, h1, h1v, h2, h3, h3v, h4, h5,
    consume, match_text, next_token, state_at, hsn, hs256, atoi_fmt_u _ hn,
    set_value, set_token, create_node, add_child, ASTNode.type, ASTNode.token,
    ASTNode.children, ASTNode.value]

theorem break_outside_loop (get_precedence : CStr → Int) (fuel : Nat) (s : PState)
    (hcur : s.current_token.type = TOKEN_KEYWORD)
    (hval : s.current_token.value = "break".toList) (hd : s.s_loop_depth ≤ 0) :
    parse_statement get_precedence (fuel + 1) s
      = .fatal s.current_token.line "'break' not within a loop" := by
  simp [parse_statement, match_type_keyword, match_state, match_token, match_text, hcur, hval,
    P.bind, parse_break, get_state, hd, fatal]

theorem continue_outside_loop (get_precedence : CStr → Int) (fuel : Nat) (s : PState)
    (hcur : s.current_token.type = TOKEN_KEYWORD)
    (hval : s.current_token.value = "continue".toList) (hd : s.s_loop_depth ≤ 0) :
    parse_statement get_precedence (fuel + 1) s
      = .fatal s.current_token.line "'continue' not within a loop" := by
  simp [parse_statement, match_type_keyword, match_state, match_token, match_text, hcur, hval,
    P.bind, parse_break, parse_continue, get_state, hd, fatal]

theorem break_inside_loop (get_precedence : CStr → Int) (fuel : Nat) (s : PState)
    (t : Token) (rest : List Token)
    (hcur : s.current_token.type = TOKEN_KEYWORD)
    (hval : s.current_token.value = "break".toList) (hd : 0 < s.s_loop_depth)
    (hin : s.input = t :: rest) (ht : t.type = TOKEN_SEMICOLON) :
    parse_statement get_precedence (fuel + 1) s
      = .ok (.mk NODE_STATEMENT none none [.mk NODE_BREAK_STATEMENT none none []])
          (state_at s rest) := by
  have hd2 : ¬ s.s_loop_depth ≤ 0 := by omega
  simp [parse_statement, match_type_keyword, match_state, match_token, match_text, hcur, hval,
    P.bind, parse_break, get_state, hd2, advance, advance_state, hin, next_token, consume, ht,
    state_at, add_child, create_node, ASTNode.type, ASTNode.value, ASTNode.token,
    ASTNode.children]

theorem continue_inside_loop (get_precedence : CStr → Int) (fuel : Nat) (s : PState)
    (t : Token) (rest : List Token)
    (hcur : s.current_token.type = TOKEN_KEYWORD)
    (hval : s.current_token.value = "continue".toList) (hd : 0 < s.s_loop_depth)
    (hin : s.input = t :: rest) (ht : t.type = TOKEN_SEMICOLON) :
    parse_statement get_precedence (fuel + 1) s
      = .ok (.mk NODE_STATEMENT none none [.mk NODE_CONTINUE_STATEMENT none none []])
          (state_at s rest) := by
  have hd2 : ¬ s.s_loop_depth ≤ 0 := by omega
  simp [parse_statement, match_type_keyword, match_state, match_token, match_text, hcur, hval,
    P.bind, parse_break, parse_continue, get_state, hd2, advance, advance_state, hin,
    next_token, consume, ht,
    state_at, add_child, create_node, ASTNode.type, ASTNode.value, ASTNode.token,
    ASTNode.children]


theorem not_else_of_head {rest : List Token}
    (h : ∀ t ∈ rest.head?, ¬ (t.type = TOKEN_KEYWORD ∧ t.value = "else".toList)) :
    (decide ((next_token rest).1.type = TOKEN_KEYWORD) &&
      decide ((next_token rest).1.value = "else".toList)) = false := by
  cases rest with
  | nil => simp [next_token]
  | cons t r =>
    have := h t (by simp)
    simp only [next_token]
    by_cases h1 : t.type = TOKEN_KEYWORD
    · have h2 : ¬ t.value = "else".toList := fun e => this ⟨h1, e⟩
      have h3 : ¬ t.value = ['e', 'l', 's', 'e'] := by simpa using h2
      simp [h1, h3]
    · simp [h1]

theorem nested_ifs_head (k : Nat) (b : Bool) (rest : List Token) :
    ∃ t r, nested_ifs k [loop_control_token b, tok TOKEN_SEMICOLON ";"] ++ rest = t :: r ∧
      t.type = TOKEN_KEYWORD := by
  cases k with
  | zero => exact ⟨_, _, rfl, rfl⟩
  | succ k => exact ⟨_, _, rfl, rfl⟩

theorem parse_expression_x (get_precedence : CStr → Int) (fuel : Nat) (t : Token)
    (rest : List Token) (arrays : List ArrayInfo) (depth : Int)
    (ht : t.type = TOKEN_PARENTHESIS_CLOSE) :
    parse_expression get_precedence (fuel + 2)
        ⟨tok TOKEN_IDENTIFIER "x", t :: rest, arrays, depth⟩
      = .ok (some (.mk NODE_EXPRESSION (some "x".toList) none [])) ⟨t, rest, arrays, depth⟩ := by
  simp [parse_expression, parse_expression_prec, parse_primary, parse_operators, P.bind,
    match_text, match_token, match_state, tok, get_state, advance, advance_state, next_token,
    ht, set_value, create_node, ASTNode.type, ASTNode.token, ASTNode.children]

theorem loop_control_inside (get_precedence : CStr → Int) (fuel : Nat) (b : Bool)
    (rest : List Token) (arrays : List ArrayInfo) (depth : Int) (hd : 0 < depth) :
    parse_statement get_precedence (fuel + 1)
        ⟨loop_control_token b, tok TOKEN_SEMICOLON ";" :: rest, arrays, depth⟩
      = .ok (loop_control_statement b)
          ⟨(next_token rest).1, (next_token rest).2, arrays, depth⟩ := by
  cases b
  · exact continue_inside_loop get_precedence fuel _ _ rest rfl rfl hd rfl rfl
  · exact break_inside_loop get_precedence fuel _ _ rest rfl rfl hd rfl rfl

theorem parse_body_close (get_precedence : CStr → Int) (fuel : Nat) (node : ASTNode)
    (s : PState) (h : s.current_token.type = TOKEN_BRACE_CLOSE) :
    parse_body get_precedence (fuel + 1) node s = .ok node s := by
  simp [parse_body, P.bind, match_token, match_state, h]

theorem nested_ifs_parse (get_precedence : CStr → Int) (b : Bool) :
    ∀ (k e : Nat) (cur : Token) (input rest : List Token) (arrays : List ArrayInfo)
      (depth : Int), 0 < depth →
      cur :: input = nested_ifs k [loop_control_token b, tok TOKEN_SEMICOLON ";"] ++ rest →
      (∀ t ∈ rest.head?, ¬ (t.type = TOKEN_KEYWORD ∧ t.value = "else".toList)) →
      parse_statement get_precedence (2 * k + 1 + e) ⟨cur, input, arrays, depth⟩
        = .ok (nested_if_nodes k (loop_control_statement b))
            ⟨(next_token rest).1, (next_token rest).2, arrays, depth⟩ := by
  intro k
  induction k with
  | zero =>
    intro e cur input rest arrays depth hd hs _
    simp only [nested_ifs, List.cons_append, List.nil_append, List.cons.injEq] at hs
    obtain ⟨rfl, rfl⟩ := hs
    have : 2 * 0 + 1 + e = e + 1 := by omega
    rw [this]
    exact loop_control_inside get_precedence e b rest arrays depth hd
  | succ k ih =>
    intro e cur input rest arrays depth hd hs hne
    simp only [nested_ifs, List.cons_append, List.nil_append, List.append_assoc,
      List.cons.injEq] at hs
    obtain ⟨rfl, rfl⟩ := hs
    obtain ⟨t, r, hL, htk⟩ := nested_ifs_head k b (tok TOKEN_BRACE_CLOSE "\x7d" :: rest)
    have hfuel : 2 * (k + 1) + 1 + e = (2 * k + 1 + e) + 1 + 1 := by omega
    have hfuel2 : (2 * k + 1 + e) + 1 = (2 * k + e) + 2 := by omega
    have hih := ih e t r (tok TOKEN_BRACE_CLOSE "\x7d" :: rest) arrays depth hd hL.symm
      (by simp [tok])
    have hexp := parse_expression_x get_precedence (2 * k + e) (tok TOKEN_PARENTHESIS_CLOSE ")")
      (tok TOKEN_BRACE_OPEN "\x7b" ::
        (nested_ifs k [loop_control_token b, tok TOKEN_SEMICOLON ";"] ++
          tok TOKEN_BRACE_CLOSE "\x7d" :: rest)) arrays depth rfl
    rw [← hfuel2] at hexp
    have hel := not_else_of_head hne
    rw [hfuel]
    simp only [tok, String.toList, next_token] at hexp hih hL hel ⊢
    rw [hL] at hexp
    have hpb : ∀ node : ASTNode, parse_body get_precedence (2 * k + 1 + e) node
        ⟨{ type := TOKEN_BRACE_CLOSE, value := ['\x7d'], line := 1 }, rest, arrays, depth⟩
          = .ok node
        ⟨{ type := TOKEN_BRACE_CLOSE, value := ['\x7d'], line := 1 }, rest, arrays, depth⟩ := by
      intro node
      have : 2 * k + 1 + e = (2 * k + e) + 1 := by omega
      rw [this]
      exact parse_body_close get_precedence _ node _ rfl
    simp [parse_statement, match_type_keyword, match_state, match_token, match_text, P.bind,
      advance, advance_state, consume, next_token, hexp, hL, parse_body, htk, hih,
      parse_else_chain, hel, hpb]
    rfl

theorem while_nested_parse (get_precedence : CStr → Int) (b : Bool) (k e : Nat)
    (cur : Token) (input rest : List Token) (arrays : List ArrayInfo) (depth : Int)
    (hd : 0 ≤ depth)
    (hs : cur :: input
      = while_tokens (nested_ifs k [loop_control_token b, tok TOKEN_SEMICOLON ";"]) ++ rest) :
    parse_statement get_precedence (2 * k + 3 + e) ⟨cur, input, arrays, depth⟩
      = .ok (.mk NODE_STATEMENT none none
              [.mk NODE_WHILE_STATEMENT none none
                [.mk NODE_EXPRESSION (some "x".toList) none [],
                 nested_if_nodes k (loop_control_statement b)]])
          ⟨(next_token rest).1, (next_token rest).2, arrays, depth⟩ := by
  simp only [while_tokens, List.cons_append, List.nil_append, List.append_assoc,
    List.cons.injEq] at hs
  obtain ⟨rfl, rfl⟩ := hs
  obtain ⟨t, r, hL, htk⟩ := nested_ifs_head k b (tok TOKEN_BRACE_CLOSE "\x7d" :: rest)
  have hfuel : 2 * k + 3 + e = (2 * k + 1 + e) + 1 + 1 := by omega
  have hfuel2 : (2 * k + 1 + e) + 1 = (2 * k + e) + 2 := by omega
  have hih := nested_ifs_parse get_precedence b k e t r (tok TOKEN_BRACE_CLOSE "\x7d" :: rest)
    arrays (depth + 1) (by omega) hL.symm (by simp [tok])
  have hexp := parse_expression_x get_precedence (2 * k + e) (tok TOKEN_PARENTHESIS_CLOSE ")")
    (tok TOKEN_BRACE_OPEN "\x7b" ::
      (nested_ifs k [loop_control_token b, tok TOKEN_SEMICOLON ";"] ++
        tok TOKEN_BRACE_CLOSE "\x7d" :: rest)) arrays depth rfl
  rw [← hfuel2] at hexp
  rw [hfuel]
  simp only [tok, String.toList, next_token] at hexp hih hL ⊢
  rw [hL] at hexp
  have hpb : ∀ node : ASTNode, parse_body get_precedence (2 * k + 1 + e) node
      ⟨{ type := TOKEN_BRACE_CLOSE, value := ['\x7d'], line := 1 }, rest, arrays, depth + 1⟩
        = .ok node
      ⟨{ type := TOKEN_BRACE_CLOSE, value := ['\x7d'], line := 1 }, rest, arrays, depth + 1⟩ := by
    intro node
    have : 2 * k + 1 + e = (2 * k + e) + 1 := by omega
    rw [this]
    exact parse_body_close get_precedence _ node _ rfl
  simp [parse_statement, match_type_keyword, match_state, match_token, match_text, P.bind,
    advance, advance_state, consume, next_token, hexp, hL, parse_body, htk, hih,
    add_loop_depth, hpb]
  rfl

theorem for_nested_parse (get_precedence : CStr → Int) (b : Bool) (k e : Nat)
    (cur : Token) (input rest : List Token) (arrays : List ArrayInfo) (depth : Int)
    (hd : 0 ≤ depth)
    (hs : cur :: input
      = for_tokens (nested_ifs k [loop_control_token b, tok TOKEN_SEMICOLON ";"]) ++ rest) :
    parse_statement get_precedence (2 * k + 3 + e) ⟨cur, input, arrays, depth⟩
      = .ok (.mk NODE_STATEMENT none none
              [.mk NODE_FOR_STATEMENT none none
                [.mk NODE_EXPRESSION (some "1".toList) none [],
                 nested_if_nodes k (loop_control_statement b)]])
          ⟨(next_token rest).1, (next_token rest).2, arrays, depth⟩ := by
  simp only [for_tokens, List.cons_append, List.nil_append, List.append_assoc,
    List.cons.injEq] at hs
  obtain ⟨rfl, rfl⟩ := hs
  obtain ⟨t, r, hL, htk⟩ := nested_ifs_head k b (tok TOKEN_BRACE_CLOSE "\x7d" :: rest)
  have hfuel : 2 * k + 3 + e = (2 * k + 1 + e) + 1 + 1 := by omega
  have hih := nested_ifs_parse get_precedence b k e t r (tok TOKEN_BRACE_CLOSE "\x7d" :: rest)
    arrays (depth + 1) (by omega) hL.symm (by simp [tok])
  rw [hfuel]
  simp only [tok, String.toList, next_token] at hih hL ⊢
  have hpb : ∀ node : ASTNode, parse_body get_precedence (2 * k + 1 + e) node
      ⟨{ type := TOKEN_BRACE_CLOSE, value := ['\x7d'], line := 1 }, rest, arrays, depth + 1⟩
        = .ok node
      ⟨{ type := TOKEN_BRACE_CLOSE, value := ['\x7d'], line := 1 }, rest, arrays, depth + 1⟩ := by
    intro node
    have : 2 * k + 1 + e = (2 * k + e) + 1 := by omega
    rw [this]
    exact parse_body_close get_precedence _ node _ rfl
  simp [parse_statement, match_type_keyword, match_state, match_token, match_text, P.bind,
    advance, advance_state, consume, next_token, hL, parse_body, htk, hih,
    add_loop_depth, hpb, parse_for_increment]
  rfl

/-! ## Lemmas: the generator stays within its recursion budget -/

set_option linter.unusedTactic false
set_option linter.unreachableTactic false

@[simp] theorem gen_bind_apply {α β : Type} (m : G α) (f : α → G β) (st : GenState) :
    (m >>= f) st = G.bind m f st := rfl

@[simp] theorem gen_pure_apply {α : Type} (a : α) (st : GenState) :
    (pure a : G α) st = .ok a st [] := rfl

theorem nfo_pure {α : Type} (a : α) : NoFuelOut (pure a : G α) := by
  constructor; intro st; simp

theorem nfo_emit (t : CStr) : NoFuelOut (emit t) := by
  constructor; intro st; simp [emit]

theorem nfo_emit_s (t : String) : NoFuelOut (emit_s t) := nfo_emit _

theorem nfo_undefined {α : Type} : NoFuelOut (undefined_behaviour : G α) := by
  constructor; intro st; simp [undefined_behaviour]

theorem nfo_deref (v : Option CStr) : NoFuelOut (deref v) := by
  cases v
  · exact nfo_undefined
  · exact nfo_pure _

theorem nfo_get : NoFuelOut get_globals := by
  constructor; intro st; simp [get_globals]

theorem nfo_set (s : GenState) : NoFuelOut (set_globals s) := by
  constructor; intro st; simp [set_globals]

theorem nfo_bind {α β : Type} {m : G α} {f : α → G β} (hm : NoFuelOut m)
    (hf : ∀ a, NoFuelOut (f a)) : NoFuelOut (m >>= f) := by
  constructor
  intro st
  simp only [gen_bind_apply, G.bind]
  cases h : m st with
  | ok a st1 out1 =>
    simp only
    cases h2 : f a st1 with
    | ok b st2 out2 => simp
    | undefined => simp
    | out_of_fuel => exact absurd h2 ((hf a).never st1)
  | undefined => simp
  | out_of_fuel => exact absurd h (hm.never st)

theorem nfo_for_each {α : Type} {f : α → G Unit} {l : List α}
    (h : ∀ a ∈ l, NoFuelOut (f a)) : NoFuelOut (for_each f l) := by
  induction l with
  | nil => exact nfo_pure _
  | cons a rest ih =>
    simp only [for_each]
    exact nfo_bind (h a (by simp)) (fun _ => ih (fun b hb => h b (by simp [hb])))

theorem nfo_gen_condition {g : ASTNode → G Unit} {cond : ASTNode} (spaced : Bool)
    (hg : NoFuelOut (g cond)) : NoFuelOut (gen_condition g cond spaced) := by
  unfold gen_condition
  repeat' (first
    | exact nfo_pure _ | exact nfo_emit _ | exact nfo_emit_s _ | exact nfo_undefined
    | exact nfo_deref _ | exact nfo_get | exact nfo_set _ | exact hg
    | apply nfo_bind | intro _ | split)

theorem mem_preorder_list {x : ASTNode} {l : List ASTNode} :
    x ∈ preorder_list l ↔ ∃ n ∈ l, x ∈ preorder n := by
  induction l with
  | nil => simp [preorder_list]
  | cons n rest ih => simp [preorder_list, ih]

theorem mem_preorder_children {c n : ASTNode} (h : c ∈ n.children) : c ∈ preorder n := by
  cases n with
  | mk t v k cs =>
    simp only [ASTNode.children] at h
    simp only [preorder, List.mem_cons]
    right
    exact mem_preorder_list.mpr ⟨c, h, preorder_self c⟩

theorem nfo_decode_access (v lbr : CStr) : NoFuelOut (decode_access v lbr) := by
  unfold decode_access
  repeat' (first
    | exact nfo_pure _ | exact nfo_undefined
    | split | (dsimp only))

theorem nfo_gen_signal_assignment {g : ASTNode → G Unit} {lhs rhs : ASTNode}
    (hg : NoFuelOut (g rhs)) : NoFuelOut (gen_signal_assignment g lhs rhs) := by
  unfold gen_signal_assignment
  repeat' (first
    | exact nfo_pure _ | exact nfo_emit _ | exact nfo_emit_s _ | exact nfo_undefined
    | exact nfo_deref _ | exact nfo_get | exact nfo_set _ | exact hg
    | exact nfo_decode_access _ _
    | apply nfo_bind | intro _ | split | (dsimp only))

theorem nfo_gen_statement_child {g : ASTNode → G Unit} {child : ASTNode}
    (hg : ∀ c ∈ preorder child, NoFuelOut (g c)) : NoFuelOut (gen_statement_child g child) := by
  unfold gen_statement_child
  repeat' (first
    | exact nfo_pure _ | exact nfo_emit _ | exact nfo_emit_s _ | exact nfo_undefined
    | exact nfo_deref _ | exact nfo_get | exact nfo_set _
    | exact nfo_decode_access _ _
    | exact hg _ (preorder_self _)
    | exact hg _ (mem_preorder_children (by simp_all))
    | apply nfo_bind | intro _ | split | (dsimp only))

theorem nfo_gen_for_body {g : ASTNode → G Unit} (cond_index incr_index : Int) :
    ∀ (l : List ASTNode) (j : Nat), (∀ c ∈ l, NoFuelOut (g c)) →
      NoFuelOut (gen_for_body g cond_index incr_index j l) := by
  intro l
  induction l with
  | nil => intro j _; exact nfo_pure _
  | cons c rest ih =>
    intro j hg
    have hrest := ih (j + 1) (fun d hd => hg d (by simp [hd]))
    simp only [gen_for_body]
    split
    · exact nfo_bind (hg c (by simp)) (fun _ => hrest)
    · exact nfo_bind (nfo_pure _) (fun _ => hrest)

theorem nfo_gen_for {g : ASTNode → G Unit} {node : ASTNode}
    (hc : ∀ c ∈ node.children, NoFuelOut (g c))
    (hcc : ∀ c ∈ node.children, ∀ d ∈ c.children, NoFuelOut (g d)) :
    NoFuelOut (gen_for g node) := by
  unfold gen_for
  split
  · exact nfo_pure _
  · rename_i first tail heq
    have hfirst : first ∈ node.children := by simp [heq]
    apply nfo_bind
    · repeat' (first
        | exact nfo_pure _ | exact nfo_emit _ | exact nfo_emit_s _
        | exact nfo_gen_signal_assignment (hcc first hfirst _ (by simp_all))
        | exact hcc first hfirst _ (by simp_all)
        | apply nfo_bind | intro _ | split | (dsimp only))
    · intro cond_index
      split
      · exact nfo_pure _
      · rename_i cond hcond
        have hcm : cond ∈ node.children := List.get?_mem hcond
        repeat' (first
          | exact nfo_pure _ | exact nfo_emit _ | exact nfo_emit_s _
          | exact nfo_gen_condition _ (hc cond hcm)
          | exact nfo_gen_for_body _ _ _ _ hc
          | apply nfo_bind | intro _ | (dsimp only))
        split
        · rename_i i hi
          split at hi
          · rename_i c hget
            split at hi
            · simp only [Option.some.injEq] at hi
              subst hi
              have him : c ∈ node.children := List.get?_mem hget
              split
              · rename_i lhs rhs hlr
                exact nfo_bind (nfo_emit_s _) (fun _ =>
                  nfo_gen_signal_assignment (hcc c him rhs (by simp [hlr])))
              · exact nfo_pure _
            · exact absurd hi (by simp)
          · exact absurd hi (by simp)
        · exact nfo_pure _

theorem nfo_gen_logical_operand {g : ASTNode → G Unit} {operand : ASTNode}
    (hg : NoFuelOut (g operand)) : NoFuelOut (gen_logical_operand g operand) := by
  unfold gen_logical_operand
  repeat' (first
    | exact nfo_pure _ | exact nfo_emit _ | exact nfo_emit_s _ | exact hg
    | apply nfo_bind | intro _ | split | (dsimp only))

theorem nfo_gen_comparison_operand (is_negative_literal : Option CStr → Bool)
    {g : ASTNode → G Unit} {operand : ASTNode}
    (hg : NoFuelOut (g operand)) :
    NoFuelOut (gen_comparison_operand is_negative_literal g operand) := by
  unfold gen_comparison_operand
  repeat' (first
    | exact nfo_pure _ | exact nfo_emit _ | exact nfo_emit_s _ | exact hg
    | exact nfo_deref _
    | apply nfo_bind | intro _ | split | (dsimp only))

theorem nfo_gen_binary_expr (is_negative_literal : Option CStr → Bool)
    {g : ASTNode → G Unit} {node : ASTNode}
    (hg : ∀ c ∈ node.children, NoFuelOut (g c)) :
    NoFuelOut (gen_binary_expr is_negative_literal g node) := by
  unfold gen_binary_expr
  apply nfo_bind (nfo_deref _)
  intro op0
  dsimp only
  split
  · rename_i left right tail heq
    have hl : NoFuelOut (g left) := hg left (by simp [heq])
    have hr : NoFuelOut (g right) := hg right (by simp [heq])
    repeat' (first
      | exact nfo_pure _ | exact nfo_emit _ | exact nfo_emit_s _
      | exact nfo_gen_logical_operand hl | exact nfo_gen_logical_operand hr
      | exact nfo_gen_comparison_operand _ hl | exact nfo_gen_comparison_operand _ hr
      | exact hl | exact hr
      | apply nfo_bind | intro _ | split)
  · exact nfo_undefined

theorem nfo_gen_if_branch {g : ASTNode → G Unit} {branch : ASTNode}
    (hg : ∀ c ∈ preorder branch, NoFuelOut (g c)) : NoFuelOut (gen_if_branch g branch) := by
  have hc : ∀ c ∈ branch.children, NoFuelOut (g c) :=
    fun c h => hg c (mem_preorder_children h)
  unfold gen_if_branch
  repeat' (first
    | exact nfo_pure _ | exact nfo_emit _ | exact nfo_emit_s _ | exact nfo_undefined
    | exact hg _ (preorder_self _)
    | exact nfo_gen_condition _ (hc _ (by simp_all))
    | exact nfo_for_each (fun c h => hc c (by simp_all))
    | apply nfo_bind | intro _ | split | (dsimp only))

theorem nfo_gen_expression (is_negative_literal : Option CStr → Bool) (node : ASTNode) :
    NoFuelOut (gen_expression is_negative_literal node) := by
  unfold gen_expression
  repeat' (first
    | exact nfo_pure _ | exact nfo_emit _ | exact nfo_emit_s _ | exact nfo_undefined
    | exact nfo_deref _ | exact nfo_get | exact nfo_decode_access _ _
    | apply nfo_bind | intro _ | split | (dsimp only))

theorem nfo_gen_func_call (node : ASTNode) : NoFuelOut (gen_func_call node) := by
  unfold gen_func_call
  repeat' (first
    | exact nfo_emit _ | exact nfo_emit_s _
    | split)

theorem nfo_gen_unary_op {g : ASTNode → G Unit} {node : ASTNode}
    (hg : ∀ c ∈ node.children, NoFuelOut (g c)) : NoFuelOut (gen_unary_op g node) := by
  unfold gen_unary_op
  repeat' (first
    | exact nfo_pure _ | exact nfo_emit _ | exact nfo_emit_s _
    | exact hg _ (by simp_all)
    | apply nfo_bind | intro _ | split | (dsimp only))

theorem nfo_gen_param_port (ctype_to_vhdl : Option CStr → CStr) (child : ASTNode) :
    NoFuelOut (gen_param_port ctype_to_vhdl child) := by
  unfold gen_param_port
  repeat' (first
    | exact nfo_pure _ | exact nfo_emit _ | exact nfo_deref _
    | apply nfo_bind | intro _ | split)

theorem nfo_gen_entity (ctype_to_vhdl : Option CStr → CStr) (node : ASTNode) :
    NoFuelOut (gen_entity ctype_to_vhdl node) := by
  unfold gen_entity
  repeat' (first
    | exact nfo_pure _ | exact nfo_emit _ | exact nfo_emit_s _ | exact nfo_deref _
    | exact nfo_for_each (fun c _ => nfo_gen_param_port _ c)
    | apply nfo_bind | intro _)

theorem nfo_gen_init_element (type_text : CStr) (elem : ASTNode) (last : Bool) :
    NoFuelOut (gen_init_element type_text elem last) := by
  unfold gen_init_element
  repeat' (first
    | exact nfo_pure _ | exact nfo_emit _ | exact nfo_deref _
    | apply nfo_bind | intro _ | split | (dsimp only))

theorem nfo_gen_init_elements (type_text : CStr) (l : List ASTNode) :
    NoFuelOut (gen_init_elements type_text l) := by
  induction l with
  | nil => exact nfo_pure _
  | cons e rest ih =>
    simp only [gen_init_elements]
    exact nfo_bind (nfo_gen_init_element _ _ _) (fun _ => ih)

theorem nfo_gen_array_signal (ctype_to_vhdl : Option CStr → CStr) (decl : ASTNode)
    (v arr_bracket : CStr) : NoFuelOut (gen_array_signal ctype_to_vhdl decl v arr_bracket) := by
  unfold gen_array_signal
  repeat' (first
    | exact nfo_pure _ | exact nfo_emit _ | exact nfo_undefined
    | apply nfo_bind | intro _ | split | (dsimp only))

theorem nfo_gen_local_signal (ctype_to_vhdl : Option CStr → CStr) (stmt_child : ASTNode) :
    NoFuelOut (gen_local_signal ctype_to_vhdl stmt_child) := by
  unfold gen_local_signal
  repeat' (first
    | exact nfo_pure _ | exact nfo_emit _ | exact nfo_emit_s _ | exact nfo_deref _
    | exact nfo_gen_array_signal _ _ _ _ | exact nfo_gen_init_elements _ _
    | apply nfo_bind | intro _ | split | (dsimp only))

theorem nfo_gen_for_header_signal (ctype_to_vhdl : Option CStr → CStr) (for_child : ASTNode) :
    NoFuelOut (gen_for_header_signal ctype_to_vhdl for_child) := by
  unfold gen_for_header_signal
  repeat' (first
    | exact nfo_pure _ | exact nfo_emit _ | exact nfo_undefined
    | exact nfo_gen_array_signal _ _ _ _
    | apply nfo_bind | intro _ | split | (dsimp only))

theorem nfo_gen_statement_signals (ctype_to_vhdl : Option CStr → CStr) (stmt_child : ASTNode) :
    NoFuelOut (gen_statement_signals ctype_to_vhdl stmt_child) := by
  unfold gen_statement_signals
  repeat' (first
    | exact nfo_pure _ | exact nfo_gen_local_signal _ _
    | exact nfo_for_each (fun c _ => nfo_gen_for_header_signal _ c)
    | apply nfo_bind | intro _ | split | (dsimp only))

theorem nfo_gen_signals (ctype_to_vhdl : Option CStr → CStr) (children : List ASTNode) :
    NoFuelOut (gen_signals ctype_to_vhdl children) := by
  unfold gen_signals
  apply nfo_for_each
  intro c _
  split
  · exact nfo_for_each (fun d _ => nfo_gen_statement_signals _ d)
  · exact nfo_pure _

mutual
theorem nfo_emit_func_call_instantiations {g : ASTNode → G Unit} :
    ∀ (n : ASTNode), (∀ c ∈ preorder_list n.children, NoFuelOut (g c)) →
      NoFuelOut (emit_func_call_instantiations g n)
  | .mk t v k cs, hg => by
    simp only [ASTNode.children] at hg
    have hargs : ∀ c ∈ cs, NoFuelOut (g c) :=
      fun c hc => hg c (mem_preorder_list.mpr ⟨c, hc, preorder_self c⟩)
    simp only [emit_func_call_instantiations]
    apply nfo_bind
    · repeat' (first
        | exact nfo_pure _ | exact nfo_emit _ | exact nfo_emit_s _
        | exact nfo_for_each (fun c hc => nfo_bind (nfo_emit_s _) (fun _ => hargs c hc))
        | apply nfo_bind | intro _ | split | (dsimp only))
    · intro _
      exact nfo_emit_func_call_instantiations_list cs hg
theorem nfo_emit_func_call_instantiations_list {g : ASTNode → G Unit} :
    ∀ (l : List ASTNode), (∀ c ∈ preorder_list l, NoFuelOut (g c)) →
      NoFuelOut (emit_func_call_instantiations_list g l)
  | [], _ => by
    simp only [emit_func_call_instantiations_list]
    exact nfo_pure _
  | n :: rest, hg => by
    simp only [emit_func_call_instantiations_list]
    apply nfo_bind
    · apply nfo_emit_func_call_instantiations n
      intro c hc
      apply hg
      simp only [preorder_list, List.mem_append]
      left
      cases n with
      | mk t v k cs =>
        simp only [ASTNode.children] at hc
        simp [preorder, hc]
    · intro _
      apply nfo_emit_func_call_instantiations_list rest
      intro c hc
      apply hg
      simp [preorder_list, hc]
end

theorem nfo_gen_architecture_body (ctype_to_vhdl : Option CStr → CStr)
    {g : ASTNode → G Unit} {node : ASTNode}
    (hg : ∀ c ∈ preorder_list (annotate_children node.children 0).1, NoFuelOut (g c)) :
    NoFuelOut (gen_architecture_body ctype_to_vhdl g node) := by
  unfold gen_architecture_body
  repeat' (first
    | exact nfo_pure _ | exact nfo_emit _ | exact nfo_emit_s _ | exact nfo_deref _
    | exact nfo_get | exact nfo_set _ | exact nfo_gen_signals _ _
    | exact nfo_emit_func_call_instantiations_list _ hg
    | apply nfo_bind | intro _ | (dsimp only))
  apply nfo_for_each
  intro c hc
  split
  · exact hg c (mem_preorder_list.mpr ⟨c, hc, preorder_self c⟩)
  · exact nfo_pure _

theorem nfo_gen_architecture (ctype_to_vhdl : Option CStr → CStr) {g : ASTNode → G Unit}
    {node : ASTNode}
    (hg : ∀ c ∈ preorder_list (annotate_children node.children 0).1, NoFuelOut (g c)) :
    NoFuelOut (gen_architecture ctype_to_vhdl g node) := by
  unfold gen_architecture
  exact nfo_bind (nfo_deref _) (fun _ => nfo_bind (nfo_emit _) (fun _ =>
    nfo_bind (nfo_gen_architecture_body _ hg) (fun _ => nfo_emit_s _)))

mutual
theorem height_annotate : ∀ (n : ASTNode) (c : Int),
    height (annotate_func_calls n c).1 = height n
  | .mk t v k cs, c => by
    simp only [annotate_func_calls, height, height_list_annotate cs]
theorem height_list_annotate : ∀ (l : List ASTNode) (c : Int),
    height_list (annotate_children l c).1 = height_list l
  | [], c => by simp [annotate_children]
  | n :: rest, c => by
    simp only [annotate_children, height_list, height_annotate n, height_list_annotate rest]
end

mutual
theorem height_mem_preorder : ∀ (n : ASTNode) {x : ASTNode}, x ∈ preorder n →
    height x ≤ height n
  | .mk t v k cs, x, h => by
    simp only [preorder, List.mem_cons] at h
    rcases h with rfl | h
    · exact Nat.le_refl _
    · have := height_mem_preorder_list cs h
      simp only [height]
      omega
theorem height_mem_preorder_list : ∀ (l : List ASTNode) {x : ASTNode}, x ∈ preorder_list l →
    height x ≤ height_list l
  | [], x, h => by simp [preorder_list] at h
  | n :: rest, x, h => by
    simp only [preorder_list, List.mem_append] at h
    simp only [height_list]
    rcases h with h | h
    · have := height_mem_preorder n h
      omega
    · have := height_mem_preorder_list rest h
      omega
end

theorem height_children (n : ASTNode) : height n = height_list n.children + 1 := by
  cases n with
  | mk t v k cs => simp [height, ASTNode.children]

theorem generate_vhdl_no_fuel_out (ctype_to_vhdl : Option CStr → CStr)
    (is_negative_literal : Option CStr → Bool) :
    ∀ (fuel : Nat) (node : ASTNode), height node < fuel →
      NoFuelOut (generate_vhdl ctype_to_vhdl is_negative_literal fuel node) := by
  intro fuel
  induction fuel with
  | zero => intro node h; omega
  | succ fuel ih =>
    intro node hh
    have hdesc : ∀ c ∈ preorder_list node.children,
        NoFuelOut (generate_vhdl ctype_to_vhdl is_negative_literal fuel c) := by
      intro c hc
      apply ih
      have := height_mem_preorder_list node.children hc
      have := height_children node
      omega
    have hchild : ∀ c ∈ node.children,
        NoFuelOut (generate_vhdl ctype_to_vhdl is_negative_literal fuel c) :=
      fun c hc => hdesc c (mem_preorder_list.mpr ⟨c, hc, preorder_self c⟩)
    have hsub : ∀ c ∈ node.children, ∀ d ∈ preorder c,
        NoFuelOut (generate_vhdl ctype_to_vhdl is_negative_literal fuel d) :=
      fun c hc d hd => hdesc d (mem_preorder_list.mpr ⟨c, hc, hd⟩)
    have hnode : ∀ d ∈ preorder node, d ≠ node →
        NoFuelOut (generate_vhdl ctype_to_vhdl is_negative_literal fuel d) := by
      intro d hd hne
      cases node with
      | mk t v k cs =>
        simp only [preorder, List.mem_cons] at hd
        rcases hd with rfl | hd
        · exact absurd rfl hne
        · exact hdesc d hd
    have hann : ∀ c ∈ preorder_list (annotate_children node.children 0).1,
        NoFuelOut (generate_vhdl ctype_to_vhdl is_negative_literal fuel c) := by
      intro c hc
      apply ih
      have := height_mem_preorder_list _ hc
      rw [height_list_annotate] at this
      have := height_children node
      omega
    simp only [generate_vhdl]
    split
    · exact nfo_bind (nfo_emit_s _) (fun _ => nfo_bind (nfo_emit_s _) (fun _ =>
        nfo_bind (nfo_emit_s _) (fun _ => nfo_bind (nfo_emit_s _) (fun _ =>
          nfo_for_each hchild))))
    · exact nfo_bind (nfo_gen_entity _ _) (fun _ => nfo_gen_architecture _ hann)
    · exact nfo_for_each (fun c hc => nfo_gen_statement_child (hsub c hc))
    · split
      · rename_i cond body heq
        exact nfo_bind (nfo_emit_s _) (fun _ =>
          nfo_bind (nfo_gen_condition _ (hchild cond (by simp [heq]))) (fun _ =>
            nfo_bind (nfo_emit_s _) (fun _ =>
              nfo_bind (nfo_for_each (fun c hc => hchild c (by simp [heq, hc]))) (fun _ =>
                nfo_emit_s _))))
      · exact nfo_undefined
    · exact nfo_gen_for hchild (fun c hc d hd => hsub c hc d (mem_preorder_children hd))
    · exact nfo_emit_s _
    · exact nfo_emit_s _
    · exact nfo_gen_binary_expr _ hchild
    · split
      · rename_i cond branches heq
        exact nfo_bind (nfo_emit_s _) (fun _ =>
          nfo_bind (nfo_gen_condition _ (hchild cond (by simp [heq]))) (fun _ =>
            nfo_bind (nfo_emit_s _) (fun _ =>
              nfo_bind (nfo_for_each (fun c hc =>
                nfo_gen_if_branch (hsub c (by simp [heq, hc])))) (fun _ =>
                nfo_emit_s _))))
      · exact nfo_undefined
    · exact nfo_gen_expression _ _
    · exact nfo_gen_func_call _
    · exact nfo_gen_unary_op hchild
    · exact nfo_pure _

/-! ## Lemmas: the function case of the generator -/


theorem for_each_param_ports (ctype_to_vhdl : Option CStr → CStr) (st : GenState) :
    ∀ (l : List ASTNode), (∀ c ∈ l, c.type = NODE_VAR_DECL → c.value ≠ none) →
      for_each (gen_param_port ctype_to_vhdl) l st
        = .ok () st (((l.filter (fun c => decide (c.type = NODE_VAR_DECL))).map
            (param_port_line ctype_to_vhdl)).flatten) := by
  intro l
  induction l with
  | nil => intro _; rfl
  | cons c rest ih =>
    intro h
    have ihr := ih (fun d hd => h d (by simp [hd]))
    by_cases hc : c.type = NODE_VAR_DECL
    · obtain ⟨v, hv⟩ := Option.ne_none_iff_exists'.mp (h c (by simp) hc)
      simp [for_each, G.bind, gen_param_port, hc, hv, deref, emit, ihr, param_port_line]
    · simp [for_each, G.bind, gen_param_port, hc, ihr]

theorem gen_entity_eq (ctype_to_vhdl : Option CStr → CStr) (st : GenState) (node : ASTNode)
    (name : CStr) (hname : node.value = some name)
    (hparams : ∀ c ∈ node.children, c.type = NODE_VAR_DECL → c.value ≠ none) :
    gen_entity ctype_to_vhdl node st
      = .ok () st ("-- Function: ".toList ++ name ++ "\n".toList
          ++ entity_block ctype_to_vhdl node name) := by
  simp [gen_entity, G.bind, hname, deref, emit, emit_s,
    for_each_param_ports ctype_to_vhdl _ node.children hparams, entity_block, port_lines,
    param_children]

theorem generate_function_eq (ctype_to_vhdl : Option CStr → CStr)
    (is_negative_literal : Option CStr → Bool) (fuel : Nat) (st : GenState) (node : ASTNode)
    (name : CStr) (htype : node.type = NODE_FUNCTION_DECL) (hname : node.value = some name)
    (hparams : ∀ c ∈ node.children, c.type = NODE_VAR_DECL → c.value ≠ none) :
    generate_vhdl ctype_to_vhdl is_negative_literal (fuel + 1) node st
      = map_text (fun body => "-- Function: ".toList ++ name ++ "\n".toList
            ++ entity_block ctype_to_vhdl node name ++ architecture_block name body)
          (gen_architecture_body ctype_to_vhdl
            (generate_vhdl ctype_to_vhdl is_negative_literal fuel) node st) := by
  simp only [generate_vhdl, htype, gen_bind_apply, G.bind,
    gen_entity_eq ctype_to_vhdl st node name hname hparams, gen_architecture, hname, deref,
    gen_pure_apply, emit, emit_s]
  cases gen_architecture_body ctype_to_vhdl
      (generate_vhdl ctype_to_vhdl is_negative_literal fuel) node st with
  | ok a st1 out => simp [map_text, architecture_block]
  | undefined => simp [map_text]
  | out_of_fuel => simp [map_text]

/-! ## Lemmas: one iteration of the loops of the parser -/

set_option maxRecDepth 100000

theorem parse_program_loop_eof (get_precedence : CStr → Int) (fuel : Nat) (program_node : ASTNode)
    (s : PState) (h : s.current_token.type = TOKEN_EOF) :
    parse_program_loop get_precedence (fuel + 1) program_node s = .ok program_node s := by
  simp [parse_program_loop, P.bind, match_token, match_state, h]

theorem parse_program_loop_function (get_precedence : CStr → Int) (fuel : Nat)
    (program_node : ASTNode) (s : PState)
    (hk : s.current_token.type = TOKEN_KEYWORD)
    (hi : (advance_state s).current_token.type = TOKEN_IDENTIFIER)
    (hp : (advance_state (advance_state s)).current_token.type = TOKEN_PARENTHESIS_OPEN) :
    parse_program_loop get_precedence (fuel + 1) program_node s
      = P.bind (parse_function get_precedence fuel s.current_token
            (advance_state s).current_token)
          (fun func_node =>
            parse_program_loop get_precedence fuel (add_child program_node func_node))
          (advance_state (advance_state s)) := by
  simp [parse_program_loop, P.bind, match_token, match_state, hk, hi, hp, get_state, advance]

theorem parse_program_loop_global (get_precedence : CStr → Int) (fuel : Nat)
    (program_node : ASTNode) (s : PState)
    (hk : s.current_token.type = TOKEN_KEYWORD)
    (hi : (advance_state s).current_token.type = TOKEN_IDENTIFIER)
    (hp : (advance_state (advance_state s)).current_token.type ≠ TOKEN_PARENTHESIS_OPEN) :
    parse_program_loop get_precedence (fuel + 1) program_node s
      = parse_program_loop get_precedence fuel program_node
          (after_semicolon (advance_state (advance_state s))) := by
  simp only [after_semicolon]
  split
  · rename_i h
    simp [parse_program_loop, P.bind, match_token, match_state, hk, hi, hp, get_state, advance,
      skip_tokens_until, h]
  · rename_i h
    simp [parse_program_loop, P.bind, match_token, match_state, hk, hi, hp, get_state, advance,
      skip_tokens_until, h]

theorem parse_program_loop_skip (get_precedence : CStr → Int) (fuel : Nat)
    (program_node : ASTNode) (s : PState)
    (he : s.current_token.type ≠ TOKEN_EOF)
    (h : s.current_token.type = TOKEN_KEYWORD →
      (advance_state s).current_token.type ≠ TOKEN_IDENTIFIER) :
    parse_program_loop get_precedence (fuel + 1) program_node s
      = parse_program_loop get_precedence fuel program_node
          (if s.current_token.type = TOKEN_KEYWORD then advance_state (advance_state s)
            else advance_state s) := by
  by_cases hk : s.current_token.type = TOKEN_KEYWORD
  · simp [parse_program_loop, P.bind, match_token, match_state, hk, h hk, get_state, advance]
  · simp [parse_program_loop, P.bind, match_token, match_state, hk, he, get_state, advance]

theorem parse_parameters_done (fuel : Nat) (func_node : ASTNode) (s : PState)
    (h : s.current_token.type = TOKEN_PARENTHESIS_CLOSE ∨ s.current_token.type = TOKEN_EOF) :
    parse_parameters (fuel + 1) func_node s = .ok func_node s := by
  rcases h with h | h <;> simp [parse_parameters, P.bind, match_token, match_state, h]

theorem parse_parameters_pair (fuel : Nat) (func_node : ASTNode) (s : PState)
    (hk : s.current_token.type = TOKEN_KEYWORD)
    (hi : (advance_state s).current_token.type = TOKEN_IDENTIFIER) :
    parse_parameters (fuel + 1) func_node s
      = parse_parameters fuel
          (add_child func_node
            (set_value (set_token (create_node NODE_VAR_DECL) s.current_token)
              (advance_state s).current_token.value))
          (if (advance_state (advance_state s)).current_token.type = TOKEN_COMMA then
            advance_state (advance_state (advance_state s))
           else advance_state (advance_state s)) := by
  by_cases hc : (advance_state (advance_state s)).current_token.type = TOKEN_COMMA
  · simp [parse_parameters, P.bind, match_token, match_state, hk, hi, hc, get_state, advance]
  · simp [parse_parameters, P.bind, match_token, match_state, hk, hi, hc, get_state, advance]

theorem parse_parameters_unnamed (fuel : Nat) (func_node : ASTNode) (s : PState)
    (hk : s.current_token.type = TOKEN_KEYWORD)
    (hi : (advance_state s).current_token.type ≠ TOKEN_IDENTIFIER) :
    parse_parameters (fuel + 1) func_node s = .ok func_node (advance_state s) := by
  simp [parse_parameters, P.bind, match_token, match_state, hk, hi, get_state, advance]

theorem parse_function_body_done (get_precedence : CStr → Int) (fuel : Nat) (brace_depth : Int)
    (func_node : ASTNode) (s : PState)
    (h : brace_depth ≤ 0 ∨ s.current_token.type = TOKEN_EOF) :
    parse_function_body get_precedence (fuel + 1) brace_depth func_node s
      = .ok func_node s := by
  rcases h with h | h
  · have : ¬ brace_depth > 0 := by omega
    simp [parse_function_body, P.bind, match_token, match_state, this]
  · simp [parse_function_body, P.bind, match_token, match_state, h]

theorem parse_function_body_close (get_precedence : CStr → Int) (fuel : Nat)
    (brace_depth : Int) (func_node : ASTNode) (s : PState) (hd : 0 < brace_depth)
    (h : s.current_token.type = TOKEN_BRACE_CLOSE) :
    parse_function_body get_precedence (fuel + 1) brace_depth func_node s
      = parse_function_body get_precedence fuel (brace_depth - 1) func_node
          (advance_state s) := by
  simp [parse_function_body, P.bind, match_token, match_state, h, hd, advance]

theorem parse_function_body_statement (get_precedence : CStr → Int) (fuel : Nat)
    (brace_depth : Int) (func_node : ASTNode) (s : PState) (hd : 0 < brace_depth)
    (h1 : s.current_token.type ≠ TOKEN_EOF) (h2 : s.current_token.type ≠ TOKEN_BRACE_OPEN)
    (h3 : s.current_token.type ≠ TOKEN_BRACE_CLOSE) :
    parse_function_body get_precedence (fuel + 1) brace_depth func_node s
      = P.bind (parse_statement get_precedence fuel)
          (fun stmt =>
            parse_function_body get_precedence fuel brace_depth (add_child func_node stmt))
          s := by
  simp [parse_function_body, P.bind, match_token, match_state, h1, h2, h3, hd]

theorem parse_expression_sum (get_precedence : CStr → Int) (fuel : Nat)
    (tx tp ty t : Token) (rest : List Token) (arrays : List ArrayInfo) (depth : Int)
    (hplus : -2 ≤ get_precedence tp.value)
    (hx : tx.type = TOKEN_IDENTIFIER) (hp : tp.type = TOKEN_OPERATOR)
    (hy : ty.type = TOKEN_IDENTIFIER) (ht : t.type = TOKEN_SEMICOLON) :
    parse_expression get_precedence (fuel + 4) ⟨tx, tp :: ty :: t :: rest, arrays, depth⟩
      = .ok (some (.mk NODE_BINARY_EXPR (some (tp.value.take 7)) none
          [.mk NODE_EXPRESSION (some (tx.value.take 127)) none [],
           .mk NODE_EXPRESSION (some (ty.value.take 127)) none []]))
          ⟨t, rest, arrays, depth⟩ := by
  have hp2 : ¬ get_precedence tp.value < -2 := by omega
  simp [parse_expression, parse_expression_prec, parse_primary, parse_operators, P.bind,
    match_text, match_token, match_state, get_state, advance, advance_state, next_token,
    ht, hp, hx, hy, hp2, set_value, add_child, create_node, ASTNode.type, ASTNode.token,
    ASTNode.value, ASTNode.children, fatal]

theorem parse_return_sum (get_precedence : CStr → Int) (fuel : Nat)
    (tr tx tp ty t : Token) (rest : List Token) (arrays : List ArrayInfo) (depth : Int)
    (hplus : -2 ≤ get_precedence tp.value)
    (hr : tr.type = TOKEN_KEYWORD) (hrv : tr.value = ['r', 'e', 't', 'u', 'r', 'n'])
    (hx : tx.type = TOKEN_IDENTIFIER) (hp : tp.type = TOKEN_OPERATOR)
    (hy : ty.type = TOKEN_IDENTIFIER) (ht : t.type = TOKEN_SEMICOLON) :
    parse_statement get_precedence (fuel + 5) ⟨tr, tx :: tp :: ty :: t :: rest, arrays, depth⟩
      = .ok (.mk NODE_STATEMENT none (some tr)
          [.mk NODE_BINARY_EXPR (some (tp.value.take 7)) none
            [.mk NODE_EXPRESSION (some (tx.value.take 127)) none [],
             .mk NODE_EXPRESSION (some (ty.value.take 127)) none []]])
          ⟨(next_token rest).1, (next_token rest).2, arrays, depth⟩ := by
  simp [parse_statement, parse_return, P.bind,
    match_type_keyword, match_text, match_token, match_state, consume, get_state,
    advance, advance_state, next_token, hr, hrv,
    parse_expression_sum get_precedence fuel tx tp ty t rest arrays depth hplus hx hp hy ht, ht,
    set_value, set_token, add_child, add_child_opt, create_node, ASTNode.type, ASTNode.token,
    ASTNode.value, ASTNode.children]

theorem add_parse_fuel (get_precedence : CStr → Int) (hplus : -2 ≤ get_precedence "+".toList)
    (fuel : Nat) :
    parse_program get_precedence (fuel + 8) (initial_state add_tokens)
      = .ok (.mk NODE_PROGRAM none none [add_function]) ⟨tok TOKEN_EOF "", [], [], 0⟩ := by
  have hplus2 : -2 ≤ get_precedence ['+'] := hplus
  have he := fun (rest : List Token) (arrays : List ArrayInfo) (depth : Int) =>
    parse_return_sum get_precedence (fuel + 1) ⟨TOKEN_KEYWORD, ['r', 'e', 't', 'u', 'r', 'n'], 1⟩
      ⟨TOKEN_IDENTIFIER, ['a'], 1⟩ ⟨TOKEN_OPERATOR, ['+'], 1⟩ ⟨TOKEN_IDENTIFIER, ['b'], 1⟩
      ⟨TOKEN_SEMICOLON, [';'], 1⟩ rest arrays depth hplus2 rfl rfl rfl rfl rfl rfl
  simp [parse_program, parse_program_loop_function, parse_program_loop_eof, parse_function,
    parse_parameters_pair, parse_parameters_done, parse_function_body_statement,
    parse_function_body_close, parse_function_body_done, P.bind,
    match_token, match_state, consume, tok, get_state, set_state,
    advance, advance_state, next_token, initial_state, add_tokens, add_function, he,
    set_value, set_token, add_child, create_node, ASTNode.type, ASTNode.token,
    ASTNode.value, ASTNode.children]

theorem parse_expression_atom (get_precedence : CStr → Int) (fuel : Nat) (ta t : Token)
    (rest : List Token) (arrays : List ArrayInfo) (depth : Int)
    (ha : ta.type = TOKEN_NUMBER ∨ ta.type = TOKEN_IDENTIFIER)
    (ht : t.type ≠ TOKEN_OPERATOR) (ht2 : t.type ≠ TOKEN_PARENTHESIS_OPEN)
    (ht3 : t.type ≠ TOKEN_BRACKET_OPEN) :
    parse_expression get_precedence (fuel + 2) ⟨ta, t :: rest, arrays, depth⟩
      = .ok (some (.mk NODE_EXPRESSION
          (some (if ta.type = TOKEN_IDENTIFIER then ta.value.take 127 else ta.value)) none []))
          ⟨t, rest, arrays, depth⟩ := by
  rcases ha with ha | ha
  · simp [parse_expression, parse_expression_prec, parse_primary, parse_operators, P.bind,
      match_text, match_token, match_state, get_state, advance, advance_state, next_token,
      ha, ht, set_value, create_node, ASTNode.type, ASTNode.token, ASTNode.value,
      ASTNode.children]
  · simp [parse_expression, parse_expression_prec, parse_primary, parse_operators, P.bind,
      match_text, match_token, match_state, get_state, advance, advance_state, next_token,
      ha, ht, ht2, ht3, set_value, create_node, ASTNode.type, ASTNode.token, ASTNode.value,
      ASTNode.children]

theorem parse_expression_dangling (get_precedence : CStr → Int) (fuel : Nat) (ta tp t : Token)
    (rest : List Token) (arrays : List ArrayInfo) (depth : Int)
    (ha : ta.type = TOKEN_IDENTIFIER) (hp : tp.type = TOKEN_OPERATOR)
    (ht : t.type = TOKEN_PARENTHESIS_CLOSE) :
    parse_expression get_precedence (fuel + 4) ⟨ta, tp :: t :: rest, arrays, depth⟩
      = (if get_precedence tp.value < -2 then
          .ok (some (.mk NODE_EXPRESSION (some (ta.value.take 127)) none []))
            ⟨tp, t :: rest, arrays, depth⟩
        else .fatal t.line "Expected right operand after operator '%s'") := by
  by_cases h : get_precedence tp.value < -2
  · simp [parse_expression, parse_expression_prec, parse_primary, parse_operators, P.bind,
      match_text, match_token, match_state, get_state, advance, advance_state, next_token,
      ha, hp, ht, h, set_value, create_node, ASTNode.type, ASTNode.token, ASTNode.value,
      ASTNode.children]
  · simp [parse_expression, parse_expression_prec, parse_primary, parse_operators, P.bind,
      match_text, match_token, match_state, get_state, advance, advance_state, next_token,
      ha, hp, ht, h, set_value, create_node, ASTNode.type, ASTNode.token, ASTNode.value,
      ASTNode.children, fatal]

theorem parse_return_atom (get_precedence : CStr → Int) (fuel : Nat)
    (tr ta t : Token) (rest : List Token) (arrays : List ArrayInfo) (depth : Int)
    (hr : tr.type = TOKEN_KEYWORD) (hrv : tr.value = ['r', 'e', 't', 'u', 'r', 'n'])
    (ha : ta.type = TOKEN_NUMBER ∨ ta.type = TOKEN_IDENTIFIER) (ht : t.type = TOKEN_SEMICOLON) :
    parse_statement get_precedence (fuel + 3) ⟨tr, ta :: t :: rest, arrays, depth⟩
      = .ok (.mk NODE_STATEMENT none (some tr)
          [.mk NODE_EXPRESSION
            (some (if ta.type = TOKEN_IDENTIFIER then ta.value.take 127 else ta.value))
            none []])
          ⟨(next_token rest).1, (next_token rest).2, arrays, depth⟩ := by
  have he := parse_expression_atom get_precedence fuel ta t rest arrays depth ha
    (by rw [ht]; decide) (by rw [ht]; decide) (by rw [ht]; decide)
  rw [show fuel + 3 = (fuel + 2) + 1 from rfl, parse_statement]
  simp [parse_return, P.bind, match_type_keyword, match_text, match_token, match_state,
    consume, get_state, advance, advance_state, next_token, hr, hrv, he, ht,
    set_value, set_token, add_child, add_child_opt, create_node, ASTNode.type, ASTNode.token,
    ASTNode.value, ASTNode.children]
/-! ## Lemmas: the text of expressions and statements -/

theorem generate_leaf (ctype_to_vhdl : Option CStr → CStr)
    (is_negative_literal : Option CStr → Bool) (fuel : Nat) (v : CStr) (k : Option Token)
    (cs : List ASTNode) (st : GenState)
    (hb : strchr v '[' = none) (hn : is_negative_literal (some v) = false)
    (hu : ¬ (find_tracked st.g_tracking_active st.g_tracked_vars v ≥ 0
      ∧ st.g_in_clock_body = true)) :
    generate_vhdl ctype_to_vhdl is_negative_literal (fuel + 1)
        (.mk NODE_EXPRESSION (some v) k cs) st = .ok () st v := by
  simp only [generate_vhdl, ASTNode.type, gen_expression, ASTNode.value, hb, Option.map_none',
    hn, gen_bind_apply, G.bind, get_globals]
  have hu2 : ¬ (0 ≤ find_tracked st.g_tracking_active st.g_tracked_vars v
      ∧ st.g_in_clock_body = true) := hu
  simp [G.bind, get_globals, hu2, emit]

theorem generate_tracked (ctype_to_vhdl : Option CStr → CStr)
    (is_negative_literal : Option CStr → Bool) (fuel : Nat) (v : CStr) (k : Option Token)
    (cs : List ASTNode) (st : GenState) (i : Nat) (t : TrackedVar)
    (hb : strchr v '[' = none) (hn : is_negative_literal (some v) = false)
    (hi : find_tracked st.g_tracking_active st.g_tracked_vars v = (i : Int))
    (ht : st.g_tracked_vars.get? i = some t) (hc : st.g_in_clock_body = true) :
    generate_vhdl ctype_to_vhdl is_negative_literal (fuel + 1)
        (.mk NODE_EXPRESSION (some v) k cs) st = .ok () st t.gen := by
  simp only [generate_vhdl, ASTNode.type, gen_expression, ASTNode.value, hb, Option.map_none',
    hn, gen_bind_apply, G.bind, get_globals]
  have ht2 : st.g_tracked_vars[i]? = some t := by simpa using ht
  simp [G.bind, get_globals, hi, hc, ht2, emit]

theorem generate_arithmetic (ctype_to_vhdl : Option CStr → CStr)
    (is_negative_literal : Option CStr → Bool) (fuel : Nat) (op : CStr) (k : Option Token)
    (left right : ASTNode) (rest : List ASTNode) (st st1 st2 : GenState) (tl tr : CStr)
    (hop : op = "+".toList ∨ op = "-".toList ∨ op = "*".toList ∨ op = "/".toList
      ∨ op = "%".toList)
    (hl : generate_vhdl ctype_to_vhdl is_negative_literal fuel left st = .ok () st1 tl)
    (hr : generate_vhdl ctype_to_vhdl is_negative_literal fuel right st1 = .ok () st2 tr) :
    generate_vhdl ctype_to_vhdl is_negative_literal (fuel + 1)
        (.mk NODE_BINARY_EXPR (some op) k (left :: right :: rest)) st
      = .ok () st2 (tl ++ (" ".toList ++ (op ++ (" ".toList ++ tr)))) := by
  rcases hop with h | h | h | h | h <;> subst h <;>
    simp [generate_vhdl, ASTNode.type, gen_binary_expr, ASTNode.value, ASTNode.children, deref,
      G.bind, hl, hr, emit]

theorem generate_statement (ctype_to_vhdl : Option CStr → CStr)
    (is_negative_literal : Option CStr → Bool) (fuel : Nat) (v : Option CStr)
    (k : Option Token) (cs : List ASTNode) :
    generate_vhdl ctype_to_vhdl is_negative_literal (fuel + 1) (.mk NODE_STATEMENT v k cs)
      = for_each (gen_statement_child (generate_vhdl ctype_to_vhdl is_negative_literal fuel))
          cs := by
  simp only [generate_vhdl, ASTNode.type, ASTNode.children]

theorem gen_statement_child_binary (g : ASTNode → G Unit) (child : ASTNode) (st st1 : GenState)
    (text : CStr) (hg : g child st = .ok () st1 text) (ht : child.type = NODE_BINARY_EXPR) :
    gen_statement_child g child st
      = .ok () st1 ("      result <= ".toList ++ (text ++ ";\n".toList)) := by
  simp [gen_statement_child, ht, G.bind, emit_s, emit, hg]

theorem add_statement (ctype_to_vhdl : Option CStr → CStr)
    (is_negative_literal : Option CStr → Bool)
    (ha : is_negative_literal (some "a".toList) = false)
    (hb : is_negative_literal (some "b".toList) = false) (fuel : Nat) (st : GenState)
    (hu : st.g_tracked_vars = []) :
    generate_vhdl ctype_to_vhdl is_negative_literal (fuel + 3)
        (.mk NODE_STATEMENT none (some (tok TOKEN_KEYWORD "return"))
          [.mk NODE_BINARY_EXPR (some "+".toList) none
            [.mk NODE_EXPRESSION (some "a".toList) none [],
             .mk NODE_EXPRESSION (some "b".toList) none []]]) st
      = .ok () st "      result <= a + b;\n".toList := by
  have hf : ∀ v, ¬ (find_tracked st.g_tracking_active st.g_tracked_vars v ≥ 0
      ∧ st.g_in_clock_body = true) := by
    intro v
    have : find_tracked st.g_tracking_active st.g_tracked_vars v = -1 := by
      simp [find_tracked, hu]
    omega
  have hbin := generate_arithmetic ctype_to_vhdl is_negative_literal (fuel + 1) "+".toList none
    (.mk NODE_EXPRESSION (some "a".toList) none []) (.mk NODE_EXPRESSION (some "b".toList) none [])
    [] st st st "a".toList "b".toList (Or.inl rfl)
    (generate_leaf _ _ fuel _ _ _ st rfl ha (hf _))
    (generate_leaf _ _ fuel _ _ _ st rfl hb (hf _))
  have hst := gen_statement_child_binary
    (generate_vhdl ctype_to_vhdl is_negative_literal (fuel + 2)) _ st st _ hbin rfl
  rw [generate_statement]
  simp only [for_each, gen_bind_apply, G.bind, hst]
  rfl

theorem generate_program (ctype_to_vhdl : Option CStr → CStr)
    (is_negative_literal : Option CStr → Bool) (fuel : Nat) (v : Option CStr)
    (k : Option Token) (cs : List ASTNode) (st : GenState) :
    generate_vhdl ctype_to_vhdl is_negative_literal (fuel + 1) (.mk NODE_PROGRAM v k cs) st
      = map_text (fun text => "-- VHDL generated by compi\n\n".toList ++ ("library IEEE;\n".toList
            ++ ("use IEEE.STD_LOGIC_1164.ALL;\n".toList
            ++ ("use IEEE.NUMERIC_STD.ALL;\n\n".toList ++ text))))
          (for_each (generate_vhdl ctype_to_vhdl is_negative_literal fuel) cs st) := by
  simp only [generate_vhdl, ASTNode.type, ASTNode.children, gen_bind_apply, G.bind, emit_s, emit]
  cases for_each (generate_vhdl ctype_to_vhdl is_negative_literal fuel) cs st <;>
    simp [map_text]

theorem add_generate (ctype_to_vhdl : Option CStr → CStr)
    (is_negative_literal : Option CStr → Bool)
    (ha : is_negative_literal (some "a".toList) = false)
    (hb : is_negative_literal (some "b".toList) = false) (fuel : Nat) :
    generate_vhdl ctype_to_vhdl is_negative_literal (fuel + 5)
        (.mk NODE_PROGRAM none none [add_function]) initial_globals
      = .ok () initial_globals (add_vhdl (ctype_to_vhdl (some "int".toList))) := by
  have hs := fun st hu => add_statement ctype_to_vhdl is_negative_literal ha hb fuel st hu
  have hf := generate_function_eq ctype_to_vhdl is_negative_literal (fuel + 3) initial_globals
    add_function "add".toList rfl rfl (by decide)
  have hbody : gen_architecture_body ctype_to_vhdl
      (generate_vhdl ctype_to_vhdl is_negative_literal (fuel + 3)) add_function initial_globals
      = .ok () initial_globals
          ("begin\n".toList ++
           ("  process(clk, reset)\n".toList ++ ("  begin\n".toList ++
           ("    if reset = '1' then\n".toList ++ ("      -- Reset logic\n".toList ++
           ("    elsif rising_edge(clk) then\n".toList ++
           ("      result <= a + b;\n".toList ++
           ("    end if;\n".toList ++ "  end process;\n".toList)))))))) := by
    simp only [tok, add_function, String.toList] at hs ⊢
    simp [gen_architecture_body, G.bind, for_each, emit, emit_s,
      gen_signals, gen_statement_signals, annotate_children, annotate_func_calls, annotate_value,
      declare_func_call_signals_list, declare_func_call_signals,
      emit_func_call_instantiations_list, emit_func_call_instantiations, collect_tracked,
      track_decl, set_globals, get_globals, initial_globals, hs,
      ASTNode.type, ASTNode.token, ASTNode.value, ASTNode.children]
  rw [show fuel + 5 = (fuel + 3 + 1) + 1 from rfl, generate_program]
  simp only [for_each, gen_bind_apply, G.bind, hf, hbody, map_text, gen_pure_apply]
  simp [map_text, entity_block, architecture_block, port_lines, param_children, add_function,
    param_port_line, result_vhdl_type, tok, ASTNode.type, ASTNode.children, ASTNode.value,
    ASTNode.token, initial_globals, add_vhdl]

/-- The text `pre` in front of the text of a result. -/
theorem map_text_bind_emit (pre : CStr) (m : G Unit) (st : GenState) :
    (emit pre >>= fun _ => m) st = map_text (fun rest => pre ++ rest) (m st) := by
  simp only [gen_bind_apply, G.bind, emit]
  cases m st <;> simp [map_text]

theorem gen_logical_operand_text (g : ASTNode → G Unit) (operand : ASTNode)
    (st st1 : GenState) (text : CStr) (hg : g operand st = .ok () st1 text) :
    gen_logical_operand g operand st = .ok () st1 (logical_operand_text operand text) := by
  unfold gen_logical_operand
  cases hv : operand.value with
  | none => simp [logical_operand_text, is_boolean_binary, hv, G.bind, emit_s, emit, hg]
  | some op =>
    by_cases ht : operand.type = NODE_BINARY_EXPR
    · by_cases hb : is_bool_op op = true
      · have hb2 := hb
        simp only [is_bool_op, Bool.or_eq_true, decide_eq_true_eq] at hb2
        have hb3 : is_boolean_binary operand = true := by
          simp only [is_boolean_binary, hv, ht, Option.some.injEq, decide_True, Bool.true_and,
            Bool.or_eq_true, decide_eq_true_eq]
          exact hb2
        simp [logical_operand_text, hb3, ht, hb, G.bind, emit_s, emit, hg]
      · have hb2 := hb
        simp only [is_bool_op, Bool.or_eq_true, decide_eq_true_eq] at hb2
        have hb3 : is_boolean_binary operand = false := by
          rw [Bool.eq_false_iff]
          intro h
          simp only [is_boolean_binary, hv, ht, Option.some.injEq, decide_True, Bool.true_and,
            Bool.or_eq_true, decide_eq_true_eq] at h
          exact hb2 h
        simp [logical_operand_text, hb3, ht, hb, G.bind, emit_s, emit, hg]
    · simp [logical_operand_text, is_boolean_binary, ht, G.bind, emit_s, emit, hg]

theorem generate_binary (ctype_to_vhdl : Option CStr → CStr)
    (is_negative_literal : Option CStr → Bool) (fuel : Nat) (v : Option CStr)
    (k : Option Token) (cs : List ASTNode) :
    generate_vhdl ctype_to_vhdl is_negative_literal (fuel + 1) (.mk NODE_BINARY_EXPR v k cs)
      = gen_binary_expr is_negative_literal
          (generate_vhdl ctype_to_vhdl is_negative_literal fuel)
          (.mk NODE_BINARY_EXPR v k cs) := by
  simp only [generate_vhdl, ASTNode.type]

theorem generate_comparison_leaves (ctype_to_vhdl : Option CStr → CStr)
    (is_negative_literal : Option CStr → Bool) (fuel : Nat) (op x y : CStr)
    (k kx ky : Option Token) (cx cy rest : List ASTNode) (st : GenState)
    (hop : op = "==".toList ∨ op = "!=".toList ∨ op = "<".toList ∨ op = "<=".toList
      ∨ op = ">".toList ∨ op = ">=".toList)
    (hx : is_negative_literal (some x) = false) (hy : is_negative_literal (some y) = false)
    (hxn : is_num_text x = false) (hyn : is_num_text y = false) :
    generate_vhdl ctype_to_vhdl is_negative_literal (fuel + 1)
        (.mk NODE_BINARY_EXPR (some op) k
          (.mk NODE_EXPRESSION (some x) kx cx :: .mk NODE_EXPRESSION (some y) ky cy :: rest)) st
      = .ok () st ("unsigned(".toList ++ (x ++ (")".toList ++ (" ".toList ++
          ((if op = "==".toList then "=".toList else if op = "!=".toList then "/=".toList
            else op) ++ (" ".toList ++ ("unsigned(".toList ++ (y ++ ")".toList)))))))) := by
  rw [generate_binary]
  rcases hop with h | h | h | h | h | h <;> subst h <;>
    simp [gen_binary_expr, ASTNode.value, ASTNode.children, deref, G.bind,
      gen_comparison_operand, ASTNode.type, hx, hy, hxn, hyn, emit]

theorem remaining_advance_le (s : PState) : remaining (advance_state s) ≤ remaining s := by
  unfold remaining tokens_left advance_state
  cases hin : s.input with
  | nil => simp [next_token]
  | cons t rest =>
    simp only [next_token, List.length_cons]
    split <;> split <;> omega

theorem remaining_advance_lt (s : PState) (h : s.current_token.type ≠ TOKEN_EOF) :
    remaining (advance_state s) < remaining s := by
  unfold remaining tokens_left advance_state
  cases hin : s.input with
  | nil => simp [next_token, h]
  | cons t rest =>
    simp only [next_token, List.length_cons, if_neg h]
    split <;> omega

theorem ne_eof_of_match {s : PState} {t : TokenType} (h : match_state s t = true)
    (ht : t ≠ TOKEN_EOF) : s.current_token.type ≠ TOKEN_EOF := by
  simp only [match_state, decide_eq_true_eq] at h
  rw [h]; exact ht

theorem ne_eof_of_match_and {s : PState} {t : TokenType} {b : Bool}
    (h : (match_state s t && b) = true) (ht : t ≠ TOKEN_EOF) :
    s.current_token.type ≠ TOKEN_EOF :=
  ne_eof_of_match (Bool.and_eq_true_iff.mp h).1 ht

theorem tokens_left_next (cur t : Token) (rest : List Token) :
    tokens_left t rest ≤ tokens_left cur (t :: rest) := by
  unfold tokens_left
  simp only [List.length_cons]
  split <;> split <;> omega

theorem tokens_left_next_lt (cur t : Token) (rest : List Token) (h : cur.type ≠ TOKEN_EOF) :
    tokens_left t rest < tokens_left cur (t :: rest) := by
  unfold tokens_left
  simp only [List.length_cons, if_neg h]
  split <;> omega

theorem capture_index_left : ∀ (input : List Token) (cur : Token) (idx_buf : CStr)
    (paren_depth : Int),
    tokens_left (capture_index cur input idx_buf paren_depth).2.1
        (capture_index cur input idx_buf paren_depth).2.2 ≤ tokens_left cur input := by
  intro input
  induction input with
  | nil =>
    intro cur idx_buf paren_depth
    simp only [capture_index]
    split
    · exact Nat.le_refl _
    · split
      · exact Nat.le_refl _
      · simp [tokens_left, next_token]
  | cons t rest ih =>
    intro cur idx_buf paren_depth
    simp only [capture_index]
    split
    · exact Nat.le_refl _
    · split
      · exact Nat.le_refl _
      · exact Nat.le_trans (ih _ _ _) (tokens_left_next cur t rest)

theorem skip_until_left (stop : TokenType → Bool) : ∀ (input : List Token) (cur : Token),
    tokens_left (skip_until stop cur input).1 (skip_until stop cur input).2
      ≤ tokens_left cur input := by
  intro input
  induction input with
  | nil =>
    intro cur
    simp only [skip_until]
    split
    · exact Nat.le_refl _
    · simp [tokens_left, next_token]
  | cons t rest ih =>
    intro cur
    simp only [skip_until]
    split
    · exact Nat.le_refl _
    · exact Nat.le_trans (ih _) (tokens_left_next cur t rest)

theorem skip_until_left_lt (stop : TokenType → Bool) (input : List Token) (cur : Token)
    (h : (stop cur.type || decide (cur.type = TOKEN_EOF)) = false) :
    tokens_left (skip_until stop cur input).1 (skip_until stop cur input).2
      < tokens_left cur input := by
  have hne : cur.type ≠ TOKEN_EOF := by
    intro he
    simp [he] at h
  cases input with
  | nil =>
    simp only [skip_until, h]
    simp [tokens_left, next_token, hne]
  | cons t rest =>
    simp only [skip_until, h]
    exact Nat.lt_of_le_of_lt (skip_until_left stop rest t) (tokens_left_next_lt cur t rest hne)

theorem init_list_loop_left : ∀ (input : List Token) (cur : Token) (init_list : ASTNode),
    tokens_left (init_list_loop cur input init_list).2.1
        (init_list_loop cur input init_list).2.2 ≤ tokens_left cur input := by
  intro input
  induction input with
  | nil =>
    intro cur init_list
    simp only [init_list_loop]
    split
    · exact Nat.le_refl _
    · simp [tokens_left, next_token]
  | cons t rest ih =>
    intro cur init_list
    simp only [init_list_loop]
    split
    · exact Nat.le_refl _
    · exact Nat.le_trans (ih _ _) (tokens_left_next cur t rest)

/-- The state after the index capture loop. -/
theorem remaining_capture (s : PState) :
    remaining { s with
        current_token := (capture_index s.current_token s.input [] 0).2.1,
        input := (capture_index s.current_token s.input [] 0).2.2 } ≤ remaining s :=
  capture_index_left s.input s.current_token [] 0

theorem remaining_skip (stop : TokenType → Bool) (s : PState) :
    remaining { s with
        current_token := (skip_until stop s.current_token s.input).1,
        input := (skip_until stop s.current_token s.input).2 } ≤ remaining s :=
  skip_until_left stop s.input s.current_token

theorem remaining_init_list (s : PState) (init_list : ASTNode) :
    remaining { s with
        current_token := (init_list_loop s.current_token s.input init_list).2.1,
        input := (init_list_loop s.current_token s.input init_list).2.2 } ≤ remaining s :=
  init_list_loop_left s.input s.current_token init_list

theorem within_bind_ok {α β : Type} {m : P α} {f : α → P β} {s s1 : PState} {a : α} {n : Nat}
    (h : m s = .ok a s1) : Within (m >>= f) s n ↔ Within (f a) s1 n := by
  simp only [Within, parser_bind_apply, P.bind, h]

theorem within_bind_of {α β : Type} {m : P α} {f : α → P β} {s : PState} {k n : Nat}
    (h : Within m s k) (hf : ∀ a s1, remaining s1 ≤ k → Within (f a) s1 n) :
    Within (m >>= f) s n := by
  unfold Within at h ⊢
  simp only [parser_bind_apply, P.bind]
  cases hm : m s with
  | ok a s1 =>
    rw [hm] at h
    exact hf a s1 h
  | fatal l msg => trivial
  | out_of_fuel => rw [hm] at h; exact h

theorem within_mono {α : Type} {m : P α} {s : PState} {k n : Nat} (h : Within m s k)
    (hkn : k ≤ n) : Within m s n := by
  unfold Within at h ⊢
  cases hm : m s with
  | ok a s1 => rw [hm] at h; exact Nat.le_trans h hkn
  | fatal l msg => trivial
  | out_of_fuel => rw [hm] at h; exact h

@[simp] theorem within_pure {α : Type} (a : α) (s : PState) (n : Nat) :
    Within (pure a : P α) s n ↔ remaining s ≤ n := Iff.rfl

@[simp] theorem within_fatal {α : Type} (msg : String) (s : PState) (n : Nat) :
    Within (fatal msg : P α) s n ↔ True := Iff.rfl

@[simp] theorem within_match_token {β : Type} (t : TokenType) (f : Bool → P β) (s : PState)
    (n : Nat) : Within (match_token t >>= f) s n ↔ Within (f (match_state s t)) s n :=
  within_bind_ok rfl

@[simp] theorem within_match_text {β : Type} (t : TokenType) (text : String) (f : Bool → P β)
    (s : PState) (n : Nat) :
    Within (match_text t text >>= f) s n
      ↔ Within (f (match_state s t && decide (s.current_token.value = text.toList))) s n :=
  within_bind_ok rfl

@[simp] theorem within_match_type_keyword {β : Type} (f : Bool → P β) (s : PState) (n : Nat) :
    Within (match_type_keyword >>= f) s n
      ↔ Within (f (match_state s TOKEN_KEYWORD &&
          (decide (s.current_token.value = "int".toList) ||
           decide (s.current_token.value = "float".toList) ||
           decide (s.current_token.value = "char".toList) ||
           decide (s.current_token.value = "double".toList)))) s n :=
  within_bind_ok rfl

@[simp] theorem within_get_state {β : Type} (f : PState → P β) (s : PState) (n : Nat) :
    Within (get_state >>= f) s n ↔ Within (f s) s n :=
  within_bind_ok rfl

@[simp] theorem within_set_state {β : Type} (s2 : PState) (f : Unit → P β) (s : PState)
    (n : Nat) : Within (set_state s2 >>= f) s n ↔ Within (f ()) s2 n :=
  within_bind_ok rfl

@[simp] theorem within_advance {β : Type} (f : Unit → P β) (s : PState) (n : Nat) :
    Within (advance >>= f) s n ↔ Within (f ()) (advance_state s) n :=
  within_bind_ok rfl

@[simp] theorem within_add_loop_depth {β : Type} (d : Int) (f : Unit → P β) (s : PState)
    (n : Nat) :
    Within (add_loop_depth d >>= f) s n
      ↔ Within (f ()) { s with s_loop_depth := s.s_loop_depth + d } n :=
  within_bind_ok rfl

@[simp] theorem within_consume {β : Type} (t : TokenType) (f : Bool → P β) (s : PState)
    (n : Nat) :
    Within (consume t >>= f) s n
      ↔ (match_state s t = true → Within (f true) (advance_state s) n) ∧
        (match_state s t = false → Within (f false) s n) := by
  cases h : match_state s t
  · have : consume t s = .ok false s := by simp [consume, h]
    simp [within_bind_ok this]
  · have : consume t s = .ok true (advance_state s) := by simp [consume, h]
    simp [within_bind_ok this]

theorem within_ite {α : Type} (c : Prop) [Decidable c] (a b : P α) (s : PState) (n : Nat) :
    Within (if c then a else b) s n ↔ (c → Within a s n) ∧ (¬ c → Within b s n) := by
  by_cases h : c <;> simp [h]

@[simp] theorem within_capture_index_text {β : Type} (f : CStr → P β) (s : PState) (n : Nat) :
    Within (capture_index_text >>= f) s n
      ↔ Within (f (capture_index s.current_token s.input [] 0).1)
          { s with
            current_token := (capture_index s.current_token s.input [] 0).2.1,
            input := (capture_index s.current_token s.input [] 0).2.2 } n :=
  within_bind_ok rfl

@[simp] theorem within_skip_tokens_until {β : Type} (stop : TokenType → Bool)
    (f : Unit → P β) (s : PState) (n : Nat) :
    Within (skip_tokens_until stop >>= f) s n
      ↔ Within (f ())
          { s with
            current_token := (skip_until stop s.current_token s.input).1,
            input := (skip_until stop s.current_token s.input).2 } n :=
  within_bind_ok rfl

@[simp] theorem within_parse_init_list {β : Type} (init_list : ASTNode) (f : ASTNode → P β)
    (s : PState) (n : Nat) :
    Within (parse_init_list init_list >>= f) s n
      ↔ Within (f (init_list_loop s.current_token s.input init_list).1)
          { s with
            current_token := (init_list_loop s.current_token s.input init_list).2.1,
            input := (init_list_loop s.current_token s.input init_list).2.2 } n :=
  within_bind_ok rfl

theorem check_bounds_cases (name idx_buf : CStr) (s : PState) :
    check_bounds name idx_buf s = .ok () s ∨
      ∃ l msg, check_bounds name idx_buf s = .fatal l msg := by
  simp only [check_bounds]
  by_cases h1 : is_number_str idx_buf = true
  · by_cases h2 : find_array_size s.g_arrays name > 0 ∧
        (atoi idx_buf < 0 ∨ atoi idx_buf ≥ find_array_size s.g_arrays name)
    · exact Or.inr ⟨_, _, by rw [if_pos h1, if_pos h2]⟩
    · exact Or.inl (by rw [if_pos h1, if_neg h2])
  · exact Or.inl (by rw [if_neg h1])

theorem within_check_bounds {β : Type} (name idx_buf : CStr) (f : Unit → P β) (s : PState)
    (n : Nat) (h : Within (f ()) s n) : Within (check_bounds name idx_buf >>= f) s n := by
  rcases check_bounds_cases name idx_buf s with hc | ⟨l, msg, hc⟩
  · exact (within_bind_ok hc).mpr h
  · simp [Within, P.bind, hc]

theorem forall_token_type {p : TokenType → Prop}
    (h : ∀ x ∈ [TOKEN_KEYWORD, TOKEN_IDENTIFIER, TOKEN_NUMBER, TOKEN_OPERATOR, TOKEN_SEMICOLON,
      TOKEN_COMMA, TOKEN_PARENTHESIS_OPEN, TOKEN_PARENTHESIS_CLOSE, TOKEN_BRACE_OPEN,
      TOKEN_BRACE_CLOSE, TOKEN_BRACKET_OPEN, TOKEN_BRACKET_CLOSE, TOKEN_EOF], p x) :
    ∀ x, p x := by
  intro x
  apply h
  cases x <;> simp

theorem remaining_pos (s : PState) (h : s.current_token.type ≠ TOKEN_EOF) :
    1 ≤ remaining s := by
  unfold remaining tokens_left
  rw [if_neg h]
  omega

theorem runs_pure {α : Type} {pre : TokenType → Prop} (a : α) {k n : Nat} (h : k ≤ n) :
    Runs pre (pure a : P α) k n :=
  fun _ _ hs => Nat.le_trans hs h

theorem runs_fatal {α : Type} {pre : TokenType → Prop} (msg : String) {k n : Nat} :
    Runs pre (fatal msg : P α) k n :=
  fun _ _ _ => trivial

theorem runs_mono {α : Type} {pre : TokenType → Prop} {m : P α} {k j n : Nat}
    (h : Runs any_token m k j) (hjn : j ≤ n) : Runs pre m k n :=
  fun s _ hs => within_mono (h s trivial hs) hjn

theorem runs_pre {α : Type} {pre pre0 : TokenType → Prop} {m : P α} {k j n : Nat}
    (h : Runs pre0 m k j) (hp : ∀ x, pre x → pre0 x) (hjn : j ≤ n) : Runs pre m k n :=
  fun s hx hs => within_mono (h s (hp _ hx) hs) hjn

theorem runs_bind {α β : Type} {pre : TokenType → Prop} {m : P α} {f : α → P β}
    {k j n : Nat} (h : Runs pre m k j) (hf : ∀ a, Runs any_token (f a) j n) :
    Runs pre (m >>= f) k n :=
  fun s hx hs => within_bind_of (h s hx hs) (fun a s1 h1 => hf a s1 trivial h1)

theorem runs_match_token {β : Type} {pre : TokenType → Prop} {t : TokenType}
    {f : Bool → P β} {k n : Nat} (h1 : Runs (fun x => x = t) (f true) k n)
    (h2 : Runs (fun x => pre x ∧ x ≠ t) (f false) k n) :
    Runs pre (match_token t >>= f) k n := by
  intro s hx hs
  rw [within_match_token]
  by_cases hm : s.current_token.type = t
  · have : match_state s t = true := by simp [match_state, hm]
    rw [this]
    exact h1 s hm hs
  · have : match_state s t = false := by simp [match_state, hm]
    rw [this]
    exact h2 s ⟨hx, hm⟩ hs

theorem runs_match_text {β : Type} {pre : TokenType → Prop} {t : TokenType} {text : String}
    {f : Bool → P β} {k n : Nat} (h1 : Runs (fun x => x = t) (f true) k n)
    (h2 : Runs pre (f false) k n) :
    Runs pre (match_text t text >>= f) k n := by
  intro s hx hs
  rw [within_match_text]
  cases hb : (match_state s t && decide (s.current_token.value = text.toList))
  · exact h2 s hx hs
  · have hm : s.current_token.type = t := by
      have := (Bool.and_eq_true_iff.mp hb).1
      simpa [match_state] using this
    exact h1 s hm hs

theorem runs_match_type_keyword {β : Type} {pre : TokenType → Prop}
    {f : Bool → P β} {k n : Nat} (h1 : Runs (fun x => x = TOKEN_KEYWORD) (f true) k n)
    (h2 : Runs pre (f false) k n) :
    Runs pre (match_type_keyword >>= f) k n := by
  intro s hx hs
  rw [within_match_type_keyword]
  cases hb : (match_state s TOKEN_KEYWORD &&
      (decide (s.current_token.value = "int".toList) ||
       decide (s.current_token.value = "float".toList) ||
       decide (s.current_token.value = "char".toList) ||
       decide (s.current_token.value = "double".toList)))
  · exact h2 s hx hs
  · have hm : s.current_token.type = TOKEN_KEYWORD := by
      have := (Bool.and_eq_true_iff.mp hb).1
      simpa [match_state] using this
    exact h1 s hm hs

theorem runs_get_state {β : Type} {pre : TokenType → Prop} {f : PState → P β} {k n : Nat}
    (h : ∀ x, Runs pre (f x) k n) : Runs pre (get_state >>= f) k n := by
  intro s hx hs
  rw [within_get_state]
  exact h s s hx hs

theorem runs_advance {β : Type} {pre : TokenType → Prop} {f : Unit → P β} {k n : Nat}
    (h : Runs any_token (f ()) k n) : Runs pre (advance >>= f) k n := by
  intro s _ hs
  rw [within_advance]
  exact h _ trivial (Nat.le_trans (remaining_advance_le s) hs)

theorem runs_advance_strict {β : Type} {pre : TokenType → Prop} {f : Unit → P β} {k n : Nat}
    (hp : ∀ x, pre x → x ≠ TOKEN_EOF) (h : 1 ≤ k → Runs any_token (f ()) (k - 1) n) :
    Runs pre (advance >>= f) k n := by
  intro s hx hs
  rw [within_advance]
  have hne := hp _ hx
  have hlt := remaining_advance_lt s hne
  have hpos := remaining_pos s hne
  exact h (by omega) _ trivial (by omega)

theorem runs_consume {β : Type} {pre : TokenType → Prop} {t : TokenType} {f : Bool → P β}
    {k n : Nat} (ht : t ≠ TOKEN_EOF) (h1 : 1 ≤ k → Runs any_token (f true) (k - 1) n)
    (h2 : Runs pre (f false) k n) : Runs pre (consume t >>= f) k n := by
  intro s hx hs
  rw [within_consume]
  refine ⟨fun hm => ?_, fun _ => h2 s hx hs⟩
  have hne := ne_eof_of_match hm ht
  have hlt := remaining_advance_lt s hne
  have hpos := remaining_pos s hne
  exact h1 (by omega) _ trivial (by omega)

theorem runs_add_loop_depth {β : Type} {pre : TokenType → Prop} {d : Int} {f : Unit → P β}
    {k n : Nat} (h : Runs pre (f ()) k n) : Runs pre (add_loop_depth d >>= f) k n := by
  intro s hx hs
  rw [within_add_loop_depth]
  exact h _ hx hs

theorem runs_skip {β : Type} {pre : TokenType → Prop} {stop : TokenType → Bool}
    {f : Unit → P β} {k n : Nat} (h : Runs any_token (f ()) k n) :
    Runs pre (skip_tokens_until stop >>= f) k n := by
  intro s _ hs
  rw [within_skip_tokens_until]
  exact h _ trivial (Nat.le_trans (remaining_skip stop s) hs)

theorem runs_capture {β : Type} {pre : TokenType → Prop} {f : CStr → P β} {k n : Nat}
    (h : ∀ x, Runs any_token (f x) k n) : Runs pre (capture_index_text >>= f) k n := by
  intro s _ hs
  rw [within_capture_index_text]
  exact h _ _ trivial (Nat.le_trans (remaining_capture s) hs)

theorem runs_init_list {β : Type} {pre : TokenType → Prop} {init_list : ASTNode}
    {f : ASTNode → P β} {k n : Nat} (h : ∀ x, Runs any_token (f x) k n) :
    Runs pre (parse_init_list init_list >>= f) k n := by
  intro s _ hs
  rw [within_parse_init_list]
  exact h _ _ trivial (Nat.le_trans (remaining_init_list s init_list) hs)

theorem runs_check_bounds {β : Type} {pre : TokenType → Prop} {name idx_buf : CStr}
    {f : Unit → P β} {k n : Nat} (h : Runs pre (f ()) k n) :
    Runs pre (check_bounds name idx_buf >>= f) k n :=
  fun s hx hs => within_check_bounds name idx_buf f s n (h s hx hs)

theorem runs_update {β : Type} {pre : TokenType → Prop} {u : PState → PState}
    {f : Unit → P β} {k n : Nat}
    (hu : ∀ s, (u s).current_token = s.current_token ∧ (u s).input = s.input)
    (h : Runs pre (f ()) k n) :
    Runs pre (get_state >>= fun s => set_state (u s) >>= f) k n := by
  intro s hx hs
  rw [within_get_state, within_set_state]
  have h1 := hu s
  refine h _ (by rw [h1.1]; exact hx) ?_
  unfold remaining
  rw [h1.1, h1.2]
  exact hs

theorem runs_bind_any {α β : Type} {pre : TokenType → Prop} {m : P α} {f : α → P β}
    {k j n : Nat} (h : Runs any_token m k j) (hf : ∀ a, Runs any_token (f a) j n) :
    Runs pre (m >>= f) k n :=
  fun s _ hs => within_bind_of (h s trivial hs) (fun a s1 h1 => hf a s1 trivial h1)

theorem parser_bind_assoc {α β γ : Type} (m : P α) (f : α → P β) (h : β → P γ) :
    (m >>= f) >>= h = m >>= fun a => f a >>= h := by
  funext s
  simp only [parser_bind_apply, P.bind]
  cases m s <;> rfl

theorem runs_assoc {α β γ : Type} {pre : TokenType → Prop} {m : P α} {f : α → P β}
    {h : β → P γ} {k n : Nat} (hr : Runs pre (m >>= fun a => f a >>= h) k n) :
    Runs pre ((m >>= f) >>= h) k n := by
  rw [parser_bind_assoc]
  exact hr

theorem runs_pure_bind {α β : Type} {pre : TokenType → Prop} {a : α} {f : α → P β}
    {k n : Nat} (hr : Runs pre (f a) k n) : Runs pre (pure a >>= f) k n :=
  hr

theorem runs_fatal_bind {α β : Type} {pre : TokenType → Prop} {msg : String} {f : α → P β}
    {k n : Nat} : Runs pre ((fatal msg : P α) >>= f) k n :=
  fun _ _ _ => trivial


theorem runs_update_assoc {β γ : Type} {pre : TokenType → Prop} {u : PState → PState}
    {f : Unit → P β} {g : β → P γ} {k n : Nat}
    (hu : ∀ s, (u s).current_token = s.current_token ∧ (u s).input = s.input)
    (h : Runs pre (f () >>= g) k n) :
    Runs pre (get_state >>= fun s => (set_state (u s) >>= f) >>= g) k n := by
  have h2 : (get_state >>= fun s => (set_state (u s) >>= f) >>= g)
      = (get_state >>= fun s => set_state (u s) >>= fun x => f x >>= g) := by
    congr 1
  rw [h2]
  exact runs_update hu h

theorem runs_pos {α : Type} {pre : TokenType → Prop} {m : P α} {k n : Nat}
    (hp : ∀ x, pre x → x ≠ TOKEN_EOF) (h : 1 ≤ k → Runs pre m k n) : Runs pre m k n :=
  fun s hx hs => h (Nat.le_trans (remaining_pos s (hp _ hx)) hs) s hx hs

/-- The expression parsers return within a recursion budget that is linear
in the number of tokens left. -/
structure ExprRuns (get_precedence : CStr → Int) (fuel : Nat) : Prop where
  primary : ∀ k, 4 * k + 1 ≤ fuel → Runs any_token (parse_primary get_precedence fuel) k k
  operators : ∀ k min_prec left, 4 * k + 1 ≤ fuel →
    Runs any_token (parse_operators get_precedence fuel min_prec left) k k
  prec : ∀ k min_prec, 4 * k + 2 ≤ fuel →
    Runs any_token (parse_expression_prec get_precedence fuel min_prec) k k
  call_args : ∀ k call, 4 * k + 3 ≤ fuel →
    Runs any_token (parse_call_args get_precedence fuel call) k k

theorem expr_runs (get_precedence : CStr → Int) : ∀ fuel, ExprRuns get_precedence fuel := by
  intro fuel
  induction fuel with
  | zero =>
    exact ⟨fun k h => by omega, fun k _ _ h => by omega, fun k _ h => by omega,
      fun k _ h => by omega⟩
  | succ fuel ih =>
    refine ⟨?_, ?_, ?_, ?_⟩ <;> intros <;>
      (first
        | rw [parse_primary] | rw [parse_operators] | rw [parse_expression_prec]
        | rw [parse_call_args]) <;>
      repeat' (with_reducible first
        | exact runs_pure _ (by omega)
        | exact runs_fatal _
        | exact runs_mono (ih.primary _ (by omega)) (by omega)
        | exact runs_mono (ih.operators _ _ _ (by omega)) (by omega)
        | exact runs_mono (ih.prec _ _ (by omega)) (by omega)
        | exact runs_mono (ih.call_args _ _ (by omega)) (by omega)
        | refine runs_match_token ?_ ?_
        | refine runs_match_text ?_ ?_
        | refine runs_get_state (fun _ => ?_)
        | refine runs_advance_strict (forall_token_type (by decide)) (fun _ => ?_)
        | refine runs_advance ?_
        | refine runs_consume (by decide) (fun _ => ?_) ?_
        | refine runs_capture (fun _ => ?_)
        | refine runs_check_bounds ?_
        | refine runs_bind_any (ih.primary _ (by omega)) (fun _ => ?_)
        | refine runs_bind_any (ih.operators _ _ _ (by omega)) (fun _ => ?_)
        | refine runs_bind_any (ih.prec _ _ (by omega)) (fun _ => ?_)
        | refine runs_bind_any (ih.call_args _ _ (by omega)) (fun _ => ?_)
        | (simp only [↓reduceIte, Bool.or_true, Bool.true_or, Bool.or_false, Bool.false_or,
            Bool.or_self, Bool.false_eq_true])
        | split
        | (dsimp only))

theorem runs_expression (get_precedence : CStr → Int) (fuel k : Nat) (h : 4 * k + 2 ≤ fuel) :
    Runs any_token (parse_expression get_precedence fuel) k k :=
  (expr_runs get_precedence fuel).prec k _ h

/-- The branches of `parse_statement` without a nested block return, and
those entered on a consumed token leave fewer tokens than they found. -/
theorem runs_simple_statements (get_precedence : CStr → Int) (fuel k : Nat) (stmt : ASTNode)
    (h : 4 * k + 2 ≤ fuel) :
    Runs (fun x => x ≠ TOKEN_EOF) (parse_declaration get_precedence fuel stmt) k (k - 1)
    ∧ Runs (fun x => x ≠ TOKEN_EOF) (parse_assignment get_precedence fuel stmt) k (k - 1)
    ∧ Runs (fun x => x ≠ TOKEN_EOF) (parse_return get_precedence fuel stmt) k (k - 1)
    ∧ Runs (fun x => x ≠ TOKEN_EOF) (parse_break stmt) k (k - 1)
    ∧ Runs (fun x => x ≠ TOKEN_EOF) (parse_continue stmt) k (k - 1)
    ∧ Runs any_token (parse_unknown stmt) k k
    ∧ Runs any_token (parse_for_increment get_precedence fuel) k k := by
  refine ⟨?_, ?_, ?_, ?_, ?_, ?_, ?_⟩ <;>
  (first
    | unfold parse_declaration | unfold parse_assignment parse_assignment_target
    | unfold parse_return | unfold parse_break | unfold parse_continue | unfold parse_unknown
    | unfold parse_for_increment) <;>
  repeat' (with_reducible first
    | exact runs_pure _ (by omega)
    | exact runs_fatal _
    | exact runs_fatal_bind
    | exact runs_mono (runs_expression get_precedence fuel _ (by omega)) (by omega)
    | refine runs_assoc ?_
    | refine runs_pure_bind ?_
    | refine runs_match_token ?_ ?_
    | refine runs_match_text ?_ ?_
    | refine runs_update (fun _ => ⟨rfl, rfl⟩) ?_
    | refine runs_update_assoc (fun _ => ⟨rfl, rfl⟩) ?_
    | refine runs_get_state (fun _ => ?_)
    | refine runs_advance_strict (forall_token_type (by decide)) (fun _ => ?_)
    | refine runs_advance ?_
    | refine runs_consume (by decide) (fun _ => ?_) ?_
    | refine runs_capture (fun _ => ?_)
    | refine runs_init_list (fun _ => ?_)
    | refine runs_skip ?_
    | refine runs_check_bounds ?_
    | refine runs_bind_any (runs_expression get_precedence fuel _ (by omega)) (fun _ => ?_)
    | (simp only [↓reduceIte, Bool.or_true, Bool.true_or, Bool.or_false, Bool.false_or,
        Bool.or_self, Bool.and_true, Bool.and_false, Bool.false_eq_true])
    | split
    | (dsimp only))

theorem skip_until_stop (stop : TokenType → Bool) (cur : Token) (input : List Token)
    (h : stop cur.type = true) : skip_until stop cur input = (cur, input) := by
  cases input <;> simp [skip_until, h]

theorem runs_parse_unknown_strict (stmt : ASTNode) (k : Nat) :
    Runs (fun x => x ≠ TOKEN_EOF ∧ x ≠ TOKEN_BRACE_CLOSE) (parse_unknown stmt) k (k - 1) := by
  intro s hx hs
  unfold parse_unknown
  rw [within_skip_tokens_until]
  by_cases hsemi : s.current_token.type = TOKEN_SEMICOLON
  · rw [skip_until_stop _ _ _ (by simp [hsemi])]
    have hlt := remaining_advance_lt s hx.1
    simp only [within_match_token, match_state, hsemi, decide_True, ↓reduceIte, within_advance,
      within_pure]
    change remaining (advance_state s) ≤ k - 1
    omega
  · have hlt := skip_until_left_lt
      (fun t => decide (t = TOKEN_SEMICOLON) || decide (t = TOKEN_BRACE_CLOSE)) s.input
      s.current_token (by simp [hsemi, hx.1, hx.2])
    have h2 : Runs any_token
        (do
          if ← match_token TOKEN_SEMICOLON then
            advance
            pure stmt
          else pure stmt) (k - 1) (k - 1) :=
      runs_match_token (runs_advance (runs_pure _ (Nat.le_refl _))) (runs_pure _ (Nat.le_refl _))
    refine h2 _ trivial ?_
    unfold remaining at hs ⊢
    dsimp only
    omega

theorem runs_parse_for_init_assignment (get_precedence : CStr → Int) (fuel k : Nat)
    (h : 4 * k + 2 ≤ fuel) :
    Runs any_token (parse_for_init_assignment get_precedence fuel) k k := by
  intro s hx hs
  unfold parse_for_init_assignment
  rw [within_match_token]
  cases hm : match_state s TOKEN_IDENTIFIER
  · simpa using hs
  · simp only [↓reduceIte, within_get_state, within_advance, within_match_text]
    cases hb : (match_state (advance_state s) TOKEN_OPERATOR &&
        decide ((advance_state s).current_token.value = "=".toList))
    · simp only [Bool.false_eq_true, ↓reduceIte, within_get_state, within_set_state, within_pure]
      exact hs
    · have h2 : Runs any_token
          (do
            advance
            let assign := add_child (create_node NODE_ASSIGNMENT)
              (set_value (create_node NODE_EXPRESSION) s.current_token.value)
            let rhs_expr ← parse_expression get_precedence fuel
            if ← consume TOKEN_SEMICOLON then pure (some (add_child_opt assign rhs_expr))
            else fatal "Expected ';' after for-init assignment") k k :=
        runs_advance (runs_bind_any (runs_expression get_precedence fuel _ h)
          (fun _ => runs_consume (by decide) (fun _ => runs_pure _ (by omega))
            (runs_fatal _)))
      exact h2 _ trivial (Nat.le_trans (remaining_advance_le s) hs)

/-- The statement parsers return within a recursion budget that is linear in
the number of tokens left, and a statement that starts on a token other
than the end of file and a closing brace consumes at least one token. -/
structure StmtRuns (get_precedence : CStr → Int) (fuel : Nat) : Prop where
  statement : ∀ k, 4 * k + 3 ≤ fuel → Runs any_token (parse_statement get_precedence fuel) k k
  progress : ∀ k, 4 * k + 3 ≤ fuel →
    Runs (fun x => x ≠ TOKEN_EOF ∧ x ≠ TOKEN_BRACE_CLOSE)
      (parse_statement get_precedence fuel) k (k - 1)
  body : ∀ k node, 4 * k + 4 ≤ fuel →
    Runs any_token (parse_body get_precedence fuel node) k k
  else_chain : ∀ k node, 4 * k + 1 ≤ fuel →
    Runs any_token (parse_else_chain get_precedence fuel node) k k

set_option maxHeartbeats 4000000 in
theorem stmt_runs (get_precedence : CStr → Int) : ∀ fuel, StmtRuns get_precedence fuel := by
  intro fuel
  induction fuel with
  | zero =>
    exact ⟨fun k h => by omega, fun k h => by omega, fun k _ h => by omega,
      fun k _ h => by omega⟩
  | succ fuel ih =>
    refine ⟨?_, ?_, ?_, ?_⟩ <;> intros <;>
      (first
        | (rw [parse_statement]; dsimp only) | rw [parse_body] | rw [parse_else_chain]) <;>
      repeat' (with_reducible first
        | exact runs_pure _ (by omega)
        | exact runs_fatal _
        | exact runs_fatal_bind
        | exact runs_pre (runs_simple_statements get_precedence fuel _ _ (by omega)).1
            (forall_token_type (by decide)) (by omega)
        | exact runs_pre (runs_simple_statements get_precedence fuel _ _ (by omega)).2.1
            (forall_token_type (by decide)) (by omega)
        | exact runs_pre (runs_simple_statements get_precedence fuel _ _ (by omega)).2.2.1
            (forall_token_type (by decide)) (by omega)
        | exact runs_pre (runs_simple_statements get_precedence fuel _ _ (by omega)).2.2.2.1
            (forall_token_type (by decide)) (by omega)
        | exact runs_pre (runs_simple_statements get_precedence fuel _ _ (by omega)).2.2.2.2.1
            (forall_token_type (by decide)) (by omega)
        | exact runs_pre (runs_parse_unknown_strict _ _)
            (forall_token_type (by decide)) (by omega)
        | exact runs_pre (runs_simple_statements get_precedence fuel _ _ (by omega)).2.2.2.2.2.1
            (fun _ _ => trivial) (by omega)
        | exact runs_mono (ih.body _ _ (by omega)) (by omega)
        | exact runs_mono (ih.else_chain _ _ (by omega)) (by omega)
        | refine runs_assoc ?_
        | refine runs_pure_bind ?_
        | refine runs_match_token ?_ ?_
        | refine runs_match_text ?_ ?_
        | refine runs_match_type_keyword ?_ ?_
        | refine runs_get_state (fun _ => ?_)
        | refine runs_advance_strict (forall_token_type (by decide)) (fun _ => ?_)
        | refine runs_advance ?_
        | refine runs_consume (by decide) (fun _ => ?_) ?_
        | refine runs_add_loop_depth ?_
        | refine runs_bind_any (runs_expression get_precedence fuel _ (by omega)) (fun _ => ?_)
        | refine runs_bind_any (runs_parse_for_init_assignment get_precedence fuel _ (by omega))
            (fun _ => ?_)
        | refine runs_bind_any (runs_simple_statements get_precedence fuel _
            (create_node NODE_STATEMENT) (by omega)).2.2.2.2.2.2 (fun _ => ?_)
        | refine runs_pos (forall_token_type (by decide)) (fun _ =>
            runs_bind (runs_pre (ih.progress _ (by omega)) (forall_token_type (by decide))
              (Nat.le_refl _)) (fun _ => ?_))
        | refine runs_bind_any (ih.statement _ (by omega)) (fun _ => ?_)
        | refine runs_bind_any (ih.body _ _ (by omega)) (fun _ => ?_)
        | refine runs_bind_any (ih.else_chain _ _ (by omega)) (fun _ => ?_)
        | (simp only [↓reduceIte, Bool.or_true, Bool.true_or, Bool.or_false, Bool.false_or,
            Bool.or_self, Bool.and_true, Bool.and_false, Bool.false_eq_true])
        | split
        | (dsimp only))

theorem runs_parse_parameters : ∀ (fuel k : Nat) (func_node : ASTNode), k + 1 ≤ fuel →
    Runs any_token (parse_parameters fuel func_node) k k := by
  intro fuel
  induction fuel with
  | zero => intro k _ h; omega
  | succ fuel ih =>
    intro k func_node h
    rw [parse_parameters]
    repeat' (with_reducible first
      | exact runs_pure _ (by omega)
      | exact runs_mono (ih _ _ (by omega)) (by omega)
      | refine runs_assoc ?_
      | refine runs_pure_bind ?_
      | refine runs_match_token ?_ ?_
      | refine runs_get_state (fun _ => ?_)
      | refine runs_advance_strict (forall_token_type (by decide)) (fun _ => ?_)
      | refine runs_advance ?_
      | (simp only [↓reduceIte, Bool.or_true, Bool.true_or, Bool.or_false, Bool.false_or,
          Bool.or_self, Bool.and_true, Bool.and_false, Bool.false_eq_true])
      | split
      | (dsimp only))

theorem runs_parse_function_body (get_precedence : CStr → Int) :
    ∀ (fuel k : Nat) (brace_depth : Int) (func_node : ASTNode), 4 * k + 4 ≤ fuel →
    Runs any_token (parse_function_body get_precedence fuel brace_depth func_node) k k := by
  intro fuel
  induction fuel with
  | zero => intro k _ _ h; omega
  | succ fuel ih =>
    intro k brace_depth func_node h
    rw [parse_function_body]
    repeat' (with_reducible first
      | exact runs_pure _ (by omega)
      | exact runs_mono (ih _ _ _ (by omega)) (by omega)
      | refine runs_match_token ?_ ?_
      | refine runs_advance_strict (forall_token_type (by decide)) (fun _ => ?_)
      | refine runs_pos (forall_token_type (by decide)) (fun _ =>
          runs_bind (runs_pre ((stmt_runs get_precedence fuel).progress _ (by omega))
            (forall_token_type (by decide)) (Nat.le_refl _)) (fun _ => ?_))
      | (simp only [↓reduceIte, Bool.not_true, Bool.not_false, Bool.and_true, Bool.and_false,
          Bool.false_eq_true, decide_eq_true_eq])
      | split
      | (dsimp only))

theorem runs_parse_function (get_precedence : CStr → Int) (fuel k : Nat)
    (return_type func_name : Token) (h : 4 * k + 4 ≤ fuel) :
    Runs any_token (parse_function get_precedence fuel return_type func_name) k k := by
  unfold parse_function
  repeat' (with_reducible first
    | exact runs_fatal _
    | exact runs_mono (runs_parse_function_body get_precedence _ _ _ _ (by omega)) (by omega)
    | refine runs_update (fun _ => ⟨rfl, rfl⟩) ?_
    | refine runs_consume (by decide) (fun _ => ?_) ?_
    | refine runs_bind_any (runs_parse_parameters _ _ _ (by omega)) (fun _ => ?_)
    | (simp only [↓reduceIte, Bool.false_eq_true])
    | (dsimp only))

theorem runs_parse_program_loop (get_precedence : CStr → Int) :
    ∀ (fuel k : Nat) (program_node : ASTNode), 4 * k + 1 ≤ fuel →
    Runs any_token (parse_program_loop get_precedence fuel program_node) k k := by
  intro fuel
  induction fuel with
  | zero => intro k _ h; omega
  | succ fuel ih =>
    intro k program_node h
    rw [parse_program_loop]
    repeat' (with_reducible first
      | exact runs_pure _ (by omega)
      | exact runs_mono (ih _ _ (by omega)) (by omega)
      | refine runs_assoc ?_
      | refine runs_pure_bind ?_
      | refine runs_match_token ?_ ?_
      | refine runs_get_state (fun _ => ?_)
      | refine runs_advance_strict (forall_token_type (by decide)) (fun _ => ?_)
      | refine runs_advance ?_
      | refine runs_skip ?_
      | refine runs_bind_any (runs_parse_function get_precedence _ _ _ _ (by omega))
          (fun _ => ?_)
      | (simp only [↓reduceIte, Bool.false_eq_true])
      | split
      | (dsimp only))

/-- With recursion budget `4 * tokens.length + 1` the function `parse_program`
returns a tree or stops with a fatal diagnostic. -/
theorem parse_program_returns (get_precedence : CStr → Int) (fuel : Nat) (tokens : List Token)
    (h : 4 * tokens.length + 1 ≤ fuel) :
    parse_program get_precedence fuel (initial_state tokens) ≠ .out_of_fuel := by
  have h1 : Runs any_token (parse_program get_precedence fuel) tokens.length tokens.length :=
    runs_advance (runs_parse_program_loop get_precedence fuel _ _ h)
  have h2 := h1 (initial_state tokens) trivial
    (by simp [remaining, tokens_left, initial_state])
  intro h3
  simp [Within, h3] at h2
/-! ## The children of the program node -/

theorem ensures_pure {α : Type} {Q : α → Prop} {a : α} (h : Q a) : Ensures (pure a : P α) Q :=
  fun _ => h

theorem ensures_fatal {α : Type} {Q : α → Prop} (msg : String) : Ensures (fatal msg : P α) Q :=
  fun _ => trivial

theorem ensures_bind_skip {α β : Type} {Q : β → Prop} {m : P α} {f : α → P β}
    (h : ∀ a, Ensures (f a) Q) : Ensures (m >>= f) Q := by
  intro s
  simp only [parser_bind_apply, P.bind]
  cases hm : m s with
  | ok a s1 => exact h a s1
  | fatal l msg => trivial
  | out_of_fuel => trivial

theorem ensures_bind_of {α β : Type} {R : α → Prop} {Q : β → Prop} {m : P α} {f : α → P β}
    (hm : Ensures m R) (h : ∀ a, R a → Ensures (f a) Q) : Ensures (m >>= f) Q := by
  intro s
  have h1 := hm s
  simp only [parser_bind_apply, P.bind]
  cases hs : m s with
  | ok a s1 =>
    rw [hs] at h1
    exact h a h1 s1
  | fatal l msg => trivial
  | out_of_fuel => trivial

theorem ensures_assoc {α β γ : Type} {Q : γ → Prop} {m : P α} {f : α → P β} {h : β → P γ}
    (hr : Ensures (m >>= fun a => f a >>= h) Q) : Ensures ((m >>= f) >>= h) Q := by
  rw [parser_bind_assoc]
  exact hr

theorem ensures_mono {α : Type} {R Q : α → Prop} {m : P α} (hm : Ensures m R)
    (h : ∀ a, R a → Q a) : Ensures m Q := by
  intro s
  have h1 := hm s
  cases hs : m s with
  | ok a s1 =>
    rw [hs] at h1
    exact h a h1
  | fatal l msg => trivial
  | out_of_fuel => trivial

theorem ensures_ok {α : Type} {Q : α → Prop} {m : P α} {s s1 : PState} {a : α}
    (hm : Ensures m Q) (h : m s = .ok a s1) : Q a := by
  have h1 := hm s
  rw [h] at h1
  exact h1

theorem same_header_refl (a : ASTNode) : same_header a a := ⟨rfl, rfl, rfl⟩

theorem same_header_add_child {a b : ASTNode} (c : ASTNode)
    (h : same_header (add_child a c) b) : same_header a b := h

theorem parse_parameters_header : ∀ (fuel : Nat) (func_node : ASTNode),
    Ensures (parse_parameters fuel func_node) (same_header func_node) := by
  intro fuel
  induction fuel with
  | zero => intro _ s; trivial
  | succ fuel ih =>
    intro func_node
    rw [parse_parameters]
    repeat' (with_reducible first
      | exact ensures_pure (same_header_refl _)
      | exact ih _
      | exact ensures_mono (ih _) (fun _ h => same_header_add_child _ h)
      | refine ensures_assoc ?_
      | refine ensures_bind_skip (fun _ => ?_)
      | split
      | (dsimp only))

theorem parse_function_body_header (get_precedence : CStr → Int) :
    ∀ (fuel : Nat) (brace_depth : Int) (func_node : ASTNode),
    Ensures (parse_function_body get_precedence fuel brace_depth func_node)
      (same_header func_node) := by
  intro fuel
  induction fuel with
  | zero => intro _ _ s; trivial
  | succ fuel ih =>
    intro brace_depth func_node
    rw [parse_function_body]
    repeat' (with_reducible first
      | exact ensures_pure (same_header_refl _)
      | exact ih _ _
      | exact ensures_mono (ih _ _) (fun _ h => same_header_add_child _ h)
      | refine ensures_assoc ?_
      | refine ensures_bind_skip (fun _ => ?_)
      | split
      | (dsimp only))

theorem parse_function_header (get_precedence : CStr → Int) (fuel : Nat)
    (return_type func_name : Token) :
    Ensures (parse_function get_precedence fuel return_type func_name)
      (fun r => r.type = NODE_FUNCTION_DECL ∧ r.token = some return_type
        ∧ r.value = some func_name.value) := by
  unfold parse_function
  dsimp only
  refine ensures_bind_skip (fun _ => ensures_bind_skip (fun _ => ensures_bind_skip (fun b => ?_)))
  split
  · refine ensures_bind_of (parse_parameters_header fuel _) (fun a ha => ?_)
    refine ensures_bind_skip (fun b => ?_)
    split
    · refine ensures_bind_skip (fun b => ?_)
      split
      · refine ensures_mono (parse_function_body_header get_precedence fuel 1 a) (fun r hr => ?_)
        obtain ⟨h1, h2, h3⟩ := hr
        obtain ⟨g1, g2, g3⟩ := ha
        exact ⟨h1.trans g1, h3.trans g3, h2.trans g2⟩
      · exact ensures_fatal _
    · exact ensures_fatal _
  · exact ensures_fatal _

theorem parse_program_loop_children (get_precedence : CStr → Int) :
    ∀ (fuel : Nat) (program_node : ASTNode) (s : PState) (r : ASTNode) (s1 : PState),
    parse_program_loop get_precedence fuel program_node s = .ok r s1 →
    r.type = program_node.type ∧ s1.current_token.type = TOKEN_EOF ∧
      ∃ added, r.children = program_node.children ++ added ∧ ∀ c ∈ added, is_function_decl c := by
  intro fuel
  induction fuel with
  | zero =>
    intro program_node s r s1 h
    simp [parse_program_loop] at h
  | succ fuel ih =>
    intro program_node s r s1 h
    by_cases he : s.current_token.type = TOKEN_EOF
    · rw [parse_program_loop_eof _ _ _ _ he] at h
      injection h with h1 h2
      subst h1
      subst h2
      exact ⟨rfl, he, [], by simp, by simp⟩
    · by_cases hk : s.current_token.type = TOKEN_KEYWORD
      · by_cases hi : (advance_state s).current_token.type = TOKEN_IDENTIFIER
        · by_cases hp : (advance_state (advance_state s)).current_token.type
              = TOKEN_PARENTHESIS_OPEN
          · rw [parse_program_loop_function _ _ _ _ hk hi hp] at h
            simp only [P.bind] at h
            cases hf : parse_function get_precedence fuel s.current_token
                (advance_state s).current_token (advance_state (advance_state s)) with
            | ok fn s2 =>
              rw [hf] at h
              have hfn := ensures_ok (parse_function_header get_precedence fuel _ _) hf
              obtain ⟨h1, h2, added, h3, h4⟩ := ih _ _ _ _ h
              refine ⟨h1, h2, fn :: added, ?_, ?_⟩
              · rw [h3]
                change (program_node.children ++ [fn]) ++ added = _
                simp
              · intro c hc
                rcases List.mem_cons.mp hc with hc | hc
                · subst hc
                  exact ⟨hfn.1, _, _, hk, hi, hfn.2.1, hfn.2.2⟩
                · exact h4 c hc
            | fatal l msg => rw [hf] at h; simp at h
            | out_of_fuel => rw [hf] at h; simp at h
          · rw [parse_program_loop_global _ _ _ _ hk hi hp] at h
            exact ih _ _ _ _ h
        · rw [parse_program_loop_skip _ _ _ _ he (fun _ => hi)] at h
          exact ih _ _ _ _ h
      · rw [parse_program_loop_skip _ _ _ _ he (fun hk2 => absurd hk2 hk)] at h
        exact ih _ _ _ _ h

theorem parse_program_children (get_precedence : CStr → Int) (fuel : Nat) (tokens : List Token)
    (prog : ASTNode) (s1 : PState)
    (h : parse_program get_precedence fuel (initial_state tokens) = .ok prog s1) :
    prog.type = NODE_PROGRAM ∧ s1.current_token.type = TOKEN_EOF ∧
      ∀ c ∈ prog.children, is_function_decl c := by
  have h1 : parse_program_loop get_precedence fuel (create_node NODE_PROGRAM)
      (advance_state (initial_state tokens)) = .ok prog s1 := h
  obtain ⟨h2, h3, added, h4, h5⟩ := parse_program_loop_children get_precedence _ _ _ _ _ h1
  refine ⟨h2, h3, ?_⟩
  intro c hc
  rw [h4] at hc
  simp only [create_node, List.nil_append] at hc
  exact h5 c hc

/-- The state after the skip of a global declaration is the state on the
token after the first `;`. -/
theorem after_semicolon_resumes (s : PState) (skipped : List Token) (semi : Token)
    (rest : List Token)
    (hcur : s.current_token.type ≠ TOKEN_SEMICOLON ∧ s.current_token.type ≠ TOKEN_EOF)
    (hskip : ∀ t ∈ skipped, t.type ≠ TOKEN_SEMICOLON ∧ t.type ≠ TOKEN_EOF)
    (hsemi : semi.type = TOKEN_SEMICOLON)
    (hin : s.input = skipped ++ semi :: rest) :
    after_semicolon s
      = { s with current_token := (next_token rest).1, input := (next_token rest).2 } := by
  have key : ∀ (skipped : List Token) (cur : Token),
      (cur.type ≠ TOKEN_SEMICOLON ∧ cur.type ≠ TOKEN_EOF) →
      (∀ t ∈ skipped, t.type ≠ TOKEN_SEMICOLON ∧ t.type ≠ TOKEN_EOF) →
      skip_until (fun t => decide (t = TOKEN_SEMICOLON)) cur (skipped ++ semi :: rest)
        = (semi, rest) := by
    intro skipped
    induction skipped with
    | nil =>
      intro cur hc _
      simp only [List.nil_append, skip_until, hc.1, hc.2, decide_False, Bool.or_self,
        Bool.false_eq_true, ↓reduceIte]
      cases rest <;> simp [skip_until, hsemi]
    | cons t ts ih =>
      intro cur hc hts
      simp only [List.cons_append, skip_until, hc.1, hc.2, decide_False, Bool.or_self,
        Bool.false_eq_true, ↓reduceIte]
      exact ih t (hts t (List.mem_cons_self _ _))
        (fun x hx => hts x (List.mem_cons_of_mem _ hx))
  simp only [after_semicolon, hin, key skipped s.current_token hcur hskip, hsemi, ↓reduceIte,
    advance_state]
/-! ## Lemmas: one step of the expression parsers, and operand sequences -/

theorem parse_primary_minus (get_precedence : CStr → Int) (fuel : Nat) (s : PState)
    (ht : s.current_token.type = TOKEN_OPERATOR) (hv : s.current_token.value = "-".toList) :
    parse_primary get_precedence (fuel + 1) s
      = match parse_primary get_precedence fuel (advance_state s) with
        | .ok (some inner) s1 => .ok (some (negate inner)) s1
        | .ok none s1 => .ok none s1
        | .fatal l msg => .fatal l msg
        | .out_of_fuel => .out_of_fuel := by
  rw [parse_primary]
  cases hp : parse_primary get_precedence fuel (advance_state s) with
  | ok r s1 =>
    cases r with
    | none => simp [P.bind, match_text, match_state, ht, hv, advance, hp]
    | some inner =>
      cases inner with
      | mk t iv k cs =>
        cases iv with
        | none =>
          simp [P.bind, match_text, match_state, ht, hv, advance, hp, negate, leaf,
            add_child, set_value, create_node, ASTNode.type, ASTNode.value, ASTNode.token,
            ASTNode.children]
        | some v =>
          by_cases hit : t = NODE_EXPRESSION
          · simp [P.bind, match_text, match_state, ht, hv, advance, hp, negate, hit,
              set_value, create_node, ASTNode.type, ASTNode.value, ASTNode.token,
              ASTNode.children]
          · simp [P.bind, match_text, match_state, ht, hv, advance, hp, negate, hit, leaf,
              add_child, set_value, create_node, ASTNode.type, ASTNode.value, ASTNode.token,
              ASTNode.children]
  | fatal l msg => simp [P.bind, match_text, match_state, ht, hv, advance, hp]
  | out_of_fuel => simp [P.bind, match_text, match_state, ht, hv, advance, hp]

theorem parse_primary_identifier (get_precedence : CStr → Int) (fuel : Nat) (ta t : Token)
    (rest : List Token) (arrays : List ArrayInfo) (depth : Int)
    (ha : ta.type = TOKEN_IDENTIFIER) (ht2 : t.type ≠ TOKEN_PARENTHESIS_OPEN)
    (ht3 : t.type ≠ TOKEN_BRACKET_OPEN) :
    parse_primary get_precedence (fuel + 1) ⟨ta, t :: rest, arrays, depth⟩
      = .ok (some (.mk NODE_EXPRESSION (some (ta.value.take 127)) none []))
          ⟨t, rest, arrays, depth⟩ := by
  simp [parse_primary, P.bind, match_text, match_token, match_state, get_state, advance,
    advance_state, next_token, ha, ht2, ht3, set_value, create_node, ASTNode.type,
    ASTNode.token, ASTNode.value, ASTNode.children]

theorem parse_primary_paren (get_precedence : CStr → Int) (fuel : Nat) (s : PState)
    (ht : s.current_token.type = TOKEN_PARENTHESIS_OPEN) :
    parse_primary get_precedence (fuel + 1) s
      = match parse_expression_prec get_precedence fuel (-2) (advance_state s) with
        | .ok node s1 =>
          if s1.current_token.type = TOKEN_PARENTHESIS_CLOSE then .ok node (advance_state s1)
          else .fatal s1.current_token.line "Expected ')' after expression"
        | .fatal l msg => .fatal l msg
        | .out_of_fuel => .out_of_fuel := by
  rw [parse_primary]
  cases hr : parse_expression_prec get_precedence fuel (-2) (advance_state s) with
  | ok node s1 =>
    by_cases hc : s1.current_token.type = TOKEN_PARENTHESIS_CLOSE
    · simp [P.bind, match_text, match_token, match_state, advance, consume, ht, hr, hc]
    · simp [P.bind, match_text, match_token, match_state, advance, consume, ht, hr, hc, fatal]
  | fatal l msg => simp [P.bind, match_text, match_token, match_state, advance, ht, hr]
  | out_of_fuel => simp [P.bind, match_text, match_token, match_state, advance, ht, hr]

theorem parse_expression_prec_eq (get_precedence : CStr → Int) (fuel : Nat) (min_prec : Int)
    (s : PState) :
    parse_expression_prec get_precedence (fuel + 1) min_prec s
      = match parse_primary get_precedence fuel s with
        | .ok (some left) s1 =>
          (match parse_operators get_precedence fuel min_prec left s1 with
            | .ok r s2 => .ok (some r) s2
            | .fatal l msg => .fatal l msg
            | .out_of_fuel => .out_of_fuel)
        | .ok none s1 => .ok none s1
        | .fatal l msg => .fatal l msg
        | .out_of_fuel => .out_of_fuel := by
  rw [parse_expression_prec]
  simp only [parser_bind_apply, P.bind]
  cases parse_primary get_precedence fuel s with
  | ok r s1 =>
    cases r with
    | none => rfl
    | some left =>
      simp only [parser_bind_apply, P.bind]
      cases parse_operators get_precedence fuel min_prec left s1 <;> rfl
  | fatal l msg => rfl
  | out_of_fuel => rfl

theorem parse_operators_stop (get_precedence : CStr → Int) (fuel : Nat) (min_prec : Int)
    (left : ASTNode) (s : PState) (h : s.current_token.type ≠ TOKEN_OPERATOR) :
    parse_operators get_precedence (fuel + 1) min_prec left s = .ok left s := by
  simp [parse_operators, P.bind, match_token, match_state, h]

theorem parse_statement_for (get_precedence : CStr → Int) (fuel : Nat) (s : PState)
    (hk : s.current_token.type = TOKEN_KEYWORD) (hv : s.current_token.value = "for".toList) :
    parse_statement get_precedence (fuel + 1) s
      = parse_for get_precedence fuel (create_node NODE_STATEMENT) s := by
  have e1 : decide (("for".toList : List Char) = "int".toList) = false := by decide
  have e2 : decide (("for".toList : List Char) = "float".toList) = false := by decide
  have e3 : decide (("for".toList : List Char) = "char".toList) = false := by decide
  have e4 : decide (("for".toList : List Char) = "double".toList) = false := by decide
  have e5 : decide (("for".toList : List Char) = "return".toList) = false := by decide
  have e6 : decide (("for".toList : List Char) = "if".toList) = false := by decide
  have e7 : decide (("for".toList : List Char) = "while".toList) = false := by decide
  have e8 : decide (("for".toList : List Char) = "for".toList) = true := by decide
  have e9 : decide (TOKEN_KEYWORD = TOKEN_IDENTIFIER) = false := by decide
  have e10 : decide (TOKEN_KEYWORD = TOKEN_KEYWORD) = true := by decide
  rw [parse_statement]
  simp only [parser_bind_apply, P.bind, match_type_keyword, match_token, match_text,
    match_state, hk, hv, e1, e2, e3, e4, e5, e6, e7, e8, e9, e10, Bool.or_false,
    Bool.and_false, Bool.and_true, Bool.false_eq_true, if_false, if_true]
  rfl

theorem parse_body_done (get_precedence : CStr → Int) (fuel : Nat) (node : ASTNode)
    (s : PState)
    (h : s.current_token.type = TOKEN_BRACE_CLOSE ∨ s.current_token.type = TOKEN_EOF) :
    parse_body get_precedence (fuel + 1) node s = .ok node s := by
  rcases h with h | h <;> simp [parse_body, P.bind, match_token, match_state, h]

theorem parse_body_step (get_precedence : CStr → Int) (fuel : Nat) (node : ASTNode)
    (s : PState) (h1 : s.current_token.type ≠ TOKEN_BRACE_CLOSE)
    (h2 : s.current_token.type ≠ TOKEN_EOF) :
    parse_body get_precedence (fuel + 1) node s
      = match parse_statement get_precedence fuel s with
        | .ok st s1 => parse_body get_precedence fuel (add_child node st) s1
        | .fatal l msg => .fatal l msg
        | .out_of_fuel => .out_of_fuel := by
  rw [parse_body]
  simp only [parser_bind_apply, P.bind, match_token, match_state, h1, h2, decide_False,
    Bool.or_self, Bool.false_eq_true, if_false]
  cases parse_statement get_precedence fuel s <;> rfl

theorem with_children_nil (node : ASTNode) : with_children node [] = node := by
  cases node
  simp [with_children, ASTNode.type, ASTNode.value, ASTNode.token, ASTNode.children]

/-- The block loop adds the statements it parses after the children the node
already has. -/
theorem parse_body_appends (get_precedence : CStr → Int) :
    ∀ (fuel : Nat) (node empty : ASTNode) (s : PState), empty.children = [] →
    parse_body get_precedence fuel node s
      = match parse_body get_precedence fuel empty s with
        | .ok r s1 => .ok (with_children node r.children) s1
        | .fatal l msg => .fatal l msg
        | .out_of_fuel => .out_of_fuel := by
  intro fuel
  induction fuel with
  | zero => intro node empty s _; simp [parse_body]
  | succ fuel ih =>
    intro node empty s he
    by_cases hd : s.current_token.type = TOKEN_BRACE_CLOSE ∨ s.current_token.type = TOKEN_EOF
    · rw [parse_body_done _ _ _ _ hd, parse_body_done _ _ _ _ hd]
      simp only [he, with_children_nil]
    · have h1 : s.current_token.type ≠ TOKEN_BRACE_CLOSE := fun h => hd (Or.inl h)
      have h2 : s.current_token.type ≠ TOKEN_EOF := fun h => hd (Or.inr h)
      rw [parse_body_step _ _ _ _ h1 h2, parse_body_step _ _ _ _ h1 h2]
      cases parse_statement get_precedence fuel s with
      | ok st s1 =>
        simp only []
        rw [ih (add_child node st) empty s1 he, ih (add_child empty st) empty s1 he]
        cases parse_body get_precedence fuel empty s1 with
        | ok r s2 =>
          simp only []
          congr 1
          cases node
          cases empty
          simp only [ASTNode.children] at he
          simp [with_children, add_child, ASTNode.type, ASTNode.value, ASTNode.token,
            ASTNode.children, he]
        | fatal l msg => rfl
        | out_of_fuel => rfl
      | fatal l msg => rfl
      | out_of_fuel => rfl
/-! ## Lemmas: the tracker collection -/

theorem tracked_entries_append (ctype_to_vhdl : Option CStr → CStr) :
    ∀ (decls earlier : List ASTNode) (st : ASTNode),
    tracked_entries ctype_to_vhdl earlier (decls ++ [st])
      = tracked_entries ctype_to_vhdl earlier decls
        ++ [tracked_entry ctype_to_vhdl (earlier ++ decls) st] := by
  intro decls
  induction decls with
  | nil => intro earlier st; simp [tracked_entries]
  | cons d ds ih =>
    intro earlier st
    rw [List.cons_append]
    simp only [tracked_entries]
    rw [ih]
    simp

theorem tracked_entries_length (ctype_to_vhdl : Option CStr → CStr) :
    ∀ (decls earlier : List ASTNode),
    (tracked_entries ctype_to_vhdl earlier decls).length = decls.length := by
  intro decls
  induction decls with
  | nil => intro earlier; rfl
  | cons d ds ih => intro earlier; simp [tracked_entries, ih]

theorem tracked_entries_get (ctype_to_vhdl : Option CStr → CStr) :
    ∀ (decls earlier : List ASTNode) (k : Nat) (st : ASTNode), decls.get? k = some st →
    (tracked_entries ctype_to_vhdl earlier decls).get? k
      = some (tracked_entry ctype_to_vhdl (earlier ++ decls.take k) st) := by
  intro decls
  induction decls with
  | nil => intro earlier k st h; simp at h
  | cons d ds ih =>
    intro earlier k st h
    cases k with
    | zero =>
      simp only [List.get?_cons_zero, Option.some.injEq] at h
      simp [tracked_entries, h]
    | succ k =>
      simp only [List.get?_cons_succ] at h
      simp only [tracked_entries, List.get?_cons_succ, ih _ k st h, List.take_succ_cons,
        List.append_assoc, List.singleton_append]

/-- The names of the entries are the values of the declarations. -/
theorem tracked_entries_count (ctype_to_vhdl : Option CStr → CStr) (v : CStr) :
    ∀ (decls earlier : List ASTNode), (∀ d ∈ decls, is_scalar_declaration d = true) →
    ((tracked_entries ctype_to_vhdl earlier decls).filter
        (fun p => decide (p.orig = v))).length
      = (decls.filter (fun e => decide (e.value = some v))).length := by
  intro decls
  induction decls with
  | nil => intro earlier _; rfl
  | cons d ds ih =>
    intro earlier h
    have hd := h d (List.mem_cons_self _ _)
    have hds := ih (earlier ++ [d]) (fun x hx => h x (List.mem_cons_of_mem _ hx))
    simp only [is_scalar_declaration, Bool.and_eq_true, decide_eq_true_eq] at hd
    cases hv : d.value with
    | none => rw [hv] at hd; simp at hd
    | some w =>
      simp only [tracked_entries, List.filter_cons, tracked_entry, hv, Option.getD_some,
        Option.some.injEq]
      by_cases hw : w = v
      · simp [hw, hds]
      · simp [hw, hds]

theorem track_decl_scalar (ctype_to_vhdl : Option CStr → CStr) (acc : List TrackedVar × CStr)
    (st : ASTNode) (h : is_scalar_declaration st = true) :
    (track_decl ctype_to_vhdl acc st).1
      = if acc.1.length < 256 then
          acc.1 ++ [{ orig := st.value.getD [],
                      ordinal := ((acc.1.filter
                        (fun p => decide (p.orig = st.value.getD []))).length : Nat),
                      vhdl_type := ctype_to_vhdl (st.token.map Token.value),
                      gen := build_gen_name (st.value.getD [])
                        ((acc.1.filter
                          (fun p => decide (p.orig = st.value.getD []))).length : Nat) [] 64 }]
        else acc.1 := by
  unfold is_scalar_declaration at h
  cases hv : st.value with
  | none => rw [hv] at h; simp at h
  | some w =>
    rw [hv] at h
    by_cases ht : st.type = NODE_VAR_DECL
    · cases hs : strchr w '[' with
      | some x =>
        dsimp only at h
        rw [hs] at h
        simp at h
      | none =>
        by_cases hres : w = "result".toList
        · dsimp only at h
          rw [hs] at h
          simp [hres] at h
        · simp only [track_decl, hv, ht, if_true, hs, if_neg hres, Option.getD_some]
          split <;> rfl
    · simp [ht] at h

theorem track_decl_other (ctype_to_vhdl : Option CStr → CStr) (acc : List TrackedVar × CStr)
    (st : ASTNode) (h : is_scalar_declaration st = false) :
    (track_decl ctype_to_vhdl acc st).1 = acc.1 := by
  cases hv : st.value with
  | none => simp [track_decl, hv]
  | some w =>
    by_cases ht : st.type = NODE_VAR_DECL
    · cases hs : strchr w '[' with
      | some x => simp [track_decl, hv, ht, hs]
      | none =>
        by_cases hres : w = "result".toList
        · simp only [track_decl, hv, ht, if_true, hs, if_pos hres]
        · unfold is_scalar_declaration at h
          rw [hv] at h
          dsimp only at h
          rw [hs] at h
          simp [ht] at h
          exact absurd h hres
    · simp [track_decl, hv, ht]

/-- The fold of `track_decl` over the children of one statement adds the
entries of its scalar declarations, as long as the table has room. -/
theorem foldl_track_decl (ctype_to_vhdl : Option CStr → CStr) :
    ∀ (sts seen : List ASTNode) (acc : List TrackedVar × CStr),
    (∀ d ∈ seen, is_scalar_declaration d = true) →
    acc.1 = tracked_entries ctype_to_vhdl [] (seen.take 256) →
    (sts.foldl (track_decl ctype_to_vhdl) acc).1
      = tracked_entries ctype_to_vhdl []
          ((seen ++ sts.filter is_scalar_declaration).take 256) := by
  intro sts
  induction sts with
  | nil => intro seen acc _ h; simpa using h
  | cons st rest ih =>
    intro seen acc hseen hacc
    simp only [List.foldl_cons, List.filter_cons]
    cases hst : is_scalar_declaration st with
    | false =>
      simp only [Bool.false_eq_true, if_false]
      exact ih seen _ hseen (by rw [track_decl_other _ _ _ hst]; exact hacc)
    | true =>
      simp only [if_true]
      have h2 := ih (seen ++ [st]) (track_decl ctype_to_vhdl acc st)
        (by
          intro d hd
          rcases List.mem_append.mp hd with hd | hd
          · exact hseen d hd
          · rw [List.mem_singleton.mp hd]; exact hst)
        (by
          rw [track_decl_scalar _ _ _ hst]
          have hlen : acc.1.length = min 256 seen.length := by
            rw [hacc, tracked_entries_length, List.length_take]
          by_cases hroom : seen.length < 256
          · have ht1 : seen.take 256 = seen := List.take_of_length_le (by omega)
            have ht2 : (seen ++ [st]).take 256 = seen ++ [st] :=
              List.take_of_length_le (by simp; omega)
            rw [if_pos (by omega), ht2, tracked_entries_append, hacc, ht1]
            have hcount := tracked_entries_count ctype_to_vhdl (st.value.getD []) seen []
              hseen
            have hsome : st.value = some (st.value.getD []) := by
              unfold is_scalar_declaration at hst
              cases hv : st.value with
              | none => rw [hv] at hst; simp at hst
              | some w => rfl
            simp only [tracked_entry, List.nil_append, hcount]
            rw [← hsome]
          · have ht2 : (seen ++ [st]).take 256 = seen.take 256 := by
              rw [List.take_append_of_le_length (by omega)]
            rw [if_neg (by omega), ht2, hacc])
      simpa [List.append_assoc] using h2

/-- The collection loop gives the entries of the first 256 scalar
declarations among the top-level statements. -/
theorem collect_tracked_entries (ctype_to_vhdl : Option CStr → CStr)
    (children : List ASTNode) :
    (collect_tracked ctype_to_vhdl children).1
      = tracked_entries ctype_to_vhdl [] ((top_level_declarations children).take 256) := by
  have key : ∀ (cs seen : List ASTNode) (acc : List TrackedVar × CStr),
      (∀ d ∈ seen, is_scalar_declaration d = true) →
      acc.1 = tracked_entries ctype_to_vhdl [] (seen.take 256) →
      (cs.foldl
        (fun acc child =>
          if child.type = NODE_STATEMENT then
            child.children.foldl (track_decl ctype_to_vhdl) acc
          else acc) acc).1
        = tracked_entries ctype_to_vhdl []
            ((seen ++ top_level_declarations cs).take 256) := by
    intro cs
    induction cs with
    | nil => intro seen acc _ h; simpa [top_level_declarations] using h
    | cons c rest ih =>
      intro seen acc hseen hacc
      simp only [List.foldl_cons]
      by_cases hc : c.type = NODE_STATEMENT
      · rw [if_pos hc]
        have h1 := foldl_track_decl ctype_to_vhdl c.children seen acc hseen hacc
        have h2 := ih (seen ++ c.children.filter is_scalar_declaration) _
          (by
            intro d hd
            rcases List.mem_append.mp hd with hd | hd
            · exact hseen d hd
            · exact (List.mem_filter.mp hd).2)
          h1
        rw [h2]
        simp [top_level_declarations, hc, List.append_assoc]
      · rw [if_neg hc]
        rw [ih seen acc hseen hacc]
        simp [top_level_declarations, hc]
  have h := key children [] ([], []) (by simp) (by simp [tracked_entries])
  simpa [collect_tracked] using h

theorem track_decl_annotate (ctype_to_vhdl : Option CStr → CStr)
    (acc : List TrackedVar × CStr) (st : ASTNode) (counter : Int) :
    track_decl ctype_to_vhdl acc (annotate_func_calls st counter).1
      = track_decl ctype_to_vhdl acc st := by
  cases st with
  | mk t v k cs =>
    by_cases ht : t = NODE_VAR_DECL
    · subst ht
      cases v <;> simp [annotate_func_calls, annotate_value, track_decl, ASTNode.type,
        ASTNode.value, ASTNode.token]
    · have h1 : ∀ (n : ASTNode), n.type = t → track_decl ctype_to_vhdl acc n = acc := by
        intro n hn
        unfold track_decl
        cases n.value with
        | none => rfl
        | some w => simp [hn, ht]
      rw [h1 _ (by simp [annotate_func_calls, ASTNode.type]), h1 (.mk t v k cs) rfl]

theorem foldl_track_decl_annotate (ctype_to_vhdl : Option CStr → CStr) :
    ∀ (sts : List ASTNode) (acc : List TrackedVar × CStr) (counter : Int),
    (annotate_children sts counter).1.foldl (track_decl ctype_to_vhdl) acc
      = sts.foldl (track_decl ctype_to_vhdl) acc := by
  intro sts
  induction sts with
  | nil => intro acc counter; simp [annotate_children]
  | cons st rest ih =>
    intro acc counter
    simp only [annotate_children, List.foldl_cons, track_decl_annotate, ih]

/-- The annotation of the calls does not change what the tracker collects. -/
theorem collect_tracked_annotate (ctype_to_vhdl : Option CStr → CStr)
    (children : List ASTNode) (counter : Int) :
    collect_tracked ctype_to_vhdl (annotate_children children counter).1
      = collect_tracked ctype_to_vhdl children := by
  have key : ∀ (cs : List ASTNode) (acc : List TrackedVar × CStr) (counter : Int),
      (annotate_children cs counter).1.foldl
        (fun acc child =>
          if child.type = NODE_STATEMENT then
            child.children.foldl (track_decl ctype_to_vhdl) acc
          else acc) acc
      = cs.foldl
        (fun acc child =>
          if child.type = NODE_STATEMENT then
            child.children.foldl (track_decl ctype_to_vhdl) acc
          else acc) acc := by
    intro cs
    induction cs with
    | nil => intro acc counter; simp [annotate_children]
    | cons c rest ih =>
      intro acc counter
      cases c with
      | mk t v k ccs =>
        have ht : (annotate_func_calls (.mk t v k ccs) counter).1.type
            = (ASTNode.mk t v k ccs).type := by
          simp [annotate_func_calls, ASTNode.type]
        have hc : (annotate_func_calls (.mk t v k ccs) counter).1.children
            = (annotate_children (ASTNode.mk t v k ccs).children
                (annotate_value t v counter).2).1 := by
          simp [annotate_func_calls, ASTNode.children]
        simp only [annotate_children, List.foldl_cons]
        rw [ih, ht, hc, foldl_track_decl_annotate]
  exact key children ([], []) counter
/-! ## Lemmas: the statements of the generator leave its globals alone -/

theorem kg_pure {α : Type} (a : α) : KeepsGlobals (pure a : G α) := by
  constructor
  intro st b st1 out h
  simp only [gen_pure_apply, GResult.ok.injEq] at h
  exact h.2.1.symm

theorem kg_emit (t : CStr) : KeepsGlobals (emit t) := by
  constructor
  intro st b st1 out h
  simp only [emit, GResult.ok.injEq] at h
  exact h.2.1.symm

theorem kg_emit_s (t : String) : KeepsGlobals (emit_s t) := kg_emit _

theorem kg_undefined {α : Type} : KeepsGlobals (undefined_behaviour : G α) := by
  constructor
  intro st b st1 out h
  simp [undefined_behaviour] at h

theorem kg_deref (v : Option CStr) : KeepsGlobals (deref v) := by
  cases v
  · exact kg_undefined
  · exact kg_pure _

theorem kg_get : KeepsGlobals get_globals := by
  constructor
  intro st b st1 out h
  simp only [get_globals, GResult.ok.injEq] at h
  exact h.2.1.symm

theorem kg_bind {α β : Type} {m : G α} {f : α → G β} (hm : KeepsGlobals m)
    (hf : ∀ a, KeepsGlobals (f a)) : KeepsGlobals (m >>= f) := by
  constructor
  intro st b st2 out h
  simp only [gen_bind_apply, G.bind] at h
  cases h1 : m st with
  | ok a st1 out1 =>
    rw [h1] at h
    simp only at h
    have e1 := hm.keeps st a st1 out1 h1
    cases h2 : f a st1 with
    | ok b2 st3 out2 =>
      rw [h2] at h
      simp only [GResult.ok.injEq] at h
      have e2 := (hf a).keeps st1 b2 st3 out2 h2
      rw [← h.2.1, e2, e1]
    | undefined => rw [h2] at h; simp at h
    | out_of_fuel => rw [h2] at h; simp at h
  | undefined => rw [h1] at h; simp at h
  | out_of_fuel => rw [h1] at h; simp at h

theorem kg_for_each {α : Type} {f : α → G Unit} {l : List α}
    (h : ∀ a ∈ l, KeepsGlobals (f a)) : KeepsGlobals (for_each f l) := by
  induction l with
  | nil => exact kg_pure _
  | cons a rest ih =>
    simp only [for_each]
    exact kg_bind (h a (by simp)) (fun _ => ih (fun b hb => h b (by simp [hb])))

theorem kg_gen_condition {g : ASTNode → G Unit} {cond : ASTNode} (spaced : Bool)
    (hg : KeepsGlobals (g cond)) : KeepsGlobals (gen_condition g cond spaced) := by
  unfold gen_condition
  repeat' (first
    | exact kg_pure _ | exact kg_emit _ | exact kg_emit_s _ | exact kg_undefined
    | exact kg_deref _ | exact kg_get | exact hg
    | apply kg_bind | intro _ | split)

theorem kg_decode_access (v lbr : CStr) : KeepsGlobals (decode_access v lbr) := by
  unfold decode_access
  repeat' (first
    | exact kg_pure _ | exact kg_undefined
    | split | (dsimp only))

theorem kg_gen_signal_assignment {g : ASTNode → G Unit} {lhs rhs : ASTNode}
    (hg : KeepsGlobals (g rhs)) : KeepsGlobals (gen_signal_assignment g lhs rhs) := by
  unfold gen_signal_assignment
  repeat' (first
    | exact kg_pure _ | exact kg_emit _ | exact kg_emit_s _ | exact kg_undefined
    | exact kg_deref _ | exact kg_get | exact hg
    | exact kg_decode_access _ _
    | apply kg_bind | intro _ | split | (dsimp only))

theorem kg_gen_statement_child {g : ASTNode → G Unit} {child : ASTNode}
    (hg : ∀ c ∈ preorder child, KeepsGlobals (g c)) : KeepsGlobals (gen_statement_child g child) := by
  unfold gen_statement_child
  repeat' (first
    | exact kg_pure _ | exact kg_emit _ | exact kg_emit_s _ | exact kg_undefined
    | exact kg_deref _ | exact kg_get
    | exact kg_decode_access _ _
    | exact hg _ (preorder_self _)
    | exact hg _ (mem_preorder_children (by simp_all))
    | apply kg_bind | intro _ | split | (dsimp only))

theorem kg_gen_for_body {g : ASTNode → G Unit} (cond_index incr_index : Int) :
    ∀ (l : List ASTNode) (j : Nat), (∀ c ∈ l, KeepsGlobals (g c)) →
      KeepsGlobals (gen_for_body g cond_index incr_index j l) := by
  intro l
  induction l with
  | nil => intro j _; exact kg_pure _
  | cons c rest ih =>
    intro j hg
    have hrest := ih (j + 1) (fun d hd => hg d (by simp [hd]))
    simp only [gen_for_body]
    split
    · exact kg_bind (hg c (by simp)) (fun _ => hrest)
    · exact kg_bind (kg_pure _) (fun _ => hrest)

theorem kg_gen_for {g : ASTNode → G Unit} {node : ASTNode}
    (hc : ∀ c ∈ node.children, KeepsGlobals (g c))
    (hcc : ∀ c ∈ node.children, ∀ d ∈ c.children, KeepsGlobals (g d)) :
    KeepsGlobals (gen_for g node) := by
  unfold gen_for
  split
  · exact kg_pure _
  · rename_i first tail heq
    have hfirst : first ∈ node.children := by simp [heq]
    apply kg_bind
    · repeat' (first
        | exact kg_pure _ | exact kg_emit _ | exact kg_emit_s _
        | exact kg_gen_signal_assignment (hcc first hfirst _ (by simp_all))
        | exact hcc first hfirst _ (by simp_all)
        | apply kg_bind | intro _ | split | (dsimp only))
    · intro cond_index
      split
      · exact kg_pure _
      · rename_i cond hcond
        have hcm : cond ∈ node.children := List.get?_mem hcond
        repeat' (first
          | exact kg_pure _ | exact kg_emit _ | exact kg_emit_s _
          | exact kg_gen_condition _ (hc cond hcm)
          | exact kg_gen_for_body _ _ _ _ hc
          | apply kg_bind | intro _ | (dsimp only))
        split
        · rename_i i hi
          split at hi
          · rename_i c hget
            split at hi
            · simp only [Option.some.injEq] at hi
              subst hi
              have him : c ∈ node.children := List.get?_mem hget
              split
              · rename_i lhs rhs hlr
                exact kg_bind (kg_emit_s _) (fun _ =>
                  kg_gen_signal_assignment (hcc c him rhs (by simp [hlr])))
              · exact kg_pure _
            · exact absurd hi (by simp)
          · exact absurd hi (by simp)
        · exact kg_pure _

theorem kg_gen_logical_operand {g : ASTNode → G Unit} {operand : ASTNode}
    (hg : KeepsGlobals (g operand)) : KeepsGlobals (gen_logical_operand g operand) := by
  unfold gen_logical_operand
  repeat' (first
    | exact kg_pure _ | exact kg_emit _ | exact kg_emit_s _ | exact hg
    | apply kg_bind | intro _ | split | (dsimp only))

theorem kg_gen_comparison_operand (is_negative_literal : Option CStr → Bool)
    {g : ASTNode → G Unit} {operand : ASTNode}
    (hg : KeepsGlobals (g operand)) :
    KeepsGlobals (gen_comparison_operand is_negative_literal g operand) := by
  unfold gen_comparison_operand
  repeat' (first
    | exact kg_pure _ | exact kg_emit _ | exact kg_emit_s _ | exact hg
    | exact kg_deref _
    | apply kg_bind | intro _ | split | (dsimp only))

theorem kg_gen_binary_expr (is_negative_literal : Option CStr → Bool)
    {g : ASTNode → G Unit} {node : ASTNode}
    (hg : ∀ c ∈ node.children, KeepsGlobals (g c)) :
    KeepsGlobals (gen_binary_expr is_negative_literal g node) := by
  unfold gen_binary_expr
  apply kg_bind (kg_deref _)
  intro op0
  dsimp only
  split
  · rename_i left right tail heq
    have hl : KeepsGlobals (g left) := hg left (by simp [heq])
    have hr : KeepsGlobals (g right) := hg right (by simp [heq])
    repeat' (first
      | exact kg_pure _ | exact kg_emit _ | exact kg_emit_s _
      | exact kg_gen_logical_operand hl | exact kg_gen_logical_operand hr
      | exact kg_gen_comparison_operand _ hl | exact kg_gen_comparison_operand _ hr
      | exact hl | exact hr
      | apply kg_bind | intro _ | split)
  · exact kg_undefined

theorem kg_gen_if_branch {g : ASTNode → G Unit} {branch : ASTNode}
    (hg : ∀ c ∈ preorder branch, KeepsGlobals (g c)) : KeepsGlobals (gen_if_branch g branch) := by
  have hc : ∀ c ∈ branch.children, KeepsGlobals (g c) :=
    fun c h => hg c (mem_preorder_children h)
  unfold gen_if_branch
  repeat' (first
    | exact kg_pure _ | exact kg_emit _ | exact kg_emit_s _ | exact kg_undefined
    | exact hg _ (preorder_self _)
    | exact kg_gen_condition _ (hc _ (by simp_all))
    | exact kg_for_each (fun c h => hc c (by simp_all))
    | apply kg_bind | intro _ | split | (dsimp only))

theorem kg_gen_expression (is_negative_literal : Option CStr → Bool) (node : ASTNode) :
    KeepsGlobals (gen_expression is_negative_literal node) := by
  unfold gen_expression
  repeat' (first
    | exact kg_pure _ | exact kg_emit _ | exact kg_emit_s _ | exact kg_undefined
    | exact kg_deref _ | exact kg_get | exact kg_decode_access _ _
    | apply kg_bind | intro _ | split | (dsimp only))

theorem kg_gen_func_call (node : ASTNode) : KeepsGlobals (gen_func_call node) := by
  unfold gen_func_call
  repeat' (first
    | exact kg_emit _ | exact kg_emit_s _
    | split)

theorem kg_gen_unary_op {g : ASTNode → G Unit} {node : ASTNode}
    (hg : ∀ c ∈ node.children, KeepsGlobals (g c)) : KeepsGlobals (gen_unary_op g node) := by
  unfold gen_unary_op
  repeat' (first
    | exact kg_pure _ | exact kg_emit _ | exact kg_emit_s _
    | exact hg _ (by simp_all)
    | apply kg_bind | intro _ | split | (dsimp only))

mutual
theorem preorder_trans : ∀ (n : ASTNode) {x d : ASTNode}, x ∈ preorder n → d ∈ preorder x →
    d ∈ preorder n
  | .mk t v k cs, x, d, hx, hd => by
    simp only [preorder, List.mem_cons] at hx
    rcases hx with rfl | hx
    · exact hd
    · simp only [preorder, List.mem_cons]
      right
      exact preorder_list_trans cs hx hd
theorem preorder_list_trans : ∀ (l : List ASTNode) {x d : ASTNode}, x ∈ preorder_list l →
    d ∈ preorder x → d ∈ preorder_list l
  | [], x, d, hx, _ => by simp [preorder_list] at hx
  | n :: rest, x, d, hx, hd => by
    simp only [preorder_list, List.mem_append] at hx ⊢
    rcases hx with hx | hx
    · exact Or.inl (preorder_trans n hx hd)
    · exact Or.inr (preorder_list_trans rest hx hd)
end

theorem generate_vhdl_keeps_globals (ctype_to_vhdl : Option CStr → CStr)
    (is_negative_literal : Option CStr → Bool) :
    ∀ (fuel : Nat) (node : ASTNode), (∀ d ∈ preorder node, d.type ≠ NODE_FUNCTION_DECL) →
      KeepsGlobals (generate_vhdl ctype_to_vhdl is_negative_literal fuel node) := by
  intro fuel
  induction fuel with
  | zero =>
    intro node _
    constructor
    intro st a st1 out h
    simp [generate_vhdl] at h
  | succ fuel ih =>
    intro node hh
    have hsub : ∀ c ∈ node.children, ∀ d ∈ preorder c,
        KeepsGlobals (generate_vhdl ctype_to_vhdl is_negative_literal fuel d) := by
      intro c hc d hd
      apply ih
      intro e he
      exact hh e (preorder_trans node (mem_preorder_children hc) (preorder_trans c hd he))
    have hchild : ∀ c ∈ node.children,
        KeepsGlobals (generate_vhdl ctype_to_vhdl is_negative_literal fuel c) :=
      fun c hc => hsub c hc c (preorder_self c)
    have hself : node.type ≠ NODE_FUNCTION_DECL := hh node (preorder_self node)
    simp only [generate_vhdl]
    split
    · exact kg_bind (kg_emit_s _) (fun _ => kg_bind (kg_emit_s _) (fun _ =>
        kg_bind (kg_emit_s _) (fun _ => kg_bind (kg_emit_s _) (fun _ =>
          kg_for_each hchild))))
    · rename_i ht
      exact absurd ht hself
    · exact kg_for_each (fun c hc => kg_gen_statement_child (hsub c hc))
    · split
      · rename_i cond body heq
        exact kg_bind (kg_emit_s _) (fun _ =>
          kg_bind (kg_gen_condition _ (hchild cond (by simp [heq]))) (fun _ =>
            kg_bind (kg_emit_s _) (fun _ =>
              kg_bind (kg_for_each (fun c hc => hchild c (by simp [heq, hc]))) (fun _ =>
                kg_emit_s _))))
      · exact kg_undefined
    · exact kg_gen_for hchild (fun c hc d hd => hsub c hc d (mem_preorder_children hd))
    · exact kg_emit_s _
    · exact kg_emit_s _
    · exact kg_gen_binary_expr _ hchild
    · split
      · rename_i cond branches heq
        exact kg_bind (kg_emit_s _) (fun _ =>
          kg_bind (kg_gen_condition _ (hchild cond (by simp [heq]))) (fun _ =>
            kg_bind (kg_emit_s _) (fun _ =>
              kg_bind (kg_for_each (fun c hc =>
                kg_gen_if_branch (hsub c (by simp [heq, hc])))) (fun _ =>
                kg_emit_s _))))
      · exact kg_undefined
    · exact kg_gen_expression _ _
    · exact kg_gen_func_call _
    · exact kg_gen_unary_op hchild
    · exact kg_pure _

theorem relabel_types : ∀ (hs : List NodeHead) (c : Int),
    (relabel hs c).1.map (fun h => h.1) = hs.map (fun h => h.1) := by
  intro hs
  induction hs with
  | nil => intro c; rfl
  | cons h rest ih =>
    intro c
    obtain ⟨t, v, k, a⟩ := h
    simp only [relabel, List.map_cons, ih]

theorem annotate_children_types (l : List ASTNode) (c : Int) :
    (preorder_list (annotate_children l c).1).map ASTNode.type
      = (preorder_list l).map ASTNode.type := by
  have h := congrArg (List.map (fun h : NodeHead => h.1)) (annotate_children_heads l c).1
  rw [relabel_types, List.map_map, List.map_map] at h
  exact h

theorem annotate_children_no_type (l : List ASTNode) (c : Int) (t : NodeType)
    (h : ∀ d ∈ preorder_list l, d.type ≠ t) :
    ∀ d ∈ preorder_list (annotate_children l c).1, d.type ≠ t := by
  intro d hd ht
  have hm : d.type ∈ (preorder_list (annotate_children l c).1).map ASTNode.type :=
    List.mem_map_of_mem _ hd
  rw [annotate_children_types] at hm
  obtain ⟨e, he, hte⟩ := List.mem_map.mp hm
  exact h e he (hte.trans ht)

theorem gen_architecture_body_eq (ctype_to_vhdl : Option CStr → CStr) (g : ASTNode → G Unit)
    (node : ASTNode) (st : GenState) :
    gen_architecture_body ctype_to_vhdl g node st
      = (match gen_declarations ctype_to_vhdl g node st with
        | .ok _ _ declarations =>
          match gen_statements g (annotate_children node.children 0).1
              (clocked_globals (collect_tracked ctype_to_vhdl
                (annotate_children node.children 0).1).1) with
          | .ok _ st2 statements =>
            .ok () { g_tracked_vars := [], g_tracking_active := false, g_in_clock_body := false }
              (declarations
                ++ "  process(clk, reset)\n".toList
                ++ ((collect_tracked ctype_to_vhdl
                      (annotate_children node.children 0).1).1.map variable_line).flatten
                ++ "  begin\n".toList
                ++ "    if reset = '1' then\n".toList
                ++ "      -- Reset logic\n".toList
                ++ "    elsif rising_edge(clk) then\n".toList
                ++ ((collect_tracked ctype_to_vhdl
                      (annotate_children node.children 0).1).1.map copy_in_line).flatten
                ++ statements
                ++ (st2.g_tracked_vars.map copy_out_line).flatten
                ++ "    end if;\n".toList
                ++ "  end process;\n".toList)
          | .undefined => .undefined
          | .out_of_fuel => .out_of_fuel
        | .undefined => .undefined
        | .out_of_fuel => .out_of_fuel) := by
  simp only [gen_architecture_body, gen_declarations, gen_statements, clocked_globals,
    gen_bind_apply, G.bind, emit, emit_s, get_globals, set_globals]
  cases gen_signals ctype_to_vhdl node.children st with
  | ok a st1 out1 =>
    simp only
    cases emit_func_call_instantiations_list g (annotate_children node.children 0).1 st1 with
    | ok b st2 out2 =>
      simp only
      cases for_each (fun child => if child.type = NODE_STATEMENT then g child else pure ())
        (annotate_children node.children 0).1
        { g_tracked_vars := (collect_tracked ctype_to_vhdl
            (annotate_children node.children 0).1).1,
          g_tracking_active := true, g_in_clock_body := true } with
      | ok c st3 out3 => simp
      | undefined => rfl
      | out_of_fuel => rfl
    | undefined => rfl
    | out_of_fuel => rfl
  | undefined => rfl
  | out_of_fuel => rfl

theorem gen_statements_keeps (ctype_to_vhdl : Option CStr → CStr)
    (is_negative_literal : Option CStr → Bool) (fuel : Nat) (children : List ASTNode)
    (h : ∀ d ∈ preorder_list children, d.type ≠ NODE_FUNCTION_DECL) :
    KeepsGlobals (gen_statements (generate_vhdl ctype_to_vhdl is_negative_literal fuel)
      children) := by
  unfold gen_statements
  apply kg_for_each
  intro c hc
  split
  · apply generate_vhdl_keeps_globals
    intro d hd
    exact h d (mem_preorder_list.mpr ⟨c, hc, hd⟩)
  · exact kg_pure _
/-! ## Lemmas: the loop-depth counter of the parser is balanced -/

theorem kd_ok {α : Type} {m : P α} (h : KeepsDepth m) {s s1 : PState} {a : α}
    (hm : m s = .ok a s1) : s1.s_loop_depth = s.s_loop_depth := by
  have := h s
  rw [hm] at this
  exact this

theorem kd_pure {α : Type} (a : α) : KeepsDepth (pure a : P α) := fun _ => rfl

theorem kd_fatal {α : Type} (msg : String) : KeepsDepth (fatal msg : P α) := fun _ => trivial

theorem kd_bind {α β : Type} {m : P α} {f : α → P β} (hm : KeepsDepth m)
    (hf : ∀ a, KeepsDepth (f a)) : KeepsDepth (m >>= f) := by
  intro s
  simp only [parser_bind_apply, P.bind]
  cases h1 : m s with
  | ok a s1 =>
    simp only
    have e1 := kd_ok hm h1
    have h2 := hf a s1
    cases h3 : f a s1 with
    | ok b s2 =>
      rw [h3] at h2
      simp only at h2 ⊢
      rw [h2, e1]
    | fatal l msg => trivial
    | out_of_fuel => trivial
  | fatal l msg => trivial
  | out_of_fuel => trivial

theorem kd_bool {β : Type} {m : P Bool} {f : Bool → P β} (hm : KeepsDepth m)
    (ht : KeepsDepth (f true)) (hf : KeepsDepth (f false)) : KeepsDepth (m >>= f) :=
  kd_bind hm (fun b => by cases b; exact hf; exact ht)

theorem kd_match_token (t : TokenType) : KeepsDepth (match_token t) := fun _ => rfl

theorem kd_match_text (t : TokenType) (text : String) : KeepsDepth (match_text t text) :=
  fun _ => rfl

theorem kd_match_type_keyword : KeepsDepth match_type_keyword := fun _ => rfl

theorem kd_get_state : KeepsDepth get_state := fun _ => rfl

theorem kd_advance : KeepsDepth advance := fun _ => rfl

theorem kd_consume (t : TokenType) : KeepsDepth (consume t) := by
  intro s
  unfold consume
  by_cases h : match_state s t = true
  · rw [if_pos h]
    rfl
  · rw [if_neg h]

theorem kd_capture : KeepsDepth capture_index_text := fun _ => rfl

theorem kd_skip (stop : TokenType → Bool) : KeepsDepth (skip_tokens_until stop) := fun _ => rfl

theorem kd_init_list (init_list : ASTNode) : KeepsDepth (parse_init_list init_list) :=
  fun _ => rfl

theorem kd_check_bounds (name idx_buf : CStr) : KeepsDepth (check_bounds name idx_buf) := by
  intro s
  unfold check_bounds
  by_cases h : is_number_str idx_buf = true
  · rw [if_pos h]
    dsimp only
    by_cases h2 : find_array_size s.g_arrays name > 0
        ∧ (atoi idx_buf < 0 ∨ atoi idx_buf ≥ find_array_size s.g_arrays name)
    · rw [if_pos h2]
      trivial
    · rw [if_neg h2]
  · rw [if_neg h]

theorem kd_update {β : Type} {u : PState → PState} {f : Unit → P β}
    (hu : ∀ s, (u s).s_loop_depth = s.s_loop_depth) (hf : KeepsDepth (f ())) :
    KeepsDepth (get_state >>= fun s => set_state (u s) >>= f) := by
  intro s
  simp only [parser_bind_apply, P.bind, get_state, set_state]
  have h := hf (u s)
  cases h3 : f () (u s) with
  | ok b s2 =>
    rw [h3] at h
    simp only at h ⊢
    rw [h, hu]
  | fatal l msg => trivial
  | out_of_fuel => trivial

theorem kd_loop {α β : Type} {m : P α} {f : α → P β} (hm : KeepsDepth m)
    (hf : ∀ a, KeepsDepth (f a)) :
    KeepsDepth (add_loop_depth 1 >>= fun _ => m >>= fun a =>
      add_loop_depth (-1) >>= fun _ => f a) := by
  intro s
  simp only [parser_bind_apply, P.bind, add_loop_depth]
  cases h1 : m { s with s_loop_depth := s.s_loop_depth + 1 } with
  | ok a s1 =>
    simp only
    have e1 := kd_ok hm h1
    simp only at e1
    have h2 := hf a { s1 with s_loop_depth := s1.s_loop_depth + -1 }
    cases h3 : f a { s1 with s_loop_depth := s1.s_loop_depth + -1 } with
    | ok b s2 =>
      rw [h3] at h2
      simp only at h2 ⊢
      rw [h2, e1]
      omega
    | fatal l msg => trivial
    | out_of_fuel => trivial
  | fatal l msg => trivial
  | out_of_fuel => trivial

/-- The expression parsers leave the loop-depth counter as they found it. -/
structure ExprKeeps (get_precedence : CStr → Int) (fuel : Nat) : Prop where
  primary : KeepsDepth (parse_primary get_precedence fuel)
  operators : ∀ min_prec left, KeepsDepth (parse_operators get_precedence fuel min_prec left)
  prec : ∀ min_prec, KeepsDepth (parse_expression_prec get_precedence fuel min_prec)
  call_args : ∀ call, KeepsDepth (parse_call_args get_precedence fuel call)

theorem expr_keeps (get_precedence : CStr → Int) : ∀ fuel, ExprKeeps get_precedence fuel := by
  intro fuel
  induction fuel with
  | zero =>
    exact ⟨fun _ => trivial, fun _ _ _ => trivial, fun _ _ => trivial, fun _ _ => trivial⟩
  | succ fuel ih =>
    refine ⟨?_, ?_, ?_, ?_⟩ <;> intros <;>
      (first
        | rw [parse_primary] | rw [parse_operators] | rw [parse_expression_prec]
        | rw [parse_call_args]) <;>
      repeat' (with_reducible first
        | exact kd_pure _
        | exact kd_fatal _
        | exact ih.primary
        | exact ih.operators _ _
        | exact ih.prec _
        | exact ih.call_args _
        | exact kd_match_token _
        | exact kd_match_text _ _
        | exact kd_get_state
        | exact kd_advance
        | exact kd_consume _
        | exact kd_capture
        | exact kd_check_bounds _ _
        | refine kd_bind ?_ (fun _ => ?_)
        | split
        | (dsimp only))

theorem kd_expression (get_precedence : CStr → Int) (fuel : Nat) :
    KeepsDepth (parse_expression get_precedence fuel) :=
  (expr_keeps get_precedence fuel).prec _

theorem kd_simple_statements (get_precedence : CStr → Int) (fuel : Nat) (stmt : ASTNode) :
    KeepsDepth (parse_declaration get_precedence fuel stmt)
    ∧ KeepsDepth (parse_assignment get_precedence fuel stmt)
    ∧ KeepsDepth (parse_return get_precedence fuel stmt)
    ∧ KeepsDepth (parse_break stmt)
    ∧ KeepsDepth (parse_continue stmt)
    ∧ KeepsDepth (parse_unknown stmt)
    ∧ KeepsDepth (parse_for_increment get_precedence fuel)
    ∧ KeepsDepth (parse_for_init_assignment get_precedence fuel) := by
  refine ⟨?_, ?_, ?_, ?_, ?_, ?_, ?_, ?_⟩ <;>
    (first
      | unfold parse_declaration | unfold parse_assignment | unfold parse_return
      | unfold parse_break | unfold parse_continue | unfold parse_unknown
      | unfold parse_for_increment | unfold parse_for_init_assignment) <;>
    (try unfold parse_assignment_target) <;>
    repeat' (with_reducible first
      | exact kd_pure _
      | exact kd_fatal _
      | exact kd_expression _ _
      | exact kd_match_token _
      | exact kd_match_text _ _
      | exact kd_get_state
      | exact kd_advance
      | exact kd_consume _
      | exact kd_capture
      | exact kd_skip _
      | exact kd_init_list _
      | exact kd_check_bounds _ _
      | refine kd_update (fun _ => rfl) ?_
      | refine kd_bind ?_ (fun _ => ?_)
      | split
      | (dsimp only))

/-- The statement parsers leave the loop-depth counter as they found it. -/
structure StmtKeeps (get_precedence : CStr → Int) (fuel : Nat) : Prop where
  statement : KeepsDepth (parse_statement get_precedence fuel)
  body : ∀ node, KeepsDepth (parse_body get_precedence fuel node)
  else_chain : ∀ node, KeepsDepth (parse_else_chain get_precedence fuel node)

theorem stmt_keeps (get_precedence : CStr → Int) : ∀ fuel, StmtKeeps get_precedence fuel := by
  intro fuel
  induction fuel with
  | zero => exact ⟨fun _ => trivial, fun _ _ => trivial, fun _ _ => trivial⟩
  | succ fuel ih =>
    refine ⟨?_, ?_, ?_⟩ <;> intros <;>
      (first
        | (rw [parse_statement]; dsimp only) | rw [parse_body] | rw [parse_else_chain]) <;>
      repeat' (with_reducible first
        | exact kd_pure _
        | exact kd_fatal _
        | exact (kd_simple_statements get_precedence fuel _).1
        | exact (kd_simple_statements get_precedence fuel _).2.1
        | exact (kd_simple_statements get_precedence fuel _).2.2.1
        | exact (kd_simple_statements get_precedence fuel _).2.2.2.1
        | exact (kd_simple_statements get_precedence fuel _).2.2.2.2.1
        | exact (kd_simple_statements get_precedence fuel _).2.2.2.2.2.1
        | exact (kd_simple_statements get_precedence fuel (create_node NODE_STATEMENT)).2.2.2.2.2.2.1
        | exact (kd_simple_statements get_precedence fuel (create_node NODE_STATEMENT)).2.2.2.2.2.2.2
        | exact ih.statement
        | exact ih.body _
        | exact ih.else_chain _
        | exact kd_expression _ _
        | exact kd_match_token _
        | exact kd_match_text _ _
        | exact kd_match_type_keyword
        | exact kd_get_state
        | exact kd_advance
        | exact kd_consume _
        | refine kd_loop (ih.body _) (fun _ => ?_)
        | refine kd_bool ?_ ?_ ?_
        | refine kd_bind ?_ (fun _ => ?_)
        | (simp only [↓reduceIte, Bool.or_true, Bool.true_or, Bool.or_false, Bool.false_or,
            Bool.or_self, Bool.and_true, Bool.and_false, Bool.false_eq_true])
        | split
        | (dsimp only))

theorem kd_parse_parameters : ∀ (fuel : Nat) (func_node : ASTNode),
    KeepsDepth (parse_parameters fuel func_node) := by
  intro fuel
  induction fuel with
  | zero => intro _ _; trivial
  | succ fuel ih =>
    intro func_node
    rw [parse_parameters]
    repeat' (with_reducible first
      | exact kd_pure _
      | exact ih _
      | exact kd_match_token _
      | exact kd_get_state
      | exact kd_advance
      | refine kd_bool ?_ ?_ ?_
      | refine kd_bind ?_ (fun _ => ?_)
      | (simp only [↓reduceIte, Bool.or_true, Bool.true_or, Bool.or_false, Bool.false_or,
          Bool.or_self, Bool.and_true, Bool.and_false, Bool.false_eq_true])
      | split
      | (dsimp only))

theorem kd_parse_function_body (get_precedence : CStr → Int) :
    ∀ (fuel : Nat) (brace_depth : Int) (func_node : ASTNode),
      KeepsDepth (parse_function_body get_precedence fuel brace_depth func_node) := by
  intro fuel
  induction fuel with
  | zero => intro _ _ _; trivial
  | succ fuel ih =>
    intro brace_depth func_node
    rw [parse_function_body]
    repeat' (with_reducible first
      | exact kd_pure _
      | exact ih _ _
      | exact (stmt_keeps get_precedence fuel).statement
      | exact kd_match_token _
      | exact kd_advance
      | refine kd_bool ?_ ?_ ?_
      | refine kd_bind ?_ (fun _ => ?_)
      | (simp only [↓reduceIte, Bool.or_true, Bool.true_or, Bool.or_false, Bool.false_or,
          Bool.or_self, Bool.and_true, Bool.and_false, Bool.false_eq_true, Bool.not_true,
          Bool.not_false])
      | split
      | (dsimp only))

theorem kd_parse_function (get_precedence : CStr → Int) (fuel : Nat)
    (return_type func_name : Token) :
    KeepsDepth (parse_function get_precedence fuel return_type func_name) := by
  unfold parse_function
  repeat' (with_reducible first
    | exact kd_fatal _
    | exact kd_parse_function_body get_precedence _ _ _
    | exact kd_parse_parameters _ _
    | exact kd_consume _
    | refine kd_update (fun _ => rfl) ?_
    | refine kd_bool ?_ ?_ ?_
    | refine kd_bind ?_ (fun _ => ?_)
    | (simp only [↓reduceIte, Bool.false_eq_true])
    | (dsimp only))

theorem kd_parse_program_loop (get_precedence : CStr → Int) :
    ∀ (fuel : Nat) (program_node : ASTNode),
      KeepsDepth (parse_program_loop get_precedence fuel program_node) := by
  intro fuel
  induction fuel with
  | zero => intro _ _; trivial
  | succ fuel ih =>
    intro program_node
    rw [parse_program_loop]
    repeat' (with_reducible first
      | exact kd_pure _
      | exact ih _
      | exact kd_parse_function get_precedence _ _ _
      | exact kd_match_token _
      | exact kd_get_state
      | exact kd_advance
      | exact kd_skip _
      | refine kd_bool ?_ ?_ ?_
      | refine kd_bind ?_ (fun _ => ?_)
      | (simp only [↓reduceIte, Bool.false_eq_true])
      | split
      | (dsimp only))

theorem kd_parse_program (get_precedence : CStr → Int) (fuel : Nat) :
    KeepsDepth (parse_program get_precedence fuel) :=
  kd_bind kd_advance (fun _ => kd_parse_program_loop get_precedence fuel _)

theorem parse_loop_level (get_precedence : CStr → Int) (b : Bool) (fuel : Nat)
    (content tail : List Token) (arrays : List ArrayInfo) (depth : Int) (stmts : List ASTNode)
    (hbody : parse_body get_precedence (fuel + 2) (loop_node b [])
        (state_on (content ++ t_rb :: tail) arrays (depth + 1))
      = .ok (loop_node b stmts) (state_on (t_rb :: tail) arrays (depth + 1))) :
    parse_statement get_precedence (fuel + 3)
        (state_on (loop_header b ++ content ++ t_rb :: tail) arrays depth)
      = .ok (statement [loop_node b stmts]) (state_on tail arrays depth) := by
  have hd : depth + 1 + -1 = depth := by omega
  cases b with
  | true =>
    have hexp := parse_expression_x get_precedence fuel t_rp
      (t_lb :: (content ++ t_rb :: tail)) arrays depth rfl
    simp only [loop_node, if_true] at hbody
    simp only [state_on, next_token] at hbody hexp ⊢
    simp only [tok, t_rp, t_lb, t_rb, leaf, String.toList] at hbody hexp
    simp [parse_statement, match_type_keyword, match_state, match_token, match_text, P.bind,
      advance, advance_state, consume, next_token, loop_header, loop_node, t_kw, t_lp, t_id,
      t_rp, t_lb, t_rb, tok, hexp, add_loop_depth, add_child_opt, add_child, create_node,
      leaf, hbody, hd, statement, ASTNode.type, ASTNode.value, ASTNode.token,
      ASTNode.children]
  | false =>
    simp only [loop_node, Bool.false_eq_true, if_false] at hbody
    simp only [state_on, next_token] at hbody ⊢
    simp only [tok, t_rb, leaf, String.toList] at hbody
    simp [parse_statement, match_type_keyword, match_state, match_token, match_text, P.bind,
      advance, advance_state, consume, next_token, loop_header, loop_node, t_kw, t_lp, t_semi,
      t_rp, t_lb, t_rb, tok, add_loop_depth, add_child_opt, add_child, create_node, set_value,
      leaf, hbody, hd, statement, parse_for_increment, ASTNode.type, ASTNode.value,
      ASTNode.token, ASTNode.children]

theorem parse_statement_while (get_precedence : CStr → Int) (fuel : Nat)
    (s s2 s7 : PState) (cond : Option ASTNode) (body_node : ASTNode)
    (hk : s.current_token.type = TOKEN_KEYWORD) (hv : s.current_token.value = "while".toList)
    (hlp : (advance_state s).current_token.type = TOKEN_PARENTHESIS_OPEN)
    (hcond : parse_expression get_precedence fuel (advance_state (advance_state s))
      = .ok cond s2)
    (hrp : s2.current_token.type = TOKEN_PARENTHESIS_CLOSE)
    (hlb : (advance_state s2).current_token.type = TOKEN_BRACE_OPEN)
    (hbody : parse_body get_precedence fuel
        (add_child_opt (create_node NODE_WHILE_STATEMENT) cond)
        (at_depth (advance_state (advance_state s2)) 1) = .ok body_node s7)
    (hrb : s7.current_token.type = TOKEN_BRACE_CLOSE) :
    parse_statement get_precedence (fuel + 1) s
      = .ok (statement [body_node]) (advance_state (at_depth s7 (-1))) := by
  have e1 : decide (("while".toList : List Char) = "int".toList) = false := by decide
  have e2 : decide (("while".toList : List Char) = "float".toList) = false := by decide
  have e3 : decide (("while".toList : List Char) = "char".toList) = false := by decide
  have e4 : decide (("while".toList : List Char) = "double".toList) = false := by decide
  have e5 : decide (("while".toList : List Char) = "return".toList) = false := by decide
  have e6 : decide (("while".toList : List Char) = "if".toList) = false := by decide
  have e7 : decide (("while".toList : List Char) = "while".toList) = true := by decide
  have e9 : decide (TOKEN_KEYWORD = TOKEN_IDENTIFIER) = false := by decide
  have e10 : decide (TOKEN_KEYWORD = TOKEN_KEYWORD) = true := by decide
  simp only [at_depth] at hbody
  rw [parse_statement]
  simp only [parser_bind_apply, P.bind, match_type_keyword, match_token, match_text,
    match_state, hk, hv, e1, e2, e3, e4, e5, e6, e7, e9, e10, Bool.or_false,
    Bool.and_false, Bool.and_true, Bool.false_eq_true, if_false, if_true, advance, consume,
    hlp, decide_True, hcond, hrp, hlb, add_loop_depth, hbody, hrb, parser_pure_apply, at_depth]
  simp [statement, add_child, create_node, ASTNode.type, ASTNode.value, ASTNode.token,
    ASTNode.children]

theorem closing_braces_shift (kinds : List Bool) (tail : List Token) :
    closing_braces kinds ++ t_rb :: tail = t_rb :: (closing_braces kinds ++ tail) := by
  induction kinds with
  | nil => rfl
  | cons b rest ih =>
    simp only [closing_braces, List.map_cons, List.cons_append] at ih ⊢
    rw [ih]

theorem nested_loops_head (outer : List Bool) (b : Bool) (body rest : List Token) :
    ∃ t r, nested_loops outer (loop_header b ++ body ++ [t_rb]) ++ rest = t :: r ∧
      t.type = TOKEN_KEYWORD := by
  cases outer with
  | nil => cases b <;> exact ⟨_, _, rfl, rfl⟩
  | cons b0 outer => cases b0 <;> exact ⟨_, _, rfl, rfl⟩

theorem parse_body_single (get_precedence : CStr → Int) (fuel : Nat) (node st : ASTNode)
    (s s1 : PState) (h1 : s.current_token.type ≠ TOKEN_BRACE_CLOSE)
    (h2 : s.current_token.type ≠ TOKEN_EOF)
    (hst : parse_statement get_precedence (fuel + 1) s = .ok st s1)
    (hend : s1.current_token.type = TOKEN_BRACE_CLOSE) :
    parse_body get_precedence (fuel + 2) node s = .ok (add_child node st) s1 := by
  rw [parse_body_step _ _ _ _ h1 h2, hst]
  simp only
  exact parse_body_done _ _ _ _ (Or.inl hend)

theorem nested_loops_parse (get_precedence : CStr → Int) (b : Bool) (fuel : Nat)
    (body : List Token) (arrays : List ArrayInfo) (stmts : List ASTNode) :
    ∀ (outer : List Bool) (tail : List Token) (depth : Int),
      parse_body get_precedence (fuel + 2) (loop_node b [])
          (state_on (body ++ t_rb :: (closing_braces outer ++ tail)) arrays
            (depth + (outer.length : Int) + 1))
        = .ok (loop_node b stmts)
            (state_on (t_rb :: (closing_braces outer ++ tail)) arrays
              (depth + (outer.length : Int) + 1)) →
      parse_statement get_precedence (fuel + 2 * outer.length + 3)
          (state_on (nested_loops outer (loop_header b ++ body ++ [t_rb]) ++ tail) arrays depth)
        = .ok (nested_loop_nodes outer (statement [loop_node b stmts]))
            (state_on tail arrays depth) := by
  intro outer
  induction outer with
  | nil =>
    intro tail depth h
    have h2 := parse_loop_level get_precedence b fuel body tail arrays depth stmts
      (by simpa [closing_braces] using h)
    simpa [nested_loops, nested_loop_nodes] using h2
  | cons b0 outer ih =>
    intro tail depth h
    have hd : depth + ((b0 :: outer).length : Int) + 1 = depth + 1 + (outer.length : Int) + 1 := by
      simp only [List.length_cons, Nat.cast_add, Nat.cast_one]
      omega
    have hc : closing_braces (b0 :: outer) ++ tail = closing_braces outer ++ t_rb :: tail := by
      rw [closing_braces_shift]
      rfl
    rw [hd, hc] at h
    have hin := ih (t_rb :: tail) (depth + 1) h
    obtain ⟨t, r, hL, htk⟩ := nested_loops_head outer b body (t_rb :: tail)
    have hfirst : (state_on (nested_loops outer (loop_header b ++ body ++ [t_rb])
        ++ t_rb :: tail) arrays (depth + 1)).current_token = t := by
      rw [hL]; rfl
    have hb := parse_body_single get_precedence (fuel + 2 * outer.length + 2) (loop_node b0 [])
      _ _ _ (by rw [hfirst, htk]; decide) (by rw [hfirst, htk]; decide) hin rfl
    have hnode : add_child (loop_node b0 [])
        (nested_loop_nodes outer (statement [loop_node b stmts]))
        = loop_node b0 [nested_loop_nodes outer (statement [loop_node b stmts])] := by
      cases b0 <;> rfl
    rw [hnode] at hb
    have h2 := parse_loop_level get_precedence b0 (fuel + 2 * outer.length + 2) _ tail arrays
      depth _ hb
    have hf : fuel + 2 * (b0 :: outer).length + 3 = fuel + 2 * outer.length + 2 + 3 := by
      simp only [List.length_cons]
      omega
    rw [hf]
    simpa [nested_loops, nested_loop_nodes] using h2
/-! ## Lemmas: the encoding of array accesses -/

theorem capture_step_eq (cur : Token) (idx_buf : CStr) (paren_depth : Int)
    (h : idx_buf.length + (index_token_text cur).length ≤ 511) :
    capture_step cur idx_buf paren_depth
      = (idx_buf ++ index_token_text cur, depth_after cur paren_depth) := by
  have ht : ∀ x : CStr, idx_buf.length + x.length ≤ 511 →
      strncat idx_buf x (512 - idx_buf.length - 1) = idx_buf ++ x := by
    intro x hx
    unfold strncat
    rw [List.take_of_length_le (by omega)]
  unfold capture_step depth_after
  unfold index_token_text at h ⊢
  by_cases h1 : cur.type = TOKEN_PARENTHESIS_OPEN
  · simp only [h1, if_true] at h ⊢
    rw [ht _ h]
  · by_cases h2 : cur.type = TOKEN_PARENTHESIS_CLOSE
    · simp only [h2, if_true, if_false, (by decide : ¬ TOKEN_PARENTHESIS_CLOSE = TOKEN_PARENTHESIS_OPEN)] at h ⊢
      rw [ht _ h]
    · simp only [h1, h2, if_false] at h ⊢
      rw [ht _ h]

theorem capture_index_text_eq : ∀ (input : List Token) (cur : Token) (idx_buf : CStr)
    (paren_depth : Int),
    idx_buf.length + (index_text (index_tokens cur input paren_depth)).length ≤ 511 →
    (capture_index cur input idx_buf paren_depth).1
      = idx_buf ++ index_text (index_tokens cur input paren_depth) := by
  intro input
  induction input with
  | nil =>
    intro cur idx_buf d h
    unfold capture_index index_tokens
    unfold index_tokens at h
    by_cases h1 : cur.type = TOKEN_EOF
    · simp [h1, index_text]
    · by_cases h2 : cur.type = TOKEN_BRACKET_CLOSE ∧ d = 0
      · simp [h1, h2, index_text]
      · simp only [h1, h2, if_false] at h ⊢
        simp only [index_text, List.map_cons, List.map_nil, List.flatten_cons, List.flatten_nil,
          List.append_nil] at h ⊢
        rw [capture_step_eq _ _ _ h]
  | cons t rest ih =>
    intro cur idx_buf d h
    unfold capture_index index_tokens
    unfold index_tokens at h
    by_cases h1 : cur.type = TOKEN_EOF
    · simp [h1, index_text]
    · by_cases h2 : cur.type = TOKEN_BRACKET_CLOSE ∧ d = 0
      · simp [h1, h2, index_text]
      · simp only [h1, h2, if_false] at h ⊢
        simp only [index_text, List.map_cons, List.flatten_cons, List.length_append] at h
        have hstep := capture_step_eq cur idx_buf d (by omega)
        rw [hstep]
        simp only
        rw [ih t (idx_buf ++ index_token_text cur) (depth_after cur d)
          (by simp only [List.length_append, index_text]; omega)]
        simp [index_text]

theorem strchr_access (n t : CStr) (hn : strchr n '[' = none) :
    strchr (access_value n t) '[' = some ('[' :: (t ++ [']'])) := by
  have h := strchr_append_first n (t ++ [']']) '[' hn
  simpa [access_value] using h

theorem decode_access_value (n t : CStr) (st : GenState)
    (ht : strchr t ']' = none) (hne : t ≠ []) (hnl : n.length < 64) (htl : t.length < 64) :
    decode_access (access_value n t) ('[' :: (t ++ [']'])) st = .ok (some (n, t)) st [] := by
  have h2 : strchr (t ++ [']']) ']' = some [']'] := strchr_append_first t [] ']' ht
  have hlen : (access_value n t).length - ('[' :: (t ++ [']'])).length = n.length := by
    simp only [access_value, List.length_append, List.length_cons, List.length_nil]
    omega
  have hpos : 0 < t.length := List.length_pos.mpr hne
  have hidx : (t ++ [']']).length - ([']'] : CStr).length = t.length := by simp
  have htake : (access_value n t).take n.length = n := by
    simp [access_value, List.take_append_of_le_length]
  unfold decode_access
  simp only [hlen, List.drop_one, List.tail_cons, h2, hidx]
  rw [if_neg (by omega), if_neg (by omega), if_neg (by omega), htake]
  simp [List.take_append_of_le_length]

theorem gen_expression_access (is_negative_literal : Option CStr → Bool) (n t : CStr)
    (k : Option Token) (cs : List ASTNode) (st : GenState)
    (hn : strchr n '[' = none) (ht : strchr t ']' = none) (hne : t ≠ [])
    (hnl : n.length < 64) (htl : t.length < 64) :
    gen_expression is_negative_literal (.mk NODE_EXPRESSION (some (access_value n t)) k cs) st
      = .ok () st (n ++ "(".toList ++ t ++ ")".toList) := by
  simp only [gen_expression, ASTNode.value, strchr_access n t hn, Option.map_some',
    gen_bind_apply, G.bind, decode_access_value n t st ht hne hnl htl, emit]
  simp

theorem gen_statement_child_access (g : ASTNode → G Unit) (n t : CStr)
    (lt : NodeType) (lk : Option Token) (lcs : List ASTNode) (v : Option CStr)
    (k : Option Token) (rhs : ASTNode) (st : GenState)
    (hn : strchr n '[' = none) (ht : strchr t ']' = none) (hne : t ≠ [])
    (hnl : n.length < 64) (htl : t.length < 64) :
    gen_statement_child g
        (.mk NODE_ASSIGNMENT v k [.mk lt (some (access_value n t)) lk lcs, rhs]) st
      = map_text (fun text => "      ".toList ++ n ++ "(".toList ++ t ++ ") <= ".toList ++ text
            ++ ";\n".toList) (g rhs st) := by
  simp only [gen_statement_child, ASTNode.type, ASTNode.children, ASTNode.value,
    strchr_access n t hn, gen_bind_apply, G.bind, decode_access_value n t st ht hne hnl htl,
    emit, emit_s]
  cases g rhs st <;> simp [map_text]

theorem captured_index_eq (s : PState)
    (h : (index_text (access_index_tokens s)).length ≤ 511) :
    captured_index s = index_text (access_index_tokens s) := by
  unfold captured_index
  rw [capture_index_text_eq _ _ _ _ (by simpa [access_index_tokens] using h)]
  simp [access_index_tokens]

theorem parse_primary_access (get_precedence : CStr → Int) (fuel : Nat) (s : PState)
    (hcur : s.current_token.type = TOKEN_IDENTIFIER)
    (hnext : (advance_state s).current_token.type = TOKEN_BRACKET_OPEN) :
    parse_primary get_precedence (fuel + 1) s
      = if (after_capture s).current_token.type = TOKEN_BRACKET_CLOSE then
          (check_bounds (s.current_token.value.take 127) (captured_index s) >>= fun _ =>
            pure (some (.mk NODE_EXPRESSION
              (some (snprintf 700
                (access_value (s.current_token.value.take 127) (captured_index s))))
              none []))) (advance_state (after_capture s))
        else .fatal (after_capture s).current_token.line
          "Expected ']' after array index in expression" := by
  by_cases h2 : (after_capture s).current_token.type = TOKEN_BRACKET_CLOSE
  · have h3 := h2
    simp only [after_capture] at h3
    simp [parse_primary, P.bind, get_state, advance, match_token, match_text, match_state,
      hcur, hnext, h2, h3, capture_index_text, consume, after_capture, captured_index,
      access_value, set_value, create_node]
    rfl
  · have h3 := h2
    simp only [after_capture] at h3
    simp [parse_primary, P.bind, get_state, advance, match_token, match_text, match_state,
      hcur, hnext, h2, h3, capture_index_text, consume, fatal, after_capture]

theorem parse_assignment_target_access (s : PState)
    (hnext : (advance_state s).current_token.type = TOKEN_BRACKET_OPEN) :
    parse_assignment_target s
      = if (after_capture s).current_token.type = TOKEN_BRACKET_CLOSE then
          (check_bounds s.current_token.value (captured_index s) >>= fun _ =>
            pure (.mk NODE_EXPRESSION
              (some (snprintf 1024 (access_value s.current_token.value (captured_index s))))
              none [])) (advance_state (after_capture s))
        else .fatal (after_capture s).current_token.line "Expected ']' after array index" := by
  by_cases h2 : (after_capture s).current_token.type = TOKEN_BRACKET_CLOSE
  · have h3 := h2
    simp only [after_capture] at h3
    simp [parse_assignment_target, P.bind, get_state, advance, match_token, match_state,
      hnext, h2, h3, capture_index_text, consume, after_capture, captured_index,
      access_value, set_value, create_node]
    rfl
  · have h3 := h2
    simp only [after_capture] at h3
    simp [parse_assignment_target, P.bind, get_state, advance, match_token, match_state,
      hnext, h2, h3, capture_index_text, consume, fatal, after_capture]
/-! ## Lemmas: tracked names, arithmetic, returns and the bounds check -/

theorem find_tracked_first (vars : List TrackedVar) (name : CStr) (i : Nat) (t : TrackedVar)
    (hget : vars.get? i = some t) (ht : t.orig = name)
    (hfirst : ∀ j u, j < i → vars.get? j = some u → u.orig ≠ name) :
    find_tracked true vars name = (i : Int) := by
  have h : vars.findIdx? (fun t => decide (t.orig = name)) = some i := by
    rw [List.findIdx?_eq_some_iff_getElem]
    rw [List.get?_eq_some] at hget
    obtain ⟨hi, hti⟩ := hget
    refine ⟨hi, ?_, ?_⟩
    · rw [List.get_eq_getElem] at hti
      simp [hti, ht]
    · intro j hji
      have := hfirst j (vars[j]) hji (by rw [List.get?_eq_getElem?]; exact List.getElem?_eq_getElem _)
      simpa using this
  simp [find_tracked, h]

theorem for_each_single {α : Type} (f : α → G Unit) (a : α) (st : GenState) :
    for_each f [a] st = f a st := by
  simp only [for_each, gen_bind_apply, G.bind]
  cases f a st <;> simp

theorem generate_expression_node (ctype_to_vhdl : Option CStr → CStr)
    (is_negative_literal : Option CStr → Bool) (fuel : Nat) (node : ASTNode)
    (h : node.type = NODE_EXPRESSION) :
    generate_vhdl ctype_to_vhdl is_negative_literal (fuel + 1) node
      = gen_expression is_negative_literal node := by
  rw [generate_vhdl]
  simp only [h]

theorem generate_plain_binary (ctype_to_vhdl : Option CStr → CStr)
    (is_negative_literal : Option CStr → Bool) (fuel : Nat) (op : CStr) (k : Option Token)
    (left right : ASTNode) (rest : List ASTNode) (st st1 st2 : GenState) (tl tr : CStr)
    (hop : op ∉ special_operators)
    (hl : generate_vhdl ctype_to_vhdl is_negative_literal fuel left st = .ok () st1 tl)
    (hr : generate_vhdl ctype_to_vhdl is_negative_literal fuel right st1 = .ok () st2 tr) :
    generate_vhdl ctype_to_vhdl is_negative_literal (fuel + 1)
        (.mk NODE_BINARY_EXPR (some op) k (left :: right :: rest)) st
      = .ok () st2 (tl ++ " ".toList ++ op ++ " ".toList ++ tr) := by
  simp only [special_operators, List.map, List.mem_cons, List.mem_singleton, not_or,
    List.not_mem_nil, not_false_eq_true, and_true] at hop
  obtain ⟨h1, h2, h3, h4, h5, h6, h7, h8, h9, h10, h11, h12, h13, h14, h15⟩ := hop
  rw [generate_binary]
  simp only [gen_binary_expr, ASTNode.value, ASTNode.children, deref, gen_bind_apply, G.bind,
    gen_pure_apply, if_neg h1, if_neg h2, h3, h4, h5, h6, h7, h8, h9, h10, h11, h12, h13, h14,
    h15, or_self, if_false, hl, hr, emit]
  simp

theorem gen_statement_child_call (g : ASTNode → G Unit) (v : Option CStr) (k : Option Token)
    (args : List ASTNode) (st : GenState) :
    gen_statement_child g (.mk NODE_FUNC_CALL v k args) st
      = .ok () st ("      -- function call ".toList ++ v.getD "unknown".toList
          ++ " executed\n".toList) := by
  cases v <;> rfl

theorem gen_statement_child_result (g : ASTNode → G Unit) (child : ASTNode) (st : GenState)
    (ht : child.type = NODE_BINARY_EXPR ∨ child.type = NODE_BINARY_OP) :
    gen_statement_child g child st
      = map_text (fun text => "      result <= ".toList ++ text ++ ";\n".toList)
          (g child st) := by
  rcases ht with ht | ht <;>
    (simp only [gen_statement_child, ht, gen_bind_apply, G.bind, emit_s, emit]
     cases g child st <;> simp [map_text])

theorem gen_statement_child_leaf (g : ASTNode → G Unit) (child : ASTNode) (st : GenState)
    (ht : child.type = NODE_EXPRESSION) :
    gen_statement_child g child st
      = map_text (fun text => "      result <= ".toList ++ returned_leaf_text child.value text
            ++ ";\n".toList)
          (if (∃ w, child.value = some w ∧ w.head? = some '-' ∧ w.length > 1) then .ok () st []
            else g child st) := by
  cases hv : child.value with
  | none =>
    simp only [gen_statement_child, ht, hv, gen_bind_apply, G.bind, emit_s, emit,
      returned_leaf_text]
    cases g child st <;> simp [map_text]
  | some w =>
    by_cases hneg : w.head? = some '-' ∧ w.length > 1
    · by_cases hname : second_is_name_start w = true
      · simp [gen_statement_child, ht, hv, G.bind, emit_s, emit, returned_leaf_text, hneg,
          hname, map_text]
      · simp [gen_statement_child, ht, hv, G.bind, emit_s, emit, returned_leaf_text, hneg,
          hname, map_text]
    · have hex : ¬ (∃ x, some w = some x ∧ x.head? = some '-' ∧ x.length > 1) := by
        rintro ⟨x, hx, h⟩
        cases hx
        exact hneg h
      simp only [gen_statement_child, ht, hv, gen_bind_apply, G.bind, emit_s, emit,
        returned_leaf_text, if_neg hneg, if_neg hex]
      cases g child st <;> simp [map_text]

theorem parse_statement_return (get_precedence : CStr → Int) (fuel : Nat) (s s1 : PState)
    (e : Option ASTNode)
    (hk : s.current_token.type = TOKEN_KEYWORD) (hv : s.current_token.value = "return".toList)
    (he : parse_expression get_precedence fuel (advance_state s) = .ok e s1)
    (hs : s1.current_token.type = TOKEN_SEMICOLON) :
    parse_statement get_precedence (fuel + 1) s
      = .ok (.mk NODE_STATEMENT none (some s.current_token) e.toList) (advance_state s1) := by
  have e1 : decide (("return".toList : List Char) = "int".toList) = false := by decide
  have e2 : decide (("return".toList : List Char) = "float".toList) = false := by decide
  have e3 : decide (("return".toList : List Char) = "char".toList) = false := by decide
  have e4 : decide (("return".toList : List Char) = "double".toList) = false := by decide
  have e5 : decide (("return".toList : List Char) = "return".toList) = true := by decide
  have e9 : decide (TOKEN_KEYWORD = TOKEN_IDENTIFIER) = false := by decide
  have e10 : decide (TOKEN_KEYWORD = TOKEN_KEYWORD) = true := by decide
  rw [parse_statement]
  simp only [parser_bind_apply, P.bind, match_type_keyword, match_token, match_text,
    match_state, hk, hv, e1, e2, e3, e4, e5, e9, e10, Bool.or_false,
    Bool.and_false, Bool.and_true, Bool.false_eq_true, if_false, if_true, parse_return,
    get_state, advance, he, consume, hs, decide_True]
  cases e <;> rfl

theorem check_bounds_skipped (name idx_buf : CStr) (s : PState)
    (h : find_array_size s.g_arrays name ≤ 0) : check_bounds name idx_buf s = .ok () s := by
  unfold check_bounds
  have h2 : ¬ (find_array_size s.g_arrays name > 0) := by omega
  by_cases hn : is_number_str idx_buf = true
  · simp [hn, h2]
  · simp [hn]

theorem find_array_size_unregistered (tbl : List ArrayInfo) (name : CStr)
    (h : ∀ e ∈ tbl, e.name ≠ name) : find_array_size tbl name = -1 := by
  have hnone : tbl.find? (fun e => decide (e.name = name)) = none := by
    rw [List.find?_eq_none]
    intro e he
    simpa using h e he
  simp [find_array_size, hnone]

theorem target_no_bounds_error_without_size (s : PState) (line : Nat)
    (h : find_array_size s.g_arrays s.current_token.value ≤ 0) :
    parse_assignment_target s ≠ .fatal line bounds_message := by
  by_cases h1 : (advance_state s).current_token.type = TOKEN_BRACKET_OPEN
  · by_cases h2 : (capture_index (advance_state (advance_state s)).current_token
        (advance_state (advance_state s)).input [] 0).2.1.type = TOKEN_BRACKET_CLOSE
    · simp [parse_assignment_target, P.bind, get_state, advance, match_token, match_state, h1,
        h2, capture_index_text, consume]
      rw [check_bounds_skipped]
      · simp
      · simpa [advance_state] using h
    · simp [parse_assignment_target, P.bind, get_state, advance, match_token, match_state, h1,
        h2, capture_index_text, consume, fatal, bounds_message]
  · simp [parse_assignment_target, P.bind, get_state, advance, match_token, match_state, h1]

theorem primary_no_bounds_error_without_size (get_precedence : CStr → Int) (fuel : Nat)
    (s : PState) (line : Nat) (hcur : s.current_token.type = TOKEN_IDENTIFIER)
    (hnext : (advance_state s).current_token.type = TOKEN_BRACKET_OPEN)
    (h : find_array_size s.g_arrays (s.current_token.value.take 127) ≤ 0) :
    parse_primary get_precedence (fuel + 1) s ≠ .fatal line bounds_message := by
  by_cases h2 : (capture_index (advance_state (advance_state s)).current_token
      (advance_state (advance_state s)).input [] 0).2.1.type = TOKEN_BRACKET_CLOSE
  · simp [parse_primary, P.bind, get_state, advance, match_token, match_text, match_state,
      hcur, hnext, h2, capture_index_text, consume]
    rw [check_bounds_skipped]
    · simp
    · simpa [advance_state] using h
  · simp [parse_primary, P.bind, get_state, advance, match_token, match_text, match_state,
      hcur, hnext, h2, capture_index_text, consume, fatal, bounds_message]

theorem parse_function_resets_arrays (get_precedence : CStr → Int) (fuel : Nat)
    (return_type func_name : Token) (s : PState) :
    parse_function get_precedence fuel return_type func_name s
      = parse_function get_precedence fuel return_type func_name { s with g_arrays := [] } := by
  simp only [parse_function, parser_bind_apply, P.bind, get_state, set_state]

theorem within_cases {α : Type} {m : P α} {s : PState} {n : Nat} (h : Within m s n) :
    m s ≠ .out_of_fuel ∧ ∀ a s1, m s = .ok a s1 → remaining s1 ≤ n := by
  unfold Within at h
  cases hm : m s with
  | ok a s1 =>
    rw [hm] at h
    refine ⟨by simp, ?_⟩
    intro a2 s2 h2
    cases h2
    exact h
  | fatal l msg => exact ⟨by simp, by simp⟩
  | out_of_fuel => rw [hm] at h; exact absurd h (by simp)

/-- The architecture body of a function without nested function nodes is the
declarations followed by the process of the tracked variables, unless the
lowering has no defined behaviour in C. -/
theorem architecture_body_process (ctype_to_vhdl : Option CStr → CStr)
    (is_negative_literal : Option CStr → Bool) (fuel : Nat) (st : GenState) (node : ASTNode)
    (hdecl : ∀ d ∈ preorder_list node.children, d.type ≠ NODE_FUNCTION_DECL)
    (hfuel : height node ≤ fuel) :
    (∃ (st1 : GenState) (declarations statements : CStr),
      gen_declarations ctype_to_vhdl (generate_vhdl ctype_to_vhdl is_negative_literal fuel)
          node st = .ok () st1 declarations ∧
      gen_statements (generate_vhdl ctype_to_vhdl is_negative_literal fuel)
          (annotate_children node.children 0).1
          (clocked_globals
            (collect_tracked ctype_to_vhdl (annotate_children node.children 0).1).1)
        = .ok ()
            (clocked_globals
              (collect_tracked ctype_to_vhdl (annotate_children node.children 0).1).1)
            statements ∧
      gen_architecture_body ctype_to_vhdl
          (generate_vhdl ctype_to_vhdl is_negative_literal fuel) node st
        = .ok () { g_tracked_vars := [], g_tracking_active := false, g_in_clock_body := false }
            (declarations ++ process_text
              (collect_tracked ctype_to_vhdl (annotate_children node.children 0).1).1
              statements)) ∨
    gen_architecture_body ctype_to_vhdl
        (generate_vhdl ctype_to_vhdl is_negative_literal fuel) node st = .undefined := by
  have hann : ∀ c ∈ preorder_list (annotate_children node.children 0).1,
      NoFuelOut (generate_vhdl ctype_to_vhdl is_negative_literal fuel c) := by
    intro c hc
    apply generate_vhdl_no_fuel_out
    have := height_mem_preorder_list _ hc
    rw [height_list_annotate] at this
    have := height_children node
    omega
  have hno := (nfo_gen_architecture_body ctype_to_vhdl hann).never st
  have hkeep := (gen_statements_keeps ctype_to_vhdl is_negative_literal fuel
    (annotate_children node.children 0).1
    (annotate_children_no_type node.children 0 NODE_FUNCTION_DECL hdecl)).keeps
    (clocked_globals (collect_tracked ctype_to_vhdl (annotate_children node.children 0).1).1)
  rw [gen_architecture_body_eq] at hno ⊢
  cases hd : gen_declarations ctype_to_vhdl
      (generate_vhdl ctype_to_vhdl is_negative_literal fuel) node st with
  | ok a st1 declarations =>
    rw [hd] at hno
    simp only at hno ⊢
    cases hs : gen_statements (generate_vhdl ctype_to_vhdl is_negative_literal fuel)
        (annotate_children node.children 0).1
        (clocked_globals
          (collect_tracked ctype_to_vhdl (annotate_children node.children 0).1).1) with
    | ok b st2 statements =>
      have e2 := hkeep b st2 statements hs
      subst e2
      left
      refine ⟨st1, declarations, statements, rfl, rfl, ?_⟩
      simp [process_text, clocked_globals]
    | undefined => right; rfl
    | out_of_fuel => rw [hs] at hno; exact absurd rfl hno
  | undefined => right; rfl
  | out_of_fuel => rw [hd] at hno; exact absurd rfl hno

/-! ## Claims about `build_gen_name` -/

/-- C1: for every name and every ordinal `>= 0` whose result fits the output
buffer, `build_gen_name` yields the name followed by the decimal ordinal
(`0` for ordinal 0) when the name ends in `_v` or in `_v<digits>`, and
otherwise the name followed by `_v` for ordinal 0 and by `_v<ordinal>` for a
positive ordinal. -/
theorem build_gen_name_rule (orig : CStr) (ordinal : Int) (out : CStr) (outsz : Nat)
    (hord : 0 ≤ ordinal) (hfit : (gen_name_text orig ordinal).length < outsz) :
    fmt_d 0 = ['0'] ∧
    (EndsInVConvention orig →
      build_gen_name orig ordinal out outsz = orig ++ fmt_d ordinal) ∧
    (¬ EndsInVConvention orig → ordinal = 0 →
      build_gen_name orig ordinal out outsz = orig ++ "_v".toList) ∧
    (¬ EndsInVConvention orig → 0 < ordinal →
      build_gen_name orig ordinal out outsz = orig ++ "_v".toList ++ fmt_d ordinal) := by
  have _ := hord
  rw [build_gen_name_fits hfit]
  refine ⟨by decide, ?_, ?_, ?_⟩
  · intro h
    exact gen_name_text_suffix ordinal ((has_v_suffix_iff orig).mpr h)
  · intro h h0
    have hs : has_v_suffix orig = false := by
      cases hv : has_v_suffix orig with
      | false => rfl
      | true => exact absurd ((has_v_suffix_iff orig).mp hv) h
    rw [gen_name_text_plain ordinal hs, if_pos h0]
    simp
  · intro h h0
    have hs : has_v_suffix orig = false := by
      cases hv : has_v_suffix orig with
      | false => rfl
      | true => exact absurd ((has_v_suffix_iff orig).mp hv) h
    rw [gen_name_text_plain ordinal hs, if_neg (by omega)]
    rfl

/-- C1, the examples of the specification: `("x", 0)` gives `x_v`, `("x", 1)`
gives `x_v1`, `("foo_v", 0)` gives `foo_v0` and `("foo_v1", 0)` gives
`foo_v10`, in the 64 character buffer of the tracker. -/
theorem build_gen_name_rule_examples :
    build_gen_name "x".toList 0 [] 64 = "x_v".toList ∧
    build_gen_name "x".toList 1 [] 64 = "x_v1".toList ∧
    build_gen_name "foo_v".toList 0 [] 64 = "foo_v0".toList ∧
    build_gen_name "foo_v1".toList 0 [] 64 = "foo_v10".toList :=
  ⟨(build_gen_name_rule "x".toList 0 [] 64 (by decide) (by decide)).2.2.1
      (fun h => absurd ((has_v_suffix_iff _).mpr h) (by decide)) rfl,
   (build_gen_name_rule "x".toList 1 [] 64 (by decide) (by decide)).2.2.2
      (fun h => absurd ((has_v_suffix_iff _).mpr h) (by decide)) (by decide),
   (build_gen_name_rule "foo_v".toList 0 [] 64 (by decide) (by decide)).2.1
      (Or.inl ⟨"foo".toList, rfl⟩),
   (build_gen_name_rule "foo_v1".toList 0 [] 64 (by decide) (by decide)).2.1
      (Or.inr ⟨"foo".toList, "1".toList, rfl, by decide, by decide⟩)⟩

/-- C2: for every source name and every two different ordinals `m`, `n`, both
`>= 0`, the generated names differ when both fit the output buffer. -/
theorem build_gen_name_ordinals_differ (name : CStr) (m n : Int) (out1 out2 : CStr)
    (outsz : Nat) (hm : 0 ≤ m) (hn : 0 ≤ n) (hne : m ≠ n)
    (hfm : (gen_name_text name m).length < outsz)
    (hfn : (gen_name_text name n).length < outsz) :
    build_gen_name name m out1 outsz ≠ build_gen_name name n out2 outsz := by
  rw [build_gen_name_fits hfm, build_gen_name_fits hfn]
  exact fun h => hne (gen_name_text_injective hm hn h)

/-- C2 at the name `x` and the ordinals 0 and 1. -/
theorem build_gen_name_ordinals_differ_example :
    build_gen_name "x".toList 0 [] 64 ≠ build_gen_name "x".toList 1 [] 64 :=
  build_gen_name_ordinals_differ "x".toList 0 1 [] [] 64 (by decide) (by decide) (by decide)
    (by decide) (by decide)

/-- C3: the tracked declarations of `int f() { int x; int x; int x_v; int x_v; }`
have the different (name, ordinal) pairs `(x, 1)` and `(x_v, 1)` and the same
generated name `x_v1`. -/
theorem tracked_names_collide (get_precedence : CStr → Int)
    (ctype_to_vhdl : Option CStr → CStr) :
    tracked_of_program ctype_to_vhdl
        (parse_program get_precedence 8 (initial_state shadow_tokens))
      = [[("x".toList, 0, "x_v".toList), ("x".toList, 1, "x_v1".toList),
          ("x_v".toList, 0, "x_v0".toList), ("x_v".toList, 1, "x_v1".toList)]]
    ∧ build_gen_name "x".toList 1 [] 64 = build_gen_name "x_v".toList 1 [] 64 := by
  constructor
  · rfl
  · decide

/-- C4, refuted as stated: the 63 character name `aaa...a` at ordinal 0 gets,
in the 64 character buffer, a generated name that does not end in `_v` or
`_v<digits>`; it is the name itself, a user identifier outside the
convention. -/
theorem build_gen_name_truncated :
    ¬ EndsInVConvention (build_gen_name (List.replicate 63 'a') 0 [] 64) ∧
    build_gen_name (List.replicate 63 'a') 0 [] 64 = List.replicate 63 'a' ∧
    ¬ EndsInVConvention (List.replicate 63 'a') := by
  have h : build_gen_name (List.replicate 63 'a') 0 [] 64 = List.replicate 63 'a' := by
    decide
  have hn : ¬ EndsInVConvention (List.replicate 63 'a') :=
    fun hc => absurd ((has_v_suffix_iff _).mpr hc) (by decide)
  exact ⟨by rw [h]; exact hn, h, hn⟩

/-- C4, amended: for every name and every ordinal `>= 0` whose result fits the
output buffer, the result of `build_gen_name` ends in `_v` or in `_v` followed
by one or more digits; hence it is not a user identifier that does not itself
end in `_v` or `_v<digits>`. -/
theorem build_gen_name_ends_in_convention (orig : CStr) (ordinal : Int) (out : CStr)
    (outsz : Nat) (hord : 0 ≤ ordinal)
    (hfit : (gen_name_text orig ordinal).length < outsz) :
    EndsInVConvention (build_gen_name orig ordinal out outsz) ∧
    ∀ ident : CStr, ¬ EndsInVConvention ident →
      build_gen_name orig ordinal out outsz ≠ ident := by
  rw [build_gen_name_fits hfit]
  have h := gen_name_text_convention orig hord
  exact ⟨h, fun ident hi e => hi (e ▸ h)⟩

/-- C4, amended, at the name `foo_v1` and ordinal 2 in the 64 character
buffer of the tracker. -/
theorem build_gen_name_ends_in_convention_example :
    EndsInVConvention (build_gen_name "foo_v1".toList 2 [] 64) ∧
    ∀ ident : CStr, ¬ EndsInVConvention ident →
      build_gen_name "foo_v1".toList 2 [] 64 ≠ ident :=
  build_gen_name_ends_in_convention "foo_v1".toList 2 [] 64 (by decide) (by decide)

/-! ## Claims about `annotate_func_calls` -/

/-- C5: run with counter `c` (an `int`) on a tree whose call nodes carry, in
pre-order, the names `names` (none with a `#`, each shorter than the 128
characters `parse_primary` keeps), `annotate_func_calls` rewrites the call
values to `name#c`, `name#(c+1)`, ... in pre-order, leaves the counter at
`c + k` for the `k` calls, gives the calls the instance indices
`c, c+1, ..., c+k-1`, which are pairwise distinct, and changes no node's kind,
token or number of children and no other value. -/
theorem annotate_func_calls_numbers (t : ASTNode) (c : Int) (names : List CStr)
    (hnames : call_values [t] = names.map some)
    (hfresh : ∀ v ∈ names, strchr v '#' = none ∧ v.length < 128)
    (hlo : -2147483648 ≤ c) (hhi : c + names.length ≤ 2147483647) :
    call_values [(annotate_func_calls t c).1] = (number_calls c names).map some ∧
    (annotate_func_calls t c).2 = c + names.length ∧
    (call_values [(annotate_func_calls t c).1]).map (fun v => v.bind call_index)
      = (List.range names.length).map (fun (i : Nat) => some (c + (i : Int))) ∧
    ((call_values [(annotate_func_calls t c).1]).map (fun v => v.bind call_index)).Nodup ∧
    (preorder (annotate_func_calls t c).1).map node_shape = (preorder t).map node_shape ∧
    other_values [(annotate_func_calls t c).1] = other_values [t] := by
  have hh := annotate_func_calls_heads t c
  have e1 : ∀ n : ASTNode, preorder_list [n] = preorder n := by
    intro n; simp [preorder_list]
  rw [call_values_eq_heads, e1] at hnames
  obtain ⟨r1, r2, r3, r4⟩ := relabel_fresh ((preorder t).map node_head) c names hnames hfresh
    hlo hhi
  have hcv : call_values [(annotate_func_calls t c).1] = (number_calls c names).map some := by
    rw [call_values_eq_heads, e1, hh.1, r1]
  have hidx : (call_values [(annotate_func_calls t c).1]).map (fun v => v.bind call_index)
      = (List.range names.length).map (fun (i : Nat) => some (c + (i : Int))) := by
    rw [hcv, List.map_map]
    have : ((fun v : Option CStr => v.bind call_index) ∘ some) = call_index := by
      funext v; rfl
    rw [this]
    exact number_calls_index names c (fun v hv => (hfresh v hv).1) hlo hhi
  refine ⟨hcv, by rw [hh.2, r2], hidx, by rw [hidx]; exact range_indices_nodup _ _, ?_, ?_⟩
  · have h3 := congrArg (List.map (fun h : NodeHead => (h.1, h.2.2.1, h.2.2.2))) hh.1
    rw [r3, List.map_map, List.map_map] at h3
    exact h3
  · rw [other_values_eq_heads, other_values_eq_heads, e1, e1, hh.1, r4]

/-- C5 on the statement `r = f (g (1)) + f (2);` with counter 0: the calls
become `f#0`, `g#1`, `f#2` and the counter is left at 3. -/
theorem annotate_func_calls_numbers_example :
    call_values [(annotate_func_calls calls_statement 0).1]
      = ["f#0".toList, "g#1".toList, "f#2".toList].map some ∧
    (annotate_func_calls calls_statement 0).2 = 3 :=
  have h := annotate_func_calls_numbers calls_statement 0 ["f".toList, "g".toList, "f".toList]
    (by rfl) (by decide) (by decide) (by decide)
  ⟨h.1, h.2.1⟩

/-- C6: `annotate_func_calls` is idempotent: on the tree it has produced from
counter `c` (an `int`, the call names without `#` shorter than the 128
characters `parse_primary` keeps), a second run with any counter `c2` returns
the same tree, every node's value, kind, token and children unchanged, and
leaves the counter at `c2`. -/
theorem annotate_func_calls_idempotent (t : ASTNode) (c c2 : Int)
    (hlen : ∀ n ∈ preorder t, n.type = NODE_FUNC_CALL → ∀ s, n.value = some s →
      strchr s '#' = none → s.length < 128)
    (hlo : -2147483648 ≤ c) (hhi : c + (call_values [t]).length ≤ 2147483647) :
    annotate_func_calls (annotate_func_calls t c).1 c2 = ((annotate_func_calls t c).1, c2) := by
  apply annotate_func_calls_fixed
  have hh := annotate_func_calls_heads t c
  have e1 : ∀ n : ASTNode, preorder_list [n] = preorder n := by
    intro n; simp [preorder_list]
  rw [call_values_eq_heads, e1, List.length_map] at hhi
  have key := relabel_annotated ((preorder t).map node_head) c
    (by
      intro h hh2 hc s hs hnone
      obtain ⟨n, hn, rfl⟩ := List.mem_map.mp hh2
      have ht : n.type = NODE_FUNC_CALL := by
        simpa [head_is_call, node_head] using hc
      exact hlen n hn ht s hs hnone)
    hlo hhi
  intro n hn ht s hs
  rw [e1] at hn
  have hm : node_head n ∈ (relabel ((preorder t).map node_head) c).1 := by
    rw [← hh.1]; exact List.mem_map_of_mem _ hn
  exact key (node_head n) hm (by simp [head_is_call, node_head, ht]) s hs

/-- C6 on the statement `r = f (g (1)) + f (2);`: annotated from counter 0, a
second run with counter 7 changes nothing. -/
theorem annotate_func_calls_idempotent_example :
    annotate_func_calls (annotate_func_calls calls_statement 0).1 7
      = ((annotate_func_calls calls_statement 0).1, 7) :=
  annotate_func_calls_idempotent calls_statement 0 7
    (by
      intro n hn ht s hs _
      have hall : ∀ m ∈ preorder calls_statement, ∀ v, m.value = some v → v.length < 128 := by
        decide
      exact hall n hn s hs)
    (by decide) (by decide)

/-! ## Claims about the static bounds check -/

set_option maxRecDepth 100000

/-- C9: for a `break` or `continue` keyword token, `parse_statement` fails
fatally when the loop depth is 0 (the statement is outside every `while` and
`for` body); when the loop depth is positive and the keyword is followed by
`;` it returns a Statement node whose only child is a BreakStatement,
respectively ContinueStatement, node; and this is the case in the body of a
`while` and of a `for` parsed from any depth `>= 0`, at every nesting `k` of
`if` blocks. -/
theorem break_continue_validation (get_precedence : CStr → Int) (fuel k : Nat) (s : PState)
    (t : Token) (rest : List Token) (arrays : List ArrayInfo) (depth : Int) :
    (s.current_token.type = TOKEN_KEYWORD → s.current_token.value = "break".toList →
      s.s_loop_depth ≤ 0 →
      parse_statement get_precedence (fuel + 1) s
        = .fatal s.current_token.line "'break' not within a loop") ∧
    (s.current_token.type = TOKEN_KEYWORD → s.current_token.value = "continue".toList →
      s.s_loop_depth ≤ 0 →
      parse_statement get_precedence (fuel + 1) s
        = .fatal s.current_token.line "'continue' not within a loop") ∧
    (s.current_token.type = TOKEN_KEYWORD → s.current_token.value = "break".toList →
      0 < s.s_loop_depth → s.input = t :: rest → t.type = TOKEN_SEMICOLON →
      parse_statement get_precedence (fuel + 1) s
        = .ok (.mk NODE_STATEMENT none none [.mk NODE_BREAK_STATEMENT none none []])
            (state_at s rest)) ∧
    (s.current_token.type = TOKEN_KEYWORD → s.current_token.value = "continue".toList →
      0 < s.s_loop_depth → s.input = t :: rest → t.type = TOKEN_SEMICOLON →
      parse_statement get_precedence (fuel + 1) s
        = .ok (.mk NODE_STATEMENT none none [.mk NODE_CONTINUE_STATEMENT none none []])
            (state_at s rest)) ∧
    (∀ is_break : Bool, 0 ≤ depth →
      parse_statement get_precedence (2 * k + 3 + fuel)
          (state_on (while_tokens
            (nested_ifs k [loop_control_token is_break, tok TOKEN_SEMICOLON ";"]) ++ rest)
            arrays depth)
        = .ok (.mk NODE_STATEMENT none none
                [.mk NODE_WHILE_STATEMENT none none
                  [.mk NODE_EXPRESSION (some "x".toList) none [],
                   nested_if_nodes k (loop_control_statement is_break)]])
            (state_on rest arrays depth)) ∧
    (∀ is_break : Bool, 0 ≤ depth →
      parse_statement get_precedence (2 * k + 3 + fuel)
          (state_on (for_tokens
            (nested_ifs k [loop_control_token is_break, tok TOKEN_SEMICOLON ";"]) ++ rest)
            arrays depth)
        = .ok (.mk NODE_STATEMENT none none
                [.mk NODE_FOR_STATEMENT none none
                  [.mk NODE_EXPRESSION (some "1".toList) none [],
                   nested_if_nodes k (loop_control_statement is_break)]])
            (state_on rest arrays depth)) := by
  refine ⟨break_outside_loop get_precedence fuel s, continue_outside_loop get_precedence fuel s,
    ?_, ?_, ?_, ?_⟩
  · intro h1 h2 h3 h4 h5
    exact break_inside_loop get_precedence fuel s t rest h1 h2 h3 h4 h5
  · intro h1 h2 h3 h4 h5
    exact continue_inside_loop get_precedence fuel s t rest h1 h2 h3 h4 h5
  · intro b hd
    exact while_nested_parse get_precedence b k fuel _ _ rest arrays depth hd rfl
  · intro b hd
    exact for_nested_parse get_precedence b k fuel _ _ rest arrays depth hd rfl

/-- C9 on examples: `break;` and `continue;` at loop depth 0 are fatal; at
loop depth 1 they are parsed; `while (x) { if (x) { if (x) { break; } } }` and
`for (;;) { if (x) { continue; } }` are parsed from loop depth 0. -/
theorem break_continue_validation_example :
    parse_statement example_precedence 1
        (state_on [tok TOKEN_KEYWORD "break", tok TOKEN_SEMICOLON ";"] [] 0)
      = .fatal 1 "'break' not within a loop" ∧
    parse_statement example_precedence 1
        (state_on [tok TOKEN_KEYWORD "continue", tok TOKEN_SEMICOLON ";"] [] 0)
      = .fatal 1 "'continue' not within a loop" ∧
    parse_statement example_precedence 1
        (state_on [tok TOKEN_KEYWORD "break", tok TOKEN_SEMICOLON ";"] [] 1)
      = .ok (loop_control_statement true) (state_on [] [] 1) ∧
    parse_statement example_precedence 1
        (state_on [tok TOKEN_KEYWORD "continue", tok TOKEN_SEMICOLON ";"] [] 1)
      = .ok (loop_control_statement false) (state_on [] [] 1) ∧
    parse_statement example_precedence 7
        (state_on (while_tokens (nested_ifs 2 [loop_control_token true,
          tok TOKEN_SEMICOLON ";"])) [] 0)
      = .ok (.mk NODE_STATEMENT none none
              [.mk NODE_WHILE_STATEMENT none none
                [.mk NODE_EXPRESSION (some "x".toList) none [],
                 nested_if_nodes 2 (loop_control_statement true)]])
          (state_on [] [] 0) ∧
    parse_statement example_precedence 5
        (state_on (for_tokens (nested_ifs 1 [loop_control_token false,
          tok TOKEN_SEMICOLON ";"])) [] 0)
      = .ok (.mk NODE_STATEMENT none none
              [.mk NODE_FOR_STATEMENT none none
                [.mk NODE_EXPRESSION (some "1".toList) none [],
                 nested_if_nodes 1 (loop_control_statement false)]])
          (state_on [] [] 0) :=
  ⟨(break_continue_validation example_precedence 0 0
      (state_on [tok TOKEN_KEYWORD "break", tok TOKEN_SEMICOLON ";"] [] 0)
      (tok TOKEN_SEMICOLON ";") [] [] 0).1 rfl rfl (by decide),
   (break_continue_validation example_precedence 0 0
      (state_on [tok TOKEN_KEYWORD "continue", tok TOKEN_SEMICOLON ";"] [] 0)
      (tok TOKEN_SEMICOLON ";") [] [] 0).2.1 rfl rfl (by decide),
   (break_continue_validation example_precedence 0 0
      (state_on [tok TOKEN_KEYWORD "break", tok TOKEN_SEMICOLON ";"] [] 1)
      (tok TOKEN_SEMICOLON ";") [] [] 0).2.2.1 rfl rfl (by decide) rfl rfl,
   (break_continue_validation example_precedence 0 0
      (state_on [tok TOKEN_KEYWORD "continue", tok TOKEN_SEMICOLON ";"] [] 1)
      (tok TOKEN_SEMICOLON ";") [] [] 0).2.2.2.1 rfl rfl (by decide) rfl rfl,
   (break_continue_validation example_precedence 0 2
      (state_on [] [] 0) (tok TOKEN_SEMICOLON ";") [] [] 0).2.2.2.2.1 true (by decide),
   (break_continue_validation example_precedence 0 1
      (state_on [] [] 0) (tok TOKEN_SEMICOLON ";") [] [] 0).2.2.2.2.2 false (by decide)⟩

/-! ## Claims about the function case of `generate_vhdl` -/

/-- C10: `generate_vhdl` on a FunctionDecl node (named, its parameter children
named, no function node among its descendants, as in every tree the parser
builds) with `p` parameter (VarDecl) children emits the header comment, then
exactly one block `entity <name> is ... end entity;` whose port list has
exactly `p + 3` entries, `clk`, `reset`, one `in` port per parameter in
declaration order with the externally mapped type and the `result` `out`
port, then exactly one block `architecture behavioral of <name> is ... end
architecture;` whose body is the declarations of the function followed by its
one process around the lowered statements. The nodes lowered in the body are
the descendants of the node after the annotation of the calls, none of them a
function node, so the function case, the only one that prints an entity or
an architecture, runs once. With a recursion budget above the height of the
tree the text is produced unless the lowering of the body has no defined
behaviour in C. -/
theorem function_entity_architecture (ctype_to_vhdl : Option CStr → CStr)
    (is_negative_literal : Option CStr → Bool) (fuel : Nat) (st : GenState) (node : ASTNode)
    (name : CStr) (htype : node.type = NODE_FUNCTION_DECL) (hname : node.value = some name)
    (hparams : ∀ c ∈ node.children, c.type = NODE_VAR_DECL → c.value ≠ none)
    (hdecl : ∀ d ∈ preorder_list node.children, d.type ≠ NODE_FUNCTION_DECL)
    (hfuel : height node ≤ fuel) :
    (port_lines ctype_to_vhdl node).length = (param_children node).length + 3 ∧
    generate_vhdl ctype_to_vhdl is_negative_literal (fuel + 1) node st
      = map_text (fun body => "-- Function: ".toList ++ name ++ "\n".toList
            ++ entity_block ctype_to_vhdl node name ++ architecture_block name body)
          (gen_architecture_body ctype_to_vhdl
            (generate_vhdl ctype_to_vhdl is_negative_literal fuel) node st) ∧
    (∀ d ∈ preorder_list (annotate_children node.children 0).1,
      d.type ≠ NODE_FUNCTION_DECL) ∧
    ((∃ (st1 : GenState) (declarations statements : CStr),
        gen_declarations ctype_to_vhdl (generate_vhdl ctype_to_vhdl is_negative_literal fuel)
            node st = .ok () st1 declarations ∧
        gen_statements (generate_vhdl ctype_to_vhdl is_negative_literal fuel)
            (annotate_children node.children 0).1
            (clocked_globals
              (collect_tracked ctype_to_vhdl (annotate_children node.children 0).1).1)
          = .ok ()
              (clocked_globals
                (collect_tracked ctype_to_vhdl (annotate_children node.children 0).1).1)
              statements ∧
        generate_vhdl ctype_to_vhdl is_negative_literal (fuel + 1) node st
          = .ok () { g_tracked_vars := [], g_tracking_active := false, g_in_clock_body := false }
              ("-- Function: ".toList ++ name ++ "\n".toList
                ++ entity_block ctype_to_vhdl node name
                ++ architecture_block name
                    (declarations ++ process_text
                      (collect_tracked ctype_to_vhdl (annotate_children node.children 0).1).1
                      statements))) ∨
      generate_vhdl ctype_to_vhdl is_negative_literal (fuel + 1) node st = .undefined) := by
  have heq := generate_function_eq ctype_to_vhdl is_negative_literal fuel st node name htype
    hname hparams
  refine ⟨by simp [port_lines], heq,
    annotate_children_no_type node.children 0 NODE_FUNCTION_DECL hdecl, ?_⟩
  rw [heq]
  rcases architecture_body_process ctype_to_vhdl is_negative_literal fuel st node hdecl hfuel
    with ⟨st1, declarations, statements, hd, hs, hb⟩ | hb
  · left
    refine ⟨st1, declarations, statements, hd, hs, ?_⟩
    rw [hb]
    rfl
  · right
    rw [hb]
    rfl

set_option maxRecDepth 100000

/-- C10 on `int add(int a, int b) { return a + b; }`: the function node the
parser builds has 2 parameters, its port list has 5 entries, and the text
generated for it is one entity and one architecture. -/
theorem function_entity_architecture_example :
    parse_program example_precedence 8 (initial_state add_tokens)
      = .ok (.mk NODE_PROGRAM none none [add_function]) ⟨tok TOKEN_EOF "", [], [], 0⟩ ∧
    (port_lines example_ctype_to_vhdl add_function).length = 2 + 3 ∧
    generate_vhdl example_ctype_to_vhdl example_is_negative_literal 5 add_function
        initial_globals
      = .ok () initial_globals
          ("-- Function: add\n" ++
           "entity add is\n" ++
           "  port (\n" ++
           "    clk : in std_logic;\n" ++
           "    reset : in std_logic;\n" ++
           "    a : in std_logic_vector(31 downto 0);\n" ++
           "    b : in std_logic_vector(31 downto 0);\n" ++
           "    result : out std_logic_vector(31 downto 0)\n" ++
           "  );\n" ++
           "end entity;\n\n" ++
           "architecture behavioral of add is\n" ++
           "begin\n" ++
           "  process(clk, reset)\n" ++
           "  begin\n" ++
           "    if reset = '1' then\n" ++
           "      -- Reset logic\n" ++
           "    elsif rising_edge(clk) then\n" ++
           "      result <= a + b;\n" ++
           "    end if;\n" ++
           "  end process;\n" ++
           "end architecture;\n\n").toList := by
  have h := function_entity_architecture example_ctype_to_vhdl example_is_negative_literal 4
    initial_globals add_function "add".toList rfl rfl (by decide) (by decide) (by decide)
  refine ⟨by rfl, h.1, ?_⟩
  rw [h.2.1]
  rfl

/-! ## Claims about the lowering of expressions and conditions -/

/-- C11: parsing `int add(int a, int b) { return a + b; }` (with `+` in the
precedence table at `-2` or above) and generating from the Program node (with
`a` and `b` not taken for negative literals) yields a text that contains
`entity add is`, the ports `a : in T;` and `b : in T;` for the mapped type `T`
of `int`, the port `result : out T`, and the line `result <= a + b;` right
after `elsif rising_edge(clk) then` and right before `end if;`. -/
theorem add_end_to_end (get_precedence : CStr → Int) (ctype_to_vhdl : Option CStr → CStr)
    (is_negative_literal : Option CStr → Bool) (fuel_p fuel_g : Nat)
    (hplus : -2 ≤ get_precedence "+".toList)
    (ha : is_negative_literal (some "a".toList) = false)
    (hb : is_negative_literal (some "b".toList) = false) :
    ∃ (program : ASTNode) (s : PState) (out : CStr),
      parse_program get_precedence (fuel_p + 8) (initial_state add_tokens) = .ok program s ∧
      generate_vhdl ctype_to_vhdl is_negative_literal (fuel_g + 5) program initial_globals
        = .ok () initial_globals out ∧
      out = add_vhdl (ctype_to_vhdl (some "int".toList)) ∧
      "entity add is\n".toList <:+: out ∧
      ("    a : in ".toList ++ ctype_to_vhdl (some "int".toList) ++ ";\n".toList) <:+: out ∧
      ("    b : in ".toList ++ ctype_to_vhdl (some "int".toList) ++ ";\n".toList) <:+: out ∧
      ("    result : out ".toList ++ ctype_to_vhdl (some "int".toList) ++ "\n".toList)
        <:+: out ∧
      ("    elsif rising_edge(clk) then\n".toList ++ "      result <= a + b;\n".toList
        ++ "    end if;\n".toList) <:+: out := by
  refine ⟨_, _, _, add_parse_fuel get_precedence hplus fuel_p,
    add_generate ctype_to_vhdl is_negative_literal ha hb fuel_g, rfl, ?_, ?_, ?_, ?_, ?_⟩
  · exact ⟨"-- VHDL generated by compi\n\nlibrary IEEE;\nuse IEEE.STD_LOGIC_1164.ALL;\nuse IEEE.NUMERIC_STD.ALL;\n\n-- Function: add\n".toList, _, rfl⟩
  · exact ⟨"-- VHDL generated by compi\n\nlibrary IEEE;\nuse IEEE.STD_LOGIC_1164.ALL;\nuse IEEE.NUMERIC_STD.ALL;\n\n-- Function: add\nentity add is\n  port (\n    clk : in std_logic;\n    reset : in std_logic;\n".toList, _, by simp [add_vhdl]; rfl⟩
  · exact ⟨"-- VHDL generated by compi\n\nlibrary IEEE;\nuse IEEE.STD_LOGIC_1164.ALL;\nuse IEEE.NUMERIC_STD.ALL;\n\n-- Function: add\nentity add is\n  port (\n    clk : in std_logic;\n    reset : in std_logic;\n    a : in ".toList ++ ctype_to_vhdl (some "int".toList) ++ ";\n".toList,
      _, by simp [add_vhdl]; rfl⟩
  · exact ⟨"-- VHDL generated by compi\n\nlibrary IEEE;\nuse IEEE.STD_LOGIC_1164.ALL;\nuse IEEE.NUMERIC_STD.ALL;\n\n-- Function: add\nentity add is\n  port (\n    clk : in std_logic;\n    reset : in std_logic;\n    a : in ".toList ++ ctype_to_vhdl (some "int".toList)
      ++ ";\n    b : in ".toList ++ ctype_to_vhdl (some "int".toList) ++ ";\n".toList,
      _, by simp [add_vhdl]; rfl⟩
  · exact ⟨"-- VHDL generated by compi\n\nlibrary IEEE;\nuse IEEE.STD_LOGIC_1164.ALL;\nuse IEEE.NUMERIC_STD.ALL;\n\n-- Function: add\nentity add is\n  port (\n    clk : in std_logic;\n    reset : in std_logic;\n    a : in ".toList ++ ctype_to_vhdl (some "int".toList)
      ++ ";\n    b : in ".toList ++ ctype_to_vhdl (some "int".toList)
      ++ ";\n    result : out ".toList ++ ctype_to_vhdl (some "int".toList)
      ++ "\n  );\nend entity;\n\narchitecture behavioral of add is\nbegin\n  process(clk, reset)\n  begin\n    if reset = '1' then\n      -- Reset logic\n".toList,
      "  end process;\nend architecture;\n\n".toList, by simp [add_vhdl]⟩

/-- C11 with the example precedence table, type mapping and negative literal
test. -/
theorem add_end_to_end_example :
    -2 ≤ example_precedence "+".toList ∧
    example_is_negative_literal (some "a".toList) = false ∧
    example_is_negative_literal (some "b".toList) = false ∧
    ∃ (program : ASTNode) (s : PState) (out : CStr),
      parse_program example_precedence 8 (initial_state add_tokens) = .ok program s ∧
      generate_vhdl example_ctype_to_vhdl example_is_negative_literal 5 program initial_globals
        = .ok () initial_globals out ∧
      out = add_vhdl "std_logic_vector(31 downto 0)".toList ∧
      "entity add is\n".toList <:+: out ∧
      "    a : in std_logic_vector(31 downto 0);\n".toList <:+: out ∧
      "    b : in std_logic_vector(31 downto 0);\n".toList <:+: out ∧
      "    result : out std_logic_vector(31 downto 0)\n".toList <:+: out ∧
      ("    elsif rising_edge(clk) then\n".toList ++ "      result <= a + b;\n".toList
        ++ "    end if;\n".toList) <:+: out :=
  ⟨by decide, rfl, rfl,
    add_end_to_end example_precedence example_ctype_to_vhdl example_is_negative_literal 0 0
      (by decide) rfl rfl⟩

/-- C13: lowering a BinaryExpr with operator `&&` (respectively `||`) whose
operands lower to `L` and `R` emits `(`, the left operand, ` and `
(respectively ` or `), the right operand and `)`, where an operand that is a
BinaryExpr with a comparison or logical operator is emitted as `(` + its
lowering + `)` and any other operand as `unsigned(` + its lowering +
`) /= 0`; for `a == b && c` (with `a`, `b`, `c` not taken for negative
literals) the text is `((unsigned(a) = unsigned(b)) and unsigned(c) /= 0)`. -/
theorem logical_lowering (ctype_to_vhdl : Option CStr → CStr)
    (is_negative_literal : Option CStr → Bool) (fuel : Nat) :
    (∀ (is_and : Bool) (k : Option Token) (left right : ASTNode) (rest : List ASTNode)
        (st st1 st2 : GenState) (L R : CStr),
      generate_vhdl ctype_to_vhdl is_negative_literal fuel left st = .ok () st1 L →
      generate_vhdl ctype_to_vhdl is_negative_literal fuel right st1 = .ok () st2 R →
      generate_vhdl ctype_to_vhdl is_negative_literal (fuel + 1)
          (.mk NODE_BINARY_EXPR (some (if is_and then "&&".toList else "||".toList)) k
            (left :: right :: rest)) st
        = .ok () st2 ("(".toList ++ logical_operand_text left L
            ++ (if is_and then " and ".toList else " or ".toList)
            ++ logical_operand_text right R ++ ")".toList)) ∧
    (is_negative_literal (some "a".toList) = false →
      is_negative_literal (some "b".toList) = false →
      is_negative_literal (some "c".toList) = false →
      generate_vhdl ctype_to_vhdl is_negative_literal (fuel + 3)
          (binary "&&" (binary "==" (leaf "a") (leaf "b")) (leaf "c")) initial_globals
        = .ok () initial_globals
            "((unsigned(a) = unsigned(b)) and unsigned(c) /= 0)".toList) := by
  have hgen : ∀ (fuel : Nat) (is_and : Bool) (k : Option Token) (left right : ASTNode)
      (rest : List ASTNode) (st st1 st2 : GenState) (L R : CStr),
      generate_vhdl ctype_to_vhdl is_negative_literal fuel left st = .ok () st1 L →
      generate_vhdl ctype_to_vhdl is_negative_literal fuel right st1 = .ok () st2 R →
      generate_vhdl ctype_to_vhdl is_negative_literal (fuel + 1)
          (.mk NODE_BINARY_EXPR (some (if is_and then "&&".toList else "||".toList)) k
            (left :: right :: rest)) st
        = .ok () st2 ("(".toList ++ logical_operand_text left L
            ++ (if is_and then " and ".toList else " or ".toList)
            ++ logical_operand_text right R ++ ")".toList) := by
    intro fuel is_and k left right rest st st1 st2 L R hl hr
    have h1 := gen_logical_operand_text _ left st st1 L hl
    have h2 := gen_logical_operand_text _ right st1 st2 R hr
    rw [generate_binary]
    cases is_and <;>
      simp [gen_binary_expr, ASTNode.value, ASTNode.children, deref, G.bind, emit_s, emit,
        h1, h2]
  refine ⟨hgen fuel, ?_⟩
  intro ha hb hc
  have hu : ¬ (find_tracked initial_globals.g_tracking_active initial_globals.g_tracked_vars
      "c".toList ≥ 0 ∧ initial_globals.g_in_clock_body = true) := by decide
  have hl := generate_comparison_leaves ctype_to_vhdl is_negative_literal (fuel + 1)
    "==".toList "a".toList "b".toList none none none [] [] [] initial_globals (Or.inl rfl)
    ha hb rfl rfl
  have hr := generate_leaf ctype_to_vhdl is_negative_literal (fuel + 1) "c".toList none []
    initial_globals rfl hc hu
  have h := hgen (fuel + 2) true none (binary "==" (leaf "a") (leaf "b")) (leaf "c") []
    initial_globals initial_globals initial_globals _ _ hl hr
  rw [show fuel + 3 = fuel + 2 + 1 from rfl]
  exact h

/-- C13 on `a == b && c` and on `a + b || c`, with the example test for
negative literals. -/
theorem logical_lowering_example :
    example_is_negative_literal (some "a".toList) = false ∧
    example_is_negative_literal (some "b".toList) = false ∧
    example_is_negative_literal (some "c".toList) = false ∧
    generate_vhdl example_ctype_to_vhdl example_is_negative_literal 3
        (binary "&&" (binary "==" (leaf "a") (leaf "b")) (leaf "c")) initial_globals
      = .ok () initial_globals "((unsigned(a) = unsigned(b)) and unsigned(c) /= 0)".toList ∧
    generate_vhdl example_ctype_to_vhdl example_is_negative_literal 3
        (binary "||" (binary "+" (leaf "a") (leaf "b")) (leaf "c")) initial_globals
      = .ok () initial_globals "(unsigned(a + b) /= 0 or unsigned(c) /= 0)".toList :=
  ⟨rfl, rfl, rfl,
    (logical_lowering example_ctype_to_vhdl example_is_negative_literal 0).2 rfl rfl rfl,
    (logical_lowering example_ctype_to_vhdl example_is_negative_literal 2).1 false none
      (binary "+" (leaf "a") (leaf "b")) (leaf "c") [] initial_globals initial_globals
      initial_globals "a + b".toList "c".toList rfl rfl⟩

/-- C14, evaluated: for `int f(int x) { if (~x) { return 1; } return 0; }`
the condition `~x`, a bitwise not, is emitted as its lowering
`not unsigned(x)` alone: the clocked branch reads `if not unsigned(x) then`,
without the `unsigned(...) /= 0` test. -/
theorem bitwise_not_condition_not_wrapped :
    translate 12 not_condition_tokens
      = some ("-- VHDL generated by compi\n\n" ++
          "library IEEE;\n" ++
          "use IEEE.STD_LOGIC_1164.ALL;\n" ++
          "use IEEE.NUMERIC_STD.ALL;\n\n" ++
          "-- Function: f\n" ++
          "entity f is\n" ++
          "  port (\n" ++
          "    clk : in std_logic;\n" ++
          "    reset : in std_logic;\n" ++
          "    x : in std_logic_vector(31 downto 0);\n" ++
          "    result : out std_logic_vector(31 downto 0)\n" ++
          "  );\n" ++
          "end entity;\n\n" ++
          "architecture behavioral of f is\n" ++
          "begin\n" ++
          "  process(clk, reset)\n" ++
          "  begin\n" ++
          "    if reset = '1' then\n" ++
          "      -- Reset logic\n" ++
          "    elsif rising_edge(clk) then\n" ++
          "      if not unsigned(x) then\n" ++
          "      result <= 1;\n" ++
          "      end if;\n" ++
          "      result <= 0;\n" ++
          "    end if;\n" ++
          "  end process;\n" ++
          "end architecture;\n\n") := by
  rfl

/-- C16, evaluated: `for (;;) { }` parses into a For node whose only child is
the constant-true Expression node `1`, but with an init clause and no
condition the statement is a fatal error whatever the precedence table:
`for (i = 0; ; i++) { }` and `for (int i = 0; ; i++) { }` do not parse. -/
theorem for_without_condition (get_precedence : CStr → Int) (fuel : Nat) :
    parse_statement get_precedence (fuel + 2) (state_on for_empty_header_tokens [] 0)
      = .ok (statement [.mk NODE_FOR_STATEMENT none none [leaf "1"]]) (state_on [] [] 0) ∧
    (∃ (line : Nat) (msg : String),
      parse_statement get_precedence (fuel + 5) (state_on for_no_condition_tokens [] 0)
        = .fatal line msg) ∧
    (∃ (line : Nat) (msg : String),
      parse_statement get_precedence (fuel + 5) (state_on for_decl_no_condition_tokens [] 0)
        = .fatal line msg) := by
  have h0 := fun (t : Token) (rest : List Token) (h1 : t.type ≠ TOKEN_OPERATOR)
      (h2 : t.type ≠ TOKEN_PARENTHESIS_OPEN) (h3 : t.type ≠ TOKEN_BRACKET_OPEN) =>
    parse_expression_atom get_precedence (fuel + 2) ⟨TOKEN_NUMBER, ['0'], 1⟩ t rest [] 0
      (Or.inl rfl) h1 h2 h3
  have h0d := fun (t : Token) (rest : List Token) (h1 : t.type ≠ TOKEN_OPERATOR)
      (h2 : t.type ≠ TOKEN_PARENTHESIS_OPEN) (h3 : t.type ≠ TOKEN_BRACKET_OPEN) =>
    parse_expression_atom get_precedence (fuel + 1) ⟨TOKEN_NUMBER, ['0'], 1⟩ t rest [] 0
      (Or.inl rfl) h1 h2 h3
  have h1 := fun (rest : List Token) =>
    parse_expression_dangling get_precedence fuel ⟨TOKEN_IDENTIFIER, ['i'], 1⟩
      ⟨TOKEN_OPERATOR, ['+', '+'], 1⟩ ⟨TOKEN_PARENTHESIS_CLOSE, [')'], 1⟩ rest [] 0 rfl rfl rfl
  refine ⟨?_, ?_, ?_⟩
  · rw [show fuel + 2 = (fuel + 1) + 1 from rfl, parse_statement]
    simp [parse_for_increment, parse_body_close, P.bind, match_type_keyword, match_text,
      match_token, match_state, consume, get_state, set_state, advance, advance_state,
      next_token, fatal, state_on, for_empty_header_tokens, t_kw, t_id, t_op, t_num, t_lp, t_rp,
      t_lb, t_rb, t_semi, tok, add_loop_depth, set_value, add_child, add_child_opt,
      create_node, statement, leaf, ASTNode.type, ASTNode.token, ASTNode.value,
      ASTNode.children]
  · rw [show fuel + 5 = (fuel + 4) + 1 from rfl, parse_statement]
    by_cases h : get_precedence ['+', '+'] < -2
    · refine ⟨1, "Expected ';' after for condition", ?_⟩
      simp [parse_for_init_assignment, P.bind, match_type_keyword, match_text, match_token,
        match_state, consume, get_state, set_state, advance, advance_state, next_token, fatal,
        state_on, for_no_condition_tokens, t_kw, t_id, t_op, t_num, t_lp, t_rp, t_lb, t_rb,
        t_semi, tok, h, h0, h1, set_value, add_child, add_child_opt, create_node,
        ASTNode.type, ASTNode.token, ASTNode.value, ASTNode.children]
    · refine ⟨1, "Expected right operand after operator '%s'", ?_⟩
      simp [parse_for_init_assignment, P.bind, match_type_keyword, match_text, match_token,
        match_state, consume, get_state, set_state, advance, advance_state, next_token, fatal,
        state_on, for_no_condition_tokens, t_kw, t_id, t_op, t_num, t_lp, t_rp, t_lb, t_rb,
        t_semi, tok, h, h0, h1, set_value, add_child, add_child_opt, create_node,
        ASTNode.type, ASTNode.token, ASTNode.value, ASTNode.children]
  · rw [show fuel + 5 = (fuel + 4) + 1 from rfl, parse_statement,
      show fuel + 4 = (fuel + 3) + 1 from rfl, parse_statement]
    by_cases h : get_precedence ['+', '+'] < -2
    · refine ⟨1, "Expected ';' after for condition", ?_⟩
      simp [parse_declaration, for_init_of_statement, skip_tokens_until, skip_until, P.bind,
        match_type_keyword, match_text, match_token,
        match_state, consume, get_state, set_state, advance, advance_state, next_token, fatal,
        state_on, for_decl_no_condition_tokens, t_kw, t_id, t_op, t_num, t_lp, t_rp, t_lb,
        t_rb, t_semi, tok, h, h0d, h1, set_value, set_token, add_child, add_child_opt,
        create_node, ASTNode.type, ASTNode.token, ASTNode.value, ASTNode.children]
    · refine ⟨1, "Expected right operand after operator '%s'", ?_⟩
      simp [parse_declaration, for_init_of_statement, skip_tokens_until, skip_until, P.bind,
        match_type_keyword, match_text, match_token,
        match_state, consume, get_state, set_state, advance, advance_state, next_token, fatal,
        state_on, for_decl_no_condition_tokens, t_kw, t_id, t_op, t_num, t_lp, t_rp, t_lb,
        t_rb, t_semi, tok, h, h0d, h1, set_value, set_token, add_child, add_child_opt,
        create_node, ASTNode.type, ASTNode.token, ASTNode.value, ASTNode.children]

/-- C17, evaluated: a `for` header whose increment clause is `++i` or
`i += 1` is a fatal error, `Expected ')' after for header`, whatever the
precedence table: the clause is not skipped. -/
theorem for_unsupported_increment_fatal (get_precedence : CStr → Int) (fuel : Nat) :
    parse_statement get_precedence (fuel + 1)
        (state_on for_only_prefix_increment_tokens [] 0)
      = .fatal 1 "Expected ')' after for header" ∧
    parse_statement get_precedence (fuel + 1)
        (state_on for_only_compound_increment_tokens [] 0)
      = .fatal 1 "Expected ')' after for header" := by
  refine ⟨?_, ?_⟩
  · rw [parse_statement]
    simp [parse_for_increment, P.bind, match_type_keyword, match_text,
      match_token, match_state, consume, get_state, set_state, advance, advance_state,
      next_token, fatal, state_on, for_only_prefix_increment_tokens, t_kw, t_id, t_op, t_num,
      t_lp, t_rp, t_lb, t_rb, t_semi, tok]
  · rw [parse_statement]
    simp [parse_for_increment, P.bind, match_type_keyword, match_text,
      match_token, match_state, consume, get_state, set_state, advance, advance_state,
      next_token, fatal, state_on, for_only_compound_increment_tokens, t_kw, t_id, t_op, t_num,
      t_lp, t_rp, t_lb, t_rb, t_semi, tok]
/-! ## C18: the loop of parse_program -/

/-- C18, refuted on `return f() { }` and on `int int f() { }`: the loop of
`parse_program` tests the kind of the token only, where `parse_statement`
compares the keyword with `int`, `float`, `char` and `double`. The keyword
`return` is not a type keyword, and `parse_program` on `return f() { }` returns
a Program node with a FunctionDecl child named `f` whose return-type token is
`return`. After a keyword that no identifier follows the loop drops the next
token without looking at it: on `int int f() { }` it returns a Program node
without children, although `int f (` is an occurrence of a type keyword, an
identifier and `(`, which `parse_program` turns into the function `f` when the
first `int` is left out. -/
theorem return_keyword_starts_function :
    match_type_keyword (state_on return_function_tokens [] 0)
      = .ok false (state_on return_function_tokens [] 0)
    ∧ parse_program example_precedence 29 (initial_state return_function_tokens)
      = .ok (.mk NODE_PROGRAM none none
          [.mk NODE_FUNCTION_DECL (some "f".toList) (some (t_kw "return")) []])
        state_at_end
    ∧ parse_program example_precedence 33 (initial_state doubled_type_tokens)
      = .ok (.mk NODE_PROGRAM none none []) state_at_end
    ∧ parse_program example_precedence 33 (initial_state doubled_type_tokens.tail)
      = .ok (.mk NODE_PROGRAM none none
          [.mk NODE_FUNCTION_DECL (some "f".toList) (some (t_kw "int")) []])
        state_at_end :=
  ⟨by rfl, by rfl, by rfl, by rfl⟩

/-- The loop of `parse_program`, branch by branch: with a recursion budget of
`4 * tokens.length + 1` the function returns or stops on a fatal diagnostic;
what it returns is a Program node, reached at the end of file, whose children
are all FunctionDecl nodes carrying a KEYWORD token as return type and the
text of an IDENTIFIER token as name; the loop appends function nodes after the
children it already has; at a token of kind KEYWORD followed by an identifier
and `(`, the node returned by `parse_function` for this keyword and identifier
becomes the next child and the loop goes on where `parse_function` stopped; at
a keyword and an identifier not followed by `(` no child is added and the loop
goes on after the skip, which is the token after the next `;`. -/
theorem parse_program_functions (get_precedence : CStr → Int) :
    (∀ (fuel : Nat) (tokens : List Token), 4 * tokens.length + 1 ≤ fuel →
      parse_program get_precedence fuel (initial_state tokens) ≠ .out_of_fuel)
    ∧ (∀ (fuel : Nat) (tokens : List Token) (prog : ASTNode) (s1 : PState),
      parse_program get_precedence fuel (initial_state tokens) = .ok prog s1 →
      prog.type = NODE_PROGRAM ∧ s1.current_token.type = TOKEN_EOF ∧
        ∀ c ∈ prog.children, is_function_decl c)
    ∧ (∀ (fuel : Nat) (program_node : ASTNode) (s : PState) (r : ASTNode) (s1 : PState),
      parse_program_loop get_precedence fuel program_node s = .ok r s1 →
      r.type = program_node.type ∧
        ∃ added, r.children = program_node.children ++ added ∧
          ∀ c ∈ added, is_function_decl c)
    ∧ (∀ (fuel : Nat) (program_node : ASTNode) (s : PState) (fn : ASTNode) (s1 : PState),
      s.current_token.type = TOKEN_KEYWORD →
      (advance_state s).current_token.type = TOKEN_IDENTIFIER →
      (advance_state (advance_state s)).current_token.type = TOKEN_PARENTHESIS_OPEN →
      parse_function get_precedence fuel s.current_token (advance_state s).current_token
        (advance_state (advance_state s)) = .ok fn s1 →
      fn.type = NODE_FUNCTION_DECL ∧ fn.token = some s.current_token ∧
        fn.value = some (advance_state s).current_token.value ∧
        parse_program_loop get_precedence (fuel + 1) program_node s
          = parse_program_loop get_precedence fuel (add_child program_node fn) s1)
    ∧ (∀ (fuel : Nat) (program_node : ASTNode) (s : PState),
      s.current_token.type = TOKEN_KEYWORD →
      (advance_state s).current_token.type = TOKEN_IDENTIFIER →
      (advance_state (advance_state s)).current_token.type ≠ TOKEN_PARENTHESIS_OPEN →
      parse_program_loop get_precedence (fuel + 1) program_node s
        = parse_program_loop get_precedence fuel program_node
            (after_semicolon (advance_state (advance_state s))))
    ∧ (∀ (s : PState) (skipped : List Token) (semi : Token) (rest : List Token),
      (s.current_token.type ≠ TOKEN_SEMICOLON ∧ s.current_token.type ≠ TOKEN_EOF) →
      (∀ t ∈ skipped, t.type ≠ TOKEN_SEMICOLON ∧ t.type ≠ TOKEN_EOF) →
      semi.type = TOKEN_SEMICOLON →
      s.input = skipped ++ semi :: rest →
      after_semicolon s
        = { s with current_token := (next_token rest).1, input := (next_token rest).2 }) := by
  refine ⟨?_, ?_, ?_, ?_, ?_, ?_⟩
  · intro fuel tokens h
    exact parse_program_returns get_precedence fuel tokens h
  · intro fuel tokens prog s1 h
    exact parse_program_children get_precedence fuel tokens prog s1 h
  · intro fuel program_node s r s1 h
    obtain ⟨h1, _, h3⟩ := parse_program_loop_children get_precedence fuel program_node s r s1 h
    exact ⟨h1, h3⟩
  · intro fuel program_node s fn s1 hk hi hp hf
    have hfn := ensures_ok (parse_function_header get_precedence fuel _ _) hf
    refine ⟨hfn.1, hfn.2.1, hfn.2.2, ?_⟩
    rw [parse_program_loop_function _ _ _ _ hk hi hp]
    simp only [P.bind, hf]
  · intro fuel program_node s hk hi hp
    exact parse_program_loop_global _ _ _ _ hk hi hp
  · intro s skipped semi rest hcur hskip hsemi hin
    exact after_semicolon_resumes s skipped semi rest hcur hskip hsemi hin

/-- The tokens of `int g; int add(int a, int b) { return a + b; } int h = 1;
int two() { return 2; }` parse to a Program node with the function nodes of
`add` and `two`, in this order. -/
theorem parse_program_functions_example :
    parse_program example_precedence 137 (initial_state top_level_tokens)
      = .ok (.mk NODE_PROGRAM none none [add_function, two_function]) state_at_end
    ∧ parse_program example_precedence 137 (initial_state top_level_tokens) ≠ .out_of_fuel
    ∧ ∀ c ∈ [add_function, two_function], is_function_decl c :=
  ⟨rfl, (parse_program_functions example_precedence).1 137 top_level_tokens (by decide),
    ((parse_program_functions example_precedence).2.1 137 top_level_tokens
      (.mk NODE_PROGRAM none none [add_function, two_function]) state_at_end rfl).2.2⟩
/-! ## Claims about parameters and tracked scalars -/

/-- C19, evaluated: on `int f(int) { return 0; }` the parameter loop prints
its diagnostic and is left, the `)` is consumed, and `parse_program` returns
the FunctionDecl node of `f` without a parameter child: the malformed
parameter list is not fatal. -/
theorem unnamed_parameter_not_fatal (get_precedence : CStr → Int) (fuel : Nat) :
    parse_program get_precedence (fuel + 5) (initial_state unnamed_parameter_tokens)
      = .ok (.mk NODE_PROGRAM none none
          [.mk NODE_FUNCTION_DECL (some "f".toList) (some (t_kw "int"))
            [.mk NODE_STATEMENT none (some (t_kw "return")) [leaf "0"]]])
          ⟨t_eof, [], [], 0⟩ := by
  have he := fun (rest : List Token) (arrays : List ArrayInfo) (depth : Int) =>
    parse_return_atom get_precedence fuel ⟨TOKEN_KEYWORD, ['r', 'e', 't', 'u', 'r', 'n'], 1⟩
      ⟨TOKEN_NUMBER, ['0'], 1⟩ ⟨TOKEN_SEMICOLON, [';'], 1⟩ rest arrays depth rfl rfl
      (Or.inl rfl) rfl
  simp [parse_program, parse_program_loop_function, parse_program_loop_eof, parse_function,
    parse_parameters_unnamed, parse_function_body_statement,
    parse_function_body_close, parse_function_body_done, P.bind,
    match_token, match_state, consume, tok, get_state, set_state,
    advance, advance_state, next_token, initial_state, unnamed_parameter_tokens, he,
    t_kw, t_id, t_op, t_num, t_lp, t_rp, t_lb, t_rb, t_semi, t_eof, leaf,
    set_value, set_token, add_child, create_node, ASTNode.type, ASTNode.token,
    ASTNode.value, ASTNode.children]

/-- C20, evaluated: for
`int f(int n) { int i; for (i = 0; i < n; i++) { } return i; }` the scalar
`i` is tracked as the process variable `i_v`, but the init and the increment
of the `for` loop are emitted as the signal updates `i <= 0;` and
`i <= i_v + 1;`, not as updates of `i_v`. -/
theorem for_header_assignments_not_variableized :
    translate 12 for_tracked_tokens
      = some ("-- VHDL generated by compi\n\n" ++
          "library IEEE;\n" ++
          "use IEEE.STD_LOGIC_1164.ALL;\n" ++
          "use IEEE.NUMERIC_STD.ALL;\n\n" ++
          "-- Function: f\n" ++
          "entity f is\n" ++
          "  port (\n" ++
          "    clk : in std_logic;\n" ++
          "    reset : in std_logic;\n" ++
          "    n : in std_logic_vector(31 downto 0);\n" ++
          "    result : out std_logic_vector(31 downto 0)\n" ++
          "  );\n" ++
          "end entity;\n\n" ++
          "architecture behavioral of f is\n" ++
          "  signal i : std_logic_vector(31 downto 0);\n" ++
          "begin\n" ++
          "  process(clk, reset)\n" ++
          "    variable i_v : std_logic_vector(31 downto 0);\n" ++
          "  begin\n" ++
          "    if reset = '1' then\n" ++
          "      -- Reset logic\n" ++
          "    elsif rising_edge(clk) then\n" ++
          "      i_v := i;\n" ++
          "      i <= 0;\n" ++
          "      while unsigned(i) < unsigned(n) loop\n" ++
          "        i <= i_v + 1;\n" ++
          "      end loop;\n" ++
          "      result <= i_v;\n" ++
          "      i <= i_v;\n" ++
          "    end if;\n" ++
          "  end process;\n" ++
          "end architecture;\n\n") := by
  rfl
/-! ## Claims about process variables, calls, statements and expressions of the parser -/

/-- C21, evaluated: the condition path, the comparison operand path and the
negated identifier path print the value of the node without looking it up in
the tracker, whatever the tracker holds; for
`int f(int a) { int x = a; int y = -x; if (x < 3) { y = x; } if (x) { y = 1; }
return -x; }` the scalar `x` is tracked as `x_v` and read as `x_v` where it is
a plain operand, but the clocked branch reads the signal `x` in
`-unsigned(x)`, in `unsigned(x) < to_unsigned(3, 32)` and in
`unsigned(x) /= 0`. -/
theorem tracked_reads_keep_signal_name :
    (∀ (g : ASTNode → G Unit) (st : GenState),
      gen_condition g (leaf "x") false st = .ok () st "unsigned(x) /= 0".toList) ∧
    (∀ (g : ASTNode → G Unit) (st : GenState),
      gen_comparison_operand example_is_negative_literal g (leaf "x") st
        = .ok () st "unsigned(x)".toList) ∧
    (∀ st : GenState,
      gen_expression example_is_negative_literal (leaf "-x") st
        = .ok () st "-unsigned(x)".toList) ∧
    translate 12 tracked_reads_tokens
      = some ("-- VHDL generated by compi\n\n" ++
          "library IEEE;\n" ++
          "use IEEE.STD_LOGIC_1164.ALL;\n" ++
          "use IEEE.NUMERIC_STD.ALL;\n\n" ++
          "-- Function: f\n" ++
          "entity f is\n" ++
          "  port (\n" ++
          "    clk : in std_logic;\n" ++
          "    reset : in std_logic;\n" ++
          "    a : in std_logic_vector(31 downto 0);\n" ++
          "    result : out std_logic_vector(31 downto 0)\n" ++
          "  );\n" ++
          "end entity;\n\n" ++
          "architecture behavioral of f is\n" ++
          "  signal x : std_logic_vector(31 downto 0);\n" ++
          "  signal y : std_logic_vector(31 downto 0);\n" ++
          "begin\n" ++
          "  process(clk, reset)\n" ++
          "    variable x_v : std_logic_vector(31 downto 0);\n" ++
          "    variable y_v : std_logic_vector(31 downto 0);\n" ++
          "  begin\n" ++
          "    if reset = '1' then\n" ++
          "      -- Reset logic\n" ++
          "    elsif rising_edge(clk) then\n" ++
          "      x_v := x;\n" ++
          "      y_v := y;\n" ++
          "      x_v := a;\n" ++
          "      y_v := -unsigned(x);\n" ++
          "      if unsigned(x) < to_unsigned(3, 32) then\n" ++
          "      y_v := x_v;\n" ++
          "      end if;\n" ++
          "      if unsigned(x) /= 0 then\n" ++
          "      y_v := 1;\n" ++
          "      end if;\n" ++
          "      result <= -unsigned(x);\n" ++
          "      x <= x_v;\n" ++
          "      y <= y_v;\n" ++
          "    end if;\n" ++
          "  end process;\n" ++
          "end architecture;\n\n") := by
  refine ⟨fun g st => rfl, fun g st => rfl, fun st => rfl, ?_⟩
  rfl

/-- C22, evaluated: a call node that is the child of a statement node, as
in `return f(y);`, is emitted as the comment `-- function call <value>
executed`, and a call node that is a whole condition is emitted as its
annotated value in parentheses. For
`int g(int x) { int y = f(h(x)); if (f(x)) { y = 1; } return f(y); }` every
call has its declaration `signal call_<f>_<i>_res` and its instantiation,
and the call in the initializer is read as `call_f_0_res`; but the call that
is the whole condition of the `if` is emitted as `(f#2)`, and the call that
is returned is emitted as the comment `-- function call f#3 executed`, with
no assignment to `result`. -/
theorem call_uses_not_lowered :
    (∀ (g : ASTNode → G Unit) (st : GenState) (v : CStr) (k : Option Token)
        (args : List ASTNode),
      gen_statement_child g (.mk NODE_FUNC_CALL (some v) k args) st
        = .ok () st ("      -- function call ".toList ++ v ++ " executed\n".toList)) ∧
    (∀ (g : ASTNode → G Unit) (st : GenState) (v : CStr) (k : Option Token)
        (args : List ASTNode),
      gen_condition g (.mk NODE_FUNC_CALL (some v) k args) false st
        = .ok () st ("(".toList ++ v ++ ")".toList)) ∧
    translate 12 call_uses_tokens
      = some ("-- VHDL generated by compi\n\n" ++
          "library IEEE;\n" ++
          "use IEEE.STD_LOGIC_1164.ALL;\n" ++
          "use IEEE.NUMERIC_STD.ALL;\n\n" ++
          "-- Function: g\n" ++
          "entity g is\n" ++
          "  port (\n" ++
          "    clk : in std_logic;\n" ++
          "    reset : in std_logic;\n" ++
          "    x : in std_logic_vector(31 downto 0);\n" ++
          "    result : out std_logic_vector(31 downto 0)\n" ++
          "  );\n" ++
          "end entity;\n\n" ++
          "architecture behavioral of g is\n" ++
          "  signal y : std_logic_vector(31 downto 0);\n" ++
          "  signal call_f_0_res : std_logic_vector(31 downto 0);\n" ++
          "  signal call_h_1_res : std_logic_vector(31 downto 0);\n" ++
          "  signal call_f_2_res : std_logic_vector(31 downto 0);\n" ++
          "  signal call_f_3_res : std_logic_vector(31 downto 0);\n" ++
          "begin\n" ++
          "  u_f_0: entity work.f port map( clk, reset, call_h_1_res, call_f_0_res );\n" ++
          "  u_h_1: entity work.h port map( clk, reset, x, call_h_1_res );\n" ++
          "  u_f_2: entity work.f port map( clk, reset, x, call_f_2_res );\n" ++
          "  u_f_3: entity work.f port map( clk, reset, y, call_f_3_res );\n" ++
          "  process(clk, reset)\n" ++
          "    variable y_v : std_logic_vector(31 downto 0);\n" ++
          "  begin\n" ++
          "    if reset = '1' then\n" ++
          "      -- Reset logic\n" ++
          "    elsif rising_edge(clk) then\n" ++
          "      y_v := y;\n" ++
          "      y_v := call_f_0_res;\n" ++
          "      if (f#2) then\n" ++
          "      y_v := 1;\n" ++
          "      end if;\n" ++
          "      -- function call f#3 executed\n" ++
          "      y <= y_v;\n" ++
          "    end if;\n" ++
          "  end process;\n" ++
          "end architecture;\n\n") := by
  refine ⟨fun g st v k args => rfl, fun g st v k args => rfl, ?_⟩
  rfl

/-- C23, evaluated: whatever the precedence table, `int x = 1 y = 2;` is not
a fatal error: after the initializer `1` the tokens `y = 2` are skipped up to
the `;`, and the statement is the declaration of `x` with initializer `1`. -/
theorem declaration_initializer_skips_to_semicolon (get_precedence : CStr → Int)
    (fuel : Nat) :
    parse_statement get_precedence (fuel + 4) (state_on unterminated_declaration_tokens [] 0)
      = .ok (statement [.mk NODE_VAR_DECL (some "x".toList) (some (t_kw "int")) [leaf "1"]])
          (state_on [] [] 0) := by
  have h0 := fun (t : Token) (rest : List Token) (h1 : t.type ≠ TOKEN_OPERATOR)
      (h2 : t.type ≠ TOKEN_PARENTHESIS_OPEN) (h3 : t.type ≠ TOKEN_BRACKET_OPEN) =>
    parse_expression_atom get_precedence (fuel + 1) ⟨TOKEN_NUMBER, ['1'], 1⟩ t rest [] 0
      (Or.inl rfl) h1 h2 h3
  rw [show fuel + 4 = (fuel + 3) + 1 from rfl, parse_statement]
  simp [parse_declaration, skip_tokens_until, skip_until, P.bind,
    match_type_keyword, match_text, match_token,
    match_state, consume, get_state, set_state, advance, advance_state, next_token, fatal,
    state_on, unterminated_declaration_tokens, t_kw, t_id, t_op, t_num, t_lp, t_rp, t_lb,
    t_rb, t_semi, tok, h0, set_value, set_token, add_child, add_child_opt,
    create_node, statement, leaf, ASTNode.type, ASTNode.token, ASTNode.value,
    ASTNode.children]

/-- C24, evaluated: whatever the precedence table and the loop depth, the
statements `break;` and `continue;` spelled with an identifier token are
taken by the identifier branch: nothing is fatal at loop depth zero, and the
result is a Statement node without children, in or out of a loop. -/
theorem identifier_break_continue_skipped (get_precedence : CStr → Int) (fuel : Nat)
    (depth : Int) :
    parse_statement get_precedence (fuel + 1)
        (state_on (identifier_statement_tokens "break") [] depth)
      = .ok (statement []) (state_on [] [] depth) ∧
    parse_statement get_precedence (fuel + 1)
        (state_on (identifier_statement_tokens "continue") [] depth)
      = .ok (statement []) (state_on [] [] depth) := by
  refine ⟨?_, ?_⟩ <;>
  · rw [parse_statement]
    simp [parse_assignment, parse_assignment_target, skip_tokens_until, skip_until, P.bind,
      match_type_keyword, match_text, match_token,
      match_state, consume, get_state, set_state, advance, advance_state, next_token, fatal,
      state_on, identifier_statement_tokens, t_kw, t_id, t_op, t_num, t_lp, t_rp, t_lb,
      t_rb, t_semi, tok, set_value, set_token, add_child, add_child_opt,
      create_node, statement, leaf, ASTNode.type, ASTNode.token, ASTNode.value,
      ASTNode.children]

/-- C25, evaluated: an operand of `&&` or `||` that is a logical negation is
not taken as boolean-valued: whatever the operand of `!`, the lowering of the
negation is wrapped in `unsigned(` ... `) /= 0`, and `!a && b` is lowered to
`(unsigned((unsigned(a) = 0)) /= 0 and unsigned(b) /= 0)`. -/
theorem logical_not_operand_wrapped :
    (∀ (g : ASTNode → G Unit) (inner : ASTNode),
      gen_logical_operand g (logical_not inner)
        = (do
            emit_s "unsigned("
            g (logical_not inner)
            emit_s ") /= 0")) ∧
    generate_vhdl example_ctype_to_vhdl example_is_negative_literal 3
        (binary "&&" (logical_not (leaf "a")) (leaf "b")) initial_globals
      = .ok () initial_globals
          "(unsigned((unsigned(a) = 0)) /= 0 and unsigned(b) /= 0)".toList := by
  refine ⟨fun g inner => rfl, ?_⟩
  rfl

/-- C26: at the keyword `for` followed by `(`, when the init clause parses to
`init`, the condition clause (after the separator) to `cond` up to a `;`, the
increment clause to `incr` up to `)` and `{`, and the block loop, started
on an empty For node one loop level deeper, returns the statements `body` up
to `}`, then `parse_statement` returns a Statement node whose child is the
For node with children `[init if present, cond, body ..., incr]`: the
increment is last although it is parsed before the body. The block loop puts
the statements in source order: the statement parsed first is the first
child, followed by those of the rest of the block. The increment clauses
`i++` and `i--` parse to `Assignment [Expression i, BinaryExpr "+" (resp.
"-") [Expression i, Expression "1"]]`, and `i = e` to `Assignment
[Expression i, e]`. -/
theorem for_node_layout (get_precedence : CStr → Int) (fuel : Nat) :
    (∀ (s s3 s4 s5 s7 : PState) (init cond incr : Option ASTNode) (body_node : ASTNode),
      s.current_token.type = TOKEN_KEYWORD → s.current_token.value = "for".toList →
      (advance_state s).current_token.type = TOKEN_PARENTHESIS_OPEN →
      parse_for_init get_precedence fuel (advance_state (advance_state s)) = .ok init s3 →
      parse_for_condition get_precedence fuel (after_separator s3) = .ok cond s4 →
      s4.current_token.type = TOKEN_SEMICOLON →
      parse_for_increment get_precedence fuel (advance_state s4) = .ok incr s5 →
      s5.current_token.type = TOKEN_PARENTHESIS_CLOSE →
      (advance_state s5).current_token.type = TOKEN_BRACE_OPEN →
      parse_body get_precedence fuel (create_node NODE_FOR_STATEMENT)
          (at_depth (advance_state (advance_state s5)) 1) = .ok body_node s7 →
      s7.current_token.type = TOKEN_BRACE_CLOSE →
      parse_statement get_precedence (fuel + 1) s
        = .ok (statement [for_node_of init cond incr body_node.children])
            (advance_state (at_depth s7 (-1)))) ∧
    (∀ (s : PState),
      s.current_token.type = TOKEN_BRACE_CLOSE →
      parse_body get_precedence (fuel + 1) (create_node NODE_FOR_STATEMENT) s
        = .ok (create_node NODE_FOR_STATEMENT) s) ∧
    (∀ (s s1 s2 : PState) (st rest_node : ASTNode),
      s.current_token.type ≠ TOKEN_BRACE_CLOSE → s.current_token.type ≠ TOKEN_EOF →
      parse_statement get_precedence fuel s = .ok st s1 →
      parse_body get_precedence fuel (create_node NODE_FOR_STATEMENT) s1
        = .ok rest_node s2 →
      parse_body get_precedence (fuel + 1) (create_node NODE_FOR_STATEMENT) s
        = .ok (.mk NODE_FOR_STATEMENT none none (st :: rest_node.children)) s2) ∧
    (∀ (s : PState) (is_increment : Bool),
      s.current_token.type = TOKEN_IDENTIFIER →
      (advance_state s).current_token.type = TOKEN_OPERATOR →
      (advance_state s).current_token.value
        = (if is_increment then "++".toList else "--".toList) →
      parse_for_increment get_precedence fuel s
        = .ok (some (.mk NODE_ASSIGNMENT none none
            [.mk NODE_EXPRESSION (some s.current_token.value) none [],
             .mk NODE_BINARY_EXPR (some (if is_increment then "+".toList else "-".toList))
               none
               [.mk NODE_EXPRESSION (some s.current_token.value) none [],
                .mk NODE_EXPRESSION (some "1".toList) none []]]))
            (advance_state (advance_state s))) ∧
    (∀ (s s1 : PState) (e : ASTNode),
      s.current_token.type = TOKEN_IDENTIFIER →
      (advance_state s).current_token.type = TOKEN_OPERATOR →
      (advance_state s).current_token.value = "=".toList →
      parse_expression get_precedence fuel (advance_state (advance_state s))
        = .ok (some e) s1 →
      parse_for_increment get_precedence fuel s
        = .ok (some (.mk NODE_ASSIGNMENT none none
            [.mk NODE_EXPRESSION (some s.current_token.value) none [], e])) s1) := by
  refine ⟨?_, ?_, ?_, ?_, ?_⟩
  · intro s s3 s4 s5 s7 init cond incr body_node hk hv hlp hinit hcond hsemi hincr hrp hlb
      hbody hrb
    rw [parse_statement_for _ _ _ hk hv]
    unfold parse_for
    have hnode : ∀ (for_node : ASTNode) (s6 : PState),
        parse_body get_precedence fuel (create_node NODE_FOR_STATEMENT) s6
          = .ok body_node s7 →
        parse_body get_precedence fuel for_node s6
          = .ok (with_children for_node body_node.children) s7 := by
      intro for_node s6 h
      rw [parse_body_appends get_precedence fuel for_node (create_node NODE_FOR_STATEMENT) s6
        rfl, h]
    simp only [at_depth] at hbody
    have hb := fun (for_node : ASTNode) => hnode for_node _ hbody
    by_cases hs3 : s3.current_token.type = TOKEN_SEMICOLON
    · have hc : parse_for_condition get_precedence fuel (advance_state s3) = .ok cond s4 := by
        simpa [after_separator, hs3] using hcond
      simp only [parser_bind_apply, P.bind, advance, consume, match_token, match_state, hlp,
        decide_True, if_true, hinit, hs3, hc, hsemi, hincr, hrp, hlb, add_loop_depth, hb, hrb,
        parser_pure_apply, at_depth]
      cases init <;> cases cond <;> cases incr <;>
        simp [for_node_of, statement, leaf, with_children, add_child, add_child_opt,
          set_value, create_node, ASTNode.type, ASTNode.value, ASTNode.token,
          ASTNode.children]
    · have hc : parse_for_condition get_precedence fuel s3 = .ok cond s4 := by
        simpa [after_separator, hs3] using hcond
      simp only [parser_bind_apply, P.bind, advance, consume, match_token, match_state, hlp,
        decide_True, decide_False, if_true, if_false, Bool.false_eq_true, hinit, hs3, hc,
        hsemi, hincr, hrp, hlb, add_loop_depth, hb, hrb, parser_pure_apply, at_depth]
      cases init <;> cases cond <;> cases incr <;>
        simp [for_node_of, statement, leaf, with_children, add_child, add_child_opt,
          set_value, create_node, ASTNode.type, ASTNode.value, ASTNode.token,
          ASTNode.children]
  · intro s h
    exact parse_body_done _ _ _ _ (Or.inl h)
  · intro s s1 s2 st rest_node h1 h2 hst hrest
    rw [parse_body_step _ _ _ _ h1 h2, hst]
    simp only []
    rw [parse_body_appends get_precedence fuel _ (create_node NODE_FOR_STATEMENT) s1 rfl, hrest]
    rfl
  · intro s is_increment hi ho hv
    cases is_increment
    · simp only [Bool.false_eq_true, if_false] at hv ⊢
      simp [parse_for_increment, P.bind, match_token, match_text, match_state, get_state,
        advance, hi, ho, hv, add_child, set_value, create_node, ASTNode.type, ASTNode.value,
        ASTNode.token, ASTNode.children]
    · simp only [if_true] at hv ⊢
      simp [parse_for_increment, P.bind, match_token, match_text, match_state, get_state,
        advance, hi, ho, hv, add_child, set_value, create_node, ASTNode.type, ASTNode.value,
        ASTNode.token, ASTNode.children]
  · intro s s1 e hi ho hv he
    simp [parse_for_increment, P.bind, match_token, match_text, match_state, get_state,
      advance, hi, ho, hv, he, add_child, add_child_opt, set_value, create_node, ASTNode.type,
      ASTNode.value, ASTNode.token, ASTNode.children]

/-- C26 on `for (int i = 0; i < n; i++) { sum = sum + i; }`: the clauses and
the block parse, and the statement is the For node with children `[int i =
0, i < n, sum = sum + i;, i = i + 1]`. -/
theorem for_node_layout_example :
    parse_statement example_precedence 8 (state_on for_sum_tokens [] 0)
      = .ok (statement [for_sum_node]) (state_on [] [] 0) ∧
    for_sum_node
      = for_node_of (some (.mk NODE_VAR_DECL (some "i".toList) (some (t_kw "int")) [leaf "0"]))
          (some (binary "<" (leaf "i") (leaf "n")))
          (some (assign "i" (binary "+" (leaf "i") (leaf "1"))))
          [statement [assign "sum" (binary "+" (leaf "sum") (leaf "i"))]] :=
  ⟨(for_node_layout example_precedence 7).1 (state_on for_sum_tokens [] 0)
      (state_on (for_sum_tokens.drop 7) [] 0) (state_on (for_sum_tokens.drop 10) [] 0)
      (state_on (for_sum_tokens.drop 13) [] 0) (state_on (for_sum_tokens.drop 21) [] 1)
      (some (.mk NODE_VAR_DECL (some "i".toList) (some (t_kw "int")) [leaf "0"]))
      (some (binary "<" (leaf "i") (leaf "n")))
      (some (assign "i" (binary "+" (leaf "i") (leaf "1"))))
      (.mk NODE_FOR_STATEMENT none none
        [statement [assign "sum" (binary "+" (leaf "sum") (leaf "i"))]])
      rfl rfl rfl rfl rfl rfl rfl rfl rfl rfl rfl,
    rfl⟩

/-- C27, counterexample: the value of the folded node goes through a buffer
of 128 bytes: for `-` followed by a number of 127 digits `1` the result is an
Expression node whose value is `-` and 126 digits, not `-` and the 127
digits. -/
theorem unary_minus_truncated :
    parse_primary example_precedence 2 (state_on long_negation_tokens [] 0)
      = .ok (some (.mk NODE_EXPRESSION (some ('-' :: List.replicate 126 '1')) none []))
          (state_on [t_semi] [] 0) ∧
    '-' :: List.replicate 126 '1' ≠ '-' :: List.replicate 127 '1' := by
  constructor
  · rfl
  · decide

/-- C27, amended: at an operator token `-`, `parse_primary` parses the operand
with `parse_primary` after the `-`; when the operand is an Expression node
with value `v`, the result is one Expression node with the first 127
characters of `-` + `v` as value (all of `-` + `v` when `v` has at most 126
characters) and no subtraction node; for an operand of any other kind
(BinaryExpr, unary operator, FuncCall) the result is the BinaryExpr `-` with
children `[Expression "0", operand]`; when there is no operand there is no
result. Consequently `-(-x)`, for an identifier `x` of at most 125
characters, yields the single Expression node `--x`. -/
theorem unary_minus_folding (get_precedence : CStr → Int) (fuel : Nat) :
    (∀ (s s1 : PState) (inner : ASTNode) (v : CStr),
      s.current_token.type = TOKEN_OPERATOR → s.current_token.value = "-".toList →
      parse_primary get_precedence fuel (advance_state s) = .ok (some inner) s1 →
      inner.type = NODE_EXPRESSION → inner.value = some v →
      parse_primary get_precedence (fuel + 1) s
        = .ok (some (.mk NODE_EXPRESSION (some (('-' :: v).take 127)) none [])) s1 ∧
      (v.length ≤ 126 → ('-' :: v).take 127 = '-' :: v)) ∧
    (∀ (s s1 : PState) (inner : ASTNode),
      s.current_token.type = TOKEN_OPERATOR → s.current_token.value = "-".toList →
      parse_primary get_precedence fuel (advance_state s) = .ok (some inner) s1 →
      inner.type ≠ NODE_EXPRESSION →
      parse_primary get_precedence (fuel + 1) s
        = .ok (some (.mk NODE_BINARY_EXPR (some "-".toList) none [leaf "0", inner])) s1) ∧
    (∀ (s s1 : PState),
      s.current_token.type = TOKEN_OPERATOR → s.current_token.value = "-".toList →
      parse_primary get_precedence fuel (advance_state s) = .ok none s1 →
      parse_primary get_precedence (fuel + 1) s = .ok none s1) ∧
    (∀ (x : CStr), x.length ≤ 125 →
      parse_primary get_precedence (fuel + 6) (state_on (double_negation_tokens x) [] 0)
        = .ok (some (.mk NODE_EXPRESSION (some ('-' :: '-' :: x)) none []))
            (state_on [t_semi] [] 0)) := by
  have step := parse_primary_minus get_precedence fuel
  refine ⟨?_, ?_, ?_, ?_⟩
  · intro s s1 inner v ht hv hp hit hiv
    refine ⟨?_, ?_⟩
    · rw [step s ht hv, hp]
      simp [negate, hit, hiv, snprintf]
    · intro hlen
      exact List.take_of_length_le (by simp; omega)
  · intro s s1 inner ht hv hp hit
    rw [step s ht hv, hp]
    simp only [negate, if_neg hit]
    cases inner.value <;> rfl
  · intro s s1 ht hv hp
    rw [step s ht hv, hp]
  · intro x hx
    have h1 : parse_primary get_precedence (fuel + 3)
        ⟨t_op "-", [⟨TOKEN_IDENTIFIER, x, 1⟩, t_rp, t_semi], [], 0⟩
        = .ok (some (.mk NODE_EXPRESSION (some ('-' :: x)) none []))
            ⟨t_rp, [t_semi], [], 0⟩ := by
      rw [parse_primary_minus _ _ _ rfl rfl]
      have h0 := parse_primary_identifier get_precedence (fuel + 1) ⟨TOKEN_IDENTIFIER, x, 1⟩
        t_rp [t_semi] [] 0 rfl (by decide) (by decide)
      have e1 : advance_state ⟨t_op "-", [⟨TOKEN_IDENTIFIER, x, 1⟩, t_rp, t_semi], [], 0⟩
          = ⟨⟨TOKEN_IDENTIFIER, x, 1⟩, [t_rp, t_semi], [], 0⟩ := rfl
      rw [e1, h0]
      have e2 : List.take 127 x = x := List.take_of_length_le (by omega)
      have e3 : List.take 127 ('-' :: x) = '-' :: x :=
        List.take_of_length_le (by simp; omega)
      simp [negate, snprintf, e2, e3, ASTNode.type, ASTNode.value]
    have h2 : parse_primary get_precedence (fuel + 5)
        ⟨t_lp, [t_op "-", ⟨TOKEN_IDENTIFIER, x, 1⟩, t_rp, t_semi], [], 0⟩
        = .ok (some (.mk NODE_EXPRESSION (some ('-' :: x)) none []))
            ⟨t_semi, [], [], 0⟩ := by
      have e1 : advance_state ⟨t_lp, [t_op "-", ⟨TOKEN_IDENTIFIER, x, 1⟩, t_rp, t_semi], [], 0⟩
          = ⟨t_op "-", [⟨TOKEN_IDENTIFIER, x, 1⟩, t_rp, t_semi], [], 0⟩ := rfl
      have h3 : parse_expression_prec get_precedence (fuel + 4) (-2)
          ⟨t_op "-", [⟨TOKEN_IDENTIFIER, x, 1⟩, t_rp, t_semi], [], 0⟩
          = .ok (some (.mk NODE_EXPRESSION (some ('-' :: x)) none []))
              ⟨t_rp, [t_semi], [], 0⟩ := by
        rw [show fuel + 4 = (fuel + 3) + 1 from rfl, parse_expression_prec_eq, h1]
        simp only []
        rw [show fuel + 3 = (fuel + 2) + 1 from rfl,
          parse_operators_stop _ _ _ _ _ (by decide)]
      rw [show fuel + 5 = (fuel + 4) + 1 from rfl, parse_primary_paren _ _ _ rfl, e1, h3]
      rfl
    rw [show fuel + 6 = (fuel + 5) + 1 from rfl, parse_primary_minus _ _ _ rfl rfl]
    have e0 : advance_state (state_on (double_negation_tokens x) [] 0)
        = ⟨t_lp, [t_op "-", ⟨TOKEN_IDENTIFIER, x, 1⟩, t_rp, t_semi], [], 0⟩ := rfl
    rw [e0, h2]
    have e3 : List.take 127 ('-' :: '-' :: x) = '-' :: '-' :: x :=
      List.take_of_length_le (by simp; omega)
    simp [negate, snprintf, e3, ASTNode.type, ASTNode.value, state_on, next_token]

/-- C27 on `-x`, on `-f()` and on `-(-x)`: the first is the Expression node
`-x`, the second the subtraction `0 - f()`, the third the Expression node
`--x`. -/
theorem unary_minus_folding_example :
    parse_primary example_precedence 2 (state_on [t_op "-", t_id "x", t_semi] [] 0)
      = .ok (some (leaf "-x")) (state_on [t_semi] [] 0) ∧
    parse_primary example_precedence 3 (state_on [t_op "-", t_id "f", t_lp, t_rp, t_semi] [] 0)
      = .ok (some (binary "-" (leaf "0") (call_node "f" []))) (state_on [t_semi] [] 0) ∧
    parse_primary example_precedence 6 (state_on (double_negation_tokens "x".toList) [] 0)
      = .ok (some (leaf "--x")) (state_on [t_semi] [] 0) :=
  ⟨((unary_minus_folding example_precedence 1).1 (state_on [t_op "-", t_id "x", t_semi] [] 0)
      (state_on [t_semi] [] 0) (leaf "x") "x".toList rfl rfl rfl rfl rfl).1,
    (unary_minus_folding example_precedence 2).2.1
      (state_on [t_op "-", t_id "f", t_lp, t_rp, t_semi] [] 0) (state_on [t_semi] [] 0)
      (call_node "f" []) rfl rfl rfl (by decide),
    (unary_minus_folding example_precedence 0).2.2.2 "x".toList (by decide)⟩

/-- C29: the tracker collection of `generate_vhdl` for a function node with
children `children` (before or after the annotation of the calls) gives one
entry for each of the first 256 scalar declarations among the top-level
statements (VarDecl children of the Statement children, value without `[`
and not `result`), in declaration order; the entry of the `k`-th of them, of
name `name`, has the ordinal `number of earlier such declarations of name
name`, the generated name `build_gen_name (name, ordinal)` in its 64 byte
buffer, and the mapped type of the declaration. -/
theorem tracker_collects_top_level_scalars (ctype_to_vhdl : Option CStr → CStr)
    (children : List ASTNode) :
    (∀ counter : Int,
      collect_tracked ctype_to_vhdl (annotate_children children counter).1
        = collect_tracked ctype_to_vhdl children) ∧
    (collect_tracked ctype_to_vhdl children).1.length
      = min 256 (top_level_declarations children).length ∧
    ∀ (k : Nat) (st : ASTNode), k < 256 →
      (top_level_declarations children).get? k = some st →
      ∃ name : CStr, st.value = some name ∧
        (collect_tracked ctype_to_vhdl children).1.get? k
          = some
            { orig := name,
              ordinal := ((((top_level_declarations children).take k).filter
                (fun e => decide (e.value = some name))).length : Nat),
              vhdl_type := ctype_to_vhdl (st.token.map Token.value),
              gen := build_gen_name name
                ((((top_level_declarations children).take k).filter
                  (fun e => decide (e.value = some name))).length : Nat) [] 64 } := by
  refine ⟨fun counter => collect_tracked_annotate ctype_to_vhdl children counter, ?_, ?_⟩
  · rw [collect_tracked_entries, tracked_entries_length, List.length_take]
  · intro k st hk hst
    have hscalar : is_scalar_declaration st = true := by
      have hmem := List.get?_mem hst
      unfold top_level_declarations at hmem
      exact (List.mem_filter.mp hmem).2
    have hname : ∃ name, st.value = some name := by
      unfold is_scalar_declaration at hscalar
      cases hv : st.value with
      | none => rw [hv] at hscalar; simp at hscalar
      | some w => exact ⟨w, rfl⟩
    obtain ⟨name, hname⟩ := hname
    refine ⟨name, hname, ?_⟩
    have hget : ((top_level_declarations children).take 256).get? k = some st := by
      rw [List.get?_eq_getElem?, List.getElem?_take_of_lt hk, ← List.get?_eq_getElem?]
      exact hst
    rw [collect_tracked_entries, tracked_entries_get _ _ _ _ _ hget]
    have htake : ((top_level_declarations children).take 256).take k
        = (top_level_declarations children).take k := by
      rw [List.take_take, Nat.min_eq_left (by omega)]
    simp only [List.nil_append, htake, tracked_entry, hname, Option.getD_some]

/-- C29 on the statements of `int x; int a[3]; int result; float x; int y;`:
the second declaration of `x`, the scalar declaration of index 1, has the
entry `x_v1` of ordinal 1, and there are three entries. -/
theorem tracker_collects_top_level_scalars_example :
    (top_level_declarations shadowed_declarations).get? 1
      = some (.mk NODE_VAR_DECL (some "x".toList) (some (t_kw "float")) []) ∧
    (collect_tracked example_ctype_to_vhdl shadowed_declarations).1.length = 3 ∧
    (collect_tracked example_ctype_to_vhdl shadowed_declarations).1.get? 1
      = some { orig := "x".toList, ordinal := 1, vhdl_type := "real".toList,
               gen := "x_v1".toList } := by
  have h := (tracker_collects_top_level_scalars example_ctype_to_vhdl
    shadowed_declarations).2.2 1 _ (by decide) (by rfl)
  obtain ⟨name, h1, h2⟩ := h
  refine ⟨by rfl, by rfl, ?_⟩
  have hn : name = "x".toList := by
    injection h1 with h1
    exact h1.symm
  subst hn
  rw [h2]
  rfl

/-- C30, evaluated: in `int f(int n) { ... return n; }` a scalar declared at
the top of the body, `int q = n;`, is tracked: it has the process variable
`q_v` and is updated with `:=`. The scalar `j` declared in the body of
`while (n < 3) { int j = 0; n = j; }`, the scalars `k` and `m` declared in the
header and in the body of `for (int k = 0; k < n; k++) { int m = k; }`, and
the scalar `p` declared in the body of `if (n) { int p = 1; }` are not: the
process declares no variable, and they are updated with `<=`. -/
theorem nested_declarations_not_tracked :
    translate 12 (unary_function_tokens top_declaration_tokens)
      = some (unary_function_text
          "  signal q : std_logic_vector(31 downto 0);\n"
          "    variable q_v : std_logic_vector(31 downto 0);\n"
          ("      q_v := q;\n" ++
           "      q_v := n;\n" ++
           "      result <= n;\n" ++
           "      q <= q_v;\n")) ∧
    translate 12 (unary_function_tokens while_declaration_tokens)
      = some (unary_function_text "" ""
          ("      while unsigned(n) < to_unsigned(3, 32) loop\n" ++
           "      j <= 0;\n" ++
           "      n <= j;\n" ++
           "      end loop;\n" ++
           "      result <= n;\n")) ∧
    translate 12 (unary_function_tokens for_declaration_tokens)
      = some (unary_function_text "  signal k : std_logic_vector(31 downto 0);\n" ""
          ("      k <= 0;\n" ++
           "      while unsigned(k) < unsigned(n) loop\n" ++
           "      m <= k;\n" ++
           "        k <= k + 1;\n" ++
           "      end loop;\n" ++
           "      result <= n;\n")) ∧
    translate 12 (unary_function_tokens if_declaration_tokens)
      = some (unary_function_text "" ""
          ("      if unsigned(n) /= 0 then\n" ++
           "      p <= 1;\n" ++
           "      end if;\n" ++
           "      result <= n;\n")) := by
  refine ⟨?_, ?_, ?_, ?_⟩ <;> rfl
/-! ## Claims about the process, array accesses, termination and loop depth -/

/-- C31: for a function node whose statements contain no nested function
node (the parser builds none), with a recursion budget above the height of
the tree, the architecture body is the declarations followed by the process
of the tracked variables `t1..tn` that the tracker collects, in declaration
order: after `process(clk, reset)` one line `variable <gen_i> : <type_i>;` per
tracked variable; the clocked branch begins with the `n` lines `<gen_i> :=
<orig_i>;` in order, goes on with the lowered statements of the body, which
leave the tracker as it is, and ends with the `n` lines `<orig_i> <= <gen_i>;`
in order. Nothing is generated only when the lowering of the declarations or
of the statements has no defined behaviour in C. -/
theorem process_copies_tracked_variables (ctype_to_vhdl : Option CStr → CStr)
    (is_negative_literal : Option CStr → Bool) (fuel : Nat) (st : GenState) (node : ASTNode)
    (hdecl : ∀ d ∈ preorder_list node.children, d.type ≠ NODE_FUNCTION_DECL)
    (hfuel : height node ≤ fuel) :
    (∃ (st1 : GenState) (declarations statements : CStr),
      gen_declarations ctype_to_vhdl (generate_vhdl ctype_to_vhdl is_negative_literal fuel)
          node st = .ok () st1 declarations ∧
      gen_statements (generate_vhdl ctype_to_vhdl is_negative_literal fuel)
          (annotate_children node.children 0).1
          (clocked_globals
            (collect_tracked ctype_to_vhdl (annotate_children node.children 0).1).1)
        = .ok ()
            (clocked_globals
              (collect_tracked ctype_to_vhdl (annotate_children node.children 0).1).1)
            statements ∧
      gen_architecture_body ctype_to_vhdl
          (generate_vhdl ctype_to_vhdl is_negative_literal fuel) node st
        = .ok () { g_tracked_vars := [], g_tracking_active := false, g_in_clock_body := false }
            (declarations ++ process_text
              (collect_tracked ctype_to_vhdl (annotate_children node.children 0).1).1
              statements)) ∨
    gen_architecture_body ctype_to_vhdl
        (generate_vhdl ctype_to_vhdl is_negative_literal fuel) node st = .undefined := by
  have hann : ∀ c ∈ preorder_list (annotate_children node.children 0).1,
      NoFuelOut (generate_vhdl ctype_to_vhdl is_negative_literal fuel c) := by
    intro c hc
    apply generate_vhdl_no_fuel_out
    have := height_mem_preorder_list _ hc
    rw [height_list_annotate] at this
    have := height_children node
    omega
  have hno := (nfo_gen_architecture_body ctype_to_vhdl hann).never st
  have hkeep := (gen_statements_keeps ctype_to_vhdl is_negative_literal fuel
    (annotate_children node.children 0).1
    (annotate_children_no_type node.children 0 NODE_FUNCTION_DECL hdecl)).keeps
    (clocked_globals (collect_tracked ctype_to_vhdl (annotate_children node.children 0).1).1)
  rw [gen_architecture_body_eq] at hno ⊢
  cases hd : gen_declarations ctype_to_vhdl
      (generate_vhdl ctype_to_vhdl is_negative_literal fuel) node st with
  | ok a st1 declarations =>
    rw [hd] at hno
    simp only at hno ⊢
    cases hs : gen_statements (generate_vhdl ctype_to_vhdl is_negative_literal fuel)
        (annotate_children node.children 0).1
        (clocked_globals
          (collect_tracked ctype_to_vhdl (annotate_children node.children 0).1).1) with
    | ok b st2 statements =>
      have e2 := hkeep b st2 statements hs
      subst e2
      left
      refine ⟨st1, declarations, statements, rfl, rfl, ?_⟩
      simp [process_text, clocked_globals]
    | undefined => right; rfl
    | out_of_fuel => rw [hs] at hno; exact absurd rfl hno
  | undefined => right; rfl
  | out_of_fuel => rw [hd] at hno; exact absurd rfl hno

/-- C31 on `int f(int n) { int x = n; int y; y = x; return y; }`: the tracked
variables are `x` and `y`, and the process declares `x_v` and `y_v`, copies
`x` and `y` in, runs the three statements and copies `x_v` and `y_v` out. -/
theorem process_copies_tracked_variables_example :
    parse_program example_precedence 12 (initial_state two_tracked_tokens)
      = .ok (.mk NODE_PROGRAM none none [two_tracked_function]) ⟨t_eof, [], [], 0⟩ ∧
    text_of (gen_architecture_body example_ctype_to_vhdl
        (generate_vhdl example_ctype_to_vhdl example_is_negative_literal 4)
        two_tracked_function initial_globals)
      = some ("  signal x : std_logic_vector(31 downto 0);\n" ++
          "  signal y : std_logic_vector(31 downto 0);\n" ++
          "begin\n" ++
          "  process(clk, reset)\n" ++
          "    variable x_v : std_logic_vector(31 downto 0);\n" ++
          "    variable y_v : std_logic_vector(31 downto 0);\n" ++
          "  begin\n" ++
          "    if reset = '1' then\n" ++
          "      -- Reset logic\n" ++
          "    elsif rising_edge(clk) then\n" ++
          "      x_v := x;\n" ++
          "      y_v := y;\n" ++
          "      x_v := n;\n" ++
          "      y_v := x_v;\n" ++
          "      result <= y_v;\n" ++
          "      x <= x_v;\n" ++
          "      y <= y_v;\n" ++
          "    end if;\n" ++
          "  end process;\n") ∧
    ((∃ (st1 : GenState) (declarations statements : CStr),
      gen_declarations example_ctype_to_vhdl
          (generate_vhdl example_ctype_to_vhdl example_is_negative_literal 4)
          two_tracked_function initial_globals = .ok () st1 declarations ∧
      gen_statements (generate_vhdl example_ctype_to_vhdl example_is_negative_literal 4)
          (annotate_children two_tracked_function.children 0).1
          (clocked_globals (collect_tracked example_ctype_to_vhdl
            (annotate_children two_tracked_function.children 0).1).1)
        = .ok ()
            (clocked_globals (collect_tracked example_ctype_to_vhdl
              (annotate_children two_tracked_function.children 0).1).1)
            statements ∧
      gen_architecture_body example_ctype_to_vhdl
          (generate_vhdl example_ctype_to_vhdl example_is_negative_literal 4)
          two_tracked_function initial_globals
        = .ok () { g_tracked_vars := [], g_tracking_active := false, g_in_clock_body := false }
            (declarations ++ process_text
              (collect_tracked example_ctype_to_vhdl
                (annotate_children two_tracked_function.children 0).1).1
              statements)) ∨
    gen_architecture_body example_ctype_to_vhdl
        (generate_vhdl example_ctype_to_vhdl example_is_negative_literal 4)
        two_tracked_function initial_globals = .undefined) ∧
    translate 12 two_tracked_tokens = some (unary_function_text
      ("  signal x : std_logic_vector(31 downto 0);\n" ++
       "  signal y : std_logic_vector(31 downto 0);\n")
      ("    variable x_v : std_logic_vector(31 downto 0);\n" ++
       "    variable y_v : std_logic_vector(31 downto 0);\n")
      ("      x_v := x;\n" ++
       "      y_v := y;\n" ++
       "      x_v := n;\n" ++
       "      y_v := x_v;\n" ++
       "      result <= y_v;\n" ++
       "      x <= x_v;\n" ++
       "      y <= y_v;\n")) :=
  ⟨rfl, by decide!,
    process_copies_tracked_variables example_ctype_to_vhdl example_is_negative_literal 4
      initial_globals two_tracked_function (by decide) (by decide),
    by decide!⟩

/-- C32, refuted on `int f(int n) { int a[2] = {1, 2}; return n; }`: the
architecture declares the type `a_type` once and the constant `a_init` once,
but the signal `a` twice, first without and then with the initial value
`a_init`. -/
theorem initialised_array_signal_declared_twice :
    translate 12 initialised_array_tokens = some (
      "-- VHDL generated by compi\n\n" ++
      "library IEEE;\n" ++
      "use IEEE.STD_LOGIC_1164.ALL;\n" ++
      "use IEEE.NUMERIC_STD.ALL;\n\n" ++
      "-- Function: f\n" ++
      "entity f is\n" ++
      "  port (\n" ++
      "    clk : in std_logic;\n" ++
      "    reset : in std_logic;\n" ++
      "    n : in std_logic_vector(31 downto 0);\n" ++
      "    result : out std_logic_vector(31 downto 0)\n" ++
      "  );\n" ++
      "end entity;\n\n" ++
      "architecture behavioral of f is\n" ++
      "  type a_type is array (0 to 1) of std_logic_vector(31 downto 0);\n" ++
      "  signal a : a_type;\n" ++
      "  -- Array initialization\n" ++
      "  constant a_init : a_type := (\"00000000000000000000000000000001\", " ++
        "\"00000000000000000000000000000010\");\n" ++
      "  signal a : a_type := a_init;\n" ++
      "begin\n" ++
      "  -- note: array a kept as signal (not variableized)\n" ++
      "  process(clk, reset)\n" ++
      "  begin\n" ++
      "    if reset = '1' then\n" ++
      "      -- Reset logic\n" ++
      "    elsif rising_edge(clk) then\n" ++
      "      result <= n;\n" ++
      "    end if;\n" ++
      "  end process;\n" ++
      "end architecture;\n\n") := by
  decide!

/-- C33: the value `n[t]` of an array access, for a name `n` without `[` and
a non-empty index text `t` without `]`, both shorter than 64 characters, is
decoded back to `n` and `t` by the generator: an Expression node with this
value is lowered to `n(t)`, and a statement that assigns to a target with
this value is lowered to `n(t) <= <rhs>;`. The parser builds such values: at
an identifier `n` followed by `[`, `parse_primary` and the assignment target
of `parse_statement` capture the index tokens up to the `]` that closes the
access and, unless the static bounds check stops the program, return an
Expression node whose value is `n[t]` with `t` the concatenated texts of the
index tokens (name and index text shorter than 64 characters); without a
closing `]` the parser stops with a fatal diagnostic. -/
theorem array_access_round_trip (ctype_to_vhdl : Option CStr → CStr)
    (is_negative_literal : Option CStr → Bool) (get_precedence : CStr → Int) (fuel : Nat) :
    (∀ (n t : CStr) (k : Option Token) (cs : List ASTNode) (st : GenState),
      '[' ∉ n → ']' ∉ t → t ≠ [] → n.length < 64 → t.length < 64 →
      generate_vhdl ctype_to_vhdl is_negative_literal (fuel + 1)
          (.mk NODE_EXPRESSION (some (access_value n t)) k cs) st
        = .ok () st (n ++ "(".toList ++ t ++ ")".toList)) ∧
    (∀ (n t : CStr) (lt : NodeType) (lk k ret : Option Token) (lcs : List ASTNode)
        (v : Option CStr) (rhs : ASTNode) (st : GenState),
      '[' ∉ n → ']' ∉ t → t ≠ [] → n.length < 64 → t.length < 64 →
      generate_vhdl ctype_to_vhdl is_negative_literal (fuel + 1)
          (.mk NODE_STATEMENT none ret
            [.mk NODE_ASSIGNMENT v k [.mk lt (some (access_value n t)) lk lcs, rhs]]) st
        = map_text (fun text => "      ".toList ++ n ++ "(".toList ++ t ++ ") <= ".toList
              ++ text ++ ";\n".toList)
            (generate_vhdl ctype_to_vhdl is_negative_literal fuel rhs st)) ∧
    (∀ (s : PState),
      s.current_token.type = TOKEN_IDENTIFIER →
      (advance_state s).current_token.type = TOKEN_BRACKET_OPEN →
      s.current_token.value.length < 64 →
      (index_text (access_index_tokens s)).length < 64 →
      parse_primary get_precedence (fuel + 1) s
        = if (after_capture s).current_token.type = TOKEN_BRACKET_CLOSE then
            (check_bounds s.current_token.value (index_text (access_index_tokens s))
              >>= fun _ => pure (some (.mk NODE_EXPRESSION
                (some (access_value s.current_token.value
                  (index_text (access_index_tokens s)))) none [])))
              (advance_state (after_capture s))
          else .fatal (after_capture s).current_token.line
            "Expected ']' after array index in expression") ∧
    (∀ (s : PState),
      (advance_state s).current_token.type = TOKEN_BRACKET_OPEN →
      s.current_token.value.length < 64 →
      (index_text (access_index_tokens s)).length < 64 →
      parse_assignment_target s
        = if (after_capture s).current_token.type = TOKEN_BRACKET_CLOSE then
            (check_bounds s.current_token.value (index_text (access_index_tokens s))
              >>= fun _ => pure (.mk NODE_EXPRESSION
                (some (access_value s.current_token.value
                  (index_text (access_index_tokens s)))) none []))
              (advance_state (after_capture s))
          else .fatal (after_capture s).current_token.line
            "Expected ']' after array index") := by
  refine ⟨?_, ?_, ?_, ?_⟩
  · intro n t k cs st hn ht hne hnl htl
    rw [generate_expression_node ctype_to_vhdl is_negative_literal fuel
      (.mk NODE_EXPRESSION (some (access_value n t)) k cs) rfl]
    exact gen_expression_access is_negative_literal n t k cs st (strchr_none_iff.mpr hn)
      (strchr_none_iff.mpr ht) hne hnl htl
  · intro n t lt lk k ret lcs v rhs st hn ht hne hnl htl
    rw [generate_statement, for_each_single]
    exact gen_statement_child_access _ n t lt lk lcs v k rhs st (strchr_none_iff.mpr hn)
      (strchr_none_iff.mpr ht) hne hnl htl
  · intro s hcur hnext hnl htl
    have hidx := captured_index_eq s (by omega)
    have hname : s.current_token.value.take 127 = s.current_token.value :=
      List.take_of_length_le (by omega)
    have hfit : snprintf 700 (access_value s.current_token.value
        (index_text (access_index_tokens s)))
        = access_value s.current_token.value (index_text (access_index_tokens s)) :=
      snprintf_fits (by simp only [access_value, List.length_append, List.length_singleton]; omega)
    rw [parse_primary_access get_precedence fuel s hcur hnext, hidx, hname, hfit]
  · intro s hnext hnl htl
    have hidx := captured_index_eq s (by omega)
    have hfit : snprintf 1024 (access_value s.current_token.value
        (index_text (access_index_tokens s)))
        = access_value s.current_token.value (index_text (access_index_tokens s)) :=
      snprintf_fits (by simp only [access_value, List.length_append, List.length_singleton]; omega)
    rw [parse_assignment_target_access s hnext, hidx, hfit]

/-- C33 on `a[(i + 1) * 2]`: the index tokens are `(`, `i`, `+`, `1`, `)`, `*`,
`2`; the parser builds the value `a[(i+1)*2]` in an expression and as an
assignment target, and the generator lowers it to `a((i+1)*2)` and to
`a((i+1)*2) <= x;`. -/
theorem array_access_round_trip_example :
    index_text (access_index_tokens (state_on computed_access_tokens [] 0))
      = "(i+1)*2".toList ∧
    parse_primary example_precedence 1 (state_on computed_access_tokens [] 0)
      = .ok (some (leaf "a[(i+1)*2]")) (state_on [t_semi] [] 0) ∧
    parse_assignment_target (state_on computed_access_tokens [] 0)
      = .ok (leaf "a[(i+1)*2]") (state_on [t_semi] [] 0) ∧
    generate_vhdl example_ctype_to_vhdl example_is_negative_literal 1 (leaf "a[(i+1)*2]")
        initial_globals
      = .ok () initial_globals "a((i+1)*2)".toList ∧
    generate_vhdl example_ctype_to_vhdl example_is_negative_literal 2
        (statement [assign "a[(i+1)*2]" (leaf "x")]) initial_globals
      = .ok () initial_globals "      a((i+1)*2) <= x;\n".toList :=
  ⟨rfl,
    ((array_access_round_trip example_ctype_to_vhdl example_is_negative_literal
      example_precedence 0).2.2.1 (state_on computed_access_tokens [] 0) rfl rfl (by decide)
      (by decide)).trans rfl,
    ((array_access_round_trip example_ctype_to_vhdl example_is_negative_literal
      example_precedence 0).2.2.2 (state_on computed_access_tokens [] 0) rfl (by decide)
      (by decide)).trans rfl,
    (array_access_round_trip example_ctype_to_vhdl example_is_negative_literal
      example_precedence 0).1 "a".toList "(i+1)*2".toList none [] initial_globals (by decide)
      (by decide) (by decide) (by decide) (by decide),
    ((array_access_round_trip example_ctype_to_vhdl example_is_negative_literal
      example_precedence 1).2.1 "a".toList "(i+1)*2".toList NODE_EXPRESSION none none none []
      none (leaf "x") initial_globals (by decide) (by decide) (by decide) (by decide)
      (by decide)).trans rfl⟩

/-- C34: with a recursion budget linear in the number of tokens left, the
parsing functions never exhaust the budget: they return or stop with a fatal
diagnostic. A `parse_statement` call entered on a lookahead that is neither
`}` nor the end of file leaves, when it returns, fewer tokens than it found,
and on any lookahead it leaves no more tokens than it found; so
`parse_function` and `parse_program` terminate on every finite token
stream. -/
theorem parsing_progress_terminates (get_precedence : CStr → Int) :
    (∀ (fuel : Nat) (s : PState),
      s.current_token.type ≠ TOKEN_EOF → s.current_token.type ≠ TOKEN_BRACE_CLOSE →
      4 * remaining s + 3 ≤ fuel →
      parse_statement get_precedence fuel s ≠ .out_of_fuel ∧
      ∀ stmt s1, parse_statement get_precedence fuel s = .ok stmt s1 →
        remaining s1 < remaining s) ∧
    (∀ (fuel : Nat) (s : PState), 4 * remaining s + 3 ≤ fuel →
      parse_statement get_precedence fuel s ≠ .out_of_fuel ∧
      ∀ stmt s1, parse_statement get_precedence fuel s = .ok stmt s1 →
        remaining s1 ≤ remaining s) ∧
    (∀ (fuel : Nat) (return_type func_name : Token) (s : PState),
      4 * remaining s + 4 ≤ fuel →
      parse_function get_precedence fuel return_type func_name s ≠ .out_of_fuel ∧
      ∀ fn s1, parse_function get_precedence fuel return_type func_name s = .ok fn s1 →
        remaining s1 ≤ remaining s) ∧
    (∀ (fuel : Nat) (tokens : List Token), 4 * tokens.length + 1 ≤ fuel →
      parse_program get_precedence fuel (initial_state tokens) ≠ .out_of_fuel) := by
  refine ⟨?_, ?_, ?_, ?_⟩
  · intro fuel s h1 h2 hf
    have h := within_cases
      ((stmt_runs get_precedence fuel).progress (remaining s) hf s ⟨h1, h2⟩ (Nat.le_refl _))
    have hpos := remaining_pos s h1
    exact ⟨h.1, fun stmt s1 hs => by have := h.2 stmt s1 hs; omega⟩
  · intro fuel s hf
    exact within_cases
      ((stmt_runs get_precedence fuel).statement (remaining s) hf s trivial (Nat.le_refl _))
  · intro fuel return_type func_name s hf
    exact within_cases
      (runs_parse_function get_precedence fuel (remaining s) return_type func_name hf s trivial
        (Nat.le_refl _))
  · intro fuel tokens hf
    exact parse_program_returns get_precedence fuel tokens hf

/-- C34 on `x = 1;` followed by `}` and on `int add(int a, int b) { return a +
b; }`: the statement is parsed with 4 tokens less left, and the program
parser returns. -/
theorem parsing_progress_terminates_example :
    (parse_statement example_precedence 23
        (state_on [t_id "x", t_op "=", t_num "1", t_semi, t_rb] [] 0) ≠ .out_of_fuel ∧
      ∀ stmt s1, parse_statement example_precedence 23
          (state_on [t_id "x", t_op "=", t_num "1", t_semi, t_rb] [] 0) = .ok stmt s1 →
        remaining s1 < remaining (state_on [t_id "x", t_op "=", t_num "1", t_semi, t_rb] [] 0)) ∧
    parse_statement example_precedence 23
        (state_on [t_id "x", t_op "=", t_num "1", t_semi, t_rb] [] 0)
      = .ok (statement [assign "x" (leaf "1")]) (state_on [t_rb] [] 0) ∧
    remaining (state_on [t_id "x", t_op "=", t_num "1", t_semi, t_rb] [] 0) = 5 ∧
    remaining (state_on [t_rb] [] 0) = 1 ∧
    parse_program example_precedence 69 (initial_state add_tokens) ≠ .out_of_fuel :=
  ⟨(parsing_progress_terminates example_precedence).1 23
      (state_on [t_id "x", t_op "=", t_num "1", t_semi, t_rb] [] 0) (by decide) (by decide)
      (by decide),
    rfl, rfl, rfl,
    (parsing_progress_terminates example_precedence).2.2.2 69 add_tokens (by decide)⟩

/-- C35: the loop-depth counter is balanced. Every call of `parse_statement`,
of the block loop, of `parse_function` and of `parse_program` that returns
leaves the counter at the value it had on entry, so from the initial value 0
the program parser returns with 0 and no returned state has a negative
counter when the entry state has none. The body of a `while` loop is parsed
with the counter one above its value at the `while` keyword, and the
statement returns with the value at the keyword. For nested loops `while (x)
{` or `for (;;) {`, `k` around an innermost one, the body of the innermost loop
is parsed with the counter at the entry value plus `k + 1`: when the block
loop returns there on that state, the whole statement returns with the entry
value. -/
theorem loop_depth_balanced (get_precedence : CStr → Int) (fuel : Nat) :
    (∀ (s s1 : PState) (stmt : ASTNode),
      parse_statement get_precedence fuel s = .ok stmt s1 →
      s1.s_loop_depth = s.s_loop_depth) ∧
    (∀ (node : ASTNode) (s s1 : PState) (r : ASTNode),
      parse_body get_precedence fuel node s = .ok r s1 →
      s1.s_loop_depth = s.s_loop_depth) ∧
    (∀ (return_type func_name : Token) (s s1 : PState) (fn : ASTNode),
      parse_function get_precedence fuel return_type func_name s = .ok fn s1 →
      s1.s_loop_depth = s.s_loop_depth) ∧
    (∀ (tokens : List Token) (s1 : PState) (prog : ASTNode),
      parse_program get_precedence fuel (initial_state tokens) = .ok prog s1 →
      s1.s_loop_depth = 0) ∧
    (∀ (s s2 s7 : PState) (cond : Option ASTNode) (body_node : ASTNode),
      s.current_token.type = TOKEN_KEYWORD → s.current_token.value = "while".toList →
      (advance_state s).current_token.type = TOKEN_PARENTHESIS_OPEN →
      parse_expression get_precedence fuel (advance_state (advance_state s)) = .ok cond s2 →
      s2.current_token.type = TOKEN_PARENTHESIS_CLOSE →
      (advance_state s2).current_token.type = TOKEN_BRACE_OPEN →
      parse_body get_precedence fuel (add_child_opt (create_node NODE_WHILE_STATEMENT) cond)
          (at_depth (advance_state (advance_state s2)) 1) = .ok body_node s7 →
      s7.current_token.type = TOKEN_BRACE_CLOSE →
      (at_depth (advance_state (advance_state s2)) 1).s_loop_depth = s.s_loop_depth + 1 ∧
      s7.s_loop_depth = s.s_loop_depth + 1 ∧
      parse_statement get_precedence (fuel + 1) s
        = .ok (statement [body_node]) (advance_state (at_depth s7 (-1))) ∧
      (advance_state (at_depth s7 (-1))).s_loop_depth = s.s_loop_depth) ∧
    (∀ (outer : List Bool) (b : Bool) (body tail : List Token) (arrays : List ArrayInfo)
        (depth : Int) (stmts : List ASTNode),
      parse_body get_precedence (fuel + 2) (loop_node b [])
          (state_on (body ++ t_rb :: (closing_braces outer ++ tail)) arrays
            (depth + (outer.length : Int) + 1))
        = .ok (loop_node b stmts)
            (state_on (t_rb :: (closing_braces outer ++ tail)) arrays
              (depth + (outer.length : Int) + 1)) →
      parse_statement get_precedence (fuel + 2 * outer.length + 3)
          (state_on (nested_loops outer (loop_header b ++ body ++ [t_rb]) ++ tail) arrays depth)
        = .ok (nested_loop_nodes outer (statement [loop_node b stmts]))
            (state_on tail arrays depth)) := by
  refine ⟨?_, ?_, ?_, ?_, ?_, ?_⟩
  · intro s s1 stmt h
    exact kd_ok (stmt_keeps get_precedence fuel).statement h
  · intro node s s1 r h
    exact kd_ok ((stmt_keeps get_precedence fuel).body node) h
  · intro return_type func_name s s1 fn h
    exact kd_ok (kd_parse_function get_precedence fuel return_type func_name) h
  · intro tokens s1 prog h
    exact kd_ok (kd_parse_program get_precedence fuel) h
  · intro s s2 s7 cond body_node hk hv hlp hcond hrp hlb hbody hrb
    have h2 : s2.s_loop_depth = (advance_state (advance_state s)).s_loop_depth :=
      kd_ok (kd_expression get_precedence fuel) hcond
    simp only [advance_state] at h2
    have h7 := kd_ok ((stmt_keeps get_precedence fuel).body _) hbody
    have hin : (at_depth (advance_state (advance_state s2)) 1).s_loop_depth
        = s.s_loop_depth + 1 := by
      simp only [at_depth, advance_state]
      rw [h2]
    refine ⟨hin, by rw [h7, hin], ?_, ?_⟩
    · exact parse_statement_while get_precedence fuel s s2 s7 cond body_node hk hv hlp hcond
        hrp hlb hbody hrb
    · simp only [at_depth, advance_state]
      rw [h7, hin]
      omega
  · intro outer b body tail arrays depth stmts h
    exact nested_loops_parse get_precedence b fuel body arrays stmts outer tail depth h

/-- C35 on `while (x) { for (;;) { break; } }` from counter 0: the body of the
inner loop is parsed with counter 2, where `break` is accepted, and the
statement returns with counter 0; at counter 0 the same `break` is the fatal
error. -/
theorem loop_depth_balanced_example :
    parse_body example_precedence 2 (loop_node false [])
        (state_on ([t_kw "break", t_semi] ++ t_rb :: (closing_braces [true] ++ [])) []
          (0 + ([true].length : Int) + 1))
      = .ok (loop_node false [loop_control_statement true])
          (state_on (t_rb :: (closing_braces [true] ++ [])) [] (0 + ([true].length : Int) + 1)) ∧
    parse_statement example_precedence 5
        (state_on (nested_loops [true] (loop_header false ++ [t_kw "break", t_semi] ++ [t_rb])
          ++ []) [] 0)
      = .ok (nested_loop_nodes [true]
            (statement [loop_node false [loop_control_statement true]]))
          (state_on [] [] 0) ∧
    (state_on ([] : List Token) [] 0).s_loop_depth = 0 ∧
    parse_statement example_precedence 5 (state_on [t_kw "break", t_semi] [] 0)
      = .fatal 1 "'break' not within a loop" :=
  ⟨rfl,
    (loop_depth_balanced example_precedence 0).2.2.2.2.2 [true] false [t_kw "break", t_semi]
      [] [] 0 [loop_control_statement true] rfl,
    rfl, rfl⟩

/-- C36, refuted on empty conditions: `if () { x = 1; }` parses without a
fatal error into an If node whose child 0 is the body statement `x = 1;`,
`while () { }` into a While node without children, and `if (a) { } else if ()
{ x = 1; }` into an ElseIf node whose child 0 is the body statement. The
generator takes child 0 as the condition: for `int f(int n) { if () { n = 1; }
return n; }` it emits `if (false) then` and drops the assignment, and for
`int f(int n) { while () { } return n; }` it reads a child that does not
exist. -/
theorem empty_condition_not_enforced :
    parse_statement example_precedence 6 (state_on empty_if_tokens [] 0)
      = .ok (statement [.mk NODE_IF_STATEMENT none none [statement [assign "x" (leaf "1")]]])
          (state_on [] [] 0) ∧
    parse_statement example_precedence 6 (state_on empty_while_tokens [] 0)
      = .ok (statement [.mk NODE_WHILE_STATEMENT none none []]) (state_on [] [] 0) ∧
    parse_statement example_precedence 6 (state_on empty_else_if_tokens [] 0)
      = .ok (statement [.mk NODE_IF_STATEMENT none none
              [leaf "a",
               .mk NODE_ELSE_IF_STATEMENT none none [statement [assign "x" (leaf "1")]]]])
          (state_on [] [] 0) ∧
    translate 12 (unary_function_tokens
        [t_kw "if", t_lp, t_rp, t_lb, t_id "n", t_op "=", t_num "1", t_semi, t_rb])
      = some (unary_function_text "" ""
          ("      if (false) then\n" ++
           "      end if;\n" ++
           "      result <= n;\n")) ∧
    translate 12 (unary_function_tokens empty_while_tokens) = none :=
  ⟨rfl, rfl, rfl, by decide!, by decide!⟩

/-- C37, refuted on `int f(int n) { int x; int x; x = n; if (x < 3) { x = x +
1; } return n; }`: the two declarations of `x` are tracked as `x_v` and
`x_v1`, the assignments and the plain operand use `x_v`, and `x_v1` occurs
only in its variable declaration, copy-in line and copy-out line; but the
read of `x` in the condition `x < 3` is emitted as the signal name `x`, not as
the generated name `x_v`. In general `find_tracked` returns the index of the
first entry with the name. -/
theorem redeclared_scalar_first_entry :
    (∀ (vars : List TrackedVar) (name : CStr) (i : Nat) (t : TrackedVar),
      vars.get? i = some t → t.orig = name →
      (∀ j u, j < i → vars.get? j = some u → u.orig ≠ name) →
      find_tracked true vars name = (i : Int)) ∧
    translate 12 redeclared_tokens = some (unary_function_text
      ("  signal x : std_logic_vector(31 downto 0);\n" ++
       "  signal x : std_logic_vector(31 downto 0);\n")
      ("    variable x_v : std_logic_vector(31 downto 0);\n" ++
       "    variable x_v1 : std_logic_vector(31 downto 0);\n")
      ("      x_v := x;\n" ++
       "      x_v1 := x;\n" ++
       "      x_v := n;\n" ++
       "      if unsigned(x) < to_unsigned(3, 32) then\n" ++
       "      x_v := x_v + 1;\n" ++
       "      end if;\n" ++
       "      result <= n;\n" ++
       "      x <= x_v;\n" ++
       "      x <= x_v1;\n")) :=
  ⟨find_tracked_first, by decide!⟩

/-- C38: the arithmetic branch of the binary expression case, taken by every
operator outside the comparisons, the logical and bitwise operators and the
shifts, emits the lowering of the left child, the operator between two
blanks, and the lowering of the right child, without parentheses. So the
grouping of the tree is lost: for leaves `a`, `b`, `c` lowered to `ta`, `tb`,
`tc`, the different trees of `(a + b) * c` and of `a + b * c` both lower to
`ta + tb * tc`. -/
theorem arithmetic_lowering_flat (ctype_to_vhdl : Option CStr → CStr)
    (is_negative_literal : Option CStr → Bool) (fuel : Nat) :
    (∀ (op : CStr) (k : Option Token) (left right : ASTNode) (rest : List ASTNode)
        (st st1 st2 : GenState) (tl tr : CStr),
      op ∉ special_operators →
      generate_vhdl ctype_to_vhdl is_negative_literal fuel left st = .ok () st1 tl →
      generate_vhdl ctype_to_vhdl is_negative_literal fuel right st1 = .ok () st2 tr →
      generate_vhdl ctype_to_vhdl is_negative_literal (fuel + 1)
          (.mk NODE_BINARY_EXPR (some op) k (left :: right :: rest)) st
        = .ok () st2 (tl ++ " ".toList ++ op ++ " ".toList ++ tr)) ∧
    (∀ (a b c : ASTNode) (st st1 st2 st3 : GenState) (ta tb tc : CStr),
      a.type = NODE_EXPRESSION → b.type = NODE_EXPRESSION → c.type = NODE_EXPRESSION →
      gen_expression is_negative_literal a st = .ok () st1 ta →
      gen_expression is_negative_literal b st1 = .ok () st2 tb →
      gen_expression is_negative_literal c st2 = .ok () st3 tc →
      binary "*" (binary "+" a b) c ≠ binary "+" a (binary "*" b c) ∧
      generate_vhdl ctype_to_vhdl is_negative_literal (fuel + 3)
          (binary "*" (binary "+" a b) c) st
        = .ok () st3 (ta ++ " + ".toList ++ tb ++ " * ".toList ++ tc) ∧
      generate_vhdl ctype_to_vhdl is_negative_literal (fuel + 3)
          (binary "+" a (binary "*" b c)) st
        = .ok () st3 (ta ++ " + ".toList ++ tb ++ " * ".toList ++ tc)) := by
  refine ⟨fun op k left right rest st st1 st2 tl tr hop hl hr =>
    generate_plain_binary ctype_to_vhdl is_negative_literal fuel op k left right rest st st1
      st2 tl tr hop hl hr, ?_⟩
  intro a b c st st1 st2 st3 ta tb tc ha hb hc hga hgb hgc
  have ea := fun n => generate_expression_node ctype_to_vhdl is_negative_literal n a ha
  have eb := fun n => generate_expression_node ctype_to_vhdl is_negative_literal n b hb
  have ec := fun n => generate_expression_node ctype_to_vhdl is_negative_literal n c hc
  refine ⟨?_, ?_, ?_⟩
  · simp [binary]
  · have hsum := generate_plain_binary ctype_to_vhdl is_negative_literal (fuel + 1)
      "+".toList none a b [] st st1 st2 ta tb (by decide) (by rw [ea]; exact hga)
      (by rw [eb]; exact hgb)
    have h := generate_plain_binary ctype_to_vhdl is_negative_literal (fuel + 2)
      "*".toList none (binary "+" a b) c [] st st2 st3 _ tc (by decide) hsum
      (by rw [ec]; exact hgc)
    simpa [binary] using h
  · have hprod := generate_plain_binary ctype_to_vhdl is_negative_literal (fuel + 1)
      "*".toList none b c [] st1 st2 st3 tb tc (by decide) (by rw [eb]; exact hgb)
      (by rw [ec]; exact hgc)
    have h := generate_plain_binary ctype_to_vhdl is_negative_literal (fuel + 2)
      "+".toList none a (binary "*" b c) [] st st1 st3 ta _ (by decide)
      (by rw [ea]; exact hga) hprod
    simpa [binary] using h

/-- C38 on the leaves `a`, `b`, `c`: `(a + b) * c;` and `a + b * c;` parse to
different trees, and both lower to `a + b * c`; `a % b` lowers to `a % b`. -/
theorem arithmetic_lowering_flat_example :
    parse_expression example_precedence 8 (state_on grouped_sum_tokens [] 0)
      = .ok (some (binary "*" (binary "+" (leaf "a") (leaf "b")) (leaf "c")))
          (state_on [t_semi] [] 0) ∧
    parse_expression example_precedence 8 (state_on (three_operand_tokens "+" "*") [] 0)
      = .ok (some (binary "+" (leaf "a") (binary "*" (leaf "b") (leaf "c"))))
          (state_on [t_semi] [] 0) ∧
    binary "*" (binary "+" (leaf "a") (leaf "b")) (leaf "c")
      ≠ binary "+" (leaf "a") (binary "*" (leaf "b") (leaf "c")) ∧
    generate_vhdl example_ctype_to_vhdl example_is_negative_literal 3
        (binary "*" (binary "+" (leaf "a") (leaf "b")) (leaf "c")) initial_globals
      = .ok () initial_globals "a + b * c".toList ∧
    generate_vhdl example_ctype_to_vhdl example_is_negative_literal 3
        (binary "+" (leaf "a") (binary "*" (leaf "b") (leaf "c"))) initial_globals
      = .ok () initial_globals "a + b * c".toList ∧
    generate_vhdl example_ctype_to_vhdl example_is_negative_literal 2
        (binary "%" (leaf "a") (leaf "b")) initial_globals
      = .ok () initial_globals "a % b".toList :=
  have h := (arithmetic_lowering_flat example_ctype_to_vhdl example_is_negative_literal 0).2
    (leaf "a") (leaf "b") (leaf "c") initial_globals initial_globals initial_globals
    initial_globals "a".toList "b".toList "c".toList rfl rfl rfl rfl rfl rfl
  ⟨rfl, rfl, h.1, h.2.1, h.2.2,
    (arithmetic_lowering_flat example_ctype_to_vhdl example_is_negative_literal 1).1
      "%".toList none (leaf "a") (leaf "b") [] initial_globals initial_globals initial_globals
      "a".toList "b".toList (by decide) rfl rfl⟩

/-- C39: a `return` statement parses into a Statement node whose only child
is the returned expression, whatever its kind. For a FuncCall child the
statement case emits only the comment line `-- function call <value>
executed`, with no assignment to `result`; for a BinaryExpr child or a unary
operator child it emits the one line `result <= <lowered child>;`, and for a
leaf child the one line `result <= ...;` with the lowered leaf (a leaf that
starts with `-` is wrapped in `-unsigned(...)` or `to_signed(..., 32)`). -/
theorem return_call_only_comment (ctype_to_vhdl : Option CStr → CStr)
    (is_negative_literal : Option CStr → Bool) (get_precedence : CStr → Int) (fuel : Nat) :
    (∀ (s s1 : PState) (e : ASTNode),
      s.current_token.type = TOKEN_KEYWORD → s.current_token.value = "return".toList →
      parse_expression get_precedence fuel (advance_state s) = .ok (some e) s1 →
      s1.current_token.type = TOKEN_SEMICOLON →
      parse_statement get_precedence (fuel + 1) s
        = .ok (.mk NODE_STATEMENT none (some s.current_token) [e]) (advance_state s1)) ∧
    (∀ (v : Option CStr) (k ret : Option Token) (args : List ASTNode) (st : GenState),
      generate_vhdl ctype_to_vhdl is_negative_literal (fuel + 1)
          (.mk NODE_STATEMENT none ret [.mk NODE_FUNC_CALL v k args]) st
        = .ok () st ("      -- function call ".toList ++ v.getD "unknown".toList
            ++ " executed\n".toList)) ∧
    (∀ (child : ASTNode) (ret : Option Token) (st : GenState),
      child.type = NODE_BINARY_EXPR ∨ child.type = NODE_BINARY_OP →
      generate_vhdl ctype_to_vhdl is_negative_literal (fuel + 1)
          (.mk NODE_STATEMENT none ret [child]) st
        = map_text (fun text => "      result <= ".toList ++ text ++ ";\n".toList)
            (generate_vhdl ctype_to_vhdl is_negative_literal fuel child st)) ∧
    (∀ (child : ASTNode) (ret : Option Token) (st : GenState),
      child.type = NODE_EXPRESSION →
      generate_vhdl ctype_to_vhdl is_negative_literal (fuel + 1)
          (.mk NODE_STATEMENT none ret [child]) st
        = map_text (fun text => "      result <= ".toList
              ++ returned_leaf_text child.value text ++ ";\n".toList)
            (if (∃ w, child.value = some w ∧ w.head? = some '-' ∧ w.length > 1) then
              .ok () st []
            else generate_vhdl ctype_to_vhdl is_negative_literal fuel child st)) := by
  refine ⟨?_, ?_, ?_, ?_⟩
  · intro s s1 e hk hv he hs
    exact parse_statement_return get_precedence fuel s s1 (some e) hk hv he hs
  · intro v k ret args st
    rw [generate_statement, for_each_single, gen_statement_child_call]
  · intro child ret st ht
    rw [generate_statement, for_each_single, gen_statement_child_result _ _ _ ht]
  · intro child ret st ht
    rw [generate_statement, for_each_single, gen_statement_child_leaf _ _ _ ht]

/-- C39 on `int g(int x) { return ...; }`: `return f(x);` parses into a
Statement node with the FuncCall child and generates only the comment line,
and `return x;`, `return x + 1;`, `return !x;` and `return ~x;` each generate
one line `result <= ...;`. -/
theorem return_call_only_comment_example :
    parse_statement example_precedence 6
        (state_on [t_kw "return", t_id "f", t_lp, t_id "x", t_rp, t_semi] [] 0)
      = .ok (.mk NODE_STATEMENT none (some (t_kw "return")) [call_node "f" [leaf "x"]])
          (state_on [] [] 0) ∧
    generate_vhdl example_ctype_to_vhdl example_is_negative_literal 1
        (.mk NODE_STATEMENT none (some (t_kw "return")) [call_node "f#0" [leaf "x"]])
        initial_globals
      = .ok () initial_globals "      -- function call f#0 executed\n".toList ∧
    translate 12 (return_tokens [t_id "f", t_lp, t_id "x", t_rp])
      = some (return_text
          ("  signal call_f_0_res : std_logic_vector(31 downto 0);\n" ++
           "begin\n" ++
           "  u_f_0: entity work.f port map( clk, reset, x, call_f_0_res );\n")
          "      -- function call f#0 executed\n") ∧
    translate 12 (return_tokens [t_id "x"])
      = some (return_text "begin\n" "      result <= x;\n") ∧
    translate 12 (return_tokens [t_id "x", t_op "+", t_num "1"])
      = some (return_text "begin\n" "      result <= x + 1;\n") ∧
    translate 12 (return_tokens [t_op "!", t_id "x"])
      = some (return_text "begin\n" "      result <= (unsigned(x) = 0);\n") ∧
    translate 12 (return_tokens [t_op "~", t_id "x"])
      = some (return_text "begin\n" "      result <= not unsigned(x);\n") :=
  ⟨(return_call_only_comment example_ctype_to_vhdl example_is_negative_literal
      example_precedence 5).1
      (state_on [t_kw "return", t_id "f", t_lp, t_id "x", t_rp, t_semi] [] 0)
      (state_on [t_semi] [] 0) (call_node "f" [leaf "x"]) rfl rfl rfl rfl,
    (return_call_only_comment example_ctype_to_vhdl example_is_negative_literal
      example_precedence 0).2.1 (some "f#0".toList) none (some (t_kw "return")) [leaf "x"]
      initial_globals,
    by decide!, by decide!, by decide!, by decide!, by decide!⟩

/-- C40: the static bounds check reports nothing when the array table gives
the name a size that is not positive, whatever the index text. That is the
case for a name without an entry in the table, for a name whose only entry
was registered with size 0, as the declaration `T a[0];` does, and for every
name at the start of a function, because `parse_function` empties the table
first. So an access `a[...]` to such a name, in an expression or as an
assignment target, is never the fatal bounds error. -/
theorem bounds_check_skipped_without_size (get_precedence : CStr → Int) (fuel : Nat) :
    (∀ (name idx_buf : CStr) (s : PState),
      find_array_size s.g_arrays name ≤ 0 → check_bounds name idx_buf s = .ok () s) ∧
    (∀ (tbl : List ArrayInfo) (name : CStr),
      (∀ e ∈ tbl, e.name ≠ name) → find_array_size tbl name ≤ 0) ∧
    (∀ (tbl : List ArrayInfo) (name : CStr),
      tbl.length < 128 → (∀ e ∈ tbl, e.name ≠ name) → name.length < 64 →
      find_array_size (register_array tbl name 0) name ≤ 0) ∧
    (∀ (s : PState) (T : Token) (a : CStr) (rest : List Token),
      AtArrayDeclaration s T a 0 rest → a.length < 64 →
      parse_statement get_precedence (fuel + 1) s
        = .ok (.mk NODE_STATEMENT none none
                [.mk NODE_VAR_DECL (some (a ++ "[0]".toList)) (some T) []])
            { state_at s rest with g_arrays := register_array s.g_arrays a 0 }) ∧
    (∀ (return_type func_name : Token) (s : PState),
      parse_function get_precedence fuel return_type func_name s
        = parse_function get_precedence fuel return_type func_name
            { s with g_arrays := [] }) ∧
    (∀ (s : PState) (line : Nat),
      s.current_token.type = TOKEN_IDENTIFIER →
      (advance_state s).current_token.type = TOKEN_BRACKET_OPEN →
      find_array_size s.g_arrays (s.current_token.value.take 127) ≤ 0 →
      parse_primary get_precedence (fuel + 1) s ≠ .fatal line bounds_message) ∧
    (∀ (s : PState) (line : Nat),
      find_array_size s.g_arrays s.current_token.value ≤ 0 →
      parse_assignment_target s ≠ .fatal line bounds_message) := by
  refine ⟨check_bounds_skipped, ?_, ?_, ?_, parse_function_resets_arrays get_precedence fuel,
    ?_, ?_⟩
  · intro tbl name h
    rw [find_array_size_unregistered tbl name h]
    decide
  · intro tbl name hroom hnew hlen
    rw [find_array_size_register_new tbl name 0 hroom hnew hlen]
  · intro s T a rest hat hlen
    have h := declaration_registers get_precedence fuel s T a 0 rest hat (by omega) (by omega)
    simpa using h
  · intro s line hcur hnext h
    exact primary_no_bounds_error_without_size get_precedence fuel s line hcur hnext h
  · intro s line h
    exact target_no_bounds_error_without_size s line h

/-- C40 evaluated: in `int f() { int a[3]; } int g() { a[7] = 1; return a[9]; }`
the accesses in `g` raise no bounds error, because the table was emptied; in
`int f() { int a[0]; a[5] = 1; return a[2000000000]; }` no index raises one;
whereas `int f() { int a[3]; a[7] = 1; }` is the fatal bounds error. -/
theorem bounds_check_skipped_without_size_example :
    parse_assignment_target (state_on [t_id "a", t_lk, t_num "7", t_rk, t_semi] [] 0)
      ≠ .fatal 1 bounds_message ∧
    parse_primary example_precedence 1
        (state_on [t_id "a", t_lk, t_num "7", t_rk, t_semi] [⟨"a".toList, 0⟩] 0)
      ≠ .fatal 1 bounds_message ∧
    returned (parse_program example_precedence 40 (initial_state other_function_array_tokens))
      = true ∧
    returned (parse_program example_precedence 40 (initial_state empty_array_tokens)) = true ∧
    parse_program example_precedence 40 (initial_state same_function_array_tokens)
      = .fatal 1 bounds_message :=
  ⟨(bounds_check_skipped_without_size example_precedence 0).2.2.2.2.2.2
      (state_on [t_id "a", t_lk, t_num "7", t_rk, t_semi] [] 0) 1 (by decide),
    (bounds_check_skipped_without_size example_precedence 0).2.2.2.2.2.1
      (state_on [t_id "a", t_lk, t_num "7", t_rk, t_semi] [⟨"a".toList, 0⟩] 0) 1 rfl rfl
      (by decide),
    by decide!, by decide!, rfl⟩

end Cvhdl
